import Mathlib

/-!
The mount path of diskarbitrationd (`DAMount.c`).

A shallow embedding of the mount path of the disk arbitration daemon, desktop
target (`TARGET_OS_OSX`).  Stateful code is written in state-passing style over
a `World`; everything the daemon only observes (preferences, mount maps, the
console-user list) or calls out to (the file-system helpers, `getopt`,
`getmntopts`, the directory system calls) lives in an `Env`.  Helper results may
depend on the whole history of the run, which is recorded in `World.trace`.

Logging, telemetry and the power assertion taken around a repair are observers
of the mount path and are left out of the trace.
-/

namespace DiskArbitration

/-! ## Core Foundation values -/

/-- A `CFStringRef`, as the list of its characters. -/
abbrev CFString := List Char

/-- A file `CFURLRef`, as its file-system representation. -/
abbrev CFURL := List Char

/-- The property-list values that descriptions, preferences and mount maps hold. -/
inductive CFType
  | boolean (value : Bool)
  | string (value : CFString)
  | url (value : CFURL)
  | uuid (value : CFString)
  | number (value : Int)
  | dictionary (tag : Nat)
  deriving DecidableEq, Repr

def kCFBooleanTrue : CFType := CFType.boolean true

def kCFBooleanFalse : CFType := CFType.boolean false

/-- `CFBooleanGetValue`: true exactly for the `kCFBooleanTrue` singleton. -/
def CFBooleanGetValue (value : CFType) : Bool :=
  decide (value = kCFBooleanTrue)

def CFStringAppend (theString appended : CFString) : CFString :=
  theString ++ appended

def CFStringInsert (theString : CFString) (index : Nat) (inserted : CFString) : CFString :=
  theString.take index ++ inserted ++ theString.drop index

/-- `CFStringTrim( string, trimString )` for a one-character trim string: every
leading and every trailing occurrence of the character is removed. -/
def CFStringTrim (theString : CFString) (trimChar : Char) : CFString :=
  List.rdropWhile (fun c => decide (c = trimChar))
    (List.dropWhile (fun c => decide (c = trimChar)) theString)

/-- `CFStringCreateArrayBySeparatingStrings` for a one-character separator.  A
string without the separator (the empty string included) yields itself as the
only element. -/
def CFStringCreateArrayBySeparatingStrings (theString : CFString) (separator : Char) :
    List CFString :=
  match theString with
  | [] => [[]]
  | c :: rest =>
    if c = separator then
      [] :: CFStringCreateArrayBySeparatingStrings rest separator
    else
      match CFStringCreateArrayBySeparatingStrings rest separator with
      | [] => [[c]]
      | first :: others => (c :: first) :: others

/-- `CFStringFind( string, stringToFind, 0 ).location != kCFNotFound`. -/
def CFStringFind (theString stringToFind : CFString) : Bool :=
  match theString with
  | [] => stringToFind.isEmpty
  | c :: rest => List.isPrefixOf stringToFind (c :: rest) || CFStringFind rest stringToFind

/-- `CFStringCompare( a, b, kCFCompareCaseInsensitive ) == kCFCompareEqualTo`. -/
def CFStringCompareCaseInsensitive (a b : CFString) : Bool :=
  a.map Char.toLower == b.map Char.toLower

/-- Rendering of `%o`. -/
def formatOctal (n : Nat) : CFString :=
  Nat.toDigits 8 n

/-- Rendering of `%d` applied to a 32-bit id: the argument is read back as a
signed `int`. -/
def formatDecimal (n : Nat) : CFString :=
  if n % 2 ^ 32 < 2 ^ 31 then Nat.toDigits 10 (n % 2 ^ 32)
  else '-' :: Nat.toDigits 10 (2 ^ 32 - n % 2 ^ 32)

/-- Modelled from the spec: `___CFStringInsertFormat` is declared in `DABase.h`
and defined outside the sources; it inserts the formatted text at the index
(the spec: "prepend synthetic `-u`, `-g`, `-m` entries").  The caller passes the
text already rendered. -/
def ___CFStringInsertFormat (theString : CFString) (index : Nat) (formatted : CFString) :
    CFString :=
  CFStringInsert theString index formatted

/-! ## Status codes and constants -/

/-- A C `int` status. -/
abbrev Status := Int

def EPERM : Status := 1

def ENOMEM : Status := 12

def EINVAL : Status := 22

def ENOSPC : Status := 28

def ECANCELED : Status := 89

/-- Modelled from the spec: `___EDIRTY` is defined in `DAInternal.h`, outside the
sources.  The spec calls it the dirty status ("dirty volume"), a non-zero status
different from every errno the mount path tests for; the header maps it to the
platform `EILSEQ`. -/
def ___EDIRTY : Status := 92

/-- Modelled from the spec: the reserved "unknown" user id of `DAInternal.h`. -/
def ___UID_UNKNOWN : Nat := 99

/-- Modelled from the spec: the reserved "unknown" group id of `DAInternal.h`. -/
def ___GID_UNKNOWN : Nat := 99

def MAXPATHLEN : Nat := 1024

/-- `MNAMELEN` of `sys/mount.h`. -/
def MNAMELEN : Nat := MAXPATHLEN

/-- From `DAMain.c`. -/
def kDAMainMountPointFolder : CFString := "/Volumes".toList

/-- From `DAMain.c`. -/
def kDAMainMountPointFolderCookieFile : CFString := ".autodiskmounted".toList

/-! Mount arguments.  Modelled from the spec: the `kDAFileSystemMountArgument…`
constants are defined in `DAFileSystem.h`, outside the sources; the values are
the option names the spec gives (`force`, `rdonly`, `nosuid`, `noowners`,
`nodev`, `nobrowse`, `update`, `-s`). -/

def kDAFileSystemMountArgumentDevice : CFString := "dev".toList

def kDAFileSystemMountArgumentForce : CFString := "force".toList

def kDAFileSystemMountArgumentNoBrowse : CFString := "nobrowse".toList

def kDAFileSystemMountArgumentNoDevice : CFString := "nodev".toList

def kDAFileSystemMountArgumentNoExecute : CFString := "noexec".toList

def kDAFileSystemMountArgumentNoFollow : CFString := "nofollow".toList

def kDAFileSystemMountArgumentNoOwnership : CFString := "noowners".toList

def kDAFileSystemMountArgumentNoPermission : CFString := "noperm".toList

def kDAFileSystemMountArgumentNoSetUserID : CFString := "nosuid".toList

def kDAFileSystemMountArgumentNoWrite : CFString := "rdonly".toList

def kDAFileSystemMountArgumentOwnership : CFString := "owners".toList

def kDAFileSystemMountArgumentPermission : CFString := "perm".toList

def kDAFileSystemMountArgumentSetUserID : CFString := "suid".toList

def kDAFileSystemMountArgumentSnapshot : CFString := "-s".toList

def kDAFileSystemMountArgumentUnion : CFString := "union".toList

def kDAFileSystemMountArgumentUpdate : CFString := "update".toList

/-! ## Disks -/

inductive DADiskDescriptionKey
  | kDADiskDescriptionDeviceInternalKey
  | kDADiskDescriptionDeviceTDMLockedKey
  | kDADiskDescriptionMediaBlockSizeKey
  | kDADiskDescriptionMediaContentKey
  | kDADiskDescriptionMediaEjectableKey
  | kDADiskDescriptionMediaEncryptedKey
  | kDADiskDescriptionMediaEncryptionDetailKey
  | kDADiskDescriptionMediaLeafKey
  | kDADiskDescriptionMediaNameKey
  | kDADiskDescriptionMediaRemovableKey
  | kDADiskDescriptionMediaSizeKey
  | kDADiskDescriptionMediaTypeKey
  | kDADiskDescriptionMediaUUIDKey
  | kDADiskDescriptionMediaWholeKey
  | kDADiskDescriptionMediaWritableKey
  | kDADiskDescriptionRepairRunningKey
  | kDADiskDescriptionVolumeMountableKey
  | kDADiskDescriptionVolumeNameKey
  | kDADiskDescriptionVolumePathKey
  | kDADiskDescriptionVolumeUUIDKey
  deriving DecidableEq, Repr

inductive DADiskState
  | kDADiskStateCommandActive
  | kDADiskStateMountOngoing
  | kDADiskStateRequireRepair
  | kDADiskStateRequireRepairQuotas
  | kDADiskStateStagedAppear
  | kDADiskStateStagedMount
  | kDADiskStateStagedProbe
  | kDADiskStateZombie
  | _kDADiskStateMountAutomatic
  | _kDADiskStateMountAutomaticNoDefer
  | _kDADiskStateMountQuarantined
  | _kDADiskStateMountedWithFSKit
  | _kDADiskStateMountedWithUserFS
  deriving DecidableEq, Repr

inductive DAUnitState
  | kDAUnitStateCommandActive
  | kDAUnitStateHasQuiesced
  | kDAUnitStateHasQuiescedNoTimeout
  | kDAUnitStateStagedUnreadable
  | _kDAUnitStateHasAPFS
  deriving DecidableEq, Repr

open DADiskDescriptionKey DADiskState DAUnitState

/-- A `DASessionRef`. -/
abbrev DASessionRef := Nat

/-- A `DADiskRef`. -/
abbrev DADiskRef := Nat

/-- An `io_service_t`: a media object of the I/O Kit registry. -/
abbrev io_service_t := Nat

def IO_OBJECT_NULL : io_service_t := 0

/-- A callback a session has registered, or holds a claim with (`DACallback.h`):
the session it belongs to, the address and context the client gave, the kind,
the order, the match and watch objects, and the disk it is about.  `none` is
NULL. -/
structure DACallback where
  session : Option DASessionRef
  address : Nat
  context : Nat
  kind : Nat
  order : Int
  matching : Option CFType
  watch : Option CFType
  disk : Option DADiskRef := none
  deriving DecidableEq, Repr

/-- A disk object.  `DAMountWithArguments` reads the kind of the disk's file
system unconditionally, so the mount path only sees probed disks and the file
system is modelled as present (`filesystemKind`).  The state of the unit the
disk belongs to is read through the disk (`DAUnitGetState( disk, … )`).  The
mount path reads neither the id, the media object nor the claim of a disk. -/
structure DADisk where
  description : DADiskDescriptionKey → Option CFType
  state : DADiskState → Bool
  unitState : DAUnitState → Bool
  filesystemKind : CFString
  device : CFURL
  bypath : Option CFURL
  userUID : Nat
  userGID : Nat
  mountedByUserUID : Nat
  volumeRoles : List CFString
  /-- `DADiskGetID`. -/
  id : CFString := []
  /-- `DADiskGetIOMedia`: `IO_OBJECT_NULL` for a disk made from a volume path. -/
  media : io_service_t := IO_OBJECT_NULL
  /-- `DADiskGetClaim`. -/
  claim : Option DACallback := none
  /-- `DADiskGetBSDUnit`. -/
  BSDUnit : Nat := 0
  /-- `DADiskGetMode`. -/
  mode : Nat := 0
  /-- `DADiskGetBSDPath( disk, raw )`. -/
  BSDPath : Bool → CFString := fun _ => []
  /-- `DADiskGetBSDLink( disk, raw )`. -/
  BSDLink : Bool → Option CFString := fun _ => none

def DADiskGetDescription (disk : DADisk) (key : DADiskDescriptionKey) : Option CFType :=
  disk.description key

def DADiskSetDescription (disk : DADisk) (key : DADiskDescriptionKey) (value : Option CFType) :
    DADisk :=
  { disk with description := Function.update disk.description key value }

def DADiskGetState (disk : DADisk) (state : DADiskState) : Bool :=
  disk.state state

def DADiskSetState (disk : DADisk) (state : DADiskState) (value : Bool) : DADisk :=
  { disk with state := Function.update disk.state state value }

def DAUnitGetState (disk : DADisk) (state : DAUnitState) : Bool :=
  disk.unitState state

def DADiskGetUserUID (disk : DADisk) : Nat := disk.userUID

def DADiskGetUserGID (disk : DADisk) : Nat := disk.userGID

def DADiskGetDevice (disk : DADisk) : CFURL := disk.device

def DADiskSetMountedByUserUID (disk : DADisk) (uid : Nat) : DADisk :=
  { disk with mountedByUserUID := uid }

def DAFileSystemGetKind (disk : DADisk) : CFString := disk.filesystemKind

def DADiskGetID (disk : DADisk) : CFString := disk.id

def DADiskGetIOMedia (disk : DADisk) : io_service_t := disk.media

def DADiskGetClaim (disk : DADisk) : Option DACallback := disk.claim

def DADiskSetClaim (disk : DADisk) (claim : Option DACallback) : DADisk :=
  { disk with claim := claim }

def DADiskGetBSDUnit (disk : DADisk) : Nat := disk.BSDUnit

def DADiskGetMode (disk : DADisk) : Nat := disk.mode

def DADiskGetBSDPath (disk : DADisk) (raw : Bool) : CFString := disk.BSDPath raw

def DADiskGetBSDLink (disk : DADisk) (raw : Bool) : Option CFString := disk.BSDLink raw

def DADiskSetBSDLink (disk : DADisk) (raw : Bool) (link : Option CFString) : DADisk :=
  { disk with BSDLink := Function.update disk.BSDLink raw link }

def DADiskSetBypath (disk : DADisk) (bypath : Option CFURL) : DADisk :=
  { disk with bypath := bypath }

def DACallbackGetSession (callback : DACallback) : Option DASessionRef := callback.session

def DACallbackSetSession (callback : DACallback) (session : Option DASessionRef) : DACallback :=
  { callback with session := session }

def DACallbackSetDisk (callback : DACallback) (disk : Option DADiskRef) : DACallback :=
  { callback with disk := disk }

def DACallbackSetMatch (callback : DACallback) (matching : Option CFType) : DACallback :=
  { callback with matching := matching }

def DACallbackGetKind (callback : DACallback) : Nat := callback.kind

/-- Modelled from the spec: `DADiskCompareDescription` is defined in `DADisk.c`,
outside the sources; a description matches a value when the two are equal
("all listed key/value pairs equal"), two absent values included. -/
def DADiskCompareDescription (disk : DADisk) (key : DADiskDescriptionKey)
    (value : Option CFType) : Bool :=
  decide (disk.description key = value)

/-- Modelled from the spec: `DAAPFSCompareVolumeRole` is defined in `DASupport.c`,
outside the sources; it tells whether the disk's volume role is the given one
("its volume role is PreBoot"). -/
def DAAPFSCompareVolumeRole (disk : DADisk) (role : CFString) : Bool :=
  disk.volumeRoles.contains role

/-- Modelled from the spec: `DAAPFSNoVolumeRole` is defined in `DASupport.c`,
outside the sources; it tells whether the disk has no volume role. -/
def DAAPFSNoVolumeRole (disk : DADisk) : Bool :=
  disk.volumeRoles.isEmpty

/-! ## Preferences -/

inductive DAPreferenceKey
  | kDAPreferenceAutoMountDisableKey
  | kDAPreferenceEnableUserFSMountExternalKey
  | kDAPreferenceEnableUserFSMountInternalKey
  | kDAPreferenceEnableUserFSMountRemovableKey
  | kDAPreferenceMountAlwaysRepairKey
  | kDAPreferenceMountDeferExternalKey
  | kDAPreferenceMountDeferInternalKey
  | kDAPreferenceMountDeferRemovableKey
  | kDAPreferenceMountMethodkey
  | kDAPreferenceMountTrustExternalKey
  | kDAPreferenceMountTrustInternalKey
  | kDAPreferenceMountTrustRemovableKey
  deriving DecidableEq, Repr

inductive DAMountPreference
  | kDAMountPreferenceDefer
  | kDAMountPreferenceTrust
  | kDAMountPreferenceDisableAutoMount
  | kDAMountPreferenceEnableUserFSMount
  | kDAMountPreferenceAlwaysRepair
  deriving DecidableEq, Repr

open DAPreferenceKey DAMountPreference

/-- The global `gDAPreferenceList` dictionary. -/
abbrev DAPreferenceList := DAPreferenceKey → Option CFType

/-- `value = value ? value : fallback`. -/
def valueOrDefault (value : Option CFType) (fallback : CFType) : CFType :=
  match value with
  | some v => v
  | none => fallback

/-- `DAMountGetPreference` (DAMount.c 899-1046), desktop target. -/
def DAMountGetPreference (gDAPreferenceList : DAPreferenceList) (disk : DADisk)
    (preference : DAMountPreference) : Bool :=
  let value : CFType :=
    match preference with
    | kDAMountPreferenceDefer =>
      if DADiskGetDescription disk kDADiskDescriptionMediaRemovableKey = some kCFBooleanTrue then
        valueOrDefault (gDAPreferenceList kDAPreferenceMountDeferRemovableKey) kCFBooleanTrue
      else if DADiskGetDescription disk kDADiskDescriptionDeviceInternalKey = some kCFBooleanTrue then
        valueOrDefault (gDAPreferenceList kDAPreferenceMountDeferInternalKey) kCFBooleanFalse
      else
        valueOrDefault (gDAPreferenceList kDAPreferenceMountDeferExternalKey) kCFBooleanTrue
    | kDAMountPreferenceTrust =>
      if DADiskGetDescription disk kDADiskDescriptionMediaRemovableKey = some kCFBooleanTrue then
        valueOrDefault (gDAPreferenceList kDAPreferenceMountTrustRemovableKey) kCFBooleanFalse
      else if DADiskGetDescription disk kDADiskDescriptionDeviceInternalKey = some kCFBooleanTrue then
        valueOrDefault (gDAPreferenceList kDAPreferenceMountTrustInternalKey) kCFBooleanTrue
      else
        valueOrDefault (gDAPreferenceList kDAPreferenceMountTrustExternalKey) kCFBooleanFalse
    | kDAMountPreferenceDisableAutoMount =>
      valueOrDefault (gDAPreferenceList kDAPreferenceAutoMountDisableKey) kCFBooleanFalse
    | kDAMountPreferenceEnableUserFSMount => kCFBooleanFalse
    | kDAMountPreferenceAlwaysRepair =>
      valueOrDefault (gDAPreferenceList kDAPreferenceMountAlwaysRepairKey) kCFBooleanFalse
  CFBooleanGetValue value

/-! ## The environment and the world -/

/-- A mount completion callback (`DAMountCallback`), by identity. -/
abbrev DAMountCallback := Nat

/-- What the mount path does to the outside, in the order it does it.  The
first constructor records a call of `DAMountWithArguments` itself; system calls
carry their outcome. -/
inductive Event
  | DAMountWithArguments (disk : DADiskRef) (mountpoint : Option CFType)
      (callback : Option DAMountCallback) (callbackContext : Nat) (arguments : List CFString)
  | callback (callback : DAMountCallback) (status : Status) (mountpoint : Option CFType)
      (callbackContext : Nat)
  | DAFileSystemRepair (filesystem : CFString) (device : CFURL)
  | DAFileSystemMountWithArguments (filesystem : CFString) (devicePath : Option CFType)
      (volumeName : Option CFType) (mountpoint : Option CFType) (userUID userGID : Nat)
      (preferredMountMethod : Option CFType) (options : CFString)
  | DAFileSystemRepairQuotas (filesystem : CFString) (mountpoint : Option CFType)
  | DADiskDescriptionChangedCallback (disk : DADiskRef) (key : DADiskDescriptionKey)
  | mkdir (path : CFString) (mode : Nat) (succeeded : Bool)
  | chown (path : CFString) (owner : Nat)
  | unlink (path : CFString) (succeeded : Bool)
  | rmdir (path : CFString) (succeeded : Bool)
  | symlink (source path : CFString) (succeeded : Bool)
  | renamex_np (source path : CFString) (succeeded : Bool)
  deriving DecidableEq, Repr

/-- The `mntflags` bits that `__DAMountCheckMntOptsForString` tests. -/
structure MntFlags where
  MNT_RDONLY : Bool
  MNT_NOSUID : Bool
  MNT_NODEV : Bool
  MNT_NOEXEC : Bool
  MNT_UNION : Bool
  MNT_DONTBROWSE : Bool
  MNT_IGNORE_OWNERSHIP : Bool
  MNT_UPDATE : Bool
  MNT_FORCE : Bool
  MNT_NOFOLLOW : Bool
  deriving DecidableEq, Repr

/-- An entry of a mount map list (a dictionary with the `kDAMountMap…` keys). -/
structure DAMountMap where
  kDAMountMapProbeIDKey : Option CFType
  kDAMountMapProbeKindKey : Option CFString
  kDAMountMapMountAutomaticKey : Option CFType
  kDAMountMapMountOptionsKey : Option CFString
  kDAMountMapMountPathKey : Option CFType
  deriving DecidableEq, Repr

/-- Everything the mount path reads but does not own.  Results of calls out of
the daemon may depend on the history of the run so far. -/
structure Env where
  gDAPreferenceList : DAPreferenceList
  gDAMountMapList1 : List DAMountMap
  gDAMountMapList2 : List DAMountMap
  gDAConsoleUserList : Option (List CFType)
  gDAConsoleUserUID : Nat
  /-- `kDAMainDataVolumeMountPointFolder`, declared outside the sources. -/
  kDAMainDataVolumeMountPointFolder : CFString
  /-- The localized "Untitled" string of the daemon's bundle. -/
  untitled : CFString
  os_variant_is_basesystem : Bool
  /-- Whether `malloc` of the mount context succeeds. -/
  malloc : List Event → Bool
  /-- Whether `CFStringCreateMutable` of the options succeeds. -/
  CFStringCreateMutable : List Event → Bool
  /-- The successive results of `getopt( 1, argv, "o:s:" )` on one argument,
  each with its `optarg`; `none` when the argument could not be copied. -/
  getopt : CFString → Option (List (Char × CFString))
  /-- The flags `getmntopts` computes for a comma-separated option string;
  `none` when it fails or the string could not be copied. -/
  getmntopts : CFString → Option MntFlags
  IOServiceMatchPropertyTable : DADiskRef → CFType → Bool
  /-- The status the repair helper completes with. -/
  DAFileSystemRepair : List Event → Status
  /-- The status the mount helper completes with. -/
  DAFileSystemMountWithArguments : List Event → Status
  /-- The status the quota-repair helper completes with. -/
  DAFileSystemRepairQuotas : List Event → Status
  DAFilesystemShouldMountWithUserFS : CFString → Option CFType → Bool
  __DAMountShouldUseFSKit : CFString → Bool
  realpath : List Event → CFString → Option CFString
  /-- `f_mntonname` when `statfs` succeeds. -/
  statfs : List Event → CFString → Option CFString
  mkdir : List Event → CFString → Bool
  unlink : List Event → CFString → Bool
  rmdir : List Event → CFString → Bool
  symlink : List Event → CFString → CFString → Bool
  renamex_np : List Event → CFString → CFString → Bool
  ___isautofs : List Event → CFString → Int

/-- The state the mount path owns or changes. -/
structure World where
  disks : DADiskRef → DADisk
  gDAMountPointList : List CFType
  trace : List Event

def World.emit (w : World) (e : Event) : World :=
  { w with trace := w.trace ++ [e] }

def World.setDisk (w : World) (disk : DADiskRef) (value : DADisk) : World :=
  { w with disks := Function.update w.disks disk value }

def World.setState (w : World) (disk : DADiskRef) (state : DADiskState) (value : Bool) : World :=
  w.setDisk disk (DADiskSetState (w.disks disk) state value)

/-! ## `DAMountContainsArgument` (DAMount.c 375-717) -/

/-- `__DAMountCheckMntOptsForString` (DAMount.c 379-519). -/
def __DAMountCheckMntOptsForString (env : Env) (mntOpsStr argument : CFString) : Bool :=
  match env.getmntopts mntOpsStr with
  | none => false
  | some mntflags =>
    if argument = kDAFileSystemMountArgumentForce then mntflags.MNT_FORCE
    else if argument = kDAFileSystemMountArgumentNoDevice then mntflags.MNT_NODEV
    else if argument = kDAFileSystemMountArgumentNoOwnership
        ∨ argument = kDAFileSystemMountArgumentNoPermission then mntflags.MNT_IGNORE_OWNERSHIP
    else if argument = kDAFileSystemMountArgumentNoSetUserID then mntflags.MNT_NOSUID
    else if argument = kDAFileSystemMountArgumentNoWrite then mntflags.MNT_RDONLY
    else if argument = kDAFileSystemMountArgumentUnion then mntflags.MNT_UNION
    else if argument = kDAFileSystemMountArgumentUpdate then mntflags.MNT_UPDATE
    else if argument = kDAFileSystemMountArgumentNoBrowse then mntflags.MNT_DONTBROWSE
    else if argument = kDAFileSystemMountArgumentNoFollow then mntflags.MNT_NOFOLLOW
    else if argument = kDAFileSystemMountArgumentNoExecute then mntflags.MNT_NOEXEC
    else if argument = kDAFileSystemMountArgumentDevice then
      !mntflags.MNT_NODEV && CFStringFind mntOpsStr kDAFileSystemMountArgumentDevice
    else if argument = kDAFileSystemMountArgumentOwnership then
      !mntflags.MNT_IGNORE_OWNERSHIP && CFStringFind mntOpsStr kDAFileSystemMountArgumentOwnership
    else if argument = kDAFileSystemMountArgumentPermission then
      !mntflags.MNT_IGNORE_OWNERSHIP && CFStringFind mntOpsStr kDAFileSystemMountArgumentPermission
    else if argument = kDAFileSystemMountArgumentSetUserID then
      !mntflags.MNT_NOSUID && CFStringFind mntOpsStr kDAFileSystemMountArgumentSetUserID
    else false

/-- The `while ( !containsValue && ( opt = getopt( … ) ) != -1 )` loop of
`__DAMountGetOpt`, over the successive results of `getopt`.  Returns
`argumentToAdd` and whether the snapshot argument was found. -/
def __DAMountGetOpt.loop (argument : CFString) :
    List (Char × CFString) → Option CFString → Option CFString × Bool
  | [], argumentToAdd => (argumentToAdd, false)
  | (opt, optarg) :: rest, argumentToAdd =>
    if opt = 'o' then __DAMountGetOpt.loop argument rest (some optarg)
    else if opt = 's' then
      if argument = kDAFileSystemMountArgumentSnapshot then (argumentToAdd, true)
      else __DAMountGetOpt.loop argument rest argumentToAdd
    else __DAMountGetOpt.loop argument rest argumentToAdd

/-- `__DAMountGetOpt` (DAMount.c 528-589).  The second component is the new
value of `*foundArgument`, which is written only when the argument is found. -/
def __DAMountGetOpt (env : Env) (optArgStr argument : CFString) (foundArgument : Bool) :
    Option CFString × Bool :=
  match env.getopt optArgStr with
  | none => (none, foundArgument)
  | some results =>
    let r := __DAMountGetOpt.loop argument results none
    (r.1, if r.2 then true else foundArgument)

/-- The mapping `(""/owners/perm)=(noowners/noperm)` of one argument
(DAMount.c 647-693). -/
def DAMountContainsArgument.mapArgument (argumentToAdd : CFString) : CFString :=
  match CFStringCreateArrayBySeparatingStrings argumentToAdd '=' with
  | [itemOne, itemTwo] =>
    if itemOne.length = 0
        ∨ CFStringCompareCaseInsensitive itemOne kDAFileSystemMountArgumentOwnership
        ∨ CFStringCompareCaseInsensitive itemOne kDAFileSystemMountArgumentPermission then
      if CFStringFind itemTwo kDAFileSystemMountArgumentNoOwnership
          || CFStringFind itemTwo kDAFileSystemMountArgumentNoPermission then
        kDAFileSystemMountArgumentNoOwnership
      else argumentToAdd
    else argumentToAdd
  | _ => argumentToAdd

/-- The `for` loop of `DAMountContainsArgument` over the comma-separated
arguments (DAMount.c 626-703): returns `containsValue` and `mutableArguments`. -/
def DAMountContainsArgument.loop (env : Env) (argument : CFString) :
    List CFString → Bool → CFString → Bool × CFString
  | [], containsValue, mutableArguments => (containsValue, mutableArguments)
  | currentArgument :: rest, containsValue, mutableArguments =>
    if containsValue then (containsValue, mutableArguments)
    else
      let r : Option CFString × Bool :=
        if List.isPrefixOf ['-'] currentArgument then
          __DAMountGetOpt env currentArgument argument containsValue
        else (some currentArgument, containsValue)
      match r.1 with
      | none => DAMountContainsArgument.loop env argument rest r.2 mutableArguments
      | some argumentToAdd =>
        let mapped := DAMountContainsArgument.mapArgument argumentToAdd
        let separated :=
          if mutableArguments.length > 0 then CFStringAppend mutableArguments [','] else mutableArguments
        DAMountContainsArgument.loop env argument rest r.2 (CFStringAppend separated mapped)

/-- `DAMountContainsArgument` (DAMount.c 599-717); `none` is a NULL list. -/
def DAMountContainsArgument (env : Env) (arguments : Option CFString) (argument : CFString) : Bool :=
  match arguments with
  | none => false
  | some arguments =>
    let r := DAMountContainsArgument.loop env argument
      (CFStringCreateArrayBySeparatingStrings arguments ',') false []
    if !r.1 && r.2.length > 0 then __DAMountCheckMntOptsForString env r.2 argument
    else r.1

/-! ## Mount point folders (DAMount.c 719-897, 1048-1113) -/

inductive DAMountPointAction
  | kDAMountPointActionLink
  | kDAMountPointActionMake
  | kDAMountPointActionMove
  | kDAMountPointActionNone
  deriving DecidableEq, Repr

open DAMountPointAction

/-- `CFURLGetFileSystemRepresentation( url, TRUE, buffer, maxBufLen )`: the path,
when it fits the buffer with its terminator. -/
def CFURLGetFileSystemRepresentation (url : CFType) (maxBufLen : Nat) : Option CFString :=
  match url with
  | CFType.url path => if path.length < maxBufLen then some path else none
  | _ => none

/-- `strncmp( s, start, strlen( start ) ) == 0`. -/
def strncmpStart (s start : CFString) : Bool :=
  List.isPrefixOf start s

/-- `strrchr( s, c )`, as the index of the last occurrence. -/
def strrchr (s : CFString) (c : Char) : Option Nat :=
  match s with
  | [] => none
  | x :: rest =>
    match strrchr rest c with
    | some i => some (i + 1)
    | none => if x = c then some 0 else none

/-- `DAMountRemoveMountPoint` (DAMount.c 1048-1113). -/
def DAMountRemoveMountPoint (env : Env) (mountpoint : CFType) (w : World) : World :=
  match CFURLGetFileSystemRepresentation mountpoint MAXPATHLEN with
  | none => w
  | some path =>
    if env.___isautofs w.trace path = 0 then
      let p : CFString :=
        if strncmpStart path env.kDAMainDataVolumeMountPointFolder then
          path.drop env.kDAMainDataVolumeMountPointFolder.length
        else path
      let remove0 : Bool :=
        strncmpStart p kDAMainMountPointFolder
          && decide (strrchr (p.drop kDAMainMountPointFolder.length) '/' = some 0)
      let file : CFString :=
        (path ++ ['/'] ++ kDAMainMountPointFolderCookieFile).take (MAXPATHLEN - 1)
      let unlinked : Bool := env.unlink w.trace file
      let w1 := w.emit (Event.unlink file unlinked)
      let remove : Bool := if unlinked then true else remove0
      if remove then w1.emit (Event.rmdir path (env.rmdir w1.trace path)) else w1
    else w

/-- `*strchr( name, '/' ) = ':'`: the first `/` of the name becomes `:`. -/
def replaceFirstSlash : CFString → CFString
  | [] => []
  | c :: rest => if c = '/' then ':' :: rest else c :: replaceFirstSlash rest

/-- `while ( strchr( name, '/' ) ) *strchr( name, '/' ) = ':';` with the number of
iterations bounded by the fuel. -/
def adjustVolumeName : Nat → CFString → CFString
  | 0, name => name
  | fuel + 1, name =>
    if name.contains '/' then adjustVolumeName fuel (replaceFirstSlash name) else name

/-- Modelled from the spec: `___CFStringGetCString` is declared in `DABase.h` and
defined outside the sources; it copies the string into a buffer of the given
length, cutting it to fit, and succeeds when something was copied. -/
def ___CFStringGetCString (theString : CFString) (length : Nat) : Option CFString :=
  if (theString.take (length - 1)).length = 0 then none else some (theString.take (length - 1))

/-- One iteration of the candidate loop of `DAMountCreateMountPointWithAction`:
the `switch ( action )` on the candidate path (DAMount.c 789-883). -/
def DAMountCreateMountPointWithAction.candidate (env : Env) (disk : DADiskRef)
    (action : DAMountPointAction) (path : CFString) (w : World) : Option CFType × World :=
  match action with
  | kDAMountPointActionLink =>
    match DADiskGetDescription (w.disks disk) kDADiskDescriptionVolumePathKey with
    | none => (none, w)
    | some url =>
      match CFURLGetFileSystemRepresentation url MAXPATHLEN with
      | none => (none, w)
      | some source =>
        let done := env.symlink w.trace source path
        (if done then some (CFType.url path) else none, w.emit (Event.symlink source path done))
  | kDAMountPointActionMake =>
    let w1 : World :=
      match env.statfs w.trace path with
      | none => w
      | some f_mntonname =>
        if strncmpStart f_mntonname env.kDAMainDataVolumeMountPointFolder then
          if w.gDAMountPointList.contains (CFType.url path) then w
          else DAMountRemoveMountPoint env (CFType.url path) w
        else w
    let made := env.mkdir w1.trace path
    let w2 := w1.emit (Event.mkdir path 0o111 made)
    if made then
      let w3 :=
        if DADiskGetUserUID (w2.disks disk) ≠ 0 then
          w2.emit (Event.chown path (DADiskGetUserUID (w2.disks disk)))
        else w2
      (some (CFType.url path), w3)
    else (none, w2)
  | kDAMountPointActionMove =>
    match (w.disks disk).bypath with
    | none => (none, w)
    | some url =>
      match CFURLGetFileSystemRepresentation (CFType.url url) MAXPATHLEN with
      | none => (none, w)
      | some source =>
        if strncmpStart source kDAMainMountPointFolder then
          let done := env.renamex_np w.trace source path
          (if done then some (CFType.url path) else none,
            w.emit (Event.renamex_np source path done))
        else (none, w)
  | kDAMountPointActionNone => (some (CFType.url path), w)

/-- The candidate path of iteration `index` (`snprintf` into `path[MAXPATHLEN]`). -/
def DAMountCreateMountPointWithAction.path (realMainMountPoint name : CFString) (index : Nat) :
    CFString :=
  if index = 0 then
    (realMainMountPoint ++ ['/'] ++ name).take (MAXPATHLEN - 1)
  else
    (realMainMountPoint ++ ['/'] ++ name ++ [' '] ++ Nat.toDigits 10 index).take (MAXPATHLEN - 1)

/-- The loop `for ( index = 0; index < 100; index++ )`, with `remaining`
iterations to go from `index`. -/
def DAMountCreateMountPointWithAction.loop (env : Env) (disk : DADiskRef)
    (action : DAMountPointAction) (realMainMountPoint name : CFString) :
    Nat → Nat → World → Option CFType × World
  | 0, _, w => (none, w)
  | remaining + 1, index, w =>
    let r := DAMountCreateMountPointWithAction.candidate env disk action
      (DAMountCreateMountPointWithAction.path realMainMountPoint name index) w
    match r.1 with
    | some mountpoint => (some mountpoint, r.2)
    | none =>
      DAMountCreateMountPointWithAction.loop env disk action realMainMountPoint name
        remaining (index + 1) r.2

/-- The volume name the mount point is derived from: the disk's volume name, or
the localized "Untitled" when it is absent or empty. -/
def DAMountCreateMountPointWithAction.volumeName (env : Env) (disk : DADisk) : CFString :=
  match DADiskGetDescription disk kDADiskDescriptionVolumeNameKey with
  | some (CFType.string theString) => if theString.length ≠ 0 then theString else env.untitled
  | _ => env.untitled

/-- `DAMountCreateMountPointWithAction` (DAMount.c 724-897). -/
def DAMountCreateMountPointWithAction (env : Env) (disk : DADiskRef)
    (action : DAMountPointAction) (w : World) : Option CFType × World :=
  match ___CFStringGetCString
      (DAMountCreateMountPointWithAction.volumeName env (w.disks disk)) (MNAMELEN - 20) with
  | none => (none, w)
  | some name =>
    let adjusted := adjustVolumeName name.length name
    match env.realpath w.trace kDAMainMountPointFolder with
    | none => (none, w)
    | some realMainMountPoint =>
      DAMountCreateMountPointWithAction.loop env disk action realMainMountPoint adjusted 100 0 w

/-! ## The mount request (DAMount.c 40-363) -/

/-- `struct __DAMountCallbackContext`, without the power assertion, the
embedded-target fields and the telemetry clocks. -/
structure __DAMountCallbackContext where
  automatic : Bool
  callback : Option DAMountCallback
  callbackContext : Nat
  disk : DADiskRef
  force : Bool
  mountpoint : Option CFType
  options : CFString
  devicePath : Option CFType
  useUserFS : Bool

/-- A call of `DAMountWithArguments( disk, mountpoint, callback, callbackContext,
arguments…, NULL )`; `none` when the bound on nested calls is exhausted. -/
abbrev Remount :=
  DADiskRef → Option CFType → Option DAMountCallback → Nat → List CFString → World → Option World

/-- `if ( callback ) ( callback )( status, mountpoint, callbackContext )`. -/
def invokeCallback (callback : Option DAMountCallback) (status : Status)
    (mountpoint : Option CFType) (callbackContext : Nat) (w : World) : World :=
  match callback with
  | some callback => w.emit (Event.callback callback status mountpoint callbackContext)
  | none => w

/-- `__DAMountWithArgumentsCallback` (DAMount.c 66-96). -/
def __DAMountWithArgumentsCallback (remount : Remount) (status : Status)
    (context : __DAMountCallbackContext) (w : World) : Option World :=
  let r : Option World × Option DAMountCallback :=
    if context.automatic then
      if status = ___EDIRTY then
        (remount context.disk none context.callback context.callbackContext
          [kDAFileSystemMountArgumentForce, kDAFileSystemMountArgumentNoWrite] w, none)
      else (some w, context.callback)
    else (some w, context.callback)
  match r.1 with
  | none => none
  | some w1 => some (invokeCallback r.2 status context.mountpoint context.callbackContext w1)

/-- `__DAMountWithArgumentsCallbackStage3` (DAMount.c 345-363). -/
def __DAMountWithArgumentsCallbackStage3 (remount : Remount) (status : Status)
    (context : __DAMountCallbackContext) (w : World) : Option World :=
  let w1 := if status ≠ 0 then w else w.setState context.disk kDADiskStateRequireRepairQuotas false
  __DAMountWithArgumentsCallback remount 0 context w1

/-- The bookkeeping at the completion of the mount command (DAMount.c 243-291):
the mount is no longer ongoing, the implementation that mounted the disk is
recorded, and the mount point leaves the list of mount points in use. -/
def __DAMountWithArgumentsCallbackStage2.settle (env : Env) (status : Status)
    (context : __DAMountCallbackContext) (w : World) : World :=
  let w1 := w.setState context.disk kDADiskStateMountOngoing false
  let w2 :=
    if context.useUserFS then
      if env.__DAMountShouldUseFSKit (DAFileSystemGetKind (w1.disks context.disk)) then
        if status = 0 then w1.setState context.disk _kDADiskStateMountedWithFSKit true else w1
      else
        if status = 0 then w1.setState context.disk _kDADiskStateMountedWithUserFS true else w1
    else w1
  match context.mountpoint with
  | some mountpoint => { w2 with gDAMountPointList := w2.gDAMountPointList.erase mountpoint }
  | none => w2

/-- The mount point of a failed mount is removed (DAMount.c 303-306). -/
def __DAMountWithArgumentsCallbackStage2.failed (env : Env)
    (context : __DAMountCallbackContext) (w : World) : World :=
  match context.mountpoint with
  | some mountpoint => DAMountRemoveMountPoint env mountpoint w
  | none => w

/-- An encrypted volume under the deferral policy is recorded as mounted by the
console user (DAMount.c 318-325). -/
def __DAMountWithArgumentsCallbackStage2.mounted (env : Env)
    (context : __DAMountCallbackContext) (w : World) : World :=
  if DADiskGetDescription (w.disks context.disk) kDADiskDescriptionMediaEncryptedKey
        = some kCFBooleanTrue
      ∧ DAMountGetPreference env.gDAPreferenceList (w.disks context.disk)
        kDAMountPreferenceDefer = true then
    w.setDisk context.disk
      (DADiskSetMountedByUserUID (w.disks context.disk) env.gDAConsoleUserUID)
  else w

/-- `__DAMountWithArgumentsCallbackStage2` (DAMount.c 237-343). -/
def __DAMountWithArgumentsCallbackStage2 (env : Env) (remount : Remount) (status : Status)
    (context : __DAMountCallbackContext) (w : World) : Option World :=
  let w3 := __DAMountWithArgumentsCallbackStage2.settle env status context w
  if status ≠ 0 then
    __DAMountWithArgumentsCallback remount status context
      (__DAMountWithArgumentsCallbackStage2.failed env context w3)
  else
    let w4 := __DAMountWithArgumentsCallbackStage2.mounted env context w3
    if DADiskGetState (w4.disks context.disk) kDADiskStateRequireRepairQuotas then
      let w5 := w4.emit
        (Event.DAFileSystemRepairQuotas (DAFileSystemGetKind (w4.disks context.disk))
          context.mountpoint)
      __DAMountWithArgumentsCallbackStage3 remount (env.DAFileSystemRepairQuotas w5.trace)
        context w5
    else
      __DAMountWithArgumentsCallbackStage3 remount 0 context w4

/-- The mount point of the request, created when the request has none yet
(DAMount.c 183-188). -/
def __DAMountWithArgumentsCallbackStage1.mountpoint (env : Env)
    (context : __DAMountCallbackContext) (w : World) : Option CFType × World :=
  match context.mountpoint with
  | none => DAMountCreateMountPointWithAction env context.disk kDAMountPointActionMake w
  | some mountpoint => (some mountpoint, w)

/-- The context with which the mount command is executed (DAMount.c 206-216). -/
def __DAMountWithArgumentsCallbackStage1.context (env : Env)
    (context : __DAMountCallbackContext) (mountpoint : CFType) (w : World) :
    __DAMountCallbackContext :=
  { context with
    mountpoint := some mountpoint
    useUserFS := env.DAFilesystemShouldMountWithUserFS
      (DAFileSystemGetKind (w.disks context.disk))
      (env.gDAPreferenceList kDAPreferenceMountMethodkey) }

/-- The mount command is executed (DAMount.c 199-228): the mount is ongoing, the
mount point is in use, and the mount helper is invoked with the options of the
context. -/
def __DAMountWithArgumentsCallbackStage1.execute (env : Env)
    (context : __DAMountCallbackContext) (mountpoint : CFType) (w : World) : World :=
  let w1 := w.setState context.disk kDADiskStateMountOngoing true
  let w2 : World := { w1 with gDAMountPointList := w1.gDAMountPointList ++ [mountpoint] }
  w2.emit
    (Event.DAFileSystemMountWithArguments (DAFileSystemGetKind (w2.disks context.disk))
      context.devicePath
      (DADiskGetDescription (w2.disks context.disk) kDADiskDescriptionVolumeNameKey)
      (some mountpoint)
      (DADiskGetUserUID (w2.disks context.disk))
      (DADiskGetUserGID (w2.disks context.disk))
      (env.gDAPreferenceList kDAPreferenceMountMethodkey)
      context.options)

/-- The mount step of stage 1, the block under `if ( status == 0 )`
(DAMount.c 177-234). -/
def __DAMountWithArgumentsCallbackStage1.mount (env : Env) (remount : Remount)
    (context : __DAMountCallbackContext) (w : World) : Option World :=
  let created := __DAMountWithArgumentsCallbackStage1.mountpoint env context w
  match created.1 with
  | some mountpoint =>
    let w3 := __DAMountWithArgumentsCallbackStage1.execute env context mountpoint created.2
    __DAMountWithArgumentsCallbackStage2 env remount
      (env.DAFileSystemMountWithArguments w3.trace)
      (__DAMountWithArgumentsCallbackStage1.context env context mountpoint created.2) w3
  | none =>
    __DAMountWithArgumentsCallback remount ENOSPC { context with mountpoint := none } created.2

/-- The repair is no longer running (DAMount.c 118-122). -/
def __DAMountWithArgumentsCallbackStage1.repaired (context : __DAMountCallbackContext)
    (w : World) : World :=
  if DADiskGetDescription (w.disks context.disk) kDADiskDescriptionRepairRunningKey ≠ none then
    (w.setDisk context.disk
      (DADiskSetDescription (w.disks context.disk) kDADiskDescriptionRepairRunningKey none)).emit
      (Event.DADiskDescriptionChangedCallback context.disk kDADiskDescriptionRepairRunningKey)
  else w

/-- `__DAMountWithArgumentsCallbackStage1` (DAMount.c 105-235). -/
def __DAMountWithArgumentsCallbackStage1 (env : Env) (remount : Remount) (status : Status)
    (context : __DAMountCallbackContext) (w : World) : Option World :=
  let w1 := __DAMountWithArgumentsCallbackStage1.repaired context w
  let r : Status × Option World :=
    if status ≠ 0 then
      if status = ECANCELED then (0, some w1)
      else if context.force then (0, some w1)
      else (status, __DAMountWithArgumentsCallback remount ___EDIRTY context w1)
    else (status, some (w1.setState context.disk kDADiskStateRequireRepair false))
  match r.2 with
  | none => none
  | some w2 =>
    if r.1 = 0 then __DAMountWithArgumentsCallbackStage1.mount env remount context w2
    else some w2

/-! ## `DAMountWithArguments` (DAMount.c 1115-1716) -/

/-- The locals the argument loop of `DAMountWithArguments` sets.  `automatic`
and `check` are `CFBooleanRef`s; `none` is NULL. -/
structure DAMountWithArguments.Locals where
  force : Bool
  automatic : Option CFType
  check : Option CFType
  options : CFString

/-- The loop `while ( ( argument = va_arg( arguments, CFStringRef ) ) )`
(DAMount.c 1174-1191), over the arguments before the terminating NULL. -/
def DAMountWithArguments.arguments :
    List CFString → DAMountWithArguments.Locals → DAMountWithArguments.Locals
  | [], locals => locals
  | argument :: rest, locals =>
    if argument = kDAFileSystemMountArgumentForce then
      DAMountWithArguments.arguments rest { locals with force := true }
    else if argument = "automatic".toList then
      DAMountWithArguments.arguments rest
        { locals with automatic := none, check := some kCFBooleanTrue }
    else
      DAMountWithArguments.arguments rest
        { locals with
          options := CFStringAppend (CFStringAppend locals.options argument) [','] }

/-- The initial values of the locals (DAMount.c 1123-1135). -/
def DAMountWithArguments.initial : DAMountWithArguments.Locals :=
  { force := false, automatic := some kCFBooleanTrue, check := none, options := [] }

/-- The target-disk-mode check (DAMount.c 1203-1222): the status it leaves. -/
def DAMountWithArguments.tdmLocked (disk : DADisk) : Status :=
  if DADiskGetDescription disk kDADiskDescriptionDeviceTDMLockedKey = some kCFBooleanTrue then
    if DAUnitGetState disk _kDAUnitStateHasAPFS then
      if DAAPFSCompareVolumeRole disk "PreBoot".toList = true then 0 else EPERM
    else EPERM
  else 0

/-- APFS system volumes: read-only, and not browsable in the base system
(DAMount.c 1229-1250). -/
def DAMountWithArguments.systemOptions (env : Env) (automatic : Bool) (disk : DADisk)
    (options : CFString) : CFString :=
  if automatic = true ∧ DAUnitGetState disk _kDAUnitStateHasAPFS = true then
    let isSystem : Bool := DAAPFSCompareVolumeRole disk "System".toList
    let noRolePresent : Bool := DAAPFSNoVolumeRole disk
    let options1 :=
      if isSystem = true then
        CFStringInsert (CFStringInsert options 0 [',']) 0 kDAFileSystemMountArgumentNoWrite
      else options
    if env.os_variant_is_basesystem = true ∧ (isSystem = true ∨ noRolePresent = true) then
      CFStringInsert (CFStringInsert options1 0 [',']) 0 kDAFileSystemMountArgumentNoBrowse
    else options1
  else options

/-- The quarantine flag (DAMount.c 1256-1260). -/
def DAMountWithArguments.quarantineOptions (automatic : Bool) (disk : DADisk)
    (options : CFString) : CFString :=
  if automatic = true ∧ DADiskGetState disk _kDADiskStateMountQuarantined = true then
    CFStringInsert (CFStringInsert options 0 [',']) 0 "quarantine".toList
  else options

/-- The update check (DAMount.c 1266-1285): the mount point it leaves. -/
def DAMountWithArguments.update (env : Env) (disk : DADisk) (options : CFString)
    (mountpoint : Option CFType) : Except Status (Option CFType) :=
  if DAMountContainsArgument env (some options) kDAFileSystemMountArgumentUpdate then
    match mountpoint with
    | some _ => Except.error EINVAL
    | none =>
      match DADiskGetDescription disk kDADiskDescriptionVolumePathKey with
      | none => Except.error EINVAL
      | some path => Except.ok (some path)
  else Except.ok mountpoint

/-- The snapshot check (DAMount.c 1287-1309): the device path it leaves. -/
def DAMountWithArguments.snapshot (env : Env) (disk : DADisk) (options : CFString)
    (mountpoint : Option CFType) : Except Status (Option CFType) :=
  if DAMountContainsArgument env (some options) kDAFileSystemMountArgumentSnapshot then
    match mountpoint with
    | none => Except.error EINVAL
    | some _ =>
      match DADiskGetDescription disk kDADiskDescriptionVolumePathKey with
      | none => Except.error EINVAL
      | some path => Except.ok (some path)
  else Except.ok (some (CFType.url (DADiskGetDevice disk)))

/-- Whether an entry of the first mount map list matches the disk
(DAMount.c 1321-1378). -/
def DAMountWithArguments.matches1 (env : Env) (ref : DADiskRef) (disk : DADisk)
    (map : DAMountMap) : Bool :=
  let kindMatches : Bool :=
    match map.kDAMountMapProbeKindKey with
    | some kind => decide (kind = DAFileSystemGetKind disk)
    | none => true
  kindMatches &&
    match map.kDAMountMapProbeIDKey with
    | some (CFType.uuid id) =>
      DADiskCompareDescription disk kDADiskDescriptionVolumeUUIDKey (some (CFType.uuid id))
    | some (CFType.string id) =>
      DADiskCompareDescription disk kDADiskDescriptionVolumeNameKey (some (CFType.string id))
    | some (CFType.dictionary id) =>
      env.IOServiceMatchPropertyTable ref (CFType.dictionary id)
    | _ => false

/-- Whether an entry of the second mount map list matches the disk
(DAMount.c 1441-1455). -/
def DAMountWithArguments.matches2 (disk : DADisk) (map : DAMountMap) : Bool :=
  DADiskCompareDescription disk kDADiskDescriptionVolumeUUIDKey map.kDAMountMapProbeIDKey

/-- `CFStringInsert( options, 0, "," ); CFStringInsert( options, 0, string )` for
the options of a matching map entry, when it has some (DAMount.c 1408-1414). -/
def DAMountWithArguments.mapOptions (map : Option DAMountMap) (options : CFString) : CFString :=
  match map with
  | some map =>
    match map.kDAMountMapMountOptionsKey with
    | some string => CFStringInsert (CFStringInsert options 0 [',']) 0 string
    | none => options
  | none => options

/-- The value of `automatic` after the first mount map (DAMount.c 1393-1402). -/
def DAMountWithArguments.mapAutomatic (map : Option DAMountMap) (automatic : Option CFType) :
    Option CFType :=
  match map with
  | some map => if automatic = none then map.kDAMountMapMountAutomaticKey else automatic
  | none => automatic

/-- Whether the volume is to be mounted (DAMount.c 1483-1513): the value of
`automatic` it leaves. -/
def DAMountWithArguments.automatic (env : Env) (disk : DADisk) (automatic : Option CFType) :
    Option CFType :=
  if automatic = none then
    let automatic1 : Option CFType :=
      if DADiskGetState disk _kDADiskStateMountAutomatic then
        if DADiskGetState disk _kDADiskStateMountAutomaticNoDefer then some kCFBooleanTrue
        else automatic
      else some kCFBooleanFalse
    if automatic1 = none then
      if env.gDAConsoleUserList = none then
        if DAMountGetPreference env.gDAPreferenceList disk kDAMountPreferenceDefer then
          some kCFBooleanFalse
        else automatic1
      else automatic1
    else automatic1
  else automatic

/-- Read-only media (DAMount.c 1526-1530). -/
def DAMountWithArguments.writableOptions (disk : DADisk) (options : CFString) : CFString :=
  if DADiskGetDescription disk kDADiskDescriptionMediaWritableKey = some kCFBooleanFalse then
    CFStringInsert (CFStringInsert options 0 [',']) 0 kDAFileSystemMountArgumentNoWrite
  else options

/-- Untrusted media (DAMount.c 1532-1542). -/
def DAMountWithArguments.trustOptions (env : Env) (disk : DADisk) (options : CFString) :
    CFString :=
  if DAMountGetPreference env.gDAPreferenceList disk kDAMountPreferenceTrust = false then
    CFStringInsert
      (CFStringInsert
        (CFStringInsert
          (CFStringInsert
            (CFStringInsert
              (CFStringInsert options 0 [','])
              0 kDAFileSystemMountArgumentNoSetUserID)
            0 [','])
          0 kDAFileSystemMountArgumentNoOwnership)
        0 [','])
      0 kDAFileSystemMountArgumentNoDevice
  else options

/-- The ownership entries of an HFS volume (DAMount.c 1545-1566). -/
def DAMountWithArguments.hfsOptions (disk : DADisk) (options : CFString) : CFString :=
  if DAFileSystemGetKind disk = "hfs".toList then
    let options1 :=
      ___CFStringInsertFormat options 0 ("-m=".toList ++ formatOctal 0o755 ++ [','])
    let options2 :=
      if DADiskGetUserGID disk ≠ 0 then
        ___CFStringInsertFormat options1 0
          ("-g=".toList ++ formatDecimal (DADiskGetUserGID disk) ++ [','])
      else
        ___CFStringInsertFormat options1 0 ("-g=".toList ++ formatDecimal ___GID_UNKNOWN ++ [','])
    if DADiskGetUserUID disk ≠ 0 then
      ___CFStringInsertFormat options2 0
        ("-u=".toList ++ formatDecimal (DADiskGetUserUID disk) ++ [','])
    else
      ___CFStringInsertFormat options2 0 ("-u=".toList ++ formatDecimal ___UID_UNKNOWN ++ [','])
  else options

/-- What `DAMountWithArguments` has set up when the options are composed
(DAMount.c 1569). -/
structure DAMountWithArguments.Setup where
  force : Bool
  /-- `context->automatic`: the "automatic" argument was given. -/
  automatic : Bool
  check : Option CFType
  mountpoint : Option CFType
  devicePath : Option CFType
  options : CFString

/-- The option string before the mount maps are consulted (DAMount.c 1195-1260). -/
def DAMountWithArguments.requestOptions (env : Env) (disk : DADisk)
    (arguments : List CFString) : CFString :=
  let locals := DAMountWithArguments.arguments arguments DAMountWithArguments.initial
  DAMountWithArguments.quarantineOptions (decide (locals.automatic = none)) disk
    (DAMountWithArguments.systemOptions env (decide (locals.automatic = none)) disk
      (CFStringTrim locals.options ','))

/-- The option string once both mount maps have been processed
(DAMount.c 1311-1477). -/
def DAMountWithArguments.mappedOptions (env : Env) (ref : DADiskRef) (disk : DADisk)
    (arguments : List CFString) : CFString :=
  DAMountWithArguments.mapOptions
    (env.gDAMountMapList2.find? (DAMountWithArguments.matches2 disk))
    (DAMountWithArguments.mapOptions
      (env.gDAMountMapList1.find? (DAMountWithArguments.matches1 env ref disk))
      (DAMountWithArguments.requestOptions env disk arguments))

/-- `DAMountWithArguments` up to the composed options (DAMount.c 1141-1569): the
status it jumps to `DAMountWithArgumentsErr` with, or what it has set up. -/
def DAMountWithArguments.compose (env : Env) (disk : DADiskRef) (mountpoint : Option CFType)
    (arguments : List CFString) (w : World) :
    Except Status DAMountWithArguments.Setup × World :=
  if env.malloc w.trace = false then (Except.error ENOMEM, w)
  else if env.CFStringCreateMutable w.trace = false then (Except.error ENOMEM, w)
  else
    let locals := DAMountWithArguments.arguments arguments DAMountWithArguments.initial
    let automatic : Bool := decide (locals.automatic = none)
    if DAMountWithArguments.tdmLocked (w.disks disk) ≠ 0 then
      (Except.error (DAMountWithArguments.tdmLocked (w.disks disk)), w)
    else
      let options := DAMountWithArguments.requestOptions env (w.disks disk) arguments
      match DAMountWithArguments.update env (w.disks disk) options mountpoint with
      | Except.error status => (Except.error status, w)
      | Except.ok mountpoint1 =>
        match DAMountWithArguments.snapshot env (w.disks disk) options mountpoint1 with
        | Except.error status => (Except.error status, w)
        | Except.ok devicePath =>
          let map1 := env.gDAMountMapList1.find?
            (DAMountWithArguments.matches1 env disk (w.disks disk))
          let automatic1 := DAMountWithArguments.mapAutomatic map1 locals.automatic
          let w1 : World :=
            if map1.isSome = true ∧ locals.automatic = none ∧ automatic1 = some kCFBooleanTrue then
              (w.setState disk _kDADiskStateMountAutomatic true).setState disk
                _kDADiskStateMountAutomaticNoDefer true
            else w
          let mountpoint2 : Option CFType :=
            match map1 with
            | some map =>
              match mountpoint1 with
              | none => map.kDAMountMapMountPathKey
              | some m => some m
            | none => mountpoint1
          let options2 := DAMountWithArguments.mappedOptions env disk (w.disks disk) arguments
          let automatic2 := DAMountWithArguments.automatic env (w1.disks disk) automatic1
          if automatic2 = some kCFBooleanFalse then (Except.error ECANCELED, w1)
          else
            (Except.ok
              { force := locals.force
                automatic := automatic
                check := locals.check
                mountpoint := mountpoint2
                devicePath := devicePath
                options :=
                  CFStringTrim
                    (DAMountWithArguments.hfsOptions (w1.disks disk)
                      (DAMountWithArguments.trustOptions env (w1.disks disk)
                        (DAMountWithArguments.writableOptions (w1.disks disk) options2)))
                    ',' },
              w1)

/-- Whether the volume is to be repaired (DAMount.c 1576-1613): the dirty
status, or the final value of `check == kCFBooleanTrue`. -/
def DAMountWithArguments.repair (env : Env) (disk : DADisk)
    (setup : DAMountWithArguments.Setup) : Except Status Bool :=
  let check0 : Option CFType :=
    if setup.check = none then
      if DAMountContainsArgument env (some setup.options) kDAFileSystemMountArgumentNoWrite then
        some kCFBooleanFalse
      else some kCFBooleanTrue
    else setup.check
  if check0 = some kCFBooleanFalse ∧ DADiskGetState disk kDADiskStateRequireRepair = true
      ∧ setup.force = false then
    Except.error ___EDIRTY
  else
    let check1 : Option CFType :=
      if check0 = some kCFBooleanTrue ∧ DADiskGetState disk kDADiskStateRequireRepair = false then
        some kCFBooleanFalse
      else check0
    let check2 : Option CFType :=
      if check1 = some kCFBooleanFalse
          ∧ DAMountGetPreference env.gDAPreferenceList disk kDAMountPreferenceAlwaysRepair = true then
        some kCFBooleanTrue
      else check1
    Except.ok (decide (check2 = some kCFBooleanTrue))

/-- The exit through `DAMountWithArgumentsErr` (DAMount.c 1692-1715). -/
def DAMountWithArguments.exit (status : Status) (callback : Option DAMountCallback)
    (callbackContext : Nat) (w : World) : World :=
  if status ≠ 0 then invokeCallback callback status none callbackContext w else w

/-- The mount context of the request (DAMount.c 1621-1630). -/
def DAMountWithArguments.context (disk : DADiskRef) (callback : Option DAMountCallback)
    (callbackContext : Nat) (setup : DAMountWithArguments.Setup) : __DAMountCallbackContext :=
  { automatic := setup.automatic
    callback := callback
    callbackContext := callbackContext
    disk := disk
    force := setup.force
    mountpoint := setup.mountpoint
    options := setup.options
    devicePath := setup.devicePath
    useUserFS := false }

/-- The repair command is executed (DAMount.c 1667-1685): the disk is described
as under repair and the repair helper is invoked. -/
def DAMountWithArguments.executeRepair (disk : DADiskRef) (w : World) : World :=
  let w1 := w.setDisk disk
    (DADiskSetDescription (w.disks disk) kDADiskDescriptionRepairRunningKey
      (some kCFBooleanTrue))
  let w2 := w1.emit
    (Event.DADiskDescriptionChangedCallback disk kDADiskDescriptionRepairRunningKey)
  w2.emit
    (Event.DAFileSystemRepair (DAFileSystemGetKind (w2.disks disk))
      (DADiskGetDevice (w2.disks disk)))

/-- One run of the body of `DAMountWithArguments`; a nested call made from the
completion of the request goes through `remount`. -/
def DAMountWithArguments.body (env : Env) (remount : Remount) : Remount :=
  fun disk mountpoint callback callbackContext arguments w =>
    let w0 := w.emit (Event.DAMountWithArguments disk mountpoint callback callbackContext arguments)
    let composed := DAMountWithArguments.compose env disk mountpoint arguments w0
    match composed.1 with
    | Except.error status =>
      some (DAMountWithArguments.exit status callback callbackContext composed.2)
    | Except.ok setup =>
      match DAMountWithArguments.repair env (composed.2.disks disk) setup with
      | Except.error status =>
        some (DAMountWithArguments.exit status callback callbackContext composed.2)
      | Except.ok check =>
        if check = true then
          let w3 := DAMountWithArguments.executeRepair disk composed.2
          __DAMountWithArgumentsCallbackStage1 env remount (env.DAFileSystemRepair w3.trace)
            (DAMountWithArguments.context disk callback callbackContext setup) w3
        else
          __DAMountWithArgumentsCallbackStage1 env remount ECANCELED
            (DAMountWithArguments.context disk callback callbackContext setup) composed.2

/-- `DAMountWithArguments` with at most `depth` calls nested in one another. -/
def DAMountWithArgumentsDepth (env : Env) : Nat → Remount
  | 0 => fun _ _ _ _ _ _ => none
  | depth + 1 => DAMountWithArguments.body env (DAMountWithArgumentsDepth env depth)

/-- `DAMountWithArguments` (DAMount.c 1115-1716).  The only nested call is the
automatic retry, which is not automatic itself, so two levels are all a request
can use (`DAMountWithArgumentsDepth_stable` below). -/
def DAMountWithArguments (env : Env) : Remount :=
  DAMountWithArgumentsDepth env 2

/-! ## A reference environment

Concrete instances of the environment, used to run the definitions on examples.
`getoptReference` and `getmntoptsReference` follow the documented behaviour of
the C library routines on the option table of `__DAMountCheckMntOptsForString`
(`MOPT_STDOPTS`, `MOPT_UPDATE`, `MOPT_FORCE`, `MOPT_BROWSE`). -/

/-- The option letters `getopt` finds after the leading `-`, for `"o:s:"`. -/
def getoptReference.scan : List Char → List (Char × CFString)
  | [] => []
  | c :: rest =>
    if c = 'o' ∨ c = 's' then
      if rest = [] then [('?', [])] else [(c, rest)]
    else ('?', []) :: getoptReference.scan rest

def getoptReference (argument : CFString) : Option (List (Char × CFString)) :=
  match argument with
  | ['-'] => some []
  | ['-', '-'] => some []
  | '-' :: rest => some (getoptReference.scan rest)
  | _ => some []

def MntFlags.none : MntFlags :=
  { MNT_RDONLY := false, MNT_NOSUID := false, MNT_NODEV := false, MNT_NOEXEC := false,
    MNT_UNION := false, MNT_DONTBROWSE := false, MNT_IGNORE_OWNERSHIP := false,
    MNT_UPDATE := false, MNT_FORCE := false, MNT_NOFOLLOW := false }

/-- One option of the table: `value` is `negative == m_inverse`. -/
def getmntoptsReference.option (name : CFString) (negative : Bool) (flags : MntFlags) :
    MntFlags :=
  if name = "ro".toList then { flags with MNT_RDONLY := !negative }
  else if name = "rw".toList then { flags with MNT_RDONLY := negative }
  else if name = "dev".toList then { flags with MNT_NODEV := negative }
  else if name = "exec".toList then { flags with MNT_NOEXEC := negative }
  else if name = "suid".toList then { flags with MNT_NOSUID := negative }
  else if name = "rdonly".toList then { flags with MNT_RDONLY := !negative }
  else if name = "union".toList then { flags with MNT_UNION := !negative }
  else if name = "browse".toList then { flags with MNT_DONTBROWSE := negative }
  else if name = "perm".toList then { flags with MNT_IGNORE_OWNERSHIP := negative }
  else if name = "owners".toList then { flags with MNT_IGNORE_OWNERSHIP := negative }
  else if name = "follow".toList then { flags with MNT_NOFOLLOW := negative }
  else if name = "update".toList then { flags with MNT_UPDATE := !negative }
  else if name = "force".toList then { flags with MNT_FORCE := !negative }
  else flags

def getmntoptsReference.fold : List CFString → MntFlags → MntFlags
  | [], flags => flags
  | opt :: rest, flags =>
    let negative : Bool := List.isPrefixOf ['n', 'o'] opt
    let stripped := if negative then opt.drop 2 else opt
    let name := (stripped.takeWhile (fun c => decide (c ≠ '='))).map Char.toLower
    getmntoptsReference.fold rest
      (if opt = [] then flags else getmntoptsReference.option name negative flags)

def getmntoptsReference (options : CFString) : Option MntFlags :=
  some (getmntoptsReference.fold (CFStringCreateArrayBySeparatingStrings options ',')
    MntFlags.none)

/-- A quiet machine: no preferences, no mount maps, nobody logged in, every
allocation and every directory call succeeds, every helper completes with 0. -/
def Env.reference : Env :=
  { gDAPreferenceList := fun _ => none
    gDAMountMapList1 := []
    gDAMountMapList2 := []
    gDAConsoleUserList := none
    gDAConsoleUserUID := 0
    kDAMainDataVolumeMountPointFolder := "/System/Volumes/Data".toList
    untitled := "Untitled".toList
    os_variant_is_basesystem := false
    malloc := fun _ => true
    CFStringCreateMutable := fun _ => true
    getopt := getoptReference
    getmntopts := getmntoptsReference
    IOServiceMatchPropertyTable := fun _ _ => false
    DAFileSystemRepair := fun _ => 0
    DAFileSystemMountWithArguments := fun _ => 0
    DAFileSystemRepairQuotas := fun _ => 0
    DAFilesystemShouldMountWithUserFS := fun _ _ => false
    __DAMountShouldUseFSKit := fun _ => false
    realpath := fun _ path => some path
    statfs := fun _ _ => none
    mkdir := fun _ _ => true
    unlink := fun _ _ => true
    rmdir := fun _ _ => true
    symlink := fun _ _ _ => true
    renamex_np := fun _ _ _ => true
    ___isautofs := fun _ _ => 0 }

/-- A probed disk with an empty description and no state set. -/
def DADisk.reference : DADisk :=
  { description := fun _ => none
    state := fun _ => false
    unitState := fun _ => false
    filesystemKind := "msdos".toList
    device := "/dev/disk2s1".toList
    bypath := none
    userUID := 0
    userGID := 0
    mountedByUserUID := 0
    volumeRoles := [] }

/-- A world in which every disk reference is the reference disk. -/
def World.reference : World :=
  { disks := fun _ => DADisk.reference
    gDAMountPointList := []
    trace := [] }

/-! # The server (`DAServer.c`)

The state of the daemon that the RPC operations and the kernel notifications of
`DAServer.c` read and change.  Functions of the daemon that are defined outside
the sources and only called here (the queue, the stage engine, the dialogs) are
recorded as events, in the order of the calls; what the registration of a
callback does to the register and to the queue of its session is also modelled,
from the spec. -/

abbrev mach_port_t := Nat

abbrev kern_return_t := Nat

abbrev uid_t := Nat

/-- From `DADissenter.h`. -/
def kDAReturnSuccess : kern_return_t := 0

/-- From `DADissenter.h`. -/
def kDAReturnBadArgument : kern_return_t := 0xF8DA0003

/-- From `DADissenter.h`. -/
def kDAReturnNotPermitted : kern_return_t := 0xF8DA0008

/-- From `DADissenter.h`. -/
def kDAReturnNotPrivileged : kern_return_t := 0xF8DA0009

/-- `unix_err( errno )` of `mach/error.h`: `err_kern | err_sub( 3 ) | errno`. -/
def unix_err (errno : Nat) : kern_return_t := 0xC000 ||| errno

/-! The kinds of callback, from `DAInternal.h` (outside the sources). -/

def _kDADiskAppearedCallback : Nat := 0

def _kDADiskEjectApprovalCallback : Nat := 7

def _kDAIdleCallback : Nat := 16

def _kDADiskListCompleteCallback : Nat := 17

def _kDADiskLastKind : Nat := _kDADiskListCompleteCallback

/-! The kinds of request, from `DAInternal.h`: each is the kind of the callback
that completes it. -/

def _kDADiskEject : Nat := 6

def _kDADiskMount : Nat := 8

def _kDADiskRename : Nat := 13

def _kDADiskUnmount : Nat := 14

/-! The rights `DAAuthorize` is asked for, from `DASupport.h`. -/

def _kDAAuthorizeRightMount : CFString := "mount".toList

def _kDAAuthorizeRightRename : CFString := "rename".toList

def _kDAAuthorizeRightUnmount : CFString := "unmount".toList

/-- From `DADiskPrivate.h`. -/
def kDADiskUnmountOptionDefault : Nat := 0

/-- From `DADiskPrivate.h`. -/
def kDADiskEjectOptionDefault : Nat := 0

/-- From `DADiskPrivate.h`. -/
def kDADiskMountOptionDefault : Nat := 0

/-- From `DADiskPrivate.h`. -/
def kDADiskUnmountOptionForce : Nat := 0x00080000

def ___UID_ROOT : uid_t := 0

/-- The state flags of a session (`DASession.h`). -/
inductive DASessionState
  | kDASessionStateIdle
  | kDASessionStateTimeout
  | kDASessionStateZombie
  deriving DecidableEq, Repr

open DASessionState

/-- A session object: its id (the port of the session), the name of the client,
its queue of callbacks to deliver, its register of callbacks, and its state. -/
structure DASession where
  id : mach_port_t
  name : CFString
  callbackQueue : Option (List DACallback)
  callbackRegister : Option (List DACallback)
  state : DASessionState → Bool

def DASessionGetID (session : DASession) : mach_port_t := session.id

def _DASessionGetName (session : DASession) : CFString := session.name

def DASessionGetCallbackQueue (session : DASession) : Option (List DACallback) :=
  session.callbackQueue

def DASessionGetCallbackRegister (session : DASession) : Option (List DACallback) :=
  session.callbackRegister

def DASessionGetState (session : DASession) (state : DASessionState) : Bool :=
  session.state state

def DASessionSetState (session : DASession) (state : DASessionState) (value : Bool) :
    DASession :=
  { session with state := Function.update session.state state value }

/-- An entry of the mount table (`struct statfs`), with the flags the daemon
tests. -/
structure statfs where
  f_mntfromname : CFString
  f_mntonname : CFString
  f_fstypename : CFString
  MNT_UNION : Bool
  MNT_RDONLY : Bool
  deriving DecidableEq, Repr

/-- A request of a client (`DARequest.h`): the kind, the disk, the options, the
two arguments, the user and the group of the caller, and the callback that
completes it. -/
structure DARequest where
  kind : Nat
  disk : DADiskRef
  argument1 : Int
  argument2 : Option CFType
  argument3 : Option CFType
  userUID : uid_t
  userGID : Nat
  callback : Option DACallback
  deriving DecidableEq, Repr

/-- What the server does to the outside and asks of the rest of the daemon, in
the order it does it.  System calls carry their outcome: an `errno` that is 0 on
success, or whether they succeeded. -/
inductive ServerEvent
  | mkdir (path : CFString) (mode : Nat) (errno : Nat)
  | lchown (path : CFString) (owner : uid_t)
  | rmdir (path : CFString) (errno : Nat)
  | chmod (path : CFString) (mode : Nat)
  | chown (path : CFString) (owner : Option Nat) (group : Option Nat)
  | link (path1 path2 : CFString) (succeeded : Bool)
  | unlink (path : CFString)
  | DASessionRegisterCallback (session : DASessionRef) (callback : DACallback)
  | DAQueueCallback (callback : DACallback) (argument0 : Option DADiskRef)
      (argument1 : Option CFType)
  | DAQueueCallbacks (session : DASessionRef) (kind : Nat) (argument0 : Option DADiskRef)
      (argument1 : Option CFType)
  | DAQueueReleaseSession (session : DASessionRef)
  | DAQueueReleaseDisk (disk : DADiskRef)
  | DASessionUnscheduleFromRunLoop (session : DASessionRef)
  | ___os_transaction_end
  | DADiskProbe (disk : DADiskRef)
  | DADiskRefresh (disk : DADiskRef)
  | DADiskUnmount (disk : DADiskRef) (options : Nat)
  | DADiskDisappearedCallback (disk : DADiskRef)
  | DADiskDescriptionChangedCallback (disk : DADiskRef) (keys : List DADiskDescriptionKey)
  | DADialogShowDeviceRemoval (disks : List DADiskRef)
  | DAStageSignal
  | DAQueueRequest (request : DARequest)
  | DADiskEject (disk : DADiskRef) (options : Nat)
  | DADiskMountWithArguments (disk : DADiskRef) (mountpoint : Option CFType) (options : Nat)
      (arguments : List CFString)
  | DAPreferenceListRefresh
  | __CoreStorageLockFamily (family : CFString)
  deriving DecidableEq, Repr

/-- The state of the daemon: the disk and session objects, the disk list and
the session list, whether the daemon is idle, the console users, the media
objects pending on the appearance notification, the number of disk objects
created so far (the next one is created at that reference), the state of the
mount path, and what the server did. -/
structure Server where
  disks : DADiskRef → DADisk
  sessions : DASessionRef → DASession
  gDADiskList : List DADiskRef
  gDASessionList : List DASessionRef
  gDAIdle : Bool
  gDAConsoleUserList : Option (List CFType)
  gDAConsoleUserUID : uid_t
  gDAMediaAppearedNotification : List io_service_t
  created : Nat
  gDAMountPointList : List CFType
  mountTrace : List Event
  trace : List ServerEvent
  gDAConsoleUser : Option CFString := none
  gDAConsoleUserGID : Nat := 0
  gDAPreferenceList : DAPreferenceList := fun _ => none

def Server.emit (s : Server) (e : ServerEvent) : Server :=
  { s with trace := s.trace ++ [e] }

def Server.setDisk (s : Server) (disk : DADiskRef) (value : DADisk) : Server :=
  { s with disks := Function.update s.disks disk value }

def Server.setState (s : Server) (disk : DADiskRef) (state : DADiskState) (value : Bool) :
    Server :=
  s.setDisk disk (DADiskSetState (s.disks disk) state value)

def Server.setSession (s : Server) (session : DASessionRef) (value : DASession) : Server :=
  { s with sessions := Function.update s.sessions session value }

/-- Modelled from the spec: `DAUnitSetState( disk, state, value )` is defined in
`DAUnit.c`, outside the sources.  A unit "groups disks sharing a backing
physical unit" and "holds per-unit flags"; the flags are read through the disk
objects, so they are set on every disk object of the unit of `disk`. -/
def DAUnitSetState (s : Server) (disk : DADiskRef) (state : DAUnitState) (value : Bool) :
    Server :=
  { s with
    disks := fun r =>
      if DADiskGetBSDUnit (s.disks r) = DADiskGetBSDUnit (s.disks disk) then
        { s.disks r with unitState := Function.update (s.disks r).unitState state value }
      else s.disks r }

/-- What the server reads from the outside or calls out to.  Results may depend
on what the server did before. -/
structure ServerEnv where
  realpath : List ServerEvent → CFString → Option CFString
  /-- The `errno` of `mkdir`, 0 when it succeeds. -/
  mkdir : List ServerEvent → CFString → Nat
  /-- The owner of the path and whether it is a directory when `stat` succeeds,
  its `errno` otherwise. -/
  stat : List ServerEvent → CFString → Except Nat (uid_t × Bool)
  /-- The `errno` of `rmdir`, 0 when it succeeds. -/
  rmdir : List ServerEvent → CFString → Nat
  link : List ServerEvent → CFString → CFString → Bool
  /-- Whether the file system is mounted read-only, when `___statfs` succeeds. -/
  ___statfs : List ServerEvent → CFString → Option Bool
  /-- Whether `DACallbackCreate` succeeds. -/
  DACallbackCreate : List ServerEvent → Bool
  /-- Whether `SCDynamicStoreKeyCreateConsoleUser` succeeds. -/
  SCDynamicStoreKeyCreateConsoleUser : List ServerEvent → Bool
  /-- Whether `CFArrayCreateMutable` succeeds. -/
  CFArrayCreateMutable : List ServerEvent → Bool
  /-- The contents of the disk object `DADiskCreateFromIOMedia` makes, when it
  makes one. -/
  DADiskCreateFromIOMedia : List ServerEvent → io_service_t → Option DADisk
  /-- The contents of the disk object `DADiskCreateFromVolumePath` makes. -/
  DADiskCreateFromVolumePath : List ServerEvent → statfs → Option DADisk
  /-- `_DAVolumeGetID` of `DAInternal.c`: the disk id of a mount table entry. -/
  _DAVolumeGetID : statfs → CFString
  /-- The properties of a media object, by their I/O Kit key, when
  `IORegistryEntryCreateCFProperties` gives them. -/
  IORegistryEntryCreateCFProperties :
    List ServerEvent → io_service_t → Option (CFString → Option CFType)
  /-- The mount table `getmntinfo` gives. -/
  getmntinfo : List ServerEvent → List statfs
  /-- The name of the volume of the file system kind at the path. -/
  _DAFileSystemCopyName : List ServerEvent → CFString → CFType → Option CFString
  /-- The name of the media object in the registry, when it can be had. -/
  IORegistryEntryGetName : List ServerEvent → io_service_t → Option CFString
  /-- The `encrypted` and `encryptionDetail` that `_DADiskGetEncryptionStatus`
  gives for a disk. -/
  _DADiskGetEncryptionStatus : List ServerEvent → DADiskRef → Option CFType × Option CFType
  /-- The property of the given name found above a media object in the service
  plane. -/
  IORegistryEntrySearchCFProperty : List ServerEvent → io_service_t → CFString → Option CFType
  /-- The bytes `_DASerialize` makes of a queue of callbacks, when it makes
  them. -/
  _DASerialize : List DACallback → Option (List Nat)
  /-- Whether `___CFDataCopyBytes` can copy the bytes for the client. -/
  ___CFDataCopyBytes : List ServerEvent → List Nat → Bool
  /-- Whether `DARequestCreate` succeeds. -/
  DARequestCreate : List ServerEvent → Bool
  /-- The status of `DAAuthorize( session, _kDAAuthorizeOptionIsOwner, disk,
  userUID, userGID, right )`. -/
  DAAuthorize : List ServerEvent → DASessionRef → DADiskRef → uid_t → Nat → CFString →
    kern_return_t
  /-- The URL `CFURLCreateWithString` makes of a string, when it makes one. -/
  CFURLCreateWithString : CFType → Option CFType
  /-- The status of `sandbox_check_by_audit_token( token, "file-mount", … path )`. -/
  sandbox_check_by_audit_token : List ServerEvent → CFString → Int
  /-- The console user `___SCDynamicStoreCopyConsoleUser( session, … )` gives, and
  what it leaves in the user id and the group id; the argument tells whether a
  session was given. -/
  ___SCDynamicStoreCopyConsoleUser : List ServerEvent → Bool → Option CFString × uid_t × Nat
  SCDynamicStoreCopyConsoleInformation : List ServerEvent → Bool → Option (List CFType)
  ___SCDynamicStoreCopyConsoleInformation : List ServerEvent → Bool → Option (List CFType)
  /-- The value of `kSCConsoleSessionUserName` in an entry of a console user
  list. -/
  kSCConsoleSessionUserName : CFType → Option CFString
  /-- `___CFDictionaryGetIntegerValue( dictionary, kSCConsoleSessionUID )`. -/
  kSCConsoleSessionUID : CFType → Nat
  /-- The preference list after `DAPreferenceListRefresh`. -/
  DAPreferenceListRefresh : List ServerEvent → DAPreferenceList
  /-- `__CoreStorageCopyVolumeProperties`, when the function is there: for a
  logical volume, the value of `kCoreStorageLogicalFamilyUUIDKey` in its
  properties, when it has properties. -/
  __CoreStorageCopyVolumeProperties :
    Option (List ServerEvent → CFString → Option (Option CFString))
  /-- Whether the function `__CoreStorageLockFamily` is there. -/
  __CoreStorageLockFamily : Bool
  /-- The key/value pairs a match dictionary lists
  (`CFDictionaryGetKeysAndValues`). -/
  CFDictionaryGetKeysAndValues : CFType → List (DADiskDescriptionKey × CFType)

/-! ## Lookups (DAServer.c 93-135, 433-453) -/

/-- `__DADiskListGetDisk`: the first disk of the disk list with the id. -/
def __DADiskListGetDisk (s : Server) (diskID : CFString) : Option DADiskRef :=
  s.gDADiskList.find? fun disk => decide (DADiskGetID (s.disks disk) = diskID)

/-- `__DADiskListGetDiskWithIOMedia`: the first disk of the disk list whose
media object is the given one.  `IOObjectIsEqualTo` compares the two object
names. -/
def __DADiskListGetDiskWithIOMedia (s : Server) (media : io_service_t) : Option DADiskRef :=
  s.gDADiskList.find? fun disk => decide (DADiskGetIOMedia (s.disks disk) = media)

/-- `__DASessionListGetSession`: the first session of the session list with the
id. -/
def __DASessionListGetSession (s : Server) (sessionID : mach_port_t) : Option DASessionRef :=
  s.gDASessionList.find? fun session => decide (DASessionGetID (s.sessions session) = sessionID)

/-! ## `_DAServermkdir` and `_DAServerrmdir` (DAServer.c 1326-1501) -/

/-- The path an RPC directory operation works on (DAServer.c 1343-1389, the same
lines at 1428-1474): the part of `_path` before its last `/` must resolve to the
mount point folder itself, and the result is the folder, a `/` and what follows
the last `/` of `_path`.  `none` is the `goto exit` and the two tests that fail
without a word. -/
def _DAServermkdir.resolvedPath (env : ServerEnv) (_path : CFString) (s : Server) :
    Option CFString :=
  if _path.length ≥ MAXPATHLEN then none
  else
    match strrchr _path '/' with
    | none => none
    | some len =>
      let dirPath := _path.take len
      let dirName := (_path.drop (len + 1)).take (MAXPATHLEN - 1)
      match env.realpath s.trace dirPath with
      | none => none
      | some resolvedPath =>
        if strncmpStart resolvedPath kDAMainMountPointFolder then
          if resolvedPath.length = kDAMainMountPointFolder.length then
            if resolvedPath.length + 1 ≥ MAXPATHLEN then none
            else if resolvedPath.length + 1 + dirName.length ≥ MAXPATHLEN then none
            else some (resolvedPath ++ ['/'] ++ dirName)
          else none
        else none

/-- `_DAServermkdir( _session, _path, _token )`; of the token the effective user
id is given. -/
def _DAServermkdir (env : ServerEnv) (_session : mach_port_t) (_path : CFString)
    (_token : uid_t) (s : Server) : kern_return_t × Server :=
  if _session ≠ 0 then
    match __DASessionListGetSession s _session with
    | some _ =>
      match _DAServermkdir.resolvedPath env _path s with
      | none => (kDAReturnBadArgument, s)
      | some resolvedPath =>
        let errno := env.mkdir s.trace resolvedPath
        let s1 := s.emit (ServerEvent.mkdir resolvedPath 0o111 errno)
        if errno = 0 then (0, s1.emit (ServerEvent.lchown resolvedPath _token))
        else (unix_err errno, s1)
    | none => (kDAReturnBadArgument, s)
  else (kDAReturnBadArgument, s)

/-- `_DAServerrmdir( _session, _path, _token )`. -/
def _DAServerrmdir (env : ServerEnv) (_session : mach_port_t) (_path : CFString)
    (_token : uid_t) (s : Server) : kern_return_t × Server :=
  if _session ≠ 0 then
    match __DASessionListGetSession s _session with
    | some _ =>
      match _DAServermkdir.resolvedPath env _path s with
      | none => (kDAReturnBadArgument, s)
      | some resolvedPath =>
        match env.stat s.trace resolvedPath with
        | Except.error errno => (unix_err errno, s)
        | Except.ok (st_uid, isDirectory) =>
          if (_token = 0 ∨ _token = st_uid) ∧ isDirectory = true then
            let errno := env.rmdir s.trace resolvedPath
            let s1 := s.emit (ServerEvent.rmdir resolvedPath errno)
            if errno ≠ 0 then (unix_err errno, s1) else (0, s1)
          else (kDAReturnNotPrivileged, s)
    | none => (kDAReturnBadArgument, s)
  else (kDAReturnBadArgument, s)

/-! ## `_DAServerDiskUnclaim` (DAServer.c 1795-1844) -/

def _DAServerDiskUnclaim (_session : mach_port_t) (_disk : CFString) (s : Server) :
    kern_return_t × Server :=
  if _session ≠ 0 then
    match __DASessionListGetSession s _session with
    | some session =>
      match __DADiskListGetDisk s _disk with
      | some disk =>
        match DADiskGetClaim (s.disks disk) with
        | some callback =>
          if DACallbackGetSession callback = some session then
            (kDAReturnSuccess, s.setDisk disk (DADiskSetClaim (s.disks disk) none))
          else (kDAReturnBadArgument, s)
        | none => (kDAReturnBadArgument, s)
      | none => (kDAReturnBadArgument, s)
    | none => (kDAReturnBadArgument, s)
  else (kDAReturnBadArgument, s)

/-! ## The register and the queue of a session

`_DAServerSessionRegisterCallback` hands the callback to the register of the
session and to the queue through functions of `DASession.c`, `DADisk.c` and
`DAQueue.c`, outside the sources.  The calls are recorded as they are made; what
they do to the session is modelled from the spec. -/

/-- Modelled from the spec: `DASessionRegisterCallback( session, callback )` is
defined in `DASession.c`, outside the sources.  A session holds "a list of
registered callbacks", and the order of the list is the order of "insertion":
the callback joins the register of the session at its end. -/
def DASessionRegisterCallback (session : DASessionRef) (callback : DACallback) (s : Server) :
    Server :=
  let s1 := s.emit (ServerEvent.DASessionRegisterCallback session callback)
  s1.setSession session
    { s1.sessions session with
      callbackRegister :=
        (DASessionGetCallbackRegister (s1.sessions session)).map fun register =>
          register ++ [callback] }

/-- Modelled from the spec: `DADiskMatch( disk, match )` is defined in
`DADisk.c`, outside the sources.  The match of a callback "filters by descriptor
equality": the "`match` predicate holds against the disk's current descriptor"
when "all listed key/value pairs [are] equal".  A callback without a match is
not filtered. -/
def DADiskMatch (env : ServerEnv) (disk : DADisk) (matching : Option CFType) : Bool :=
  match matching with
  | none => true
  | some dictionary =>
    (env.CFDictionaryGetKeysAndValues dictionary).all fun pair =>
      DADiskCompareDescription disk pair.1 (some pair.2)

/-- Modelled from the spec: `DASessionQueueCallback( session, callback )` is
defined in `DASession.c`, outside the sources.  A session holds "a
pending-delivery queue (FIFO)", and "within a session, callbacks are drained in
enqueue order": the record joins the queue of the session at its end. -/
def DASessionQueueCallback (session : DASessionRef) (callback : DACallback) (s : Server) :
    Server :=
  s.setSession session
    { s.sessions session with
      callbackQueue :=
        (DASessionGetCallbackQueue (s.sessions session)).map fun queue => queue ++ [callback] }

/-- Modelled from the spec: what the functions of `DAQueue.c`, outside the
sources, do to the queue of the session a callback is queued for.  "The
dispatcher does not invoke the client synchronously.  It appends a serialized
callback-invocation record to the target session's pending-delivery queue", and
"a callback is delivered only if its `match` predicate holds against the disk's
current descriptor".  The record is the callback with the disk it is about, as
`_DAServerSessionCopyCallbackQueue` finds it in the queue; a callback that is
not about a disk (list complete, idle) has no descriptor to be held against and
is delivered. -/
def DAQueueCallback.deliver (env : ServerEnv) (session : DASessionRef) (callback : DACallback)
    (argument0 : Option DADiskRef) (s : Server) : Server :=
  let delivered : Bool :=
    match argument0 with
    | some disk => DADiskMatch env (s.disks disk) callback.matching
    | none => true
  if delivered then DASessionQueueCallback session (DACallbackSetDisk callback argument0) s
  else s

/-- Modelled from the spec: `DAQueueCallback( callback, argument0, argument1 )`
is defined in `DAQueue.c`, outside the sources: the call is recorded, and the
callback is delivered to the queue of the session it belongs to
(`DAQueueCallback.deliver`). -/
def DAQueueCallback (env : ServerEnv) (callback : DACallback) (argument0 : Option DADiskRef)
    (argument1 : Option CFType) (s : Server) : Server :=
  let s1 := s.emit (ServerEvent.DAQueueCallback callback argument0 argument1)
  match DACallbackGetSession callback with
  | some session => DAQueueCallback.deliver env session callback argument0 s1
  | none => s1

/-- Modelled from the spec: the callbacks `DAQueueCallbacks` of `DAQueue.c`,
outside the sources, queues for a session and a kind.  A record of the queue is
the invocation of a callback the client has registered (it carries "a remote
target pair (address, context) used as the opaque identity delivered back to the
client"; list complete and idle are kinds of callbacks a client registers,
DAServer.c 2255 and 2306), and "within a session, callbacks of matching kind are
ordered by their `order` field (stable tiebreak by insertion)". -/
def DAQueueCallbacks.callbacks (session : DASession) (kind : Nat) : List DACallback :=
  List.insertionSort (fun a b : DACallback => a.order ≤ b.order)
    (((DASessionGetCallbackRegister session).getD []).filter fun callback =>
      decide (DACallbackGetKind callback = kind))

/-- Modelled from the spec: `DAQueueCallbacks( session, kind, argument0,
argument1 )` is defined in `DAQueue.c`, outside the sources: the call is
recorded, and every callback of the kind in the register of the session is
delivered to the queue of the session, in the order of
`DAQueueCallbacks.callbacks`. -/
def DAQueueCallbacks (env : ServerEnv) (session : DASessionRef) (kind : Nat)
    (argument0 : Option DADiskRef) (argument1 : Option CFType) (s : Server) : Server :=
  let s1 := s.emit (ServerEvent.DAQueueCallbacks session kind argument0 argument1)
  (DAQueueCallbacks.callbacks (s1.sessions session) kind).foldl
    (fun x callback => DAQueueCallback.deliver env session callback argument0 x) s1

/-! ## `_DAServerSessionRegisterCallback` (DAServer.c 2226-2374) -/

/-- The replay of the disks that have appeared (DAServer.c 2284-2296): a
callback is queued for every disk of the list with `StagedAppear`, in the order
of the list. -/
def _DAServerSessionRegisterCallback.replay (env : ServerEnv) (callback : DACallback) :
    List DADiskRef → Server → Server
  | [], s => s
  | disk :: rest, s =>
    let s1 :=
      if DADiskGetState (s.disks disk) kDADiskStateStagedAppear then
        DAQueueCallback env callback (some disk) none s
      else s
    _DAServerSessionRegisterCallback.replay env callback rest s1

/-- `_DAServerSessionRegisterCallback`.  The match and the watch arrive
unserialized; `_DAConfigurationCallback` (DAServer.c 456-839) is a parameter. -/
def _DAServerSessionRegisterCallback (env : ServerEnv)
    (_DAConfigurationCallback : Server → Server) (_session : mach_port_t)
    (_address _context : Nat) (_kind : Nat) (_order : Int) (_match _watch : Option CFType)
    (s : Server) : kern_return_t × Server :=
  if _session ≠ 0 then
    match __DASessionListGetSession s _session with
    | some session =>
      if _kDADiskLastKind < _kind then (kDAReturnBadArgument, s)
      else if env.DACallbackCreate s.trace then
        let callback : DACallback :=
          { session := some session, address := _address, context := _context, kind := _kind,
            order := _order, matching := _match, watch := _watch }
        let s1 := DASessionRegisterCallback session callback s
        let s2 :=
          if DACallbackGetKind callback = _kDADiskAppearedCallback then
            let s3 := _DAServerSessionRegisterCallback.replay env callback s1.gDADiskList s1
            let s4 := DAQueueCallbacks env session _kDADiskListCompleteCallback none none s3
            if s4.gDAIdle then
              let s5 := DAQueueCallbacks env session _kDAIdleCallback none none s4
              s5.setSession session
                (DASessionSetState (s5.sessions session) kDASessionStateIdle true)
            else s4
          else if DACallbackGetKind callback = _kDAIdleCallback then
            if s1.gDAIdle then
              let s3 := DAQueueCallback env callback none none s1
              s3.setSession session
                (DASessionSetState (s3.sessions session) kDASessionStateIdle true)
            else
              s1.setSession session
                (DASessionSetState (s1.sessions session) kDASessionStateIdle false)
          else if DACallbackGetKind callback = _kDADiskEjectApprovalCallback then
            if _DASessionGetName (s1.sessions session) = "SystemUIServer".toList then
              if env.SCDynamicStoreKeyCreateConsoleUser s1.trace then
                if env.CFArrayCreateMutable s1.trace then _DAConfigurationCallback s1 else s1
              else s1
            else s1
          else s1
        (kDAReturnSuccess, s2)
      else (kDAReturnBadArgument, s)
    | none => (kDAReturnBadArgument, s)
  else (kDAReturnBadArgument, s)

/-! ## `_DAServerSessionRelease` (DAServer.c 2376-2440) -/

def _DAServerSessionRelease (_session : mach_port_t) (s : Server) : kern_return_t × Server :=
  if _session ≠ 0 then
    match __DASessionListGetSession s _session with
    | some session =>
      let s1 := s.setSession session
        { s.sessions session with
          callbackQueue := (DASessionGetCallbackQueue (s.sessions session)).map fun _ => [] }
      let s2 := s1.setSession session
        { s1.sessions session with
          callbackRegister :=
            (DASessionGetCallbackRegister (s1.sessions session)).map fun _ => [] }
      let s3 := s2.emit (ServerEvent.DAQueueReleaseSession session)
      let s4 := s3.emit (ServerEvent.DASessionUnscheduleFromRunLoop session)
      let s5 := s4.setSession session
        (DASessionSetState (s4.sessions session) kDASessionStateZombie true)
      let s6 : Server := { s5 with gDASessionList := s5.gDASessionList.erase session }
      (kDAReturnSuccess, s6.emit ServerEvent.___os_transaction_end)
    | none => (kDAReturnBadArgument, s)
  else (kDAReturnBadArgument, s)

/-! ## The disk list as an array of disk objects -/

/-- Modelled from the spec: `CFEqual` on disk objects is defined in `DADisk.c`,
outside the sources; the disk list is "keyed by stable device id", and two disk
objects are equal when they have the same id. -/
def DADiskEqual (s : Server) (disk1 disk2 : DADiskRef) : Bool :=
  decide (DADiskGetID (s.disks disk1) = DADiskGetID (s.disks disk2))

/-- `___CFArrayGetValue( gDADiskList, disk )` of `DAInternal.h`: the first disk
of the list equal to the given one. -/
def ___CFArrayGetValue (s : Server) (disk : DADiskRef) : Option DADiskRef :=
  s.gDADiskList.find? fun value => DADiskEqual s value disk

/-- `___CFArrayContainsValue( gDADiskList, disk )`. -/
def ___CFArrayContainsValue (s : Server) (disk : DADiskRef) : Bool :=
  s.gDADiskList.any fun value => DADiskEqual s value disk

/-- `___CFArrayRemoveValue( gDADiskList, disk )`: the first disk of the list
equal to the given one leaves the list. -/
def ___CFArrayRemoveValue (s : Server) (disk : DADiskRef) : Server :=
  { s with gDADiskList := s.gDADiskList.eraseP fun value => DADiskEqual s value disk }

/-- `CFArrayInsertValueAtIndex( gDADiskList, 0, disk )`. -/
def CFArrayInsertValueAtIndex (s : Server) (disk : DADiskRef) : Server :=
  { s with gDADiskList := disk :: s.gDADiskList }

/-- Modelled from the spec: the Unit Registry is in `DAUnit.c`, outside the
sources.  A unit "holds per-unit flags" and is "created lazily on first disk of
that unit; destroyed when its last disk disappears": the flags of a unit are
those of a disk of the disk list that is of the unit, and none is set when the
disk list has no disk of the unit. -/
def DAUnitGetFlags (s : Server) (unit : Nat) : DAUnitState → Bool :=
  match s.gDADiskList.find? fun disk => decide (DADiskGetBSDUnit (s.disks disk) = unit) with
  | some disk => (s.disks disk).unitState
  | none => fun _ => false

/-- Modelled from the spec: `DADiskCreateFromIOMedia` is defined in `DADisk.c`,
outside the sources; it makes "a fresh Disk from the kernel object": a new
object, whose media object is the given one, whose unit flags are those of its
unit, and whose other contents come from the registry. -/
def DADiskCreateFromIOMedia (env : ServerEnv) (media : io_service_t) (s : Server) :
    Option DADiskRef × Server :=
  match env.DADiskCreateFromIOMedia s.trace media with
  | none => (none, s)
  | some disk =>
    (some s.created,
      { s with
        disks := Function.update s.disks s.created
          { disk with media := media, unitState := DAUnitGetFlags s (DADiskGetBSDUnit disk) }
        created := s.created + 1 })

/-- Modelled from the spec: `DADiskCreateFromVolumePath` is defined in
`DADisk.c`, outside the sources; it makes "a new Disk from the volume path" of a
mount table entry "not matching any known disk": a new object, with the id of
the entry, no media object, and the unit flags of its unit. -/
def DADiskCreateFromVolumePath (env : ServerEnv) (fs : statfs) (s : Server) :
    Option DADiskRef × Server :=
  match env.DADiskCreateFromVolumePath s.trace fs with
  | none => (none, s)
  | some disk =>
    (some s.created,
      { s with
        disks := Function.update s.disks s.created
          { disk with
            id := env._DAVolumeGetID fs
            media := IO_OBJECT_NULL
            unitState := DAUnitGetFlags s (DADiskGetBSDUnit disk) }
        created := s.created + 1 })

/-- The state of the mount path, as the functions of `DAMount.c` see it. -/
def Server.world (s : Server) : World :=
  { disks := s.disks, gDAMountPointList := s.gDAMountPointList, trace := s.mountTrace }

def Server.setWorld (s : Server) (w : World) : Server :=
  { s with disks := w.disks, gDAMountPointList := w.gDAMountPointList, mountTrace := w.trace }

/-! ## `__DAMediaPropertyChangedCallback` (DAServer.c 179-431) -/

/-! The keys of the properties of a media object, from `IOMedia.h`. -/

def kIOMediaContentKey : CFString := "Content".toList

def kIOMediaEjectableKey : CFString := "Ejectable".toList

def kIOMediaLeafKey : CFString := "Leaf".toList

def kIOMediaPreferredBlockSizeKey : CFString := "Preferred Block Size".toList

def kIOMediaRemovableKey : CFString := "Removable".toList

def kIOMediaSizeKey : CFString := "Size".toList

def kIOMediaWholeKey : CFString := "Whole".toList

def kIOMediaWritableKey : CFString := "Writable".toList

/-- One watched key (as at DAServer.c 298-305): when the description of the disk
differs from the object, it is set to the object and the key joins the changed
keys. -/
def __DAMediaPropertyChangedCallback.update (disk : DADiskRef) (key : DADiskDescriptionKey)
    (object : Option CFType) (r : Server × List DADiskDescriptionKey) :
    Server × List DADiskDescriptionKey :=
  if DADiskCompareDescription (r.1.disks disk) key object = false then
    (r.1.setDisk disk (DADiskSetDescription (r.1.disks disk) key object), r.2 ++ [key])
  else r

/-- The volume name taken from the registry for a disk of an APFS unit
(DAServer.c 240-261); the last component tells whether the name changed. -/
def __DAMediaPropertyChangedCallback.mediaName (env : ServerEnv) (service : io_service_t)
    (disk : DADiskRef) (s : Server) : Server × List DADiskDescriptionKey × Bool :=
  if DAUnitGetState (s.disks disk) _kDAUnitStateHasAPFS then
    match env.IORegistryEntryGetName s.trace service with
    | some name =>
      if DADiskCompareDescription (s.disks disk) kDADiskDescriptionVolumeNameKey
          (some (CFType.string name)) = false then
        let s1 := s.setDisk disk
          (DADiskSetDescription (s.disks disk) kDADiskDescriptionVolumeNameKey
            (some (CFType.string name)))
        let s2 := s1.setDisk disk
          (DADiskSetDescription (s1.disks disk) kDADiskDescriptionMediaNameKey
            (some (CFType.string name)))
        (s2, [kDADiskDescriptionVolumeNameKey], true)
      else (s, [], false)
    | none => (s, [], false)
  else (s, [], false)

/-- The volume name of the disk (DAServer.c 209-262): taken from the file system
when the disk has a volume path and is in the mount table, from the registry
otherwise. -/
def __DAMediaPropertyChangedCallback.volumeName (env : ServerEnv) (service : io_service_t)
    (disk : DADiskRef) (found : Bool) (s : Server) :
    Server × List DADiskDescriptionKey × Bool :=
  match DADiskGetDescription (s.disks disk) kDADiskDescriptionVolumePathKey with
  | some path =>
    if found then
      match env._DAFileSystemCopyName s.trace (DAFileSystemGetKind (s.disks disk)) path with
      | some name =>
        if DADiskCompareDescription (s.disks disk) kDADiskDescriptionVolumeNameKey
            (some (CFType.string name)) = false then
          (s.setDisk disk
            (DADiskSetDescription (s.disks disk) kDADiskDescriptionVolumeNameKey
              (some (CFType.string name))),
            [kDADiskDescriptionVolumeNameKey], true)
        else (s, [], false)
      | none => (s, [], false)
    else __DAMediaPropertyChangedCallback.mediaName env service disk s
  | none => __DAMediaPropertyChangedCallback.mediaName env service disk s

/-- The mount point follows the new volume name (DAServer.c 263-293). -/
def __DAMediaPropertyChangedCallback.move (menv : Env) (disk : DADiskRef) (path : CFType)
    (r : Server × List DADiskDescriptionKey) : Server × List DADiskDescriptionKey :=
  let made := DAMountCreateMountPointWithAction menv disk kDAMountPointActionMove r.1.world
  let s1 := r.1.setWorld made.2
  match made.1 with
  | some mountpoint =>
    let s2 := s1.setDisk disk
      (DADiskSetBypath (s1.disks disk)
        (match mountpoint with
          | CFType.url bypath => some bypath
          | _ => none))
    if path = CFType.url "/".toList then (s2, r.2)
    else
      (s2.setDisk disk
        (DADiskSetDescription (s2.disks disk) kDADiskDescriptionVolumePathKey (some mountpoint)),
        r.2 ++ [kDADiskDescriptionVolumePathKey])
  | none => (s1, r.2)

/-- The part of the callback that runs when no command is active on the disk
(DAServer.c 201-294). -/
def __DAMediaPropertyChangedCallback.rename (env : ServerEnv) (menv : Env)
    (service : io_service_t) (disk : DADiskRef) (s : Server) :
    Server × List DADiskDescriptionKey :=
  if DADiskGetState (s.disks disk) kDADiskStateCommandActive = false then
    let path := DADiskGetDescription (s.disks disk) kDADiskDescriptionVolumePathKey
    let found := (env.getmntinfo s.trace).any fun fs =>
      decide (env._DAVolumeGetID fs = DADiskGetID (s.disks disk))
    let named := __DAMediaPropertyChangedCallback.volumeName env service disk found s
    match path with
    | some path =>
      if named.2.2 = true ∧ found = true then
        __DAMediaPropertyChangedCallback.move menv disk path (named.1, named.2.1)
      else (named.1, named.2.1)
    | none => (named.1, named.2.1)
  else (s, [])

/-- The watched properties of the media object (DAServer.c 296-411), in the
order of the source. -/
def __DAMediaPropertyChangedCallback.properties (env : ServerEnv) (service : io_service_t)
    (disk : DADiskRef) (properties : CFString → Option CFType)
    (r : Server × List DADiskDescriptionKey) : Server × List DADiskDescriptionKey :=
  let r1 := __DAMediaPropertyChangedCallback.update disk kDADiskDescriptionMediaContentKey
    (properties kIOMediaContentKey) r
  let r2 := __DAMediaPropertyChangedCallback.update disk kDADiskDescriptionMediaEjectableKey
    (properties kIOMediaEjectableKey) r1
  let r3 := __DAMediaPropertyChangedCallback.update disk kDADiskDescriptionMediaLeafKey
    (properties kIOMediaLeafKey) r2
  let r4 := __DAMediaPropertyChangedCallback.update disk kDADiskDescriptionMediaBlockSizeKey
    (properties kIOMediaPreferredBlockSizeKey) r3
  let r5 := __DAMediaPropertyChangedCallback.update disk kDADiskDescriptionMediaRemovableKey
    (properties kIOMediaRemovableKey) r4
  let r6 := __DAMediaPropertyChangedCallback.update disk kDADiskDescriptionMediaSizeKey
    (properties kIOMediaSizeKey) r5
  let r7 := __DAMediaPropertyChangedCallback.update disk kDADiskDescriptionMediaWholeKey
    (properties kIOMediaWholeKey) r6
  let r8 := __DAMediaPropertyChangedCallback.update disk kDADiskDescriptionMediaWritableKey
    (properties kIOMediaWritableKey) r7
  let status := env._DADiskGetEncryptionStatus r8.1.trace disk
  let r9 := __DAMediaPropertyChangedCallback.update disk kDADiskDescriptionMediaEncryptedKey
    status.1 r8
  let r10 := __DAMediaPropertyChangedCallback.update disk
    kDADiskDescriptionMediaEncryptionDetailKey status.2 r9
  __DAMediaPropertyChangedCallback.update disk kDADiskDescriptionDeviceTDMLockedKey
    (env.IORegistryEntrySearchCFProperty r10.1.trace service "AppleTDMLocked".toList) r10

/-- `__DAMediaPropertyChangedCallback( context, service, argument )`. -/
def __DAMediaPropertyChangedCallback (env : ServerEnv) (menv : Env) (service : io_service_t)
    (s : Server) : Server :=
  match __DADiskListGetDiskWithIOMedia s service with
  | some disk =>
    if env.CFArrayCreateMutable s.trace then
      match env.IORegistryEntryCreateCFProperties s.trace service with
      | some properties =>
        let r := __DAMediaPropertyChangedCallback.properties env service disk properties
          (__DAMediaPropertyChangedCallback.rename env menv service disk s)
        if r.2 ≠ [] then
          if DADiskGetState (r.1.disks disk) kDADiskStateStagedAppear then
            r.1.emit (ServerEvent.DADiskDescriptionChangedCallback disk r.2)
          else r.1
        else r.1
      | none => s
    else s
  | none => s

/-! ## `_DAMediaDisappearedCallback` (DAServer.c 1090-1272) -/

/-- The locals of `_DAMediaDisappearedCallback` that live across the media
objects: `prevDeviceUnit` (`none` is -1) and `diskInfoArray`, which holds the
disks whose serialization the source appends. -/
structure _DAMediaDisappearedCallback.Locals where
  prevDeviceUnit : Option Nat
  diskInfoArray : List DADiskRef

/-- `___CFURLCopyFileSystemRepresentation` of `DAInternal.h`. -/
def ___CFURLCopyFileSystemRepresentation (url : CFType) : Option CFString :=
  match url with
  | CFType.url path => some path
  | _ => none

/-- Whether the removal of the disk is told to the user (DAServer.c 1180-1221). -/
def _DAMediaDisappearedCallback.dialog (env : ServerEnv) (disk : DADiskRef) (s : Server) :
    Bool :=
  let dialog1 : Bool :=
    if DADiskGetDescription (s.disks disk) kDADiskDescriptionVolumeMountableKey
        = some kCFBooleanFalse then false
    else true
  let dialog2 : Bool :=
    if DADiskGetDescription (s.disks disk) kDADiskDescriptionVolumePathKey = none then false
    else dialog1
  if dialog2 = true
      ∧ DADiskGetDescription (s.disks disk) kDADiskDescriptionMediaWritableKey
        = some kCFBooleanTrue then
    match DADiskGetDescription (s.disks disk) kDADiskDescriptionVolumePathKey with
    | some mountpoint =>
      match ___CFURLCopyFileSystemRepresentation mountpoint with
      | some path =>
        match env.___statfs s.trace path with
        | some readOnly => if readOnly then false else dialog2
        | none => dialog2
      | none => dialog2
    | none => dialog2
  else false

/-- The forced unmount of a disk that was staged for mount, and the removal
dialog (DAServer.c 1171-1242). -/
def _DAMediaDisappearedCallback.unmount (env : ServerEnv) (disk : DADiskRef)
    (locals : _DAMediaDisappearedCallback.Locals) (s : Server) :
    _DAMediaDisappearedCallback.Locals × Server :=
  if DADiskGetState (s.disks disk) kDADiskStateStagedMount then
    let s1 := s.setState disk kDADiskStateStagedAppear true
    let s2 := s1.emit (ServerEvent.DADiskUnmount disk kDADiskUnmountOptionForce)
    if _DAMediaDisappearedCallback.dialog env disk s2 then
      if locals.prevDeviceUnit = none
          ∨ locals.prevDeviceUnit = some (DADiskGetBSDUnit (s2.disks disk)) then
        ({ prevDeviceUnit := some (DADiskGetBSDUnit (s2.disks disk))
           diskInfoArray := locals.diskInfoArray ++ [disk] }, s2)
      else
        ({ prevDeviceUnit := some (DADiskGetBSDUnit (s2.disks disk))
           diskInfoArray := locals.diskInfoArray ++ [disk] },
          s2.emit (ServerEvent.DADialogShowDeviceRemoval locals.diskInfoArray))
    else (locals, s2)
  else (locals, s)

/-- The BSD links of the disk are removed (DAServer.c 1154-1162). -/
def _DAMediaDisappearedCallback.links (disk : DADiskRef) (s : Server) : Server :=
  let s1 :=
    match DADiskGetBSDLink (s.disks disk) true with
    | some link => s.emit (ServerEvent.unlink link)
    | none => s
  match DADiskGetBSDLink (s1.disks disk) false with
  | some link => s1.emit (ServerEvent.unlink link)
  | none => s1

/-- The queue lets go of the disk, and the clients that saw it appear are told
that it disappeared (DAServer.c 1164-1169). -/
def _DAMediaDisappearedCallback.release (disk : DADiskRef) (s : Server) : Server :=
  let s1 := s.emit (ServerEvent.DAQueueReleaseDisk disk)
  if DADiskGetState (s1.disks disk) kDADiskStateStagedAppear then
    s1.emit (ServerEvent.DADiskDisappearedCallback disk)
  else s1

/-- With the whole media the unit forgets what it had (DAServer.c 1244-1251). -/
def _DAMediaDisappearedCallback.whole (disk : DADiskRef) (s : Server) : Server :=
  if DADiskGetDescription (s.disks disk) kDADiskDescriptionMediaWholeKey
      = some kCFBooleanTrue then
    DAUnitSetState
      (DAUnitSetState (DAUnitSetState s disk _kDAUnitStateHasAPFS false) disk
        kDAUnitStateHasQuiesced false)
      disk kDAUnitStateHasQuiescedNoTimeout false
  else s

/-- The disk object leaves the tables (DAServer.c 1144-1256). -/
def _DAMediaDisappearedCallback.remove (env : ServerEnv) (disk : DADiskRef)
    (locals : _DAMediaDisappearedCallback.Locals) (s : Server) :
    _DAMediaDisappearedCallback.Locals × Server :=
  let s1 := _DAMediaDisappearedCallback.links disk s
  let s2 := _DAMediaDisappearedCallback.release disk s1
  let r := _DAMediaDisappearedCallback.unmount env disk locals s2
  let s3 := _DAMediaDisappearedCallback.whole disk r.2
  let s4 := s3.setState disk kDADiskStateZombie true
  (r.1, ___CFArrayRemoveValue s4 disk)

/-- One media object of the loop of `_DAMediaDisappearedCallback`
(DAServer.c 1115-1256).  `none` is a failed `assert`. -/
def _DAMediaDisappearedCallback.media (env : ServerEnv)
    (_DAMediaAppearedCallback : Server → Option Server) (context : Option DADiskRef)
    (media : io_service_t) (locals : _DAMediaDisappearedCallback.Locals) (s : Server) :
    Option (_DAMediaDisappearedCallback.Locals × Server) :=
  match __DADiskListGetDiskWithIOMedia s media with
  | some disk => some (_DAMediaDisappearedCallback.remove env disk locals s)
  | none =>
    if context ≠ none then none
    else
      match _DAMediaAppearedCallback s with
      | none => none
      | some s1 =>
        match __DADiskListGetDiskWithIOMedia s1 media with
        | some disk => some (_DAMediaDisappearedCallback.remove env disk locals s1)
        | none => some (locals, s1)

/-- The loop `for ( ; media ; media = IOIteratorNext( notification ) )` over the
media objects the iteration gives. -/
def _DAMediaDisappearedCallback.loop (env : ServerEnv)
    (_DAMediaAppearedCallback : Server → Option Server) (context : Option DADiskRef) :
    List io_service_t → _DAMediaDisappearedCallback.Locals → Server →
      Option (_DAMediaDisappearedCallback.Locals × Server)
  | [], locals, s => some (locals, s)
  | media :: notification, locals, s =>
    if media = IO_OBJECT_NULL then some (locals, s)
    else
      match _DAMediaDisappearedCallback.media env _DAMediaAppearedCallback context media
          locals s with
      | none => none
      | some r =>
        if context ≠ none then some r
        else
          _DAMediaDisappearedCallback.loop env _DAMediaAppearedCallback context notification
            r.1 r.2

/-- `_DAMediaDisappearedCallback( context, notification )`: with a context the
media object is that of the context, otherwise the media objects are those the
notification gives.  The call of `_DAMediaAppearedCallback` on the pending
appearances is a parameter. -/
def _DAMediaDisappearedCallback (env : ServerEnv)
    (_DAMediaAppearedCallback : Server → Option Server) (context : Option DADiskRef)
    (notification : List io_service_t) (s : Server) : Option Server :=
  let first : List io_service_t :=
    match context with
    | some disk => [DADiskGetIOMedia (s.disks disk)]
    | none => notification
  match _DAMediaDisappearedCallback.loop env _DAMediaAppearedCallback context first
      { prevDeviceUnit := none, diskInfoArray := [] } s with
  | none => none
  | some r =>
    let s1 :=
      if r.1.diskInfoArray.length ≠ 0 then
        r.2.emit (ServerEvent.DADialogShowDeviceRemoval r.1.diskInfoArray)
      else r.2
    some (s1.emit ServerEvent.DAStageSignal)

/-! ## `_DAMediaAppearedCallback` (DAServer.c 841-1088) -/

/-- The BSD permissions of the device nodes of a new disk (DAServer.c 940-995). -/
def _DAMediaAppearedCallback.permissions (disk : DADiskRef) (s : Server) : Server :=
  let s1 :=
    if DADiskGetMode (s.disks disk) ≠ 0 then
      (s.emit (ServerEvent.chmod (DADiskGetBSDPath (s.disks disk) true)
        (DADiskGetMode (s.disks disk) &&& 0o666))).emit
        (ServerEvent.chmod (DADiskGetBSDPath (s.disks disk) false)
          (DADiskGetMode (s.disks disk) &&& 0o666))
    else s
  if DADiskGetDescription (s.disks disk) kDADiskDescriptionMediaTypeKey ≠ none then
    match s.gDAConsoleUserList with
    | some gDAConsoleUserList =>
      let deviceMode0 : Nat := if gDAConsoleUserList.length > 1 then 0o666 else 0o640
      let deviceUser : uid_t :=
        if gDAConsoleUserList.length > 1 then ___UID_ROOT else s.gDAConsoleUserUID
      let deviceMode : Nat :=
        if DADiskGetDescription (s.disks disk) kDADiskDescriptionMediaWritableKey
            = some kCFBooleanFalse then deviceMode0 &&& 0o444
        else deviceMode0
      (((s1.emit (ServerEvent.chmod (DADiskGetBSDPath (s.disks disk) true) deviceMode)).emit
        (ServerEvent.chmod (DADiskGetBSDPath (s.disks disk) false) deviceMode)).emit
        (ServerEvent.chown (DADiskGetBSDPath (s.disks disk) true) (some deviceUser) none)).emit
        (ServerEvent.chown (DADiskGetBSDPath (s.disks disk) false) (some deviceUser) none)
    | none => s1
  else
    let s2 :=
      if DADiskGetUserGID (s.disks disk) ≠ 0 then
        (s1.emit (ServerEvent.chown (DADiskGetBSDPath (s.disks disk) true) none
          (some (DADiskGetUserGID (s.disks disk))))).emit
          (ServerEvent.chown (DADiskGetBSDPath (s.disks disk) false) none
            (some (DADiskGetUserGID (s.disks disk))))
      else s1
    if DADiskGetUserUID (s.disks disk) ≠ 0 then
      (s2.emit (ServerEvent.chown (DADiskGetBSDPath (s.disks disk) true)
        (some (DADiskGetUserUID (s.disks disk))) none)).emit
        (ServerEvent.chown (DADiskGetBSDPath (s.disks disk) false)
          (some (DADiskGetUserUID (s.disks disk))) none)
    else s2

/-- The BSD link of a new disk (DAServer.c 1001-1031): unless the link is a
`/dev/disk…` name, the two device nodes are linked, and a link that cannot be
made is forgotten. -/
def _DAMediaAppearedCallback.link (env : ServerEnv) (disk : DADiskRef) (s : Server) : Server :=
  match DADiskGetBSDLink (s.disks disk) true, DADiskGetBSDLink (s.disks disk) false with
  | some rawLink, link =>
    if strncmpStart rawLink "/dev/disk".toList then s
    else
      let linked1 := env.link s.trace (DADiskGetBSDPath (s.disks disk) true) rawLink
      let s1 := s.emit
        (ServerEvent.link (DADiskGetBSDPath (s.disks disk) true) rawLink linked1)
      let r : Bool × Server :=
        if linked1 then
          let linked2 := env.link s1.trace (DADiskGetBSDPath (s.disks disk) false)
            (link.getD [])
          let s2 := s1.emit
            (ServerEvent.link (DADiskGetBSDPath (s.disks disk) false) (link.getD []) linked2)
          if linked2 then (true, s2) else (false, s2.emit (ServerEvent.unlink rawLink))
        else (false, s1)
      if r.1 then r.2
      else
        let s3 := r.2.setDisk disk (DADiskSetBSDLink (r.2.disks disk) true none)
        s3.setDisk disk (DADiskSetBSDLink (s3.disks disk) false none)
  | none, _ => s

/-- A disk of a quiesced APFS unit skips the mount stage (DAServer.c 1037-1056).
`none` is `CFEqual` called on the content of a disk that has none, which halts
the daemon. -/
def _DAMediaAppearedCallback.stage (disk : DADiskRef) (s : Server) : Option Server :=
  match DADiskGetDescription (s.disks disk) kDADiskDescriptionMediaContentKey with
  | none => none
  | some content =>
    let s1 :=
      if content = CFType.string "41504653-0000-11AA-AA11-00306543ECAC".toList then
        DAUnitSetState s disk _kDAUnitStateHasAPFS true
      else s
    if DAUnitGetState (s1.disks disk) _kDAUnitStateHasAPFS then
      if DAUnitGetState (s1.disks disk) kDAUnitStateHasQuiescedNoTimeout then
        some (s1.setState disk kDADiskStateStagedMount true)
      else some s1
    else some s1

/-- The new disk object is set up and joins the disk list, at its head
(DAServer.c 922-1070).  The interest notifications of the media object are left
out.  `none` is a halt of the daemon. -/
def _DAMediaAppearedCallback.insert (env : ServerEnv) (disk : DADiskRef) (s : Server) :
    Option Server :=
  let s1 := _DAMediaAppearedCallback.permissions disk s
  let s2 := _DAMediaAppearedCallback.link env disk s1
  match _DAMediaAppearedCallback.stage disk s2 with
  | none => none
  | some s3 =>
    let s4 := DAUnitSetState s3 disk kDAUnitStateStagedUnreadable false
    some (CFArrayInsertValueAtIndex s4 disk)

/-- One media object of the loop of `_DAMediaAppearedCallback`
(DAServer.c 855-1084).  `none` is a failed `assert`. -/
def _DAMediaAppearedCallback.media (env : ServerEnv) (menv : Env) (media : io_service_t)
    (s : Server) : Option Server :=
  match __DADiskListGetDiskWithIOMedia s media with
  | some disk =>
    let s1 := __DAMediaPropertyChangedCallback env menv media s
    if DADiskGetDescription (s1.disks disk) kDADiskDescriptionVolumeMountableKey
        = some kCFBooleanTrue then
      if DADiskGetDescription (s1.disks disk) kDADiskDescriptionMediaLeafKey
          = some kCFBooleanFalse then
        some (s1.emit (ServerEvent.DADiskProbe disk))
      else some s1
    else some s1
  | none =>
    let created := DADiskCreateFromIOMedia env media s
    match created.1 with
    | some disk =>
      match ___CFArrayGetValue created.2 disk with
      | some context =>
        match _DAMediaDisappearedCallback env (fun _ => none) (some context) [] created.2 with
        | none => none
        | some s1 =>
          if ___CFArrayContainsValue s1 disk then none
          else _DAMediaAppearedCallback.insert env disk s1
      | none => _DAMediaAppearedCallback.insert env disk created.2
    | none => some created.2

/-- The loop `while ( ( media = IOIteratorNext( notification ) ) )`. -/
def _DAMediaAppearedCallback.loop (env : ServerEnv) (menv : Env) :
    List io_service_t → Server → Option Server
  | [], s => some s
  | media :: notification, s =>
    if media = IO_OBJECT_NULL then some s
    else
      match _DAMediaAppearedCallback.media env menv media s with
      | none => none
      | some s1 => _DAMediaAppearedCallback.loop env menv notification s1

/-- `_DAMediaAppearedCallback( context, notification )`, on the media objects
the notification gives. -/
def _DAMediaAppearedCallback (env : ServerEnv) (menv : Env) (notification : List io_service_t)
    (s : Server) : Option Server :=
  match _DAMediaAppearedCallback.loop env menv notification s with
  | none => none
  | some s1 => some (s1.emit ServerEvent.DAStageSignal)

/-- `_DAMediaAppearedCallback( NULL, gDAMediaAppearedNotification )`: the media
objects pending on the appearance notification are taken from it. -/
def _DAMediaAppearedCallback.pending (env : ServerEnv) (menv : Env) (s : Server) :
    Option Server :=
  _DAMediaAppearedCallback env menv s.gDAMediaAppearedNotification
    { s with gDAMediaAppearedNotification := [] }

/-! ## `_DAVolumeMountedCallback` (DAServer.c 2562-2616) -/

/-- One entry of the mount table. -/
def _DAVolumeMountedCallback.entry (env : ServerEnv) (fs : statfs) (s : Server) : Server :=
  match __DADiskListGetDisk s (env._DAVolumeGetID fs) with
  | some disk =>
    if DADiskGetDescription (s.disks disk) kDADiskDescriptionVolumePathKey = none then
      let s1 :=
        if DADiskGetDescription (s.disks disk) kDADiskDescriptionVolumeMountableKey
            = some kCFBooleanFalse then
          s.emit (ServerEvent.DADiskProbe disk)
        else s
      s1.emit (ServerEvent.DADiskRefresh disk)
    else s
  | none =>
    if strncmpStart fs.f_mntfromname "/dev/disk".toList = false then
      if fs.MNT_UNION = false then
        if fs.f_fstypename ≠ "devfs".toList then
          let created := DADiskCreateFromVolumePath env fs s
          match created.1 with
          | some disk =>
            (CFArrayInsertValueAtIndex created.2 disk).emit ServerEvent.DAStageSignal
          | none => created.2
        else s
      else s
    else s

/-- `_DAVolumeMountedCallback`, on the mount table `getmntinfo` gives. -/
def _DAVolumeMountedCallback (env : ServerEnv) (mountList : List statfs) (s : Server) :
    Server :=
  mountList.foldl (fun s1 fs => _DAVolumeMountedCallback.entry env fs s1) s

/-! ## The notifications of the kernel -/

/-- What the kernel tells the daemon: media objects have appeared; media objects
have disappeared, while other appearances may be pending; the mount table has
changed, and is now the given one. -/
inductive Notification
  | mediaAppeared (media : List io_service_t)
  | mediaDisappeared (pending : List io_service_t) (media : List io_service_t)
  | volumeMounted (mountList : List statfs)

/-- The daemon handles a notification. -/
def Server.notify (env : ServerEnv) (menv : Env) (s : Server) : Notification → Option Server
  | Notification.mediaAppeared media =>
    _DAMediaAppearedCallback.pending env menv
      { s with gDAMediaAppearedNotification := s.gDAMediaAppearedNotification ++ media }
  | Notification.mediaDisappeared pending media =>
    _DAMediaDisappearedCallback env (_DAMediaAppearedCallback.pending env menv) none media
      { s with gDAMediaAppearedNotification := s.gDAMediaAppearedNotification ++ pending }
  | Notification.volumeMounted mountList => some (_DAVolumeMountedCallback env mountList s)

/-- The daemon handles the notifications one after the other. -/
def Server.run (env : ServerEnv) (menv : Env) : Server → List Notification → Option Server
  | s, [] => some s
  | s, notification :: rest =>
    match s.notify env menv notification with
    | none => none
    | some s1 => Server.run env menv s1 rest

/-! ## `_DAServerSessionCopyCallbackQueue` (DAServer.c 1846-1918) -/

/-- What is done to each callback of the queue before the queue is serialized
(DAServer.c 1882-1886): its disk, its match and its session are set to NULL. -/
def _DAServerSessionCopyCallbackQueue.strip (callback : DACallback) : DACallback :=
  DACallbackSetSession (DACallbackSetMatch (DACallbackSetDisk callback none) none) none

/-- `_DAServerSessionCopyCallbackQueue( _session, _queue, _queueSize )`: the
status, the bytes left in `*_queue` (`none` when it is not written, or written
with 0), and the state. -/
def _DAServerSessionCopyCallbackQueue (env : ServerEnv) (_session : mach_port_t) (s : Server) :
    kern_return_t × Option (List Nat) × Server :=
  if _session ≠ 0 then
    match __DASessionListGetSession s _session with
    | some session =>
      let r : kern_return_t × Option (List Nat) × Server :=
        match DASessionGetCallbackQueue (s.sessions session) with
        | some callbacks =>
          let queue := env._DASerialize
            (callbacks.map _DAServerSessionCopyCallbackQueue.strip)
          let copied : kern_return_t × Option (List Nat) :=
            match queue with
            | some bytes =>
              if env.___CFDataCopyBytes s.trace bytes then (kDAReturnSuccess, some bytes)
              else (kDAReturnBadArgument, none)
            | none => (kDAReturnBadArgument, none)
          (copied.1, copied.2,
            s.setSession session { s.sessions session with callbackQueue := some [] })
        | none => (kDAReturnBadArgument, none, s)
      (r.1, r.2.1,
        r.2.2.setSession session
          (DASessionSetState (r.2.2.sessions session) kDASessionStateTimeout false))
    | none => (kDAReturnBadArgument, none, s)
  else (kDAReturnBadArgument, none, s)

/-! ## `_DAServerSessionQueueRequest` (DAServer.c 1977-2170) -/

/-- The content of an EFI system partition (DAServer.c 2052). -/
def kEFISystemPartitionContent : CFType :=
  CFType.string "C12A7328-F81F-11D2-BA4B-00A0C93EC93B".toList

/-- The status of a mount request (DAServer.c 2042-2105).  `none` is `CFEqual`
called on a disk without media content, which halts the daemon. -/
def _DAServerSessionQueueRequest.mount (env : ServerEnv) (session : DASessionRef)
    (disk : DADiskRef) (argument2 : Option CFType) (euid : uid_t) (egid : Nat) (s : Server) :
    Option kern_return_t :=
  let status := env.DAAuthorize s.trace session disk euid egid _kDAAuthorizeRightMount
  let status1 : Option kern_return_t :=
    if status = 0 then
      match DADiskGetDescription (s.disks disk) kDADiskDescriptionMediaContentKey with
      | none => none
      | some content =>
        if content = kEFISystemPartitionContent then
          if euid ≠ 0 then
            if euid ≠ DADiskGetUserUID (s.disks disk) then some kDAReturnNotPermitted
            else some status
          else some status
        else some status
    else some status
  match status1 with
  | none => none
  | some status1 =>
    if status1 = 0 then
      let mountpoint : Option CFType :=
        match argument2 with
        | some string => env.CFURLCreateWithString string
        | none => none
      match mountpoint with
      | some mountpoint =>
        let status2 : kern_return_t :=
          match ___CFURLCopyFileSystemRepresentation mountpoint with
          | some path =>
            if env.sandbox_check_by_audit_token s.trace path ≠ 0 then kDAReturnNotPrivileged
            else 0
          | none => status1
        if euid ≠ 0 then
          if euid ≠ DADiskGetUserUID (s.disks disk) then some kDAReturnNotPrivileged
          else some status2
        else some status2
      | none => some status1
    else some status1

/-- `_DAServerSessionQueueRequest`.  The arguments 2 and 3 arrive unserialized;
of the token the effective user id and group id are given.  `none` is a halt of
the daemon. -/
def _DAServerSessionQueueRequest (env : ServerEnv) (_session : mach_port_t) (_kind : Nat)
    (_argument0 : CFString) (_argument1 : Int) (_argument2 _argument3 : Option CFType)
    (_address _context : Nat) (_token : uid_t × Nat) (s : Server) :
    Option (kern_return_t × Server) :=
  if _session ≠ 0 then
    match __DASessionListGetSession s _session with
    | some session =>
      match __DADiskListGetDisk s _argument0 with
      | some disk =>
        let callback : Option DACallback :=
          if env.DACallbackCreate s.trace then
            some { session := some session, address := _address, context := _context,
                   kind := _kind, order := 0, matching := none, watch := none }
          else none
        if env.DARequestCreate s.trace then
          let request : DARequest :=
            { kind := _kind, disk := disk, argument1 := _argument1, argument2 := _argument2,
              argument3 := _argument3, userUID := _token.1, userGID := _token.2,
              callback := callback }
          let status : Option kern_return_t :=
            if _kind = _kDADiskEject then
              some (env.DAAuthorize s.trace session disk _token.1 _token.2
                _kDAAuthorizeRightUnmount)
            else if _kind = _kDADiskMount then
              _DAServerSessionQueueRequest.mount env session disk _argument2 _token.1 _token.2 s
            else if _kind = _kDADiskRename then
              some (env.DAAuthorize s.trace session disk _token.1 _token.2
                _kDAAuthorizeRightRename)
            else if _kind = _kDADiskUnmount then
              some (env.DAAuthorize s.trace session disk _token.1 _token.2
                _kDAAuthorizeRightUnmount)
            else some kDAReturnSuccess
          match status with
          | none => none
          | some status =>
            if status = kDAReturnSuccess then
              some (status, s.emit (ServerEvent.DAQueueRequest request))
            else some (status, s)
        else some (kDAReturnBadArgument, s)
      | none => some (kDAReturnBadArgument, s)
    | none => some (kDAReturnBadArgument, s)
  else some (kDAReturnBadArgument, s)

/-! ## `_DAConfigurationCallback` (DAServer.c 456-839) -/

/-- The mode and the owner are set on the two device nodes of the disk
(DAServer.c 685-689, 748-752). -/
def _DAConfigurationCallback.setPermissions (disk : DADiskRef) (deviceMode : Nat)
    (deviceUser : uid_t) (s : Server) : Server :=
  (((s.emit (ServerEvent.chmod (DADiskGetBSDPath (s.disks disk) true) deviceMode)).emit
    (ServerEvent.chmod (DADiskGetBSDPath (s.disks disk) false) deviceMode)).emit
    (ServerEvent.chown (DADiskGetBSDPath (s.disks disk) true) (some deviceUser) none)).emit
    (ServerEvent.chown (DADiskGetBSDPath (s.disks disk) false) (some deviceUser) none)

/-- The BSD permissions of a disk while a console user is logged in
(DAServer.c 666-690). -/
def _DAConfigurationCallback.loginPermissions (gDAConsoleUserList : List CFType)
    (disk : DADiskRef) (s : Server) : Server :=
  if DADiskGetDescription (s.disks disk) kDADiskDescriptionMediaTypeKey ≠ none then
    let deviceMode0 : Nat := if gDAConsoleUserList.length > 1 then 0o666 else 0o640
    let deviceUser : uid_t :=
      if gDAConsoleUserList.length > 1 then ___UID_ROOT else s.gDAConsoleUserUID
    let deviceMode : Nat :=
      if DADiskGetDescription (s.disks disk) kDADiskDescriptionMediaWritableKey
          = some kCFBooleanFalse then deviceMode0 &&& 0o444
      else deviceMode0
    _DAConfigurationCallback.setPermissions disk deviceMode deviceUser s
  else s

/-- The BSD permissions of a disk while no console user is logged in
(DAServer.c 735-753). -/
def _DAConfigurationCallback.logoutPermissions (disk : DADiskRef) (s : Server) : Server :=
  if DADiskGetDescription (s.disks disk) kDADiskDescriptionMediaTypeKey ≠ none then
    let deviceMode0 : Nat := 0o640
    let deviceUser : uid_t := ___UID_ROOT
    let deviceMode : Nat :=
      if DADiskGetDescription (s.disks disk) kDADiskDescriptionMediaWritableKey
          = some kCFBooleanFalse then deviceMode0 &&& 0o444
      else deviceMode0
    _DAConfigurationCallback.setPermissions disk deviceMode deviceUser s
  else s

/-- The deferred mount of a volume at the login of the first user
(DAServer.c 697-709). -/
def _DAConfigurationCallback.loginMount (previousUserList : Option (List CFType))
    (disk : DADiskRef) (s : Server) : Server :=
  if previousUserList = none then
    if DADiskGetDescription (s.disks disk) kDADiskDescriptionVolumeMountableKey
        = some kCFBooleanTrue then
      if DAMountGetPreference s.gDAPreferenceList (s.disks disk)
          kDAMountPreferenceDisableAutoMount = false then
        if DAMountGetPreference s.gDAPreferenceList (s.disks disk) kDAMountPreferenceDefer then
          s.emit (ServerEvent.DADiskMountWithArguments disk none kDADiskMountOptionDefault
            ["automatic".toList])
        else s
      else s
    else s
  else s

/-- `CFUUIDCreateString`. -/
def CFUUIDCreateString (uuid : CFType) : Option CFString :=
  match uuid with
  | CFType.uuid value => some value
  | _ => none

/-- The logical volume family of an encrypted volume, `lvfUUID`
(DAServer.c 774-802). -/
def _DAConfigurationCallback.family (env : ServerEnv) (disk : DADiskRef) (s : Server) :
    Option CFString :=
  let encrypted := DADiskGetDescription (s.disks disk) kDADiskDescriptionMediaEncryptedKey
  let lvUUID : Option CFString :=
    match DADiskGetDescription (s.disks disk) kDADiskDescriptionMediaUUIDKey with
    | some object => if encrypted = some kCFBooleanTrue then CFUUIDCreateString object else none
    | none => none
  let lvProps : Option (Option CFString) :=
    match lvUUID with
    | some lvUUID =>
      match env.__CoreStorageCopyVolumeProperties with
      | some copyVolumeProperties => copyVolumeProperties s.trace lvUUID
      | none => none
    | none => none
  match lvProps with
  | some lvfUUID => lvfUUID
  | none => none

/-- The unmount of a deferred volume when no console user is logged in
(DAServer.c 760-824). -/
def _DAConfigurationCallback.logoutUnmount (env : ServerEnv) (disk : DADiskRef) (s : Server) :
    Server :=
  if DADiskGetDescription (s.disks disk) kDADiskDescriptionVolumeMountableKey
      = some kCFBooleanTrue then
    let r : Bool × Option CFString :=
      if DAMountGetPreference s.gDAPreferenceList (s.disks disk) kDAMountPreferenceDefer then
        if DADiskGetState (s.disks disk) _kDADiskStateMountAutomaticNoDefer = false then
          (true, _DAConfigurationCallback.family env disk s)
        else (false, none)
      else (false, none)
    if r.1 then
      let s1 := s.emit (ServerEvent.DADiskUnmount disk kDADiskUnmountOptionDefault)
      match r.2 with
      | some lvfUUID =>
        if env.__CoreStorageLockFamily then
          s1.emit (ServerEvent.__CoreStorageLockFamily lvfUUID)
        else s1
      | none => s1
    else s
  else s

/-- The branch for a console user that is logged in (DAServer.c 645-711), over
the disks of the disk list. -/
def _DAConfigurationCallback.loggedIn (gDAConsoleUserList : List CFType)
    (previousUserList : Option (List CFType)) : List DADiskRef → Server → Server
  | [], s => s
  | disk :: rest, s =>
    _DAConfigurationCallback.loggedIn gDAConsoleUserList previousUserList rest
      (_DAConfigurationCallback.loginMount previousUserList disk
        (_DAConfigurationCallback.loginPermissions gDAConsoleUserList disk s))

/-- The loop of the branch for no console user (DAServer.c 725-825), over the
disks of the disk list. -/
def _DAConfigurationCallback.loggedOut.loop (env : ServerEnv) :
    List DADiskRef → Server → Server
  | [], s => s
  | disk :: rest, s =>
    _DAConfigurationCallback.loggedOut.loop env rest
      (_DAConfigurationCallback.logoutUnmount env disk
        (_DAConfigurationCallback.logoutPermissions disk s))

/-- The branch for no console user (DAServer.c 712-826): the preferences are
refreshed, and the disks of the disk list are gone through. -/
def _DAConfigurationCallback.loggedOut (env : ServerEnv) (s : Server) : Server :=
  let s1 : Server :=
    { s.emit ServerEvent.DAPreferenceListRefresh with
      gDAPreferenceList := env.DAPreferenceListRefresh s.trace }
  _DAConfigurationCallback.loggedOut.loop env s1.gDADiskList s1

/-- Whether the user is in the previous list of console users
(DAServer.c 498-515).  `none` is `CFEqual` called on an entry without a user
name, which halts the daemon. -/
def _DAConfigurationCallback.known (env : ServerEnv) (user : CFString) :
    List CFType → Option Bool
  | [] => some false
  | dictionary :: rest =>
    match env.kSCConsoleSessionUserName dictionary with
    | none => none
    | some string =>
      if string = user then some true else _DAConfigurationCallback.known env user rest

/-- The volumes of the user that logged out are unmounted (DAServer.c 581-610). -/
def _DAConfigurationCallback.departedUnmount (previousUserUID : uid_t) :
    List DADiskRef → Server → Server
  | [], s => s
  | disk :: rest, s =>
    _DAConfigurationCallback.departedUnmount previousUserUID rest
      (if DADiskGetDescription (s.disks disk) kDADiskDescriptionVolumeMountableKey
          = some kCFBooleanTrue then
        if DADiskGetUserUID (s.disks disk) ≠ 0
            ∧ DADiskGetUserUID (s.disks disk) = previousUserUID then
          s.emit (ServerEvent.DADiskUnmount disk kDADiskUnmountOptionDefault)
        else s
      else s)

/-- The disks of the user that logged out are ejected (DAServer.c 612-641). -/
def _DAConfigurationCallback.departedEject (previousUserUID : uid_t) :
    List DADiskRef → Server → Server
  | [], s => s
  | disk :: rest, s =>
    _DAConfigurationCallback.departedEject previousUserUID rest
      (if DADiskGetDescription (s.disks disk) kDADiskDescriptionMediaWholeKey
          = some kCFBooleanTrue then
        if DADiskGetUserUID (s.disks disk) ≠ 0
            ∧ DADiskGetUserUID (s.disks disk) = previousUserUID then
          s.emit (ServerEvent.DADiskEject disk kDADiskEjectOptionDefault)
        else s
      else s)

/-- A console user has logged out (DAServer.c 547-643): unless the previous
user is still in the list of console users, the disks of that user are
unmounted and ejected. -/
def _DAConfigurationCallback.departed (env : ServerEnv) (previousUserUID : uid_t)
    (s : Server) : Server :=
  if (s.gDAConsoleUserList.getD []).any
      (fun dictionary => decide (env.kSCConsoleSessionUID dictionary = previousUserUID)) then s
  else
    _DAConfigurationCallback.departedEject previousUserUID s.gDADiskList
      (_DAConfigurationCallback.departedUnmount previousUserUID s.gDADiskList s)

/-- Whether the daemon waits for SystemUIServer (DAServer.c 480-530).  `none` is
a halt of the daemon. -/
def _DAConfigurationCallback.wait (env : ServerEnv) (session : Bool)
    (user : Option CFString) (s : Server) : Option Bool :=
  match user with
  | some user =>
    if session then
      match _DAConfigurationCallback.known env user (s.gDAConsoleUserList.getD []) with
      | none => none
      | some true => some false
      | some false => some (env.SCDynamicStoreCopyConsoleInformation s.trace session).isSome
    else some false
  | none => some false

/-- `_DAConfigurationCallback( session, keys, info )`; of the session it is
given whether there is one.  `none` is a halt of the daemon. -/
def _DAConfigurationCallback (env : ServerEnv) (session : Bool) (s : Server) : Option Server :=
  let previousUserUID := s.gDAConsoleUserUID
  let previousUserList := s.gDAConsoleUserList
  let copied := env.___SCDynamicStoreCopyConsoleUser s.trace session
  match _DAConfigurationCallback.wait env session copied.1 s with
  | none => none
  | some true => some s
  | some false =>
    let s1 : Server :=
      { s with
        gDAConsoleUser := copied.1
        gDAConsoleUserGID := copied.2.2
        gDAConsoleUserUID := copied.2.1
        gDAConsoleUserList := env.___SCDynamicStoreCopyConsoleInformation s.trace session }
    let s2 :=
      if s1.gDAConsoleUser ≠ none then s1
      else _DAConfigurationCallback.departed env previousUserUID s1
    let s3 :=
      match s2.gDAConsoleUserList with
      | some gDAConsoleUserList =>
        _DAConfigurationCallback.loggedIn gDAConsoleUserList previousUserList s2.gDADiskList s2
      | none => _DAConfigurationCallback.loggedOut env s2
    some (s3.emit ServerEvent.DAStageSignal)

/-! ## Vocabulary of the statements -/

/-- The arguments of the automatic retry. -/
def retryArguments : List CFString :=
  [kDAFileSystemMountArgumentForce, kDAFileSystemMountArgumentNoWrite]

/-- The entries of a comma-separated option string. -/
def entries (options : CFString) : List CFString :=
  CFStringCreateArrayBySeparatingStrings options ','

/-- The event records a call of `DAMountWithArguments`. -/
def Event.isCall : Event → Bool
  | Event.DAMountWithArguments _ _ _ _ _ => true
  | _ => false

/-- The event is an invocation of a completion callback. -/
def Event.isCallback : Event → Bool
  | Event.callback _ _ _ _ => true
  | _ => false

/-- The event is an invocation of the repair helper. -/
def Event.isRepair : Event → Bool
  | Event.DAFileSystemRepair _ _ => true
  | _ => false

/-- The options an invocation of the mount helper carries. -/
def Event.mountOptions : Event → Option CFString
  | Event.DAFileSystemMountWithArguments _ _ _ _ _ _ _ options => some options
  | _ => none

/-- The number of calls of `DAMountWithArguments` a trace records. -/
def countCalls (trace : List Event) : Nat :=
  trace.countP Event.isCall

/-- The number of invocations of a completion callback a trace records. -/
def countCallbacks (trace : List Event) : Nat :=
  trace.countP Event.isCallback

/-- The state flags the mount path sets or clears. -/
def mountPathStates : List DADiskState :=
  [kDADiskStateMountOngoing, kDADiskStateRequireRepair, kDADiskStateRequireRepairQuotas,
    _kDADiskStateMountedWithFSKit, _kDADiskStateMountedWithUserFS,
    _kDADiskStateMountAutomatic, _kDADiskStateMountAutomaticNoDefer]

/-- What a mount request on `disk` with the composed `options` can do to the
world between the decision on the repair and the completion of the request: emit
events that are neither calls, completions nor invocations of the repair helper
(an invocation of the mount helper carrying `options`), set or clear a
mount-path state flag of the disk, set its
repair-running description or the uid it was mounted by, and change the list of
mount points in use. -/
inductive Progress (disk : DADiskRef) (options : CFString) : World → World → Prop
  | refl (w : World) : Progress disk options w w
  | emit {w w1 : World} (e : Event) :
      Progress disk options w w1 → e.isCall = false → e.isCallback = false →
      e.isRepair = false → (∀ o, e.mountOptions = some o → o = options) →
      Progress disk options w (w1.emit e)
  | setState {w w1 : World} (s : DADiskState) (v : Bool) :
      Progress disk options w w1 → s ∈ mountPathStates →
      Progress disk options w (w1.setState disk s v)
  | setRepairRunning {w w1 : World} (v : Option CFType) :
      Progress disk options w w1 →
      Progress disk options w
        (w1.setDisk disk (DADiskSetDescription (w1.disks disk) kDADiskDescriptionRepairRunningKey v))
  | setMountedByUserUID {w w1 : World} (uid : Nat) :
      Progress disk options w w1 →
      Progress disk options w
        (w1.setDisk disk (DADiskSetMountedByUserUID (w1.disks disk) uid))
  | setMountPointList {w w1 : World} (list : List CFType) :
      Progress disk options w w1 →
      Progress disk options w { w1 with gDAMountPointList := list }

/-- The retry of a request completes and is one more call. -/
def Remount.Retries (remount : Remount) : Prop :=
  ∀ disk callback callbackContext w, ∃ w1,
    remount disk none callback callbackContext retryArguments w = some w1
      ∧ countCalls w1.trace = countCalls w.trace + 1

/-- Two mount contexts belong to the same request: they differ at most in the
mount point and in the choice of the mount implementation. -/
def __DAMountCallbackContext.sameRequest (a b : __DAMountCallbackContext) : Prop :=
  a.automatic = b.automatic ∧ a.callback = b.callback ∧ a.callbackContext = b.callbackContext
    ∧ a.disk = b.disk ∧ a.force = b.force ∧ a.options = b.options
    ∧ a.devicePath = b.devicePath

/-- Two runs of a stage, with `r` and with `r'` for the nested call, end in the
same call of `__DAMountWithArgumentsCallback`: with the same status, for the
same request, in the same world, reached by progress from where the stage
started. -/
inductive Completion (r r' : Remount) (context : __DAMountCallbackContext) (w : World) :
    Option World → Option World → Prop
  | intro (status1 : Status) (context1 : __DAMountCallbackContext) (w1 : World) :
      Progress context.disk context.options w w1 → context.sameRequest context1 →
      Completion r r' context w
        (__DAMountWithArgumentsCallback r status1 context1 w1)
        (__DAMountWithArgumentsCallback r' status1 context1 w1)

/-- The user id the daemon gives an HFS volume: the suggested one, or the
reserved "unknown" id when none is suggested. -/
def hfsUserID (disk : DADisk) : Nat :=
  if DADiskGetUserUID disk ≠ 0 then DADiskGetUserUID disk else ___UID_UNKNOWN

/-- The group id the daemon gives an HFS volume. -/
def hfsGroupID (disk : DADisk) : Nat :=
  if DADiskGetUserGID disk ≠ 0 then DADiskGetUserGID disk else ___GID_UNKNOWN

/-- The three ownership entries the daemon makes for an HFS volume. -/
def hfsEntries (disk : DADisk) : List CFString :=
  ["-u=".toList ++ formatDecimal (hfsUserID disk),
    "-g=".toList ++ formatDecimal (hfsGroupID disk),
    "-m=755".toList]

/-- The three entries the daemon makes for an untrusted volume, as they stand in
the option string. -/
def untrustedEntries : List CFString :=
  [kDAFileSystemMountArgumentNoDevice, kDAFileSystemMountArgumentNoOwnership,
    kDAFileSystemMountArgumentNoSetUserID]

/-- The options of the caller as the argument loop leaves them: every argument
but `force` and `automatic`, separated by commas. -/
def callerOptions (arguments : List CFString) : CFString :=
  CFStringTrim (DAMountWithArguments.arguments arguments DAMountWithArguments.initial).options ','

/-- The event is a creation of a directory. -/
def Event.isMkdir : Event → Bool
  | Event.mkdir _ _ _ => true
  | _ => false

/-- The event is an invocation of the mount helper. -/
def Event.isMount : Event → Bool
  | Event.DAFileSystemMountWithArguments _ _ _ _ _ _ _ _ => true
  | _ => false

/-- The character of a directory name that stands for a character of a volume
name: `:` for `/`, the character itself otherwise. -/
def sanitizeCharacter (c : Char) : Char :=
  if c = '/' then ':' else c

/-- The directory creations a trace records, in order. -/
def mkdirs (trace : List Event) : List Event :=
  trace.filter Event.isMkdir

/-- The directory creations that failed on the first `count` candidate paths
from `index` on, in order. -/
def failedCandidates (realMainMountPoint name : CFString) (index count : Nat) : List Event :=
  (List.range count).map fun j =>
    Event.mkdir (DAMountCreateMountPointWithAction.path realMainMountPoint name (index + j))
      0o111 false

/-- The path is `/Volumes/<name>` with `<name>` a single component, directly or
below the data-volume folder: when the path begins with the data-volume folder,
it is what follows that must have the form. -/
def underMountPointFolder (env : Env) (path : CFString) : Prop :=
  ∃ name, '/' ∉ name
    ∧ ((¬ env.kDAMainDataVolumeMountPointFolder <+: path
        ∧ path = kDAMainMountPointFolder ++ '/' :: name)
      ∨ path = env.kDAMainDataVolumeMountPointFolder ++ (kDAMainMountPointFolder ++ '/' :: name))

/-- The path of the cookie file of a mount point, in a buffer of `MAXPATHLEN`. -/
def cookieFile (path : CFString) : CFString :=
  (path ++ ['/'] ++ kDAMainMountPointFolderCookieFile).take (MAXPATHLEN - 1)

/-! ## Vocabulary of the statements about the server -/

/-- The directory a system call of the RPC directory operations works on. -/
def ServerEvent.directory : ServerEvent → Option CFString
  | ServerEvent.mkdir path _ _ => some path
  | ServerEvent.lchown path _ => some path
  | ServerEvent.rmdir path _ => some path
  | _ => none

/-- The ids of the disks of the disk list, in the order of the list. -/
def diskIDs (s : Server) : List CFString :=
  s.gDADiskList.map fun disk => DADiskGetID (s.disks disk)

/-- The ids of the sessions of the session list, in the order of the list. -/
def sessionIDs (s : Server) : List mach_port_t :=
  s.gDASessionList.map fun session => DASessionGetID (s.sessions session)

/-- From `s` to `s1` the disk list has not changed, no disk object was made, and
every disk object has the id and the media object it had. -/
def Server.Same (s s1 : Server) : Prop :=
  s1.gDADiskList = s.gDADiskList ∧ s1.created = s.created
    ∧ (∀ disk, DADiskGetID (s1.disks disk) = DADiskGetID (s.disks disk))
    ∧ (∀ disk, DADiskGetIOMedia (s1.disks disk) = DADiskGetIOMedia (s.disks disk))

/-- From `s` to `s1` disks may have left the disk list, in which the others
keep their order; no disk object was made, and every disk object has the id and
the media object it had. -/
def Server.Shrinks (s s1 : Server) : Prop :=
  s1.gDADiskList.Sublist s.gDADiskList ∧ s1.created = s.created
    ∧ (∀ disk, DADiskGetID (s1.disks disk) = DADiskGetID (s.disks disk))
    ∧ (∀ disk, DADiskGetIOMedia (s1.disks disk) = DADiskGetIOMedia (s.disks disk))

/-- The disks of the disk list are disk objects that were made, and no two of
them have the same id. -/
def Server.Registered (s : Server) : Prop :=
  (∀ disk ∈ s.gDADiskList, disk < s.created) ∧ (diskIDs s).Nodup

/-! ## Example disks and worlds -/

/-- A description with the given keys set to true. -/
def descriptionWithTrue (keys : List DADiskDescriptionKey) :
    DADiskDescriptionKey → Option CFType :=
  fun key => if key ∈ keys then some kCFBooleanTrue else none

/-- A removable disk on an internal device. -/
def removableInternalDisk : DADisk :=
  { DADisk.reference with
    description := descriptionWithTrue
      [kDADiskDescriptionMediaRemovableKey, kDADiskDescriptionDeviceInternalKey] }

/-- A disk locked in target disk mode whose role is PreBoot, on a unit that is
not flagged as holding APFS. -/
def lockedPreBootDisk : DADisk :=
  { DADisk.reference with
    description := descriptionWithTrue [kDADiskDescriptionDeviceTDMLockedKey]
    volumeRoles := ["PreBoot".toList] }

/-- The same disk on a unit that is flagged as holding APFS. -/
def lockedPreBootAPFSDisk : DADisk :=
  { lockedPreBootDisk with unitState := fun s => decide (s = _kDAUnitStateHasAPFS) }

/-- A disk locked in target disk mode with no role. -/
def lockedDisk : DADisk :=
  { DADisk.reference with
    description := descriptionWithTrue [kDADiskDescriptionDeviceTDMLockedKey] }

/-- A disk that carries the quarantine attribute. -/
def quarantinedDisk : DADisk :=
  { DADisk.reference with
    state := fun s => decide (s = _kDADiskStateMountQuarantined) }

/-- A quarantined disk that is to be mounted automatically without deferral. -/
def quarantinedAutomaticDisk : DADisk :=
  { DADisk.reference with
    state := fun s => decide (s ∈ [_kDADiskStateMountQuarantined, _kDADiskStateMountAutomatic,
      _kDADiskStateMountAutomaticNoDefer]) }

/-- A dirty disk (the probe asked for a repair). -/
def dirtyDisk : DADisk :=
  { DADisk.reference with
    state := fun s => decide (s = kDADiskStateRequireRepair) }

/-- A dirty disk with read-only media that is to be mounted automatically
without deferral. -/
def dirtyReadOnlyAutomaticDisk : DADisk :=
  { DADisk.reference with
    description := fun key =>
      if key = kDADiskDescriptionMediaWritableKey then some kCFBooleanFalse else none
    state := fun s => decide (s ∈ [kDADiskStateRequireRepair, _kDADiskStateMountAutomatic,
      _kDADiskStateMountAutomaticNoDefer]) }

/-- A disk with read-only media. -/
def readOnlyDisk : DADisk :=
  { DADisk.reference with
    description := fun key =>
      if key = kDADiskDescriptionMediaWritableKey then some kCFBooleanFalse else none }

/-- An HFS disk whose suggested owner is user 501, with no suggested group. -/
def hfsDisk : DADisk :=
  { DADisk.reference with filesystemKind := "hfs".toList, userUID := 501 }

/-- The world in which every disk reference is the given disk. -/
def World.of (disk : DADisk) : World :=
  { World.reference with disks := fun _ => disk }

/-- The trace of a run, when it completes. -/
def traceOf (result : Option World) : Option (List Event) :=
  result.map World.trace

/-! ## An example machine for the server -/

/-- A machine on which every path is its own real path, every system call
succeeds, every path is a directory of root, and every object can be made: the
disk of the media object `n` is `/dev/disk<n / 10>`, of the unit `n / 10` and
with the content `Apple_HFS`, and a mount table entry has the id of the device
it is mounted from when that is a disk, of the directory it is mounted on
otherwise. -/
def ServerEnv.reference : ServerEnv :=
  { realpath := fun _ path => some path
    mkdir := fun _ _ => 0
    stat := fun _ _ => Except.ok (0, true)
    rmdir := fun _ _ => 0
    link := fun _ _ _ => true
    ___statfs := fun _ _ => none
    DACallbackCreate := fun _ => true
    SCDynamicStoreKeyCreateConsoleUser := fun _ => true
    CFArrayCreateMutable := fun _ => true
    DADiskCreateFromIOMedia := fun _ media =>
      some
        { DADisk.reference with
          id := "/dev/disk".toList ++ Nat.toDigits 10 (media / 10)
          BSDUnit := media / 10
          description := fun key =>
            if key = kDADiskDescriptionMediaContentKey then
              some (CFType.string "Apple_HFS".toList)
            else none }
    DADiskCreateFromVolumePath := fun _ _ => some DADisk.reference
    _DAVolumeGetID := fun fs =>
      if strncmpStart fs.f_mntfromname "/dev/disk".toList then fs.f_mntfromname
      else fs.f_mntonname
    IORegistryEntryCreateCFProperties := fun _ _ => some fun _ => none
    getmntinfo := fun _ => []
    _DAFileSystemCopyName := fun _ _ _ => none
    IORegistryEntryGetName := fun _ _ => none
    _DADiskGetEncryptionStatus := fun _ _ => (none, none)
    IORegistryEntrySearchCFProperty := fun _ _ _ => none
    _DASerialize := fun callbacks => some (callbacks.map fun callback => callback.address)
    ___CFDataCopyBytes := fun _ _ => true
    DARequestCreate := fun _ => true
    DAAuthorize := fun _ _ _ _ _ _ => 0
    CFURLCreateWithString := fun string =>
      match string with
      | CFType.string value => some (CFType.url value)
      | _ => none
    sandbox_check_by_audit_token := fun _ _ => 0
    ___SCDynamicStoreCopyConsoleUser := fun _ _ => (none, 0, 0)
    SCDynamicStoreCopyConsoleInformation := fun _ _ => none
    ___SCDynamicStoreCopyConsoleInformation := fun _ _ => none
    kSCConsoleSessionUserName := fun _ => some "user".toList
    kSCConsoleSessionUID := fun _ => 501
    DAPreferenceListRefresh := fun _ => fun _ => none
    __CoreStorageCopyVolumeProperties := some fun _ uuid => some (some ('F' :: uuid))
    __CoreStorageLockFamily := true
    CFDictionaryGetKeysAndValues := fun _ => [] }

/-- The session object at reference `r`: a client with the port `100 + r`. -/
def DASession.reference (r : DASessionRef) : DASession :=
  { id := 100 + r
    name := "client".toList
    callbackQueue := some []
    callbackRegister := some []
    state := fun _ => false }

/-- A daemon with no disks and no sessions, idle. -/
def Server.reference : Server :=
  { disks := fun _ => DADisk.reference
    sessions := DASession.reference
    gDADiskList := []
    gDASessionList := []
    gDAIdle := true
    gDAConsoleUserList := none
    gDAConsoleUserUID := 0
    gDAMediaAppearedNotification := []
    created := 0
    gDAMountPointList := []
    mountTrace := []
    trace := [] }

/-- A daemon with the sessions 1 and 2 (ports 101 and 102) and no disks. -/
def Server.withSessions : Server :=
  { Server.reference with gDASessionList := [1, 2] }

/-- A callback of the session 1. -/
def claimCallback : DACallback :=
  { session := some 1, address := 4096, context := 0, kind := 1, order := 0, matching := none,
    watch := none }

/-- A daemon with the sessions 1 and 2 and the disk `/dev/disk2`, claimed by
session 1. -/
def Server.withClaim : Server :=
  { Server.withSessions with
    disks := fun _ => { DADisk.reference with id := "/dev/disk2".toList, claim := some claimCallback }
    gDADiskList := [0]
    created := 1 }

/-- The invocations of completion callbacks a trace records, in order. -/
def callbacks (trace : List Event) : List Event :=
  trace.filter Event.isCallback

/-- The events hold one invocation of the callback with its context, and no
other invocation of a callback; for no callback, no invocation at all. -/
def completesOnce (callback : Option DAMountCallback) (callbackContext : Nat)
    (trace : List Event) : Prop :=
  match callback with
  | some cb =>
    ∃ status mountpoint, callbacks trace = [Event.callback cb status mountpoint callbackContext]
  | none => callbacks trace = []

/-- The retry of a request completes, and invokes the callback once. -/
def Remount.CompletesOnce (remount : Remount) : Prop :=
  ∀ disk callback callbackContext w, ∃ w1 new,
    remount disk none callback callbackContext retryArguments w = some w1
      ∧ w1.trace = w.trace ++ new ∧ completesOnce callback callbackContext new

/-! ## Further vocabulary of the statements about the server -/

/-- The mode and the owner of the device nodes of a disk, in the words of the
spec: `0640` and the console user when one user is logged in, `0666` and root
when more than one is, `0640` and root when none is; and the mode masked with
`0444` for media that is not writable. -/
def devicePermissions (users : Nat) (consoleUser : uid_t) (writable : Bool) : Nat × uid_t :=
  let permissions : Nat × uid_t :=
    if users = 1 then (0o640, consoleUser)
    else if users > 1 then (0o666, ___UID_ROOT)
    else (0o640, ___UID_ROOT)
  if writable then permissions else (permissions.1 &&& 0o444, permissions.2)

/-- The four system calls that give the two device nodes of a disk a mode and
an owner. -/
def permissionEvents (disk : DADisk) (permissions : Nat × uid_t) : List ServerEvent :=
  [ServerEvent.chmod (DADiskGetBSDPath disk true) permissions.1,
    ServerEvent.chmod (DADiskGetBSDPath disk false) permissions.1,
    ServerEvent.chown (DADiskGetBSDPath disk true) (some permissions.2) none,
    ServerEvent.chown (DADiskGetBSDPath disk false) (some permissions.2) none]

/-- Whether the media of the disk is writable, as the permissions see it: it is
unless its description says it is not. -/
def writableMedia (disk : DADisk) : Bool :=
  decide (DADiskGetDescription disk kDADiskDescriptionMediaWritableKey ≠ some kCFBooleanFalse)

/-- The disks for which a trace records an unmount, in order. -/
def unmounts (trace : List ServerEvent) : List DADiskRef :=
  trace.filterMap fun e =>
    match e with
    | ServerEvent.DADiskUnmount disk _ => some disk
    | _ => none

/-- The unmount that the branch for no console user does for a disk: the volume
is mountable, the deferral policy holds for the disk, and the disk is not to be
mounted without deferral. -/
def deferredVolume (s : Server) (disk : DADiskRef) : Bool :=
  decide (DADiskGetDescription (s.disks disk) kDADiskDescriptionVolumeMountableKey
      = some kCFBooleanTrue)
    && DAMountGetPreference s.gDAPreferenceList (s.disks disk) kDAMountPreferenceDefer
    && !DADiskGetState (s.disks disk) _kDADiskStateMountAutomaticNoDefer

/-- Every lock of a logical volume family that the events hold comes right after
an unmount. -/
def LocksFollowUnmounts (events : List ServerEvent) : Prop :=
  ∀ pre family post, events = pre ++ ServerEvent.__CoreStorageLockFamily family :: post →
    ∃ pre1 disk, pre = pre1 ++ [ServerEvent.DADiskUnmount disk kDADiskUnmountOptionDefault]

/-- The event is an unmount or a lock of a logical volume family. -/
def ServerEvent.isUnmountOrLock : ServerEvent → Bool
  | ServerEvent.DADiskUnmount _ _ => true
  | ServerEvent.__CoreStorageLockFamily _ => true
  | _ => false

/-- The descriptor keys that `__DAMediaPropertyChangedCallback` watches, in the
order in which it goes through them. -/
def watchedKeys : List DADiskDescriptionKey :=
  [kDADiskDescriptionMediaContentKey, kDADiskDescriptionMediaEjectableKey,
    kDADiskDescriptionMediaLeafKey, kDADiskDescriptionMediaBlockSizeKey,
    kDADiskDescriptionMediaRemovableKey, kDADiskDescriptionMediaSizeKey,
    kDADiskDescriptionMediaWholeKey, kDADiskDescriptionMediaWritableKey,
    kDADiskDescriptionMediaEncryptedKey, kDADiskDescriptionMediaEncryptionDetailKey,
    kDADiskDescriptionDeviceTDMLockedKey]

/-- The new value of a watched descriptor key, which is what the kernel says
now: the property of the media object, the encryption status of the disk, or the
property `AppleTDMLocked` of the registry. -/
def watchedValue (env : ServerEnv) (service : io_service_t) (disk : DADiskRef)
    (properties : CFString → Option CFType) (trace : List ServerEvent)
    (key : DADiskDescriptionKey) : Option CFType :=
  match key with
  | kDADiskDescriptionMediaContentKey => properties kIOMediaContentKey
  | kDADiskDescriptionMediaEjectableKey => properties kIOMediaEjectableKey
  | kDADiskDescriptionMediaLeafKey => properties kIOMediaLeafKey
  | kDADiskDescriptionMediaBlockSizeKey => properties kIOMediaPreferredBlockSizeKey
  | kDADiskDescriptionMediaRemovableKey => properties kIOMediaRemovableKey
  | kDADiskDescriptionMediaSizeKey => properties kIOMediaSizeKey
  | kDADiskDescriptionMediaWholeKey => properties kIOMediaWholeKey
  | kDADiskDescriptionMediaWritableKey => properties kIOMediaWritableKey
  | kDADiskDescriptionMediaEncryptedKey => (env._DADiskGetEncryptionStatus trace disk).1
  | kDADiskDescriptionMediaEncryptionDetailKey => (env._DADiskGetEncryptionStatus trace disk).2
  | kDADiskDescriptionDeviceTDMLockedKey =>
    env.IORegistryEntrySearchCFProperty trace service "AppleTDMLocked".toList
  | _ => none

/-- The kernel, the registry and the file systems answer the same whenever they
are asked about the media object: the allocations, the properties of the media
object, the mount table, the names of the volumes, the name of the media
object, the encryption status, and the properties of the registry. -/
def ServerEnv.Steady (env : ServerEnv) (service : io_service_t) : Prop :=
  (∀ t1 t2, env.CFArrayCreateMutable t1 = env.CFArrayCreateMutable t2)
    ∧ (∀ t1 t2, env.IORegistryEntryCreateCFProperties t1 service
      = env.IORegistryEntryCreateCFProperties t2 service)
    ∧ (∀ t1 t2, env.getmntinfo t1 = env.getmntinfo t2)
    ∧ (∀ t1 t2 kind p1 p2, env._DAFileSystemCopyName t1 kind p1
      = env._DAFileSystemCopyName t2 kind p2)
    ∧ (∀ t1 t2, env.IORegistryEntryGetName t1 service = env.IORegistryEntryGetName t2 service)
    ∧ (∀ t1 t2 disk, env._DADiskGetEncryptionStatus t1 disk
      = env._DADiskGetEncryptionStatus t2 disk)
    ∧ (∀ t1 t2 name, env.IORegistryEntrySearchCFProperty t1 service name
      = env.IORegistryEntrySearchCFProperty t2 service name)

/-- From `a` to `b` the server trace is the same, and of the disk nothing but
the description and the bypath has changed. -/
def Server.Redescribed (disk : DADiskRef) (a b : Server) : Prop :=
  b.trace = a.trace
    ∧ ∃ description bypath,
      b.disks disk = { a.disks disk with description := description, bypath := bypath }

/-- From `s` to `s1` no disk object has got or lost the Zombie flag. -/
def Server.Unmarked (s s1 : Server) : Prop :=
  ∀ disk, DADiskGetState (s1.disks disk) kDADiskStateZombie
    = DADiskGetState (s.disks disk) kDADiskStateZombie

/-- No disk of the disk list carries the Zombie flag. -/
def Server.Live (s : Server) : Prop :=
  ∀ disk ∈ s.gDADiskList, DADiskGetState (s.disks disk) kDADiskStateZombie = false

/-- The event is a `chmod` or a `chown`. -/
def ServerEvent.isPermission : ServerEvent → Bool
  | ServerEvent.chmod _ _ => true
  | ServerEvent.chown _ _ _ => true
  | _ => false

/-- The calls of `chmod` and `chown` that a trace records, in order. -/
def permissionCalls (trace : List ServerEvent) : List ServerEvent :=
  trace.filter ServerEvent.isPermission

/-- The calls that give the device nodes of the disks of a list their mode and
their owner in the words of the spec, for the disks that have a media type and
in the order of the list. -/
def devicePermissionEvents (disks : DADiskRef → DADisk) (users : Nat) (consoleUser : uid_t) :
    List DADiskRef → List ServerEvent
  | [] => []
  | disk :: rest =>
    (if DADiskGetDescription (disks disk) kDADiskDescriptionMediaTypeKey ≠ none then
      permissionEvents (disks disk)
        (devicePermissions users consoleUser (writableMedia (disks disk)))
    else [])
      ++ devicePermissionEvents disks users consoleUser rest

/-- The state in which the records have joined the queue of the session, in
their order. -/
def Server.queued (s : Server) (session : DASessionRef) (records : List DACallback) : Server :=
  s.setSession session
    { s.sessions session with
      callbackQueue :=
        (DASessionGetCallbackQueue (s.sessions session)).map fun queue => queue ++ records }

/-- A disk whose volume is mounted on `/Volumes/Data`. -/
def mountedDisk : DADisk :=
  { DADisk.reference with
    description := fun key =>
      if key = kDADiskDescriptionVolumePathKey then some (CFType.url "/Volumes/Data".toList)
      else none }

/-- The quiet machine, but for the repair helper, which fails with status 8. -/
def Env.failingRepair : Env :=
  { Env.reference with DAFileSystemRepair := fun _ => 8 }

/-- A dirty disk that is to be mounted automatically without deferral. -/
def dirtyAutomaticDisk : DADisk :=
  { DADisk.reference with
    state := fun s => decide (s ∈ [kDADiskStateRequireRepair, _kDADiskStateMountAutomatic,
      _kDADiskStateMountAutomaticNoDefer]) }

/-- A daemon with the sessions 1 and 2, in which two callbacks wait in the queue
of session 1, the one at the address 4096 queued first, and session 1 is marked
as timed out. -/
def Server.withQueue : Server :=
  { Server.withSessions with
    sessions := fun r =>
      if r = 1 then
        { DASession.reference 1 with
          callbackQueue := some
            [{ claimCallback with disk := some 0 }, { claimCallback with address := 8192 }]
          state := fun state => decide (state = kDASessionStateTimeout) }
      else DASession.reference r }

/-- A daemon with the sessions 1 and 2 and the disk `/dev/disk0s1`, an EFI
system partition that belongs to no user. -/
def Server.withEFI : Server :=
  { Server.withSessions with
    disks := fun _ =>
      { DADisk.reference with
        id := "/dev/disk0s1".toList
        description := fun key =>
          if key = kDADiskDescriptionMediaContentKey then some kEFISystemPartitionContent
          else none }
    gDADiskList := [0]
    created := 1 }

/-- A daemon with the sessions 1 and 2 and four disks with a mountable volume:
disk 0 is external and encrypted, with the logical volume `LV0`; disk 1 is
external and to be mounted without deferral; disk 2 is internal; disk 3 is
external and not encrypted. -/
def Server.withVolumes : Server :=
  { Server.withSessions with
    disks := fun disk =>
      { DADisk.reference with
        id := "/dev/disk".toList ++ Nat.toDigits 10 disk
        description := fun key =>
          if key = kDADiskDescriptionVolumeMountableKey then some kCFBooleanTrue
          else if key = kDADiskDescriptionDeviceInternalKey ∧ disk = 2 then some kCFBooleanTrue
          else if key = kDADiskDescriptionMediaEncryptedKey ∧ disk = 0 then some kCFBooleanTrue
          else if key = kDADiskDescriptionMediaUUIDKey ∧ disk = 0 then
            some (CFType.uuid "LV0".toList)
          else none
        state := fun state => decide (state = _kDADiskStateMountAutomaticNoDefer ∧ disk = 1) }
    gDADiskList := [0, 1, 2, 3]
    created := 4 }

/-- A daemon with the sessions 1 and 2, the console user 501, and the disk
`/dev/disk3`, whose media is not writable. -/
def Server.withMedia : Server :=
  { Server.withSessions with
    disks := fun _ =>
      { DADisk.reference with
        id := "/dev/disk3".toList
        description := fun key =>
          if key = kDADiskDescriptionMediaTypeKey then some (CFType.string "CD-ROM".toList)
          else if key = kDADiskDescriptionMediaWritableKey then some kCFBooleanFalse
          else none
        BSDPath := fun raw => if raw then "/dev/rdisk3".toList else "/dev/disk3".toList }
    gDADiskList := [0]
    gDAConsoleUserUID := 501
    created := 1 }

/-- The reference machine, on which every media object has the content
`Apple_HFS` and is writable. -/
def ServerEnv.withContent : ServerEnv :=
  { ServerEnv.reference with
    IORegistryEntryCreateCFProperties := fun _ _ => some fun key =>
      if key = kIOMediaContentKey then some (CFType.string "Apple_HFS".toList)
      else if key = kIOMediaWritableKey then some kCFBooleanTrue
      else none }

/-- A daemon with the sessions 1 and 2 and the disk `/dev/disk3` of the media
object 30, which has appeared to the clients; its description has the content
`Apple_HFS` and nothing else. -/
def Server.withAppeared : Server :=
  { Server.withSessions with
    disks := fun _ =>
      { DADisk.reference with
        id := "/dev/disk3".toList
        media := 30
        description := fun key =>
          if key = kDADiskDescriptionMediaContentKey then
            some (CFType.string "Apple_HFS".toList)
          else none
        state := fun state => decide (state = kDADiskStateStagedAppear) }
    gDADiskList := [0]
    created := 1 }

/-- The reference machine with the user 501 at the console, and nobody else
logged in. -/
def ServerEnv.oneUser : ServerEnv :=
  { ServerEnv.reference with
    ___SCDynamicStoreCopyConsoleUser := fun _ _ => (some "user".toList, 501, 20)
    ___SCDynamicStoreCopyConsoleInformation := fun _ _ => some [CFType.dictionary 1] }

/-- The reference machine with the user 501 at the console, and a second user
logged in. -/
def ServerEnv.twoUsers : ServerEnv :=
  { ServerEnv.reference with
    ___SCDynamicStoreCopyConsoleUser := fun _ _ => (some "user".toList, 501, 20)
    ___SCDynamicStoreCopyConsoleInformation := fun _ _ =>
      some [CFType.dictionary 1, CFType.dictionary 2] }

theorem CFStringInsert_zero (theString inserted : CFString) :
    CFStringInsert theString 0 inserted = inserted ++ theString := by
  simp [CFStringInsert]

/-- The two inserts that put one entry in front of an option string. -/
theorem CFStringInsert_entry (options entry : CFString) :
    CFStringInsert (CFStringInsert options 0 [',']) 0 entry = entry ++ ',' :: options := by
  simp [CFStringInsert]

theorem separating_ne_nil (s : CFString) (sep : Char) :
    CFStringCreateArrayBySeparatingStrings s sep ≠ [] := by
  induction s with
  | nil => simp [CFStringCreateArrayBySeparatingStrings]
  | cons c rest ih =>
    unfold CFStringCreateArrayBySeparatingStrings
    split
    · simp
    · split <;> simp

theorem separating_append (a b : CFString) (sep : Char) :
    CFStringCreateArrayBySeparatingStrings (a ++ sep :: b) sep
      = CFStringCreateArrayBySeparatingStrings a sep
        ++ CFStringCreateArrayBySeparatingStrings b sep := by
  induction a with
  | nil => simp [CFStringCreateArrayBySeparatingStrings]
  | cons c rest ih =>
    by_cases hc : c = sep
    · subst hc
      simp [CFStringCreateArrayBySeparatingStrings, ih]
    · obtain ⟨first, others, hsplit⟩ := List.exists_cons_of_ne_nil (separating_ne_nil rest sep)
      simp [CFStringCreateArrayBySeparatingStrings, hc, ih, hsplit]

theorem separating_of_not_mem (s : CFString) (sep : Char) (h : sep ∉ s) :
    CFStringCreateArrayBySeparatingStrings s sep = [s] := by
  induction s with
  | nil => simp [CFStringCreateArrayBySeparatingStrings]
  | cons c rest ih =>
    have hc : c ≠ sep := fun e => h (by simp [e])
    have hr : sep ∉ rest := fun e => h (by simp [e])
    simp [CFStringCreateArrayBySeparatingStrings, hc, ih hr]

/-- An entry put in front of a list is an entry of the list. -/
theorem mem_separating_entry (entry options : CFString) (sep : Char) (h : sep ∉ entry) :
    entry ∈ CFStringCreateArrayBySeparatingStrings (entry ++ sep :: options) sep := by
  rw [separating_append, separating_of_not_mem entry sep h]
  simp

/-- Entries survive whatever is put in front of the list. -/
theorem mem_separating_front (x front options : CFString) (sep : Char)
    (h : x ∈ CFStringCreateArrayBySeparatingStrings options sep) :
    x ∈ CFStringCreateArrayBySeparatingStrings (front ++ sep :: options) sep := by
  rw [separating_append]
  exact List.mem_append_right _ h

theorem mem_separating_dropWhile (x s : CFString) (sep : Char) (hx : x ≠ [])
    (h : x ∈ CFStringCreateArrayBySeparatingStrings s sep) :
    x ∈ CFStringCreateArrayBySeparatingStrings
      (List.dropWhile (fun c => decide (c = sep)) s) sep := by
  induction s with
  | nil => simpa using h
  | cons c rest ih =>
    by_cases hc : c = sep
    · subst hc
      simp only [CFStringCreateArrayBySeparatingStrings, if_true, List.mem_cons] at h
      rcases h with h | h
      · exact absurd h hx
      · simpa [List.dropWhile] using ih h
    · simpa [List.dropWhile, hc] using h

theorem mem_separating_rdropWhile (x s : CFString) (sep : Char) (hx : x ≠ [])
    (h : x ∈ CFStringCreateArrayBySeparatingStrings s sep) :
    x ∈ CFStringCreateArrayBySeparatingStrings
      (List.rdropWhile (fun c => decide (c = sep)) s) sep := by
  induction s using List.reverseRecOn with
  | nil => simpa using h
  | append_singleton rest c ih =>
    by_cases hc : c = sep
    · subst hc
      rw [separating_append] at h
      simp only [CFStringCreateArrayBySeparatingStrings, List.mem_append,
        List.mem_singleton] at h
      rcases h with h | h
      · rw [List.rdropWhile_concat_pos _ _ _ (by simp)]
        exact ih h
      · exact absurd h hx
    · rw [List.rdropWhile_concat_neg _ _ _ (by simpa using hc)]
      exact h

/-- Trimming the separators off both ends loses no nonempty entry. -/
theorem mem_separating_trim (x s : CFString) (sep : Char) (hx : x ≠ [])
    (h : x ∈ CFStringCreateArrayBySeparatingStrings s sep) :
    x ∈ CFStringCreateArrayBySeparatingStrings (CFStringTrim s sep) sep := by
  unfold CFStringTrim
  exact mem_separating_rdropWhile x _ sep hx (mem_separating_dropWhile x s sep hx h)

theorem rdropWhile_append_of_last (p q : CFString) (f : Char → Bool) (hp : p ≠ [])
    (hl : f (p.getLast hp) = false) :
    List.rdropWhile f (p ++ q) = p ++ List.rdropWhile f q := by
  induction q using List.reverseRecOn with
  | nil =>
    simp only [List.append_nil, List.rdropWhile_nil]
    exact (List.rdropWhile_eq_self_iff).2 (fun h => by simp [hl])
  | append_singleton rest c ih =>
    by_cases hc : f c = true
    · rw [← List.append_assoc, List.rdropWhile_concat_pos _ _ _ hc,
        List.rdropWhile_concat_pos _ _ _ hc, ih]
    · rw [← List.append_assoc, List.rdropWhile_concat_neg _ _ _ hc,
        List.rdropWhile_concat_neg _ _ _ hc, List.append_assoc]

/-- Trimming leaves alone a front part that neither starts nor ends with the
separator. -/
theorem CFStringTrim_front (p q : CFString) (sep : Char) (hp : p ≠ [])
    (hh : p.head hp ≠ sep) (hl : p.getLast hp ≠ sep) :
    CFStringTrim (p ++ q) sep = p ++ List.rdropWhile (fun c => decide (c = sep)) q := by
  unfold CFStringTrim
  have hd : List.dropWhile (fun c => decide (c = sep)) (p ++ q) = p ++ q := by
    cases p with
    | nil => exact absurd rfl hp
    | cons c rest =>
      have : c ≠ sep := by simpa using hh
      simp [List.dropWhile, this]
  rw [hd]
  exact rdropWhile_append_of_last p q _ hp (by simpa using hl)

/-- The entries of a trimmed list start with the entries of such a front part. -/
theorem separating_trim_front (p rest : CFString) (sep : Char) (hp : p ≠ [])
    (hh : p.head hp ≠ sep) (hl : p.getLast hp ≠ sep) :
    ∃ more, CFStringCreateArrayBySeparatingStrings (CFStringTrim (p ++ sep :: rest) sep) sep
      = CFStringCreateArrayBySeparatingStrings p sep ++ more := by
  rw [CFStringTrim_front p _ sep hp hh hl]
  obtain ⟨t, ht⟩ := List.rdropWhile_prefix (fun c => decide (c = sep)) (sep :: rest)
  cases hq : List.rdropWhile (fun c => decide (c = sep)) (sep :: rest) with
  | nil => exact ⟨[], by simp⟩
  | cons c r =>
    rw [hq] at ht
    have hc : c = sep := by
      have := congrArg List.head? ht
      simpa using this
    subst hc
    exact ⟨CFStringCreateArrayBySeparatingStrings r c, separating_append p r c⟩

/-! ## The world between the call and the completion of a request -/

@[simp] theorem World.emit_trace (w : World) (e : Event) :
    (w.emit e).trace = w.trace ++ [e] := rfl

@[simp] theorem World.emit_disks (w : World) (e : Event) :
    (w.emit e).disks = w.disks := rfl

@[simp] theorem World.emit_gDAMountPointList (w : World) (e : Event) :
    (w.emit e).gDAMountPointList = w.gDAMountPointList := rfl

@[simp] theorem World.setDisk_trace (w : World) (disk : DADiskRef) (value : DADisk) :
    (w.setDisk disk value).trace = w.trace := rfl

@[simp] theorem World.setDisk_gDAMountPointList (w : World) (disk : DADiskRef) (value : DADisk) :
    (w.setDisk disk value).gDAMountPointList = w.gDAMountPointList := rfl

@[simp] theorem World.setState_trace (w : World) (disk : DADiskRef) (s : DADiskState) (v : Bool) :
    (w.setState disk s v).trace = w.trace := rfl

@[simp] theorem World.setState_gDAMountPointList (w : World) (disk : DADiskRef) (s : DADiskState)
    (v : Bool) : (w.setState disk s v).gDAMountPointList = w.gDAMountPointList := rfl

theorem Progress.trans {disk : DADiskRef} {options : CFString} {w w1 w2 : World}
    (h1 : Progress disk options w w1) (h2 : Progress disk options w1 w2) :
    Progress disk options w w2 := by
  induction h2 with
  | refl => exact h1
  | emit e _ hc hb hr ho ih => exact Progress.emit e ih hc hb hr ho
  | setState s v _ hs ih => exact Progress.setState s v ih hs
  | setRepairRunning v _ ih => exact Progress.setRepairRunning v ih
  | setMountedByUserUID uid _ ih => exact Progress.setMountedByUserUID uid ih
  | setMountPointList list _ ih => exact Progress.setMountPointList list ih

/-- Progress only appends to the trace. -/
theorem Progress.trace_extends {disk : DADiskRef} {options : CFString} {w w1 : World}
    (h : Progress disk options w w1) : w.trace <+: w1.trace := by
  induction h with
  | refl => exact List.prefix_refl _
  | emit e _ _ _ _ _ ih => exact ih.trans (List.prefix_append _ _)
  | setState s v _ _ ih => exact ih
  | setRepairRunning v _ ih => exact ih
  | setMountedByUserUID uid _ ih => exact ih
  | setMountPointList list _ ih => exact ih

/-- Progress records no call of `DAMountWithArguments`. -/
theorem Progress.countCalls_eq {disk : DADiskRef} {options : CFString} {w w1 : World}
    (h : Progress disk options w w1) : countCalls w1.trace = countCalls w.trace := by
  induction h with
  | refl => rfl
  | emit e _ hc _ _ _ ih => simp [countCalls, List.countP_append, hc] at ih ⊢; exact ih
  | setState s v _ _ ih => exact ih
  | setRepairRunning v _ ih => exact ih
  | setMountedByUserUID uid _ ih => exact ih
  | setMountPointList list _ ih => exact ih

/-- Progress invokes no completion callback. -/
theorem Progress.countCallbacks_eq {disk : DADiskRef} {options : CFString} {w w1 : World}
    (h : Progress disk options w w1) : countCallbacks w1.trace = countCallbacks w.trace := by
  induction h with
  | refl => rfl
  | emit e _ _ hb _ _ ih => simp [countCallbacks, List.countP_append, hb] at ih ⊢; exact ih
  | setState s v _ _ ih => exact ih
  | setRepairRunning v _ ih => exact ih
  | setMountedByUserUID uid _ ih => exact ih
  | setMountPointList list _ ih => exact ih

/-- Progress leaves alone what the option composition reads from a disk: every
description but the repair-running one, the file system, the ids and the unit. -/
theorem Progress.description_eq {disk : DADiskRef} {options : CFString} {w w1 : World}
    (h : Progress disk options w w1) (d : DADiskRef) (key : DADiskDescriptionKey)
    (hk : key ≠ kDADiskDescriptionRepairRunningKey) :
    (w1.disks d).description key = (w.disks d).description key := by
  induction h with
  | refl => rfl
  | emit e _ _ _ _ _ ih => exact ih
  | setState s v _ _ ih =>
    rw [← ih]
    by_cases hd : d = disk
    · subst hd; simp [World.setState, World.setDisk, DADiskSetState]
    · simp [World.setState, World.setDisk, hd]
  | setRepairRunning v _ ih =>
    rw [← ih]
    by_cases hd : d = disk
    · subst hd; simp [World.setDisk, DADiskSetDescription, hk]
    · simp [World.setDisk, hd]
  | setMountedByUserUID uid _ ih =>
    rw [← ih]
    by_cases hd : d = disk
    · subst hd; simp [World.setDisk, DADiskSetMountedByUserUID]
    · simp [World.setDisk, hd]
  | setMountPointList list _ ih => exact ih

theorem Progress.identity_eq {disk : DADiskRef} {options : CFString} {w w1 : World}
    (h : Progress disk options w w1) (d : DADiskRef) :
    (w1.disks d).filesystemKind = (w.disks d).filesystemKind
      ∧ (w1.disks d).userUID = (w.disks d).userUID
      ∧ (w1.disks d).userGID = (w.disks d).userGID
      ∧ (w1.disks d).unitState = (w.disks d).unitState
      ∧ (w1.disks d).volumeRoles = (w.disks d).volumeRoles
      ∧ (w1.disks d).device = (w.disks d).device := by
  induction h with
  | refl => exact ⟨rfl, rfl, rfl, rfl, rfl, rfl⟩
  | emit e _ _ _ _ _ ih => exact ih
  | setState s v _ _ ih =>
    by_cases hd : d = disk
    · subst hd; simpa [World.setState, World.setDisk, DADiskSetState] using ih
    · simpa [World.setState, World.setDisk, hd] using ih
  | setRepairRunning v _ ih =>
    by_cases hd : d = disk
    · subst hd; simpa [World.setDisk, DADiskSetDescription] using ih
    · simpa [World.setDisk, hd] using ih
  | setMountedByUserUID uid _ ih =>
    by_cases hd : d = disk
    · subst hd; simpa [World.setDisk, DADiskSetMountedByUserUID] using ih
    · simpa [World.setDisk, hd] using ih
  | setMountPointList list _ ih => exact ih

/-- Every invocation of the mount helper that progress adds carries the
composed options. -/
theorem Progress.mountOptions_eq {disk : DADiskRef} {options : CFString} {w w1 : World}
    (h : Progress disk options w w1) :
    ∀ e ∈ w1.trace.drop w.trace.length, ∀ o, e.mountOptions = some o → o = options := by
  induction h with
  | refl => simp
  | @emit w1 e hp _ _ _ ho ih =>
    obtain ⟨t, ht⟩ := hp.trace_extends
    intro x hx
    rw [World.emit_trace, ← ht, List.append_assoc, List.drop_left] at hx
    rw [← ht, List.drop_left] at ih
    rcases List.mem_append.1 hx with hx | hx
    · exact ih x hx
    · rw [List.mem_singleton.1 hx]; exact ho
  | setState s v _ _ ih => exact ih
  | setRepairRunning v _ ih => exact ih
  | setMountedByUserUID uid _ ih => exact ih
  | setMountPointList list _ ih => exact ih

/-- Progress adds no call, no completion and no invocation of the repair helper. -/
theorem Progress.quiet {disk : DADiskRef} {options : CFString} {w w1 : World}
    (h : Progress disk options w w1) :
    ∀ e ∈ w1.trace.drop w.trace.length,
      e.isCall = false ∧ e.isCallback = false ∧ e.isRepair = false := by
  induction h with
  | refl => simp
  | @emit w1 e hp hc hb hr _ ih =>
    obtain ⟨t, ht⟩ := hp.trace_extends
    intro x hx
    rw [World.emit_trace, ← ht, List.append_assoc, List.drop_left] at hx
    rw [← ht, List.drop_left] at ih
    rcases List.mem_append.1 hx with hx | hx
    · exact ih x hx
    · rw [List.mem_singleton.1 hx]; exact ⟨hc, hb, hr⟩
  | setState s v _ _ ih => exact ih
  | setRepairRunning v _ ih => exact ih
  | setMountedByUserUID uid _ ih => exact ih
  | setMountPointList list _ ih => exact ih

/-- Events that are neither calls, completions nor invocations of a helper are
progress for every request. -/
theorem Progress.emit_quiet {disk : DADiskRef} {options : CFString} {w w1 : World} (e : Event)
    (h : Progress disk options w w1)
    (hq : (e.isCall || e.isCallback || e.isRepair || e.mountOptions.isSome) = false) :
    Progress disk options w (w1.emit e) := by
  simp only [Bool.or_eq_false_iff] at hq
  refine Progress.emit e h hq.1.1.1 hq.1.1.2 hq.1.2 ?_
  intro o ho
  rw [ho] at hq
  simp at hq

/-- `DAMountRemoveMountPoint` only makes directory calls. -/
theorem DAMountRemoveMountPoint_progress (env : Env) (disk : DADiskRef) (options : CFString)
    (mountpoint : CFType) (w : World) :
    Progress disk options w (DAMountRemoveMountPoint env mountpoint w) := by
  unfold DAMountRemoveMountPoint
  split
  · exact Progress.refl w
  · dsimp only
    split
    · have h1 : Progress disk options w
          (w.emit (Event.unlink
            ((‹CFString› ++ ['/'] ++ kDAMainMountPointFolderCookieFile).take (MAXPATHLEN - 1))
            (env.unlink w.trace
              ((‹CFString› ++ ['/'] ++ kDAMainMountPointFolderCookieFile).take (MAXPATHLEN - 1))))) :=
        Progress.emit_quiet _ (Progress.refl w) rfl
      repeat' split
      all_goals first | exact h1 | exact Progress.emit_quiet _ h1 rfl
    · exact Progress.refl w

theorem DAMountCreateMountPointWithAction.candidate_progress (env : Env) (disk ref : DADiskRef)
    (options : CFString) (action : DAMountPointAction) (path : CFString) (w : World) :
    Progress disk options w
      (DAMountCreateMountPointWithAction.candidate env ref action path w).2 := by
  unfold DAMountCreateMountPointWithAction.candidate
  cases action with
  | kDAMountPointActionLink =>
    dsimp only
    split
    · exact Progress.refl w
    · split
      · exact Progress.refl w
      · exact Progress.emit_quiet _ (Progress.refl w) rfl
  | kDAMountPointActionMake =>
    dsimp only
    have h1 : Progress disk options w
        (match env.statfs w.trace path with
        | none => w
        | some f_mntonname =>
          if strncmpStart f_mntonname env.kDAMainDataVolumeMountPointFolder then
            if w.gDAMountPointList.contains (CFType.url path) then w
            else DAMountRemoveMountPoint env (CFType.url path) w
          else w) := by
      split
      · exact Progress.refl w
      · split
        · split
          · exact Progress.refl w
          · exact DAMountRemoveMountPoint_progress env disk options _ w
        · exact Progress.refl w
    revert h1
    generalize (match env.statfs w.trace path with
        | none => w
        | some f_mntonname =>
          if strncmpStart f_mntonname env.kDAMainDataVolumeMountPointFolder then
            if w.gDAMountPointList.contains (CFType.url path) then w
            else DAMountRemoveMountPoint env (CFType.url path) w
          else w) = w1
    intro h1
    split
    · split
      · refine Progress.emit_quiet _ (Progress.emit_quiet _ h1 ?_) ?_ <;> rfl
      · exact Progress.emit_quiet _ h1 rfl
    · exact Progress.emit_quiet _ h1 rfl
  | kDAMountPointActionMove =>
    dsimp only
    split
    · exact Progress.refl w
    · split
      · exact Progress.refl w
      · split
        · exact Progress.emit_quiet _ (Progress.refl w) rfl
        · exact Progress.refl w
  | kDAMountPointActionNone => exact Progress.refl w

theorem DAMountCreateMountPointWithAction.loop_progress (env : Env) (disk ref : DADiskRef)
    (options : CFString) (action : DAMountPointAction) (realMainMountPoint name : CFString)
    (remaining : Nat) :
    ∀ (index : Nat) (w : World), Progress disk options w
      (DAMountCreateMountPointWithAction.loop env ref action realMainMountPoint name
        remaining index w).2 := by
  induction remaining with
  | zero => intro index w; exact Progress.refl w
  | succ n ih =>
    intro index w
    unfold DAMountCreateMountPointWithAction.loop
    dsimp only
    have hc := DAMountCreateMountPointWithAction.candidate_progress env disk ref options action
      (DAMountCreateMountPointWithAction.path realMainMountPoint name index) w
    split
    · exact hc
    · exact hc.trans (ih _ _)

/-- `DAMountCreateMountPointWithAction` only makes directory calls. -/
theorem DAMountCreateMountPointWithAction_progress (env : Env) (disk ref : DADiskRef)
    (options : CFString) (action : DAMountPointAction) (w : World) :
    Progress disk options w (DAMountCreateMountPointWithAction env ref action w).2 := by
  unfold DAMountCreateMountPointWithAction
  split
  · exact Progress.refl w
  · dsimp only
    split
    · exact Progress.refl w
    · exact DAMountCreateMountPointWithAction.loop_progress env disk ref options action _ _ _ _ _

/-! ## Every stage ends in one call of `__DAMountWithArgumentsCallback` -/

theorem __DAMountCallbackContext.sameRequest_refl (a : __DAMountCallbackContext) :
    a.sameRequest a :=
  ⟨rfl, rfl, rfl, rfl, rfl, rfl, rfl⟩

theorem __DAMountCallbackContext.sameRequest_trans {a b c : __DAMountCallbackContext}
    (h1 : a.sameRequest b) (h2 : b.sameRequest c) : a.sameRequest c := by
  obtain ⟨a1, a2, a3, a4, a5, a6, a7⟩ := h1
  obtain ⟨b1, b2, b3, b4, b5, b6, b7⟩ := h2
  exact ⟨a1.trans b1, a2.trans b2, a3.trans b3, a4.trans b4, a5.trans b5, a6.trans b6,
    a7.trans b7⟩

/-- A completion reached after some progress for the same request. -/
theorem Completion.after {r r' : Remount} {context0 context : __DAMountCallbackContext}
    {w0 w : World} {a b : Option World}
    (hp : Progress context0.disk context0.options w0 w) (hs : context0.sameRequest context)
    (h : Completion r r' context w a b) : Completion r r' context0 w0 a b := by
  cases h with
  | intro status1 context1 w1 hp1 hs1 =>
    have hd : context.disk = context0.disk := hs.2.2.2.1.symm
    have ho : context.options = context0.options := hs.2.2.2.2.2.1.symm
    rw [hd, ho] at hp1
    exact Completion.intro status1 context1 w1 (hp.trans hp1) (__DAMountCallbackContext.sameRequest_trans hs hs1)

/-- A call of the completion routine is its own completion. -/
theorem Completion.now (r r' : Remount) (status : Status) (context : __DAMountCallbackContext)
    (w : World) :
    Completion r r' context w (__DAMountWithArgumentsCallback r status context w)
      (__DAMountWithArgumentsCallback r' status context w) :=
  Completion.intro status context w (Progress.refl w) context.sameRequest_refl

theorem __DAMountWithArgumentsCallbackStage3_completion (r r' : Remount) (status : Status)
    (context : __DAMountCallbackContext) (w : World) :
    Completion r r' context w
      (__DAMountWithArgumentsCallbackStage3 r status context w)
      (__DAMountWithArgumentsCallbackStage3 r' status context w) := by
  unfold __DAMountWithArgumentsCallbackStage3
  refine Completion.intro 0 context _ ?_ context.sameRequest_refl
  split
  · exact Progress.refl w
  · exact Progress.setState _ _ (Progress.refl w) (by decide)

theorem __DAMountWithArgumentsCallbackStage2.settle_progress (env : Env) (status : Status)
    (context : __DAMountCallbackContext) (w : World) :
    Progress context.disk context.options w
      (__DAMountWithArgumentsCallbackStage2.settle env status context w) := by
  unfold __DAMountWithArgumentsCallbackStage2.settle
  dsimp only
  have h1 : Progress context.disk context.options w
      (w.setState context.disk kDADiskStateMountOngoing false) :=
    Progress.setState _ _ (Progress.refl w) (by decide)
  generalize w.setState context.disk kDADiskStateMountOngoing false = w1 at h1 ⊢
  have h2 : Progress context.disk context.options w
      (if context.useUserFS then
        if env.__DAMountShouldUseFSKit (DAFileSystemGetKind (w1.disks context.disk)) then
          if status = 0 then w1.setState context.disk _kDADiskStateMountedWithFSKit true else w1
        else
          if status = 0 then w1.setState context.disk _kDADiskStateMountedWithUserFS true else w1
      else w1) := by
    repeat' split
    all_goals first | exact h1 | exact Progress.setState _ _ h1 (by decide)
  revert h2
  generalize (if context.useUserFS then
        if env.__DAMountShouldUseFSKit (DAFileSystemGetKind (w1.disks context.disk)) then
          if status = 0 then w1.setState context.disk _kDADiskStateMountedWithFSKit true else w1
        else
          if status = 0 then w1.setState context.disk _kDADiskStateMountedWithUserFS true else w1
      else w1) = w2
  intro h2
  split
  · exact Progress.setMountPointList _ h2
  · exact h2

theorem __DAMountWithArgumentsCallbackStage2.failed_progress (env : Env)
    (context : __DAMountCallbackContext) (w : World) :
    Progress context.disk context.options w
      (__DAMountWithArgumentsCallbackStage2.failed env context w) := by
  unfold __DAMountWithArgumentsCallbackStage2.failed
  split
  · exact DAMountRemoveMountPoint_progress env _ _ _ _
  · exact Progress.refl w

theorem __DAMountWithArgumentsCallbackStage2.mounted_progress (env : Env)
    (context : __DAMountCallbackContext) (w : World) :
    Progress context.disk context.options w
      (__DAMountWithArgumentsCallbackStage2.mounted env context w) := by
  unfold __DAMountWithArgumentsCallbackStage2.mounted
  split
  · exact Progress.setMountedByUserUID _ (Progress.refl w)
  · exact Progress.refl w

theorem __DAMountWithArgumentsCallbackStage2_completion (env : Env) (r r' : Remount)
    (status : Status) (context : __DAMountCallbackContext) (w : World) :
    Completion r r' context w
      (__DAMountWithArgumentsCallbackStage2 env r status context w)
      (__DAMountWithArgumentsCallbackStage2 env r' status context w) := by
  unfold __DAMountWithArgumentsCallbackStage2
  dsimp only
  have h3 := __DAMountWithArgumentsCallbackStage2.settle_progress env status context w
  split
  · exact Completion.intro _ _ _
      (h3.trans (__DAMountWithArgumentsCallbackStage2.failed_progress env context _))
      context.sameRequest_refl
  · have h4 := h3.trans (__DAMountWithArgumentsCallbackStage2.mounted_progress env context
      (__DAMountWithArgumentsCallbackStage2.settle env status context w))
    split
    · refine Completion.after (Progress.emit_quiet _ h4 ?_) context.sameRequest_refl
        (__DAMountWithArgumentsCallbackStage3_completion r r' _ context _)
      rfl
    · exact Completion.after h4 context.sameRequest_refl
        (__DAMountWithArgumentsCallbackStage3_completion r r' _ context _)

theorem __DAMountWithArgumentsCallbackStage1.mountpoint_progress (env : Env)
    (context : __DAMountCallbackContext) (w : World) :
    Progress context.disk context.options w
      (__DAMountWithArgumentsCallbackStage1.mountpoint env context w).2 := by
  unfold __DAMountWithArgumentsCallbackStage1.mountpoint
  split
  · exact DAMountCreateMountPointWithAction_progress env _ _ _ _ _
  · exact Progress.refl w

theorem __DAMountWithArgumentsCallbackStage1.execute_progress (env : Env)
    (context : __DAMountCallbackContext) (mountpoint : CFType) (w : World) :
    Progress context.disk context.options w
      (__DAMountWithArgumentsCallbackStage1.execute env context mountpoint w) := by
  unfold __DAMountWithArgumentsCallbackStage1.execute
  dsimp only
  refine Progress.emit _ (Progress.setMountPointList _
    (Progress.setState _ _ (Progress.refl w) (by decide))) rfl rfl rfl ?_
  intro o ho
  simpa [Event.mountOptions] using ho.symm

theorem __DAMountWithArgumentsCallbackStage1.mount_completion (env : Env) (r r' : Remount)
    (context : __DAMountCallbackContext) (w : World) :
    Completion r r' context w
      (__DAMountWithArgumentsCallbackStage1.mount env r context w)
      (__DAMountWithArgumentsCallbackStage1.mount env r' context w) := by
  unfold __DAMountWithArgumentsCallbackStage1.mount
  dsimp only
  have h1 := __DAMountWithArgumentsCallbackStage1.mountpoint_progress env context w
  split
  · refine Completion.after
      (h1.trans (__DAMountWithArgumentsCallbackStage1.execute_progress env context _ _))
      ?_ (__DAMountWithArgumentsCallbackStage2_completion env r r' _ _ _)
    exact ⟨rfl, rfl, rfl, rfl, rfl, rfl, rfl⟩
  · exact Completion.intro _ _ _ h1 ⟨rfl, rfl, rfl, rfl, rfl, rfl, rfl⟩

theorem __DAMountWithArgumentsCallbackStage1.repaired_progress
    (context : __DAMountCallbackContext) (w : World) :
    Progress context.disk context.options w
      (__DAMountWithArgumentsCallbackStage1.repaired context w) := by
  unfold __DAMountWithArgumentsCallbackStage1.repaired
  split
  · exact Progress.emit_quiet _ (Progress.setRepairRunning _ (Progress.refl w)) rfl
  · exact Progress.refl w

theorem __DAMountWithArgumentsCallbackStage1_completion (env : Env) (r r' : Remount)
    (status : Status) (context : __DAMountCallbackContext) (w : World) :
    Completion r r' context w
      (__DAMountWithArgumentsCallbackStage1 env r status context w)
      (__DAMountWithArgumentsCallbackStage1 env r' status context w) := by
  unfold __DAMountWithArgumentsCallbackStage1
  dsimp only
  have h1 := __DAMountWithArgumentsCallbackStage1.repaired_progress context w
  by_cases hs : status ≠ 0
  · by_cases hc : status = ECANCELED
    · simp only [if_pos hs, if_pos hc, if_true]
      exact Completion.after h1 context.sameRequest_refl
        (__DAMountWithArgumentsCallbackStage1.mount_completion env r r' context _)
    · by_cases hf : context.force = true
      · simp only [if_pos hs, if_neg hc, if_pos hf, if_true]
        exact Completion.after h1 context.sameRequest_refl
          (__DAMountWithArgumentsCallbackStage1.mount_completion env r r' context _)
      · simp only [if_pos hs, if_neg hc, if_neg hf]
        have e : ∀ x : Option World,
            (match x with
              | none => none
              | some w2 =>
                if status = 0 then __DAMountWithArgumentsCallbackStage1.mount env r context w2
                else some w2) = x := by
          intro x; cases x <;> simp [hs]
        have e' : ∀ x : Option World,
            (match x with
              | none => none
              | some w2 =>
                if status = 0 then __DAMountWithArgumentsCallbackStage1.mount env r' context w2
                else some w2) = x := by
          intro x; cases x <;> simp [hs]
        rw [e, e']
        exact Completion.intro _ _ _ h1 context.sameRequest_refl
  · have hs0 : status = 0 := not_not.1 hs
    simp only [if_neg hs, hs0, if_true]
    exact Completion.after (Progress.setState _ _ h1 (by decide)) context.sameRequest_refl
      (__DAMountWithArgumentsCallbackStage1.mount_completion env r r' context _)

/-! ## The body of `DAMountWithArguments` -/

/-- The "automatic" argument sets `automatic` to NULL, and nothing else does. -/
theorem DAMountWithArguments.arguments_automatic (arguments : List CFString) :
    ∀ locals : DAMountWithArguments.Locals,
      (DAMountWithArguments.arguments arguments locals).automatic = none
        ↔ ("automatic".toList ∈ arguments ∨ locals.automatic = none) := by
  induction arguments with
  | nil => intro locals; simp [DAMountWithArguments.arguments]
  | cons a rest ih =>
    intro locals
    unfold DAMountWithArguments.arguments
    by_cases hf : a = kDAFileSystemMountArgumentForce
    · have hne : "automatic".toList ≠ a := by rw [hf]; decide
      rw [if_pos hf, ih, List.mem_cons]
      constructor
      · rintro (h | h)
        · exact Or.inl (Or.inr h)
        · exact Or.inr h
      · rintro ((h | h) | h)
        · exact absurd h hne
        · exact Or.inl h
        · exact Or.inr h
    · by_cases ha : a = "automatic".toList
      · rw [if_neg hf, if_pos ha, ih, List.mem_cons]
        constructor
        · intro _; exact Or.inl (Or.inl ha.symm)
        · intro _; exact Or.inr rfl
      · have hne : "automatic".toList ≠ a := fun e => ha e.symm
        rw [if_neg hf, if_neg ha, ih, List.mem_cons]
        constructor
        · rintro (h | h)
          · exact Or.inl (Or.inr h)
          · exact Or.inr h
        · rintro ((h | h) | h)
          · exact absurd h hne
          · exact Or.inl h
          · exact Or.inr h

/-- `check` is set exactly when `automatic` is cleared. -/
theorem DAMountWithArguments.arguments_check (arguments : List CFString) :
    ∀ locals : DAMountWithArguments.Locals,
      (locals.check = none ∨ locals.check = some kCFBooleanTrue) →
      (locals.check = none ↔ locals.automatic ≠ none) →
      ((DAMountWithArguments.arguments arguments locals).check = none
          ∨ (DAMountWithArguments.arguments arguments locals).check = some kCFBooleanTrue)
        ∧ ((DAMountWithArguments.arguments arguments locals).check = none
          ↔ (DAMountWithArguments.arguments arguments locals).automatic ≠ none) := by
  induction arguments with
  | nil => intro locals h1 h2; exact ⟨h1, h2⟩
  | cons a rest ih =>
    intro locals h1 h2
    unfold DAMountWithArguments.arguments
    split
    · exact ih _ h1 h2
    · split
      · exact ih _ (Or.inr rfl) (by simp)
      · exact ih _ h1 h2

/-- The world `DAMountWithArguments.compose` leaves differs from the one it
started in by mount-path state flags of the disk only. -/
theorem DAMountWithArguments.compose_progress (env : Env) (disk : DADiskRef)
    (mountpoint : Option CFType) (arguments : List CFString) (options : CFString) (w : World) :
    Progress disk options w
      (DAMountWithArguments.compose env disk mountpoint arguments w).2 := by
  unfold DAMountWithArguments.compose
  dsimp only
  repeat' split
  all_goals first
    | exact Progress.refl w
    | exact Progress.setState _ _ (Progress.setState _ _ (Progress.refl w) (by decide))
        (by decide)

theorem DAMountWithArguments.compose_trace (env : Env) (disk : DADiskRef)
    (mountpoint : Option CFType) (arguments : List CFString) (w : World) :
    (DAMountWithArguments.compose env disk mountpoint arguments w).2.trace = w.trace := by
  unfold DAMountWithArguments.compose
  dsimp only
  repeat' split
  all_goals rfl

/-- What a successful composition has set up, read off the disk the request
started with. -/
theorem DAMountWithArguments.compose_ok (env : Env) (disk : DADiskRef)
    (mountpoint : Option CFType) (arguments : List CFString) (w w1 : World)
    (setup : DAMountWithArguments.Setup)
    (h : DAMountWithArguments.compose env disk mountpoint arguments w = (Except.ok setup, w1)) :
    setup.force
        = (DAMountWithArguments.arguments arguments DAMountWithArguments.initial).force
      ∧ setup.automatic = decide ("automatic".toList ∈ arguments)
      ∧ setup.check
        = (DAMountWithArguments.arguments arguments DAMountWithArguments.initial).check
      ∧ setup.options
        = CFStringTrim
            (DAMountWithArguments.hfsOptions (w.disks disk)
              (DAMountWithArguments.trustOptions env (w.disks disk)
                (DAMountWithArguments.writableOptions (w.disks disk)
                  (DAMountWithArguments.mappedOptions env disk (w.disks disk) arguments))))
            ','
      ∧ env.malloc w.trace = true ∧ env.CFStringCreateMutable w.trace = true
      ∧ DAMountWithArguments.tdmLocked (w.disks disk) = 0 := by
  have hp := DAMountWithArguments.compose_progress env disk mountpoint arguments [] w
  rw [h] at hp
  have hid := hp.identity_eq disk
  have hdesc := fun key hk => hp.description_eq disk key hk
  dsimp only at hid hdesc
  have hopt : DAMountWithArguments.hfsOptions (w1.disks disk)
        (DAMountWithArguments.trustOptions env (w1.disks disk)
          (DAMountWithArguments.writableOptions (w1.disks disk)
            (DAMountWithArguments.mappedOptions env disk (w.disks disk) arguments)))
      = DAMountWithArguments.hfsOptions (w.disks disk)
        (DAMountWithArguments.trustOptions env (w.disks disk)
          (DAMountWithArguments.writableOptions (w.disks disk)
            (DAMountWithArguments.mappedOptions env disk (w.disks disk) arguments))) := by
    simp only [DAMountWithArguments.hfsOptions, DAMountWithArguments.trustOptions,
      DAMountWithArguments.writableOptions, DAMountGetPreference, DADiskGetDescription,
      DAFileSystemGetKind, DADiskGetUserUID, DADiskGetUserGID, hid.1, hid.2.1, hid.2.2.1,
      hdesc kDADiskDescriptionMediaWritableKey (by decide),
      hdesc kDADiskDescriptionMediaRemovableKey (by decide),
      hdesc kDADiskDescriptionDeviceInternalKey (by decide)]
  have haut : decide ((DAMountWithArguments.arguments arguments
        DAMountWithArguments.initial).automatic = none)
      = decide ("automatic".toList ∈ arguments) := by
    have := DAMountWithArguments.arguments_automatic arguments DAMountWithArguments.initial
    simp only [DAMountWithArguments.initial, reduceCtorEq, or_false] at this
    simp only [DAMountWithArguments.initial]
    exact decide_eq_decide.2 this
  unfold DAMountWithArguments.compose at h
  dsimp only at h
  repeat' split at h
  all_goals first
    | (simp at h; done)
    | (simp only [Prod.mk.injEq, Except.ok.injEq] at h
       obtain ⟨hsetup, hw1⟩ := h
       subst hsetup
       subst hw1
       have hm : env.malloc w.trace = true := by
         simpa using ‹¬ env.malloc w.trace = false›
       have hc : env.CFStringCreateMutable w.trace = true := by
         simpa using ‹¬ env.CFStringCreateMutable w.trace = false›
       have ht : DAMountWithArguments.tdmLocked (w.disks disk) = 0 :=
         not_not.1 ‹¬ DAMountWithArguments.tdmLocked (w.disks disk) ≠ 0›
       exact ⟨rfl, haut, rfl, congrArg (fun o => CFStringTrim o ',') hopt, hm, hc, ht⟩)

@[simp] theorem DAMountWithArguments.executeRepair_trace (disk : DADiskRef) (w : World) :
    (DAMountWithArguments.executeRepair disk w).trace
      = w.trace ++ [Event.DADiskDescriptionChangedCallback disk kDADiskDescriptionRepairRunningKey,
          Event.DAFileSystemRepair (DAFileSystemGetKind (w.disks disk))
            (DADiskGetDevice (w.disks disk))] := by
  simp [DAMountWithArguments.executeRepair, World.setDisk, DADiskSetDescription,
    DAFileSystemGetKind, DADiskGetDevice]

theorem DAMountWithArguments.executeRepair_disks (disk : DADiskRef) (w : World) :
    (DAMountWithArguments.executeRepair disk w).disks
      = (w.setDisk disk (DADiskSetDescription (w.disks disk)
          kDADiskDescriptionRepairRunningKey (some kCFBooleanTrue))).disks := rfl

theorem DAMountWithArguments.executeRepair_countCalls (disk : DADiskRef) (check : Bool)
    (w : World) :
    countCalls (if check = true then DAMountWithArguments.executeRepair disk w else w).trace
      = countCalls w.trace := by
  split
  · simp [countCalls, List.countP_append, Event.isCall]
  · rfl

/-- The two ways a run of the body ends: through `DAMountWithArgumentsErr`, or
in the completion of the request it has set up. -/
theorem DAMountWithArguments.body_cases (env : Env) (r r' : Remount) (disk : DADiskRef)
    (mountpoint : Option CFType) (callback : Option DAMountCallback) (callbackContext : Nat)
    (arguments : List CFString) (w : World) :
    (∃ status w1, (∀ options, Progress disk options
          (w.emit (Event.DAMountWithArguments disk mountpoint callback callbackContext arguments))
          w1)
        ∧ DAMountWithArguments.body env r disk mountpoint callback callbackContext arguments w
          = some (DAMountWithArguments.exit status callback callbackContext w1)
        ∧ DAMountWithArguments.body env r' disk mountpoint callback callbackContext arguments w
          = some (DAMountWithArguments.exit status callback callbackContext w1))
    ∨ (∃ setup w1 check,
        DAMountWithArguments.compose env disk mountpoint arguments
            (w.emit (Event.DAMountWithArguments disk mountpoint callback callbackContext
              arguments))
          = (Except.ok setup, w1)
        ∧ DAMountWithArguments.repair env (w1.disks disk) setup = Except.ok check
        ∧ Completion r r' (DAMountWithArguments.context disk callback callbackContext setup)
          (if check = true then DAMountWithArguments.executeRepair disk w1 else w1)
          (DAMountWithArguments.body env r disk mountpoint callback callbackContext arguments w)
          (DAMountWithArguments.body env r' disk mountpoint callback callbackContext
            arguments w)) := by
  have hp := fun options => DAMountWithArguments.compose_progress env disk mountpoint arguments
    options (w.emit (Event.DAMountWithArguments disk mountpoint callback callbackContext arguments))
  unfold DAMountWithArguments.body
  dsimp only
  generalize DAMountWithArguments.compose env disk mountpoint arguments
    (w.emit (Event.DAMountWithArguments disk mountpoint callback callbackContext arguments))
    = composed at hp ⊢
  obtain ⟨result, w1⟩ := composed
  cases result with
  | error status => exact Or.inl ⟨status, w1, hp, rfl, rfl⟩
  | ok setup =>
    dsimp only
    cases hr : DAMountWithArguments.repair env (w1.disks disk) setup with
    | error status => exact Or.inl ⟨status, w1, hp, rfl, rfl⟩
    | ok check =>
      refine Or.inr ⟨setup, w1, check, rfl, hr, ?_⟩
      dsimp only
      split
      · exact __DAMountWithArgumentsCallbackStage1_completion env r r' _ _ _
      · exact __DAMountWithArgumentsCallbackStage1_completion env r r' _ _ _

/-! ## The completion routine -/

/-- The completion routine only looks at what the nested call does with the
arguments of the retry, and only for an automatic request. -/
theorem __DAMountWithArgumentsCallback_congr (r r' : Remount) (status : Status)
    (context : __DAMountCallbackContext) (w : World)
    (h : context.automatic = true → ∀ disk callback callbackContext w,
      r disk none callback callbackContext retryArguments w
        = r' disk none callback callbackContext retryArguments w) :
    __DAMountWithArgumentsCallback r status context w
      = __DAMountWithArgumentsCallback r' status context w := by
  unfold __DAMountWithArgumentsCallback
  by_cases ha : context.automatic = true
  · by_cases hs : status = ___EDIRTY
    · simp only [ha, hs, if_true]
      have := h ha context.disk context.callback context.callbackContext w
      simp only [retryArguments] at this
      rw [this]
    · simp only [ha, hs, if_true, if_false]
  · simp only [ha, if_false]
    rfl

/-- A request that is not automatic, or does not end dirty, completes by
invoking its callback. -/
theorem __DAMountWithArgumentsCallback_invoke (r : Remount) (status : Status)
    (context : __DAMountCallbackContext) (w : World)
    (h : context.automatic = false ∨ status ≠ ___EDIRTY) :
    __DAMountWithArgumentsCallback r status context w
      = some (invokeCallback context.callback status context.mountpoint
          context.callbackContext w) := by
  unfold __DAMountWithArgumentsCallback
  rcases h with h | h
  · simp [h]
  · by_cases ha : context.automatic = true <;> simp [ha, h]

/-- An automatic request that ends dirty completes by the retry alone. -/
theorem __DAMountWithArgumentsCallback_retry (r : Remount)
    (context : __DAMountCallbackContext) (w : World) (h : context.automatic = true) :
    __DAMountWithArgumentsCallback r ___EDIRTY context w
      = r context.disk none context.callback context.callbackContext retryArguments w := by
  unfold __DAMountWithArgumentsCallback
  simp only [h, if_true, retryArguments]
  cases hr : r context.disk none context.callback context.callbackContext
      [kDAFileSystemMountArgumentForce, kDAFileSystemMountArgumentNoWrite] w with
  | none => rfl
  | some w1 => simp [invokeCallback]

@[simp] theorem invokeCallback_countCalls (callback : Option DAMountCallback) (status : Status)
    (mountpoint : Option CFType) (callbackContext : Nat) (w : World) :
    countCalls (invokeCallback callback status mountpoint callbackContext w).trace
      = countCalls w.trace := by
  unfold invokeCallback
  cases callback <;> simp [countCalls, Event.isCall]

/-- The completion routine completes, with at most one more call, and with none
when the request is not automatic. -/
theorem __DAMountWithArgumentsCallback_counts (r : Remount) (status : Status)
    (context : __DAMountCallbackContext) (w : World)
    (hr : context.automatic = true → Remount.Retries r) :
    ∃ w1, __DAMountWithArgumentsCallback r status context w = some w1
      ∧ countCalls w.trace ≤ countCalls w1.trace
      ∧ countCalls w1.trace ≤ countCalls w.trace + 1
      ∧ (context.automatic = false → countCalls w1.trace = countCalls w.trace) := by
  by_cases h : context.automatic = true ∧ status = ___EDIRTY
  · obtain ⟨ha, hs⟩ := h
    subst hs
    obtain ⟨w1, h1, hc⟩ := hr ha context.disk context.callback context.callbackContext w
    refine ⟨w1, ?_, by omega, by omega, fun hf => ?_⟩
    · rw [__DAMountWithArgumentsCallback_retry r context w ha, h1]
    · rw [ha] at hf; exact absurd hf (by decide)
  · have h' : context.automatic = false ∨ status ≠ ___EDIRTY := by
      by_cases ha : context.automatic = true
      · exact Or.inr (fun hs => h ⟨ha, hs⟩)
      · exact Or.inl (by simpa using ha)
    refine ⟨_, __DAMountWithArgumentsCallback_invoke r status context w h', ?_, ?_, ?_⟩
    · simp
    · simp
    · intro _; simp

theorem Completion.counts {r r' : Remount} {context : __DAMountCallbackContext} {w : World}
    {a b : Option World} (h : Completion r r' context w a b)
    (hr : context.automatic = true → Remount.Retries r) :
    ∃ w1, a = some w1
      ∧ countCalls w.trace ≤ countCalls w1.trace
      ∧ countCalls w1.trace ≤ countCalls w.trace + 1
      ∧ (context.automatic = false → countCalls w1.trace = countCalls w.trace) := by
  cases h with
  | intro status1 context1 w1 hp hs =>
    have ha : context1.automatic = context.automatic := hs.1.symm
    obtain ⟨w2, h2, hle, hge, hf⟩ := __DAMountWithArgumentsCallback_counts r status1 context1 w1
      (fun h => hr (ha ▸ h))
    have hc := hp.countCalls_eq
    exact ⟨w2, h2, by omega, by omega, fun h => by rw [hf (ha ▸ h), hc]⟩

theorem Completion.congr {r r' : Remount} {context : __DAMountCallbackContext} {w : World}
    {a b : Option World} (h : Completion r r' context w a b)
    (hr : context.automatic = true → ∀ disk callback callbackContext w,
      r disk none callback callbackContext retryArguments w
        = r' disk none callback callbackContext retryArguments w) :
    a = b := by
  cases h with
  | intro status1 context1 w1 hp hs =>
    exact __DAMountWithArgumentsCallback_congr r r' status1 context1 w1
      (fun h => hr (hs.1 ▸ h))

/-! ## Calls nested in a request -/

theorem DAMountWithArguments.exit_countCalls (status : Status)
    (callback : Option DAMountCallback) (callbackContext : Nat) (w : World) :
    countCalls (DAMountWithArguments.exit status callback callbackContext w).trace
      = countCalls w.trace := by
  unfold DAMountWithArguments.exit
  split <;> simp

/-- A run of the body completes; it records its own call and at most the call
of one retry, and no retry when the request is not automatic. -/
theorem DAMountWithArguments.body_counts (env : Env) (r : Remount) (disk : DADiskRef)
    (mountpoint : Option CFType) (callback : Option DAMountCallback) (callbackContext : Nat)
    (arguments : List CFString) (w : World)
    (hr : "automatic".toList ∈ arguments → Remount.Retries r) :
    ∃ w1, DAMountWithArguments.body env r disk mountpoint callback callbackContext arguments w
        = some w1
      ∧ countCalls w.trace + 1 ≤ countCalls w1.trace
      ∧ countCalls w1.trace ≤ countCalls w.trace + 2
      ∧ ("automatic".toList ∉ arguments → countCalls w1.trace = countCalls w.trace + 1) := by
  have h0 : countCalls (w.emit (Event.DAMountWithArguments disk mountpoint callback
      callbackContext arguments)).trace = countCalls w.trace + 1 := by
    simp [countCalls, Event.isCall]
  rcases DAMountWithArguments.body_cases env r r disk mountpoint callback callbackContext
      arguments w with ⟨status, w1, hp, hb, _⟩ | ⟨setup, w1, check, hc, _, hcompl⟩
  · have := (hp []).countCalls_eq
    refine ⟨_, hb, ?_, ?_, fun _ => ?_⟩ <;>
      rw [DAMountWithArguments.exit_countCalls] <;> omega
  · have hok := DAMountWithArguments.compose_ok env disk mountpoint arguments _ w1 setup hc
    have haut : (DAMountWithArguments.context disk callback callbackContext setup).automatic
        = decide ("automatic".toList ∈ arguments) := hok.2.1
    have hp := DAMountWithArguments.compose_progress env disk mountpoint arguments []
      (w.emit (Event.DAMountWithArguments disk mountpoint callback callbackContext arguments))
    rw [hc] at hp
    have hcnt := hp.countCalls_eq
    dsimp only at hcnt
    obtain ⟨w2, h2, hle, hge, hf⟩ := hcompl.counts (fun h => hr (by
      rw [haut] at h; exact of_decide_eq_true h))
    rw [DAMountWithArguments.executeRepair_countCalls] at hle hge hf
    refine ⟨w2, h2, by omega, by omega, fun hn => ?_⟩
    rw [hf (by rw [haut]; exact decide_eq_false hn)]
    omega

/-- The arguments of the retry do not make it automatic. -/
theorem retryArguments_not_automatic : "automatic".toList ∉ retryArguments := by
  decide

/-- At every depth but 0 the retry completes and is one call. -/
theorem DAMountWithArgumentsDepth_retries (env : Env) (depth : Nat) :
    Remount.Retries (DAMountWithArgumentsDepth env (depth + 1)) := by
  intro disk callback callbackContext w
  obtain ⟨w1, h1, _, _, hf⟩ := DAMountWithArguments.body_counts env
    (DAMountWithArgumentsDepth env depth) disk none callback callbackContext retryArguments w
    (fun h => absurd h retryArguments_not_automatic)
  exact ⟨w1, h1, hf retryArguments_not_automatic⟩

/-- A run of the body does not depend on what the nested call does with other
arguments than those of the retry. -/
theorem DAMountWithArguments.body_congr (env : Env) (r r' : Remount) (disk : DADiskRef)
    (mountpoint : Option CFType) (callback : Option DAMountCallback) (callbackContext : Nat)
    (arguments : List CFString) (w : World)
    (hr : "automatic".toList ∈ arguments → ∀ disk callback callbackContext w,
      r disk none callback callbackContext retryArguments w
        = r' disk none callback callbackContext retryArguments w) :
    DAMountWithArguments.body env r disk mountpoint callback callbackContext arguments w
      = DAMountWithArguments.body env r' disk mountpoint callback callbackContext arguments w := by
  rcases DAMountWithArguments.body_cases env r r' disk mountpoint callback callbackContext
      arguments w with ⟨status, w1, _, hb, hb'⟩ | ⟨setup, w1, check, hc, _, hcompl⟩
  · rw [hb, hb']
  · have hok := DAMountWithArguments.compose_ok env disk mountpoint arguments _ w1 setup hc
    have haut : (DAMountWithArguments.context disk callback callbackContext setup).automatic
        = decide ("automatic".toList ∈ arguments) := hok.2.1
    exact hcompl.congr (fun h => hr (by rw [haut] at h; exact of_decide_eq_true h))

/-- Two levels of nesting are all a request uses: a greater bound changes
nothing. -/
theorem DAMountWithArgumentsDepth_stable (env : Env) (depth : Nat) :
    DAMountWithArgumentsDepth env (depth + 2) = DAMountWithArgumentsDepth env 2 := by
  funext disk mountpoint callback callbackContext arguments w
  show DAMountWithArguments.body env (DAMountWithArgumentsDepth env (depth + 1)) disk mountpoint
      callback callbackContext arguments w
    = DAMountWithArguments.body env (DAMountWithArgumentsDepth env 1) disk mountpoint
      callback callbackContext arguments w
  refine DAMountWithArguments.body_congr env _ _ disk mountpoint callback callbackContext
    arguments w (fun _ disk callback callbackContext w => ?_)
  show DAMountWithArguments.body env (DAMountWithArgumentsDepth env depth) disk none
      callback callbackContext retryArguments w
    = DAMountWithArguments.body env (DAMountWithArgumentsDepth env 0) disk none
      callback callbackContext retryArguments w
  exact DAMountWithArguments.body_congr env _ _ disk none callback callbackContext
    retryArguments w (fun h => absurd h retryArguments_not_automatic)

/-! ## The exits through `DAMountWithArgumentsErr` -/

theorem DAMountWithArguments.body_of_compose_error (env : Env) (r : Remount)
    (disk : DADiskRef) (mountpoint : Option CFType) (callback : Option DAMountCallback)
    (callbackContext : Nat) (arguments : List CFString) (w w1 : World) (status : Status)
    (h : DAMountWithArguments.compose env disk mountpoint arguments
        (w.emit (Event.DAMountWithArguments disk mountpoint callback callbackContext arguments))
      = (Except.error status, w1)) :
    DAMountWithArguments.body env r disk mountpoint callback callbackContext arguments w
      = some (DAMountWithArguments.exit status callback callbackContext w1) := by
  unfold DAMountWithArguments.body
  simp only [h]

theorem DAMountWithArguments.body_of_repair_error (env : Env) (r : Remount)
    (disk : DADiskRef) (mountpoint : Option CFType) (callback : Option DAMountCallback)
    (callbackContext : Nat) (arguments : List CFString) (w w1 : World)
    (setup : DAMountWithArguments.Setup) (status : Status)
    (h : DAMountWithArguments.compose env disk mountpoint arguments
        (w.emit (Event.DAMountWithArguments disk mountpoint callback callbackContext arguments))
      = (Except.ok setup, w1))
    (hr : DAMountWithArguments.repair env (w1.disks disk) setup = Except.error status) :
    DAMountWithArguments.body env r disk mountpoint callback callbackContext arguments w
      = some (DAMountWithArguments.exit status callback callbackContext w1) := by
  unfold DAMountWithArguments.body
  simp only [h, hr]

theorem DAMountWithArguments.body_of_repair_ok (env : Env) (r : Remount)
    (disk : DADiskRef) (mountpoint : Option CFType) (callback : Option DAMountCallback)
    (callbackContext : Nat) (arguments : List CFString) (w w1 : World)
    (setup : DAMountWithArguments.Setup) (check : Bool)
    (h : DAMountWithArguments.compose env disk mountpoint arguments
        (w.emit (Event.DAMountWithArguments disk mountpoint callback callbackContext arguments))
      = (Except.ok setup, w1))
    (hr : DAMountWithArguments.repair env (w1.disks disk) setup = Except.ok check) :
    DAMountWithArguments.body env r disk mountpoint callback callbackContext arguments w
      = if check = true then
          __DAMountWithArgumentsCallbackStage1 env r
            (env.DAFileSystemRepair (DAMountWithArguments.executeRepair disk w1).trace)
            (DAMountWithArguments.context disk callback callbackContext setup)
            (DAMountWithArguments.executeRepair disk w1)
        else
          __DAMountWithArgumentsCallbackStage1 env r ECANCELED
            (DAMountWithArguments.context disk callback callbackContext setup) w1 := by
  unfold DAMountWithArguments.body
  simp only [h, hr]

/-- The target-disk-mode check rejects the request before anything else is
looked at. -/
theorem DAMountWithArguments.compose_of_tdmLocked (env : Env) (disk : DADiskRef)
    (mountpoint : Option CFType) (arguments : List CFString) (w : World)
    (hm : env.malloc w.trace = true) (hs : env.CFStringCreateMutable w.trace = true)
    (h : DAMountWithArguments.tdmLocked (w.disks disk) ≠ 0) :
    DAMountWithArguments.compose env disk mountpoint arguments w
      = (Except.error (DAMountWithArguments.tdmLocked (w.disks disk)), w) := by
  unfold DAMountWithArguments.compose
  simp [hm, hs, h]

/-- `force` is set by the `force` argument, and by nothing else. -/
theorem DAMountWithArguments.arguments_force (arguments : List CFString) :
    ∀ locals : DAMountWithArguments.Locals,
      (DAMountWithArguments.arguments arguments locals).force = true
        ↔ (kDAFileSystemMountArgumentForce ∈ arguments ∨ locals.force = true) := by
  induction arguments with
  | nil => intro locals; simp [DAMountWithArguments.arguments]
  | cons a rest ih =>
    intro locals
    unfold DAMountWithArguments.arguments
    by_cases hf : a = kDAFileSystemMountArgumentForce
    · rw [if_pos hf, ih, List.mem_cons]
      constructor
      · intro _; exact Or.inl (Or.inl hf.symm)
      · intro _; exact Or.inr rfl
    · have hne : kDAFileSystemMountArgumentForce ≠ a := fun e => hf e.symm
      by_cases ha : a = "automatic".toList
      · rw [if_neg hf, if_pos ha, ih, List.mem_cons]
        constructor
        · rintro (h | h)
          · exact Or.inl (Or.inr h)
          · exact Or.inr h
        · rintro ((h | h) | h)
          · exact absurd h hne
          · exact Or.inl h
          · exact Or.inr h
      · rw [if_neg hf, if_neg ha, ih, List.mem_cons]
        constructor
        · rintro (h | h)
          · exact Or.inl (Or.inr h)
          · exact Or.inr h
        · rintro ((h | h) | h)
          · exact absurd h hne
          · exact Or.inl h
          · exact Or.inr h

/-- A request that is not automatic leaves the world as it is while it composes
its options. -/
theorem DAMountWithArguments.compose_world_of_not_automatic (env : Env) (disk : DADiskRef)
    (mountpoint : Option CFType) (arguments : List CFString) (w : World)
    (h : "automatic".toList ∉ arguments) :
    (DAMountWithArguments.compose env disk mountpoint arguments w).2 = w := by
  have haut : (DAMountWithArguments.arguments arguments
      DAMountWithArguments.initial).automatic ≠ none := by
    intro hn
    rcases (DAMountWithArguments.arguments_automatic arguments
      DAMountWithArguments.initial).1 hn with h1 | h1
    · exact h h1
    · simp [DAMountWithArguments.initial] at h1
  unfold DAMountWithArguments.compose
  dsimp only
  repeat' split
  all_goals first
    | rfl
    | (have hh : (env.gDAMountMapList1.find?
            (DAMountWithArguments.matches1 env disk (w.disks disk))).isSome = true
          ∧ (DAMountWithArguments.arguments arguments
            DAMountWithArguments.initial).automatic = none
          ∧ DAMountWithArguments.mapAutomatic
              (env.gDAMountMapList1.find?
                (DAMountWithArguments.matches1 env disk (w.disks disk)))
              (DAMountWithArguments.arguments arguments
                DAMountWithArguments.initial).automatic = some kCFBooleanTrue := by
         assumption
       exact absurd hh.2.1 haut)

/-- What the "automatic" and `force` arguments leave in the setup. -/
theorem DAMountWithArguments.compose_ok_arguments (env : Env) (disk : DADiskRef)
    (mountpoint : Option CFType) (arguments : List CFString) (w w1 : World)
    (setup : DAMountWithArguments.Setup)
    (h : DAMountWithArguments.compose env disk mountpoint arguments w = (Except.ok setup, w1)) :
    (setup.force = true ↔ kDAFileSystemMountArgumentForce ∈ arguments)
      ∧ (setup.check = none ↔ "automatic".toList ∉ arguments)
      ∧ (setup.check = some kCFBooleanTrue ↔ "automatic".toList ∈ arguments) := by
  have hok := DAMountWithArguments.compose_ok env disk mountpoint arguments w w1 setup h
  have hf := DAMountWithArguments.arguments_force arguments DAMountWithArguments.initial
  have ha := DAMountWithArguments.arguments_automatic arguments DAMountWithArguments.initial
  have hc := DAMountWithArguments.arguments_check arguments DAMountWithArguments.initial
    (Or.inl rfl) (by simp [DAMountWithArguments.initial])
  have ha' : (DAMountWithArguments.arguments arguments DAMountWithArguments.initial).automatic
      = none ↔ "automatic".toList ∈ arguments := by
    rw [ha]; simp [DAMountWithArguments.initial]
  rw [hok.1, hok.2.2.1]
  refine ⟨?_, ?_, ?_⟩
  · rw [hf]; simp [DAMountWithArguments.initial]
  · rw [hc.2, ← ha']
  · constructor
    · intro h1
      rw [← ha']
      by_contra hn
      have := hc.2.2 hn
      rw [h1] at this
      exact absurd this (by decide)
    · intro h1
      rcases hc.1 with h2 | h2
      · exact absurd (ha'.2 h1) (hc.2.1 h2)
      · exact h2

/-- Stage 1 treats `ECANCELED` as success: it goes to the mount step at once. -/
theorem __DAMountWithArgumentsCallbackStage1_of_ECANCELED (env : Env) (r : Remount)
    (context : __DAMountCallbackContext) (w : World) :
    __DAMountWithArgumentsCallbackStage1 env r ECANCELED context w
      = __DAMountWithArgumentsCallbackStage1.mount env r context
          (__DAMountWithArgumentsCallbackStage1.repaired context w) := by
  unfold __DAMountWithArgumentsCallbackStage1
  simp [ECANCELED]

/-! ## Invariants of a request -/

/-- An invariant of the world that progress of a request on `disk` keeps when
the composed options are good, that calls, completions and the invocation of
the repair helper keep, and under which
compositions are good, holds when a request on the disk has completed. -/
theorem DAMountWithArgumentsDepth_invariant (env : Env) (disk : DADiskRef)
    (I : World → Prop) (Good : CFString → Prop)
    (hprog : ∀ w w1 options, I w → Good options → Progress disk options w w1 → I w1)
    (hstate : ∀ w w1, I w → (∀ options, Progress disk options w w1) → I w1)
    (hevent : ∀ w e, I w → (e.isCall = true ∨ e.isCallback = true) → I (w.emit e))
    (hrepair : ∀ w, I w → I (DAMountWithArguments.executeRepair disk w))
    (hcompose : ∀ w mountpoint arguments setup w1, I w →
      DAMountWithArguments.compose env disk mountpoint arguments w = (Except.ok setup, w1) →
      Good setup.options) :
    ∀ depth mountpoint callback callbackContext arguments w w1, I w →
      DAMountWithArgumentsDepth env depth disk mountpoint callback callbackContext arguments w
        = some w1 → I w1 := by
  have hinvoke : ∀ callback status mountpoint callbackContext w, I w →
      I (invokeCallback callback status mountpoint callbackContext w) := by
    intro callback status mountpoint callbackContext w hw
    unfold invokeCallback
    cases callback with
    | none => exact hw
    | some cb => exact hevent _ _ hw (Or.inr rfl)
  intro depth
  induction depth with
  | zero =>
    intro mountpoint callback callbackContext arguments w w1 _ h
    simp [DAMountWithArgumentsDepth] at h
  | succ n ih =>
    intro mountpoint callback callbackContext arguments w w1 hw h
    have h0 : I (w.emit (Event.DAMountWithArguments disk mountpoint callback callbackContext
        arguments)) := hevent _ _ hw (Or.inl rfl)
    change DAMountWithArguments.body env (DAMountWithArgumentsDepth env n) disk mountpoint
      callback callbackContext arguments w = some w1 at h
    rcases DAMountWithArguments.body_cases env (DAMountWithArgumentsDepth env n)
        (DAMountWithArgumentsDepth env n) disk mountpoint callback callbackContext
        arguments w with ⟨status, wc, hp, hb, _⟩ | ⟨setup, wc, check, hc, _, hcompl⟩
    · rw [hb] at h
      have hwc := hstate _ _ h0 hp
      have : w1 = DAMountWithArguments.exit status callback callbackContext wc :=
        (Option.some.inj h).symm
      rw [this]
      unfold DAMountWithArguments.exit
      split
      · exact hinvoke _ _ _ _ _ hwc
      · exact hwc
    · have hgood := hcompose _ _ _ _ _ h0 hc
      have hpc := fun options => DAMountWithArguments.compose_progress env disk mountpoint
        arguments options
        (w.emit (Event.DAMountWithArguments disk mountpoint callback callbackContext arguments))
      simp only [hc] at hpc
      have hwc0 := hstate _ _ h0 hpc
      have hwc : I (if check = true then DAMountWithArguments.executeRepair disk wc
          else wc) := by
        split
        · exact hrepair _ hwc0
        · exact hwc0
      rw [h] at hcompl
      generalize hb : some w1 = a at hcompl
      cases hcompl with
      | intro status1 context1 w2 hp hs =>
        have hw2 : I w2 := hprog _ _ _ hwc hgood hp
        have hd : context1.disk = disk := hs.2.2.2.1.symm
        have heq := hb.symm
        by_cases hre : context1.automatic = true ∧ status1 = ___EDIRTY
        · obtain ⟨ha, hst⟩ := hre
          subst hst
          rw [__DAMountWithArgumentsCallback_retry _ context1 w2 ha, hd] at heq
          exact ih _ _ _ _ _ _ hw2 heq
        · have hre' : context1.automatic = false ∨ status1 ≠ ___EDIRTY := by
            by_cases ha : context1.automatic = true
            · exact Or.inr (fun hst => hre ⟨ha, hst⟩)
            · exact Or.inl (by simpa using ha)
          rw [__DAMountWithArgumentsCallback_invoke _ status1 context1 w2 hre'] at heq
          rw [← Option.some.inj heq]
          exact hinvoke _ _ _ _ _ hw2

/-- A request only appends to the trace. -/
theorem DAMountWithArgumentsDepth_trace_extends (env : Env) (depth : Nat) (disk : DADiskRef)
    (mountpoint : Option CFType) (callback : Option DAMountCallback) (callbackContext : Nat)
    (arguments : List CFString) (w w1 : World)
    (h : DAMountWithArgumentsDepth env depth disk mountpoint callback callbackContext
      arguments w = some w1) :
    w.trace <+: w1.trace := by
  refine DAMountWithArgumentsDepth_invariant env disk (fun x => w.trace <+: x.trace)
    (fun _ => True) ?_ ?_ ?_ ?_ ?_ depth mountpoint callback callbackContext arguments w w1
    (List.prefix_refl _) h
  · intro x x1 options hx _ hp
    exact hx.trans hp.trace_extends
  · intro x x1 hx hp
    exact hx.trans (hp []).trace_extends
  · intro x e hx _
    exact hx.trans (List.prefix_append _ _)
  · intro x hx
    rw [DAMountWithArguments.executeRepair_trace]
    exact hx.trans (List.prefix_append _ _)
  · intros; trivial

theorem List.drop_of_prefixes {α : Type} {base t t1 : List α} (h1 : base <+: t)
    (h2 : t <+: t1) :
    t1.drop base.length = t.drop base.length ++ t1.drop t.length := by
  obtain ⟨a, rfl⟩ := h1
  obtain ⟨b, rfl⟩ := h2
  simp [List.append_assoc]

/-- Every invocation of the mount helper that a request on a disk adds to the
trace carries options that are good, when every composition for the disk is
good as long as the disk has a property that progress keeps. -/
theorem DAMountWithArgumentsDepth_mountOptions (env : Env) (disk : DADiskRef)
    (Fixed : DADisk → Prop) (Good : CFString → Prop)
    (hfixed : ∀ w w1 options, Progress disk options w w1 → Fixed (w.disks disk) →
      Fixed (w1.disks disk))
    (hcompose : ∀ w mountpoint arguments setup w1, Fixed (w.disks disk) →
      DAMountWithArguments.compose env disk mountpoint arguments w = (Except.ok setup, w1) →
      Good setup.options)
    (depth : Nat) (mountpoint : Option CFType) (callback : Option DAMountCallback)
    (callbackContext : Nat) (arguments : List CFString) (w w1 : World)
    (hw : Fixed (w.disks disk))
    (h : DAMountWithArgumentsDepth env depth disk mountpoint callback callbackContext
      arguments w = some w1) :
    ∀ e ∈ w1.trace.drop w.trace.length, ∀ o, e.mountOptions = some o → Good o := by
  have key := DAMountWithArgumentsDepth_invariant env disk
    (fun x => w.trace <+: x.trace ∧ Fixed (x.disks disk)
      ∧ ∀ e ∈ x.trace.drop w.trace.length, ∀ o, e.mountOptions = some o → Good o)
    Good ?_ ?_ ?_ ?_ ?_ depth mountpoint callback callbackContext arguments w w1
    ⟨List.prefix_refl _, hw, by simp⟩ h
  · exact key.2.2
  · rintro x x1 options ⟨hx, hf, hm⟩ hgood hp
    refine ⟨hx.trans hp.trace_extends, hfixed _ _ _ hp hf, ?_⟩
    rw [List.drop_of_prefixes hx hp.trace_extends]
    intro e he o ho
    rcases List.mem_append.1 he with he | he
    · exact hm e he o ho
    · rw [hp.mountOptions_eq e he o ho]; exact hgood
  · rintro x x1 ⟨hx, hf, hm⟩ hp
    refine ⟨hx.trans (hp []).trace_extends, hfixed _ _ _ (hp []) hf, ?_⟩
    rw [List.drop_of_prefixes hx (hp []).trace_extends]
    intro e he o ho
    rcases List.mem_append.1 he with he | he
    · exact hm e he o ho
    · have h1 := (hp []).mountOptions_eq e he o ho
      have h2 := (hp [',']).mountOptions_eq e he o ho
      rw [h1] at h2
      exact absurd h2 (by decide)
  · rintro x e ⟨hx, hf, hm⟩ he
    refine ⟨hx.trans (List.prefix_append _ _), hf, ?_⟩
    rw [World.emit_trace, List.drop_of_prefixes hx (List.prefix_append x.trace [e])]
    intro e1 he1 o ho
    rcases List.mem_append.1 he1 with he1 | he1
    · exact hm e1 he1 o ho
    · have : e1 = e := by simpa using he1
      subst this
      rcases he with he | he
      · cases e1 <;> simp [Event.isCall, Event.mountOptions] at he ho
      · cases e1 <;> simp [Event.isCallback, Event.mountOptions] at he ho
  · rintro x ⟨hx, hf, hm⟩
    have hp : Progress disk [] x (x.setDisk disk (DADiskSetDescription (x.disks disk)
        kDADiskDescriptionRepairRunningKey (some kCFBooleanTrue))) :=
      Progress.setRepairRunning _ (Progress.refl x)
    refine ⟨?_, ?_, ?_⟩
    · rw [DAMountWithArguments.executeRepair_trace]
      exact hx.trans (List.prefix_append _ _)
    · rw [DAMountWithArguments.executeRepair_disks]
      exact hfixed _ _ _ hp hf
    · rw [DAMountWithArguments.executeRepair_trace,
        List.drop_of_prefixes hx (List.prefix_append x.trace _)]
      intro e1 he1 o ho
      rcases List.mem_append.1 he1 with he1 | he1
      · exact hm e1 he1 o ho
      · simp only [List.drop_left, List.mem_cons, List.mem_singleton, List.not_mem_nil,
          or_false] at he1
        rcases he1 with he1 | he1 <;> subst he1 <;> simp [Event.mountOptions] at ho
  · rintro x mp args setup x1 ⟨_, hf, _⟩ hc
    exact hcompose x mp args setup x1 hf hc

/-! ## The trace only grows -/

theorem invokeCallback_trace_extends (callback : Option DAMountCallback) (status : Status)
    (mountpoint : Option CFType) (callbackContext : Nat) (w : World) :
    w.trace <+: (invokeCallback callback status mountpoint callbackContext w).trace := by
  unfold invokeCallback
  cases callback with
  | none => exact List.prefix_refl _
  | some cb => exact List.prefix_append _ _

theorem __DAMountWithArgumentsCallback_trace_extends (r : Remount) (status : Status)
    (context : __DAMountCallbackContext) (w w1 : World)
    (hr : ∀ disk mountpoint callback callbackContext arguments x x1,
      r disk mountpoint callback callbackContext arguments x = some x1 → x.trace <+: x1.trace)
    (h : __DAMountWithArgumentsCallback r status context w = some w1) :
    w.trace <+: w1.trace := by
  by_cases hre : context.automatic = true ∧ status = ___EDIRTY
  · obtain ⟨ha, hst⟩ := hre
    subst hst
    rw [__DAMountWithArgumentsCallback_retry r context w ha] at h
    exact hr _ _ _ _ _ _ _ h
  · have hre' : context.automatic = false ∨ status ≠ ___EDIRTY := by
      by_cases ha : context.automatic = true
      · exact Or.inr (fun hst => hre ⟨ha, hst⟩)
      · exact Or.inl (by simpa using ha)
    rw [__DAMountWithArgumentsCallback_invoke r status context w hre'] at h
    rw [← Option.some.inj h]
    exact invokeCallback_trace_extends _ _ _ _ _

theorem Completion.result_trace_extends {r r' : Remount} {context : __DAMountCallbackContext}
    {w : World} {a b : Option World} (h : Completion r r' context w a b) (w1 : World)
    (hr : ∀ disk mountpoint callback callbackContext arguments x x1,
      r disk mountpoint callback callbackContext arguments x = some x1 → x.trace <+: x1.trace)
    (ha : a = some w1) : w.trace <+: w1.trace := by
  cases h with
  | intro status1 context1 w2 hp hs =>
    exact hp.trace_extends.trans
      (__DAMountWithArgumentsCallback_trace_extends r status1 context1 w2 w1 hr ha)

/-- Stage 1 only appends to the trace. -/
theorem __DAMountWithArgumentsCallbackStage1_trace_extends (env : Env) (r : Remount)
    (status : Status) (context : __DAMountCallbackContext) (w w1 : World)
    (hr : ∀ disk mountpoint callback callbackContext arguments x x1,
      r disk mountpoint callback callbackContext arguments x = some x1 → x.trace <+: x1.trace)
    (h : __DAMountWithArgumentsCallbackStage1 env r status context w = some w1) :
    w.trace <+: w1.trace :=
  (__DAMountWithArgumentsCallbackStage1_completion env r r status context w).result_trace_extends
    w1 hr h

theorem DAMountWithArguments.exit_trace_extends (status : Status)
    (callback : Option DAMountCallback) (callbackContext : Nat) (w : World) :
    w.trace <+: (DAMountWithArguments.exit status callback callbackContext w).trace := by
  unfold DAMountWithArguments.exit
  split
  · exact invokeCallback_trace_extends _ _ _ _ _
  · exact List.prefix_refl _

/-- A call of `DAMountWithArguments` is recorded first, and everything else
after it. -/
theorem DAMountWithArgumentsDepth_records_call (env : Env) (depth : Nat) (disk : DADiskRef)
    (mountpoint : Option CFType) (callback : Option DAMountCallback) (callbackContext : Nat)
    (arguments : List CFString) (w w1 : World)
    (h : DAMountWithArgumentsDepth env depth disk mountpoint callback callbackContext
      arguments w = some w1) :
    (w.trace ++ [Event.DAMountWithArguments disk mountpoint callback callbackContext arguments])
      <+: w1.trace := by
  cases depth with
  | zero => simp [DAMountWithArgumentsDepth] at h
  | succ n =>
    change DAMountWithArguments.body env (DAMountWithArgumentsDepth env n) disk mountpoint
      callback callbackContext arguments w = some w1 at h
    have hr := fun disk mountpoint callback callbackContext arguments x x1 =>
      DAMountWithArgumentsDepth_trace_extends env n disk mountpoint callback callbackContext
        arguments x x1
    rcases DAMountWithArguments.body_cases env (DAMountWithArgumentsDepth env n)
        (DAMountWithArgumentsDepth env n) disk mountpoint callback callbackContext
        arguments w with ⟨status, wc, hp, hb, _⟩ | ⟨setup, wc, check, hc, _, hcompl⟩
    · rw [hb] at h
      rw [← Option.some.inj h]
      exact (hp []).trace_extends.trans (DAMountWithArguments.exit_trace_extends _ _ _ _)
    · have hpc := DAMountWithArguments.compose_progress env disk mountpoint arguments []
        (w.emit (Event.DAMountWithArguments disk mountpoint callback callbackContext arguments))
      rw [hc] at hpc
      have h1 : wc.trace <+: (if check = true then DAMountWithArguments.executeRepair disk wc
          else wc).trace := by
        split
        · rw [DAMountWithArguments.executeRepair_trace]; exact List.prefix_append _ _
        · exact List.prefix_refl _
      exact (hpc.trace_extends.trans h1).trans (hcompl.result_trace_extends w1 hr h)

/-! ## The composed options -/

theorem Nat.toDigitsCore_no_comma (fuel : Nat) :
    ∀ (n : Nat) (ds : List Char), (∀ c ∈ ds, c ≠ ',') →
      ∀ c ∈ Nat.toDigitsCore 10 fuel n ds, c ≠ ',' := by
  induction fuel with
  | zero => intro n ds h; simpa [Nat.toDigitsCore] using h
  | succ k ih =>
    intro n ds h
    have hd : Nat.digitChar (n % 10) ≠ ',' := by
      have hlt : n % 10 < 10 := Nat.mod_lt _ (by decide)
      generalize n % 10 = m at hlt
      interval_cases m <;> decide
    have hds : ∀ c ∈ Nat.digitChar (n % 10) :: ds, c ≠ ',' := by
      intro c hc
      rcases List.mem_cons.1 hc with hc | hc
      · rw [hc]; exact hd
      · exact h c hc
    unfold Nat.toDigitsCore
    dsimp only
    split
    · exact hds
    · exact ih _ _ hds

/-- A formatted id holds no comma. -/
theorem formatDecimal_no_comma (n : Nat) : ',' ∉ formatDecimal n := by
  have h : ∀ m, ∀ c ∈ Nat.toDigits 10 m, c ≠ ',' := fun m =>
    Nat.toDigitsCore_no_comma _ _ [] (by simp)
  unfold formatDecimal
  split
  · exact fun hc => h _ _ hc rfl
  · intro hc
    rcases List.mem_cons.1 hc with hc | hc
    · exact absurd hc (by decide)
    · exact h _ _ hc rfl

theorem DAMountWithArguments.hfsOptions_of_hfs (disk : DADisk) (options : CFString)
    (h : DAFileSystemGetKind disk = "hfs".toList) :
    DAMountWithArguments.hfsOptions disk options
      = "-u=".toList ++ formatDecimal (hfsUserID disk) ++ ',' ::
          ("-g=".toList ++ formatDecimal (hfsGroupID disk) ++ ',' ::
            ("-m=755".toList ++ ',' :: options)) := by
  unfold DAMountWithArguments.hfsOptions hfsUserID hfsGroupID
  rw [if_pos h]
  have h755 : formatOctal 0o755 = "755".toList := by decide
  dsimp only
  split <;> split <;>
    simp [___CFStringInsertFormat, CFStringInsert, h755, List.append_assoc]

theorem DAMountWithArguments.hfsOptions_of_not_hfs (disk : DADisk) (options : CFString)
    (h : DAFileSystemGetKind disk ≠ "hfs".toList) :
    DAMountWithArguments.hfsOptions disk options = options := by
  unfold DAMountWithArguments.hfsOptions
  rw [if_neg h]

theorem DAMountWithArguments.trustOptions_of_untrusted (env : Env) (disk : DADisk)
    (options : CFString)
    (h : DAMountGetPreference env.gDAPreferenceList disk kDAMountPreferenceTrust = false) :
    DAMountWithArguments.trustOptions env disk options
      = "nodev,noowners,nosuid".toList ++ ',' :: options := by
  unfold DAMountWithArguments.trustOptions
  rw [if_pos h]
  simp [CFStringInsert, kDAFileSystemMountArgumentNoDevice,
    kDAFileSystemMountArgumentNoOwnership, kDAFileSystemMountArgumentNoSetUserID]

theorem DAMountWithArguments.trustOptions_of_trusted (env : Env) (disk : DADisk)
    (options : CFString)
    (h : DAMountGetPreference env.gDAPreferenceList disk kDAMountPreferenceTrust = true) :
    DAMountWithArguments.trustOptions env disk options = options := by
  unfold DAMountWithArguments.trustOptions
  rw [if_neg (by simp [h])]

theorem DAMountWithArguments.writableOptions_of_readOnly (disk : DADisk) (options : CFString)
    (h : DADiskGetDescription disk kDADiskDescriptionMediaWritableKey = some kCFBooleanFalse) :
    DAMountWithArguments.writableOptions disk options
      = kDAFileSystemMountArgumentNoWrite ++ ',' :: options := by
  unfold DAMountWithArguments.writableOptions
  rw [if_pos h, CFStringInsert_entry]

/-! Every step of the composition puts its entries in front of the option
string, so the string it found is what the new one ends with, and its entries
stay entries. -/

theorem suffix_of_front (front options : CFString) : options <:+ front ++ ',' :: options :=
  ⟨front ++ [','], by simp⟩

theorem DAMountWithArguments.hfsOptions_suffix (disk : DADisk) (options : CFString) :
    options <:+ DAMountWithArguments.hfsOptions disk options := by
  by_cases h : DAFileSystemGetKind disk = "hfs".toList
  · rw [DAMountWithArguments.hfsOptions_of_hfs disk options h]
    exact (suffix_of_front _ _).trans ((suffix_of_front _ _).trans (suffix_of_front _ _))
  · rw [DAMountWithArguments.hfsOptions_of_not_hfs disk options h]

theorem DAMountWithArguments.hfsOptions_entries (disk : DADisk) (options x : CFString)
    (h : x ∈ entries options) : x ∈ entries (DAMountWithArguments.hfsOptions disk options) := by
  by_cases hk : DAFileSystemGetKind disk = "hfs".toList
  · rw [DAMountWithArguments.hfsOptions_of_hfs disk options hk]
    exact mem_separating_front _ _ _ _
      (mem_separating_front _ _ _ _ (mem_separating_front _ _ _ _ h))
  · rw [DAMountWithArguments.hfsOptions_of_not_hfs disk options hk]
    exact h

theorem DAMountWithArguments.trustOptions_suffix (env : Env) (disk : DADisk)
    (options : CFString) : options <:+ DAMountWithArguments.trustOptions env disk options := by
  unfold DAMountWithArguments.trustOptions
  split
  · rw [CFStringInsert_entry, CFStringInsert_entry, CFStringInsert_entry]
    exact (suffix_of_front _ _).trans ((suffix_of_front _ _).trans (suffix_of_front _ _))
  · exact List.suffix_refl _

theorem DAMountWithArguments.trustOptions_entries (env : Env) (disk : DADisk)
    (options x : CFString) (h : x ∈ entries options) :
    x ∈ entries (DAMountWithArguments.trustOptions env disk options) := by
  unfold DAMountWithArguments.trustOptions
  split
  · rw [CFStringInsert_entry, CFStringInsert_entry, CFStringInsert_entry]
    exact mem_separating_front _ _ _ _
      (mem_separating_front _ _ _ _ (mem_separating_front _ _ _ _ h))
  · exact h

theorem DAMountWithArguments.writableOptions_suffix (disk : DADisk) (options : CFString) :
    options <:+ DAMountWithArguments.writableOptions disk options := by
  unfold DAMountWithArguments.writableOptions
  split
  · rw [CFStringInsert_entry]; exact suffix_of_front _ _
  · exact List.suffix_refl _

theorem DAMountWithArguments.writableOptions_entries (disk : DADisk) (options x : CFString)
    (h : x ∈ entries options) :
    x ∈ entries (DAMountWithArguments.writableOptions disk options) := by
  unfold DAMountWithArguments.writableOptions
  split
  · rw [CFStringInsert_entry]; exact mem_separating_front _ _ _ _ h
  · exact h

theorem DAMountWithArguments.mapOptions_suffix (map : Option DAMountMap) (options : CFString) :
    options <:+ DAMountWithArguments.mapOptions map options := by
  unfold DAMountWithArguments.mapOptions
  split
  · split
    · rw [CFStringInsert_entry]; exact suffix_of_front _ _
    · exact List.suffix_refl _
  · exact List.suffix_refl _

theorem DAMountWithArguments.mapOptions_entries (map : Option DAMountMap)
    (options x : CFString) (h : x ∈ entries options) :
    x ∈ entries (DAMountWithArguments.mapOptions map options) := by
  unfold DAMountWithArguments.mapOptions
  split
  · split
    · rw [CFStringInsert_entry]; exact mem_separating_front _ _ _ _ h
    · exact h
  · exact h

/-- The options of a matching map entry stand in the option string, followed by
a comma and by the string the map was applied to. -/
theorem DAMountWithArguments.mapOptions_of_some (map : DAMountMap) (string options : CFString)
    (h : map.kDAMountMapMountOptionsKey = some string) :
    DAMountWithArguments.mapOptions (some map) options = string ++ ',' :: options := by
  unfold DAMountWithArguments.mapOptions
  simp only [h]
  exact CFStringInsert_entry _ _

theorem DAMountWithArguments.systemOptions_suffix (env : Env) (automatic : Bool)
    (disk : DADisk) (options : CFString) :
    options <:+ DAMountWithArguments.systemOptions env automatic disk options := by
  unfold DAMountWithArguments.systemOptions
  dsimp only
  repeat' split
  all_goals try simp only [CFStringInsert_entry]
  all_goals first
    | exact List.suffix_refl _
    | exact suffix_of_front _ _
    | exact (suffix_of_front _ _).trans (suffix_of_front _ _)

theorem DAMountWithArguments.quarantineOptions_suffix (automatic : Bool) (disk : DADisk)
    (options : CFString) :
    options <:+ DAMountWithArguments.quarantineOptions automatic disk options := by
  unfold DAMountWithArguments.quarantineOptions
  split
  · rw [CFStringInsert_entry]; exact suffix_of_front _ _
  · exact List.suffix_refl _

/-- The options of the caller are what the option string ends with before the
final trim, whatever the daemon and the mount maps put in front. -/
theorem DAMountWithArguments.callerOptions_suffix (env : Env) (ref : DADiskRef)
    (disk : DADisk) (arguments : List CFString) :
    callerOptions arguments
      <:+ DAMountWithArguments.writableOptions disk
          (DAMountWithArguments.mappedOptions env ref disk arguments) := by
  refine List.IsSuffix.trans ?_ (DAMountWithArguments.writableOptions_suffix _ _)
  unfold DAMountWithArguments.mappedOptions
  refine List.IsSuffix.trans ?_ (DAMountWithArguments.mapOptions_suffix _ _)
  refine List.IsSuffix.trans ?_ (DAMountWithArguments.mapOptions_suffix _ _)
  unfold DAMountWithArguments.requestOptions
  dsimp only
  refine List.IsSuffix.trans ?_ (DAMountWithArguments.quarantineOptions_suffix _ _ _)
  exact DAMountWithArguments.systemOptions_suffix _ _ _ _

/-- The entries in front of the composed options of an untrusted volume: the
ownership entries of an HFS volume, then `nodev`, `noowners`, `nosuid`. -/
theorem DAMountWithArguments.untrusted_entries (env : Env) (disk : DADisk) (rest : CFString)
    (h : DAMountGetPreference env.gDAPreferenceList disk kDAMountPreferenceTrust = false) :
    ∃ more, entries (CFStringTrim (DAMountWithArguments.hfsOptions disk
        (DAMountWithArguments.trustOptions env disk rest)) ',')
      = (if DAFileSystemGetKind disk = "hfs".toList then hfsEntries disk else [])
          ++ untrustedEntries ++ more := by
  rw [DAMountWithArguments.trustOptions_of_untrusted env disk rest h]
  have hu : entries "nodev,noowners,nosuid".toList = untrustedEntries := by decide
  by_cases hk : DAFileSystemGetKind disk = "hfs".toList
  · rw [DAMountWithArguments.hfsOptions_of_hfs disk _ hk, if_pos hk]
    have hp : "-u=".toList ++ formatDecimal (hfsUserID disk) ++ ',' ::
          ("-g=".toList ++ formatDecimal (hfsGroupID disk) ++ ',' ::
            ("-m=755".toList ++ ',' :: ("nodev,noowners,nosuid".toList ++ ',' :: rest)))
        = ("-u=".toList ++ formatDecimal (hfsUserID disk) ++ ',' ::
            ("-g=".toList ++ formatDecimal (hfsGroupID disk) ++ ',' ::
              ("-m=755".toList ++ ',' :: "nodev,noowners,nosuid".toList))) ++ ',' :: rest := by
      simp [List.append_assoc]
    rw [hp]
    obtain ⟨more, hmore⟩ := separating_trim_front
      ("-u=".toList ++ formatDecimal (hfsUserID disk) ++ ',' ::
        ("-g=".toList ++ formatDecimal (hfsGroupID disk) ++ ',' ::
          ("-m=755".toList ++ ',' :: "nodev,noowners,nosuid".toList))) rest ','
      (by simp) (by simp) (by simp [List.getLast_append, List.getLast_cons])
    refine ⟨more, ?_⟩
    unfold entries at hu ⊢
    rw [hmore, separating_append, separating_append, separating_append, hu,
      separating_of_not_mem _ ',' (by
        simpa using formatDecimal_no_comma (hfsUserID disk)),
      separating_of_not_mem _ ',' (by
        simpa using formatDecimal_no_comma (hfsGroupID disk)),
      separating_of_not_mem "-m=755".toList ',' (by decide)]
    simp [hfsEntries]
  · rw [DAMountWithArguments.hfsOptions_of_not_hfs disk _ hk, if_neg hk]
    obtain ⟨more, hmore⟩ := separating_trim_front "nodev,noowners,nosuid".toList rest ','
      (by decide) (by decide) (by decide)
    refine ⟨more, ?_⟩
    unfold entries at hu ⊢
    rw [hmore, hu]
    simp

/-- The composed options of an HFS volume begin with its ownership entries. -/
theorem DAMountWithArguments.hfs_entries (disk : DADisk) (rest : CFString)
    (hk : DAFileSystemGetKind disk = "hfs".toList) :
    ("-u=".toList ++ formatDecimal (hfsUserID disk) ++ ",-g=".toList
        ++ formatDecimal (hfsGroupID disk) ++ ",-m=755".toList)
      <+: CFStringTrim (DAMountWithArguments.hfsOptions disk rest) ','
    ∧ ∃ more, entries (CFStringTrim (DAMountWithArguments.hfsOptions disk rest) ',')
      = hfsEntries disk ++ more := by
  rw [DAMountWithArguments.hfsOptions_of_hfs disk _ hk]
  have hp : "-u=".toList ++ formatDecimal (hfsUserID disk) ++ ',' ::
        ("-g=".toList ++ formatDecimal (hfsGroupID disk) ++ ',' ::
          ("-m=755".toList ++ ',' :: rest))
      = ("-u=".toList ++ formatDecimal (hfsUserID disk) ++ ',' ::
          ("-g=".toList ++ formatDecimal (hfsGroupID disk) ++ ',' :: "-m=755".toList))
        ++ ',' :: rest := by
    simp [List.append_assoc]
  rw [hp]
  constructor
  · rw [CFStringTrim_front _ _ ',' (by simp) (by simp)
      (by simp [List.getLast_append, List.getLast_cons])]
    have hx : "-u=".toList ++ formatDecimal (hfsUserID disk) ++ ",-g=".toList
          ++ formatDecimal (hfsGroupID disk) ++ ",-m=755".toList
        = "-u=".toList ++ formatDecimal (hfsUserID disk) ++ ',' ::
          ("-g=".toList ++ formatDecimal (hfsGroupID disk) ++ ',' :: "-m=755".toList) := by
      simp [List.append_assoc]
    rw [hx]
    exact List.prefix_append _ _
  · obtain ⟨more, hmore⟩ := separating_trim_front
      ("-u=".toList ++ formatDecimal (hfsUserID disk) ++ ',' ::
        ("-g=".toList ++ formatDecimal (hfsGroupID disk) ++ ',' :: "-m=755".toList)) rest ','
      (by simp) (by simp) (by simp [List.getLast_append, List.getLast_cons])
    refine ⟨more, ?_⟩
    unfold entries
    rw [hmore, separating_append, separating_append,
      separating_of_not_mem _ ',' (by
        simpa using formatDecimal_no_comma (hfsUserID disk)),
      separating_of_not_mem _ ',' (by
        simpa using formatDecimal_no_comma (hfsGroupID disk)),
      separating_of_not_mem "-m=755".toList ',' (by decide)]
    simp [hfsEntries]

/-- An entry of the options before the final steps is an entry of the composed
options. -/
theorem DAMountWithArguments.composed_entries (env : Env) (disk : DADisk)
    (options x : CFString) (hx : x ≠ []) (h : x ∈ entries options) :
    x ∈ entries (CFStringTrim
      (DAMountWithArguments.hfsOptions disk
        (DAMountWithArguments.trustOptions env disk
          (DAMountWithArguments.writableOptions disk options))) ',') :=
  mem_separating_trim x _ ',' hx
    (DAMountWithArguments.hfsOptions_entries _ _ _
      (DAMountWithArguments.trustOptions_entries _ _ _ _
        (DAMountWithArguments.writableOptions_entries _ _ _ h)))

/-- Read-only media: `rdonly` is an entry of the composed options. -/
theorem DAMountWithArguments.readOnly_entry (env : Env) (disk : DADisk) (options : CFString)
    (h : DADiskGetDescription disk kDADiskDescriptionMediaWritableKey = some kCFBooleanFalse) :
    kDAFileSystemMountArgumentNoWrite ∈ entries (CFStringTrim
      (DAMountWithArguments.hfsOptions disk
        (DAMountWithArguments.trustOptions env disk
          (DAMountWithArguments.writableOptions disk options))) ',') := by
  refine mem_separating_trim _ _ ',' (by decide)
    (DAMountWithArguments.hfsOptions_entries _ _ _
      (DAMountWithArguments.trustOptions_entries _ _ _ _ ?_))
  rw [DAMountWithArguments.writableOptions_of_readOnly disk options h]
  exact mem_separating_entry _ _ ',' (by decide)

/-- An automatic mount of a quarantined disk: `quarantine` is an entry of the
options once the mount maps have been processed. -/
theorem DAMountWithArguments.quarantine_entry (env : Env) (ref : DADiskRef) (disk : DADisk)
    (arguments : List CFString) (ha : "automatic".toList ∈ arguments)
    (hq : DADiskGetState disk _kDADiskStateMountQuarantined = true) :
    "quarantine".toList ∈ entries (DAMountWithArguments.mappedOptions env ref disk arguments) := by
  unfold DAMountWithArguments.mappedOptions
  refine DAMountWithArguments.mapOptions_entries _ _ _
    (DAMountWithArguments.mapOptions_entries _ _ _ ?_)
  unfold DAMountWithArguments.requestOptions
  dsimp only
  have haut : (DAMountWithArguments.arguments arguments
      DAMountWithArguments.initial).automatic = none :=
    (DAMountWithArguments.arguments_automatic arguments DAMountWithArguments.initial).2
      (Or.inl ha)
  unfold DAMountWithArguments.quarantineOptions
  rw [if_pos ⟨by simp [haut], hq⟩, CFStringInsert_entry]
  exact mem_separating_entry _ _ ',' (by decide)

/-! The converse direction: what is an entry of the composed options was an entry
before, or is one the step put in front. -/

theorem of_mem_separating_dropWhile (x s : CFString) (sep : Char)
    (h : x ∈ CFStringCreateArrayBySeparatingStrings
      (List.dropWhile (fun c => decide (c = sep)) s) sep) :
    x ∈ CFStringCreateArrayBySeparatingStrings s sep := by
  induction s with
  | nil => simpa using h
  | cons c rest ih =>
    by_cases hc : c = sep
    · subst hc
      simp only [CFStringCreateArrayBySeparatingStrings, if_true, List.mem_cons]
      exact Or.inr (ih (by simpa [List.dropWhile] using h))
    · simpa [List.dropWhile, hc] using h

theorem of_mem_separating_rdropWhile (x s : CFString) (sep : Char)
    (h : x ∈ CFStringCreateArrayBySeparatingStrings
      (List.rdropWhile (fun c => decide (c = sep)) s) sep) :
    x ∈ CFStringCreateArrayBySeparatingStrings s sep := by
  induction s using List.reverseRecOn with
  | nil => simpa using h
  | append_singleton rest c ih =>
    by_cases hc : c = sep
    · subst hc
      rw [List.rdropWhile_concat_pos _ _ _ (by simp)] at h
      rw [separating_append]
      exact List.mem_append_left _ (ih h)
    · rw [List.rdropWhile_concat_neg _ _ _ (by simpa using hc)] at h
      exact h

/-- Trimming the separators off both ends makes no new entry. -/
theorem of_mem_separating_trim (x s : CFString) (sep : Char)
    (h : x ∈ CFStringCreateArrayBySeparatingStrings (CFStringTrim s sep) sep) :
    x ∈ CFStringCreateArrayBySeparatingStrings s sep := by
  unfold CFStringTrim at h
  exact of_mem_separating_dropWhile x s sep (of_mem_separating_rdropWhile x _ sep h)

/-- An entry of a list with a front is an entry of the front or of the list. -/
theorem of_mem_entries_front (x front options : CFString)
    (h : x ∈ entries (front ++ ',' :: options)) : x ∈ entries front ∨ x ∈ entries options := by
  unfold entries at h ⊢
  rw [separating_append] at h
  exact List.mem_append.1 h

theorem DAMountWithArguments.of_mem_mapOptions (map : Option DAMountMap)
    (options x : CFString) (h : x ∈ entries (DAMountWithArguments.mapOptions map options)) :
    (∃ found string, map = some found ∧ found.kDAMountMapMountOptionsKey = some string
        ∧ x ∈ entries string)
      ∨ x ∈ entries options := by
  unfold DAMountWithArguments.mapOptions at h
  split at h
  · rename_i found
    split at h
    · rename_i string hs
      rw [CFStringInsert_entry] at h
      rcases of_mem_entries_front _ _ _ h with h | h
      · exact Or.inl ⟨found, string, rfl, hs, h⟩
      · exact Or.inr h
    · exact Or.inr h
  · exact Or.inr h

theorem DAMountWithArguments.of_mem_writableOptions (disk : DADisk) (options x : CFString)
    (h : x ∈ entries (DAMountWithArguments.writableOptions disk options)) :
    x = kDAFileSystemMountArgumentNoWrite ∨ x ∈ entries options := by
  unfold DAMountWithArguments.writableOptions at h
  split at h
  · rw [CFStringInsert_entry] at h
    rcases of_mem_entries_front _ _ _ h with h | h
    · exact Or.inl (by simpa [entries, kDAFileSystemMountArgumentNoWrite,
        CFStringCreateArrayBySeparatingStrings] using h)
    · exact Or.inr h
  · exact Or.inr h

theorem DAMountWithArguments.of_mem_trustOptions (env : Env) (disk : DADisk)
    (options x : CFString)
    (h : x ∈ entries (DAMountWithArguments.trustOptions env disk options)) :
    x ∈ untrustedEntries ∨ x ∈ entries options := by
  unfold DAMountWithArguments.trustOptions at h
  split at h
  · rw [CFStringInsert_entry, CFStringInsert_entry, CFStringInsert_entry] at h
    rcases of_mem_entries_front _ _ _ h with h | h
    · have h1 : x = kDAFileSystemMountArgumentNoDevice := by
        simpa [entries, kDAFileSystemMountArgumentNoDevice, CFStringCreateArrayBySeparatingStrings] using h
      exact Or.inl (by simp [untrustedEntries, h1])
    rcases of_mem_entries_front _ _ _ h with h | h
    · have h1 : x = kDAFileSystemMountArgumentNoOwnership := by
        simpa [entries, kDAFileSystemMountArgumentNoOwnership, CFStringCreateArrayBySeparatingStrings] using h
      exact Or.inl (by simp [untrustedEntries, h1])
    rcases of_mem_entries_front _ _ _ h with h | h
    · have h1 : x = kDAFileSystemMountArgumentNoSetUserID := by
        simpa [entries, kDAFileSystemMountArgumentNoSetUserID, CFStringCreateArrayBySeparatingStrings] using h
      exact Or.inl (by simp [untrustedEntries, h1])
    · exact Or.inr h
  · exact Or.inr h

theorem entries_formatted (tag : CFString) (n : Nat) (ht : ',' ∉ tag) :
    entries (tag ++ formatDecimal n) = [tag ++ formatDecimal n] :=
  separating_of_not_mem _ _ (by
    intro h
    rcases List.mem_append.1 h with h | h
    · exact ht h
    · exact formatDecimal_no_comma n h)

theorem DAMountWithArguments.of_mem_hfsOptions (disk : DADisk) (options x : CFString)
    (h : x ∈ entries (DAMountWithArguments.hfsOptions disk options)) :
    x ∈ hfsEntries disk ∨ x ∈ entries options := by
  by_cases hk : DAFileSystemGetKind disk = "hfs".toList
  · rw [DAMountWithArguments.hfsOptions_of_hfs disk options hk] at h
    rcases of_mem_entries_front _ _ _ h with h | h
    · rw [entries_formatted _ _ (by decide)] at h
      exact Or.inl (by simp only [hfsEntries]; simp only [List.mem_singleton] at h; simp [h])
    rcases of_mem_entries_front _ _ _ h with h | h
    · rw [entries_formatted _ _ (by decide)] at h
      exact Or.inl (by simp only [hfsEntries]; simp only [List.mem_singleton] at h; simp [h])
    rcases of_mem_entries_front _ _ _ h with h | h
    · have h1 : x = "-m=755".toList := by
        simpa [entries, CFStringCreateArrayBySeparatingStrings] using h
      exact Or.inl (by simp [hfsEntries, h1])
    · exact Or.inr h
  · rw [DAMountWithArguments.hfsOptions_of_not_hfs disk options hk] at h
    exact Or.inr h

/-- Every entry of the composed options is one of the daemon (ownership of an
HFS volume, an untrusted volume, read-only media) or an entry of the options the
composition started from. -/
theorem DAMountWithArguments.of_mem_composed (env : Env) (disk : DADisk)
    (options x : CFString)
    (h : x ∈ entries (CFStringTrim
      (DAMountWithArguments.hfsOptions disk
        (DAMountWithArguments.trustOptions env disk
          (DAMountWithArguments.writableOptions disk options))) ',')) :
    x ∈ hfsEntries disk ∨ x ∈ untrustedEntries ∨ x = kDAFileSystemMountArgumentNoWrite
      ∨ x ∈ entries options := by
  rcases DAMountWithArguments.of_mem_hfsOptions _ _ _ (of_mem_separating_trim _ _ _ h)
    with h | h
  · exact Or.inl h
  rcases DAMountWithArguments.of_mem_trustOptions _ _ _ _ h with h | h
  · exact Or.inr (Or.inl h)
  rcases DAMountWithArguments.of_mem_writableOptions _ _ _ h with h | h
  · exact Or.inr (Or.inr (Or.inl h))
  · exact Or.inr (Or.inr (Or.inr h))

/-- Without the "automatic" argument the option string before the mount maps is
the caller's: neither the system volume step nor the quarantine step puts an
entry in. -/
theorem DAMountWithArguments.requestOptions_of_not_automatic (env : Env) (disk : DADisk)
    (arguments : List CFString) (h : "automatic".toList ∉ arguments) :
    DAMountWithArguments.requestOptions env disk arguments = callerOptions arguments := by
  have haut : (DAMountWithArguments.arguments arguments
      DAMountWithArguments.initial).automatic ≠ none := fun e =>
    ((DAMountWithArguments.arguments_automatic arguments DAMountWithArguments.initial).1 e).elim
      h (by simp [DAMountWithArguments.initial])
  unfold DAMountWithArguments.requestOptions DAMountWithArguments.quarantineOptions
    DAMountWithArguments.systemOptions callerOptions
  dsimp only
  rw [if_neg (by simp [haut]), if_neg (by simp [haut])]

theorem quarantine_not_mem_daemon_entries (disk : DADisk) :
    "quarantine".toList ∉ hfsEntries disk ∧ "quarantine".toList ∉ untrustedEntries
      ∧ "quarantine".toList ≠ kDAFileSystemMountArgumentNoWrite := by
  refine ⟨?_, by decide, by decide⟩
  simp [hfsEntries]

/-! ## The mount point folder -/

theorem DAMountRemoveMountPoint_disks (env : Env) (mountpoint : CFType) (w : World) :
    (DAMountRemoveMountPoint env mountpoint w).disks = w.disks := by
  unfold DAMountRemoveMountPoint
  split
  · rfl
  · dsimp only
    repeat' split
    all_goals rfl

theorem DAMountCreateMountPointWithAction.candidate_disks (env : Env) (disk : DADiskRef)
    (action : DAMountPointAction) (path : CFString) (w : World) :
    (DAMountCreateMountPointWithAction.candidate env disk action path w).2.disks = w.disks := by
  unfold DAMountCreateMountPointWithAction.candidate
  cases action with
  | kDAMountPointActionLink =>
    dsimp only
    repeat' split
    all_goals rfl
  | kDAMountPointActionMake =>
    dsimp only
    have h1 : ∀ x : World, x.disks = w.disks →
        (if env.mkdir x.trace path = true then
          ((some (CFType.url path),
            if DADiskGetUserUID ((x.emit (Event.mkdir path 0o111 (env.mkdir x.trace path))).disks
                disk) ≠ 0 then
              (x.emit (Event.mkdir path 0o111 (env.mkdir x.trace path))).emit
                (Event.chown path (DADiskGetUserUID
                  ((x.emit (Event.mkdir path 0o111 (env.mkdir x.trace path))).disks disk)))
            else x.emit (Event.mkdir path 0o111 (env.mkdir x.trace path))) :
              Option CFType × World)
        else (none, x.emit (Event.mkdir path 0o111 (env.mkdir x.trace path)))).2.disks
          = w.disks := by
      intro x hx
      repeat' split
      all_goals exact hx
    apply h1
    repeat' split
    all_goals first | rfl | exact DAMountRemoveMountPoint_disks env _ w
  | kDAMountPointActionMove =>
    dsimp only
    repeat' split
    all_goals rfl
  | kDAMountPointActionNone => rfl

theorem DAMountCreateMountPointWithAction.loop_disks (env : Env) (disk : DADiskRef)
    (action : DAMountPointAction) (realMainMountPoint name : CFString) (remaining : Nat) :
    ∀ (index : Nat) (w : World),
      (DAMountCreateMountPointWithAction.loop env disk action realMainMountPoint name
        remaining index w).2.disks = w.disks := by
  induction remaining with
  | zero => intro index w; rfl
  | succ n ih =>
    intro index w
    unfold DAMountCreateMountPointWithAction.loop
    dsimp only
    split
    · exact DAMountCreateMountPointWithAction.candidate_disks env disk action _ w
    · rw [ih]
      exact DAMountCreateMountPointWithAction.candidate_disks env disk action _ w

theorem DAMountCreateMountPointWithAction_disks (env : Env) (disk : DADiskRef)
    (action : DAMountPointAction) (w : World) :
    (DAMountCreateMountPointWithAction env disk action w).2.disks = w.disks := by
  unfold DAMountCreateMountPointWithAction
  split
  · rfl
  · dsimp only
    split
    · rfl
    · exact DAMountCreateMountPointWithAction.loop_disks env disk action _ _ 100 0 w

theorem __DAMountWithArgumentsCallbackStage1.repaired_state (context : __DAMountCallbackContext)
    (w : World) (s : DADiskState) :
    DADiskGetState ((__DAMountWithArgumentsCallbackStage1.repaired context w).disks context.disk)
        s
      = DADiskGetState (w.disks context.disk) s := by
  unfold __DAMountWithArgumentsCallbackStage1.repaired
  split
  · simp [World.emit, World.setDisk, DADiskGetState, DADiskSetDescription]
  · rfl

theorem __DAMountWithArgumentsCallbackStage1.repaired_trace (context : __DAMountCallbackContext)
    (w : World) :
    (__DAMountWithArgumentsCallbackStage1.repaired context w).trace
      = w.trace ++
        (if DADiskGetDescription (w.disks context.disk) kDADiskDescriptionRepairRunningKey ≠ none
          then [Event.DADiskDescriptionChangedCallback context.disk
            kDADiskDescriptionRepairRunningKey]
          else []) := by
  unfold __DAMountWithArgumentsCallbackStage1.repaired
  split
  · simp [World.emit, World.setDisk]
  · simp

theorem __DAMountWithArgumentsCallbackStage1.mountpoint_disks (env : Env)
    (context : __DAMountCallbackContext) (w : World) :
    (__DAMountWithArgumentsCallbackStage1.mountpoint env context w).2.disks = w.disks := by
  unfold __DAMountWithArgumentsCallbackStage1.mountpoint
  split
  · exact DAMountCreateMountPointWithAction_disks env _ _ w
  · rfl

theorem replaceFirstSlash_map (name : CFString) :
    (replaceFirstSlash name).map sanitizeCharacter = name.map sanitizeCharacter := by
  induction name with
  | nil => rfl
  | cons c rest ih =>
    unfold replaceFirstSlash
    by_cases h : c = '/'
    · subst h
      simp [sanitizeCharacter]
    · simp [h, ih]

theorem replaceFirstSlash_count (name : CFString) (h : '/' ∈ name) :
    (replaceFirstSlash name).count '/' + 1 = name.count '/' := by
  induction name with
  | nil => simp at h
  | cons c rest ih =>
    unfold replaceFirstSlash
    by_cases hc : c = '/'
    · subst hc
      simp [List.count_cons]
    · have hr : '/' ∈ rest := by
        rcases List.mem_cons.1 h with h1 | h1
        · exact absurd h1.symm hc
        · exact h1
      simp only [hc, if_false, List.count_cons, beq_iff_eq]
      have := ih hr
      omega

theorem map_sanitizeCharacter_of_not_mem (name : CFString) (h : '/' ∉ name) :
    name.map sanitizeCharacter = name := by
  induction name with
  | nil => rfl
  | cons c rest ih =>
    have hc : c ≠ '/' := fun hc => h (by simp [hc])
    have hr : '/' ∉ rest := fun hr => h (List.mem_cons_of_mem _ hr)
    simp [sanitizeCharacter, hc, ih hr]

theorem not_mem_map_sanitizeCharacter (name : CFString) :
    '/' ∉ name.map sanitizeCharacter := by
  intro h
  obtain ⟨c, _, hc⟩ := List.mem_map.1 h
  unfold sanitizeCharacter at hc
  split at hc
  · exact absurd hc (by decide)
  · exact absurd hc ‹¬ c = '/'›

theorem adjustVolumeName_eq_map (fuel : Nat) :
    ∀ name : CFString, name.count '/' ≤ fuel →
      adjustVolumeName fuel name = name.map sanitizeCharacter := by
  induction fuel with
  | zero =>
    intro name h
    have hn : '/' ∉ name := by
      intro hm
      have := List.count_pos_iff.2 hm
      omega
    unfold adjustVolumeName
    exact (map_sanitizeCharacter_of_not_mem name hn).symm
  | succ n ih =>
    intro name h
    unfold adjustVolumeName
    by_cases hm : '/' ∈ name
    · have hc : name.contains '/' = true := by simpa using hm
      rw [if_pos hc, ih, replaceFirstSlash_map]
      have := replaceFirstSlash_count name hm
      omega
    · have hc : ¬ name.contains '/' = true := by simpa using hm
      rw [if_neg hc]
      exact (map_sanitizeCharacter_of_not_mem name hm).symm

theorem mkdirs_append (a b : List Event) : mkdirs (a ++ b) = mkdirs a ++ mkdirs b := by
  unfold mkdirs
  exact List.filter_append a b

theorem mkdirs_emit_quiet (w x : World) (e : Event) (he : e.isMkdir = false)
    (h : ∃ new, x.trace = w.trace ++ new ∧ mkdirs new = []) :
    ∃ new, (x.emit e).trace = w.trace ++ new ∧ mkdirs new = [] := by
  obtain ⟨new, hx, hm⟩ := h
  refine ⟨new ++ [e], by simp [World.emit, hx], ?_⟩
  rw [mkdirs_append, hm]
  simp [mkdirs, he]

theorem DAMountRemoveMountPoint_mkdirs (env : Env) (mountpoint : CFType) (w : World) :
    ∃ new, (DAMountRemoveMountPoint env mountpoint w).trace = w.trace ++ new
      ∧ mkdirs new = [] := by
  have base : ∃ new, w.trace = w.trace ++ new ∧ mkdirs new = [] := ⟨[], by simp, rfl⟩
  unfold DAMountRemoveMountPoint
  split
  · exact base
  · dsimp only
    repeat' split
    all_goals first
      | exact base
      | exact mkdirs_emit_quiet w _ _ rfl base
      | exact mkdirs_emit_quiet w _ _ rfl (mkdirs_emit_quiet w _ _ rfl base)

theorem DAMountCreateMountPointWithAction.candidate_make (env : Env) (disk : DADiskRef)
    (path : CFString) (w : World) :
    ∃ new made,
      (DAMountCreateMountPointWithAction.candidate env disk kDAMountPointActionMake path w).2.trace
          = w.trace ++ new
        ∧ mkdirs new = [Event.mkdir path 0o111 made]
        ∧ (DAMountCreateMountPointWithAction.candidate env disk kDAMountPointActionMake path w).1
          = if made then some (CFType.url path) else none := by
  unfold DAMountCreateMountPointWithAction.candidate
  dsimp only
  have h1 : ∀ x : World, (∃ pre, x.trace = w.trace ++ pre ∧ mkdirs pre = []) →
      ∃ new made,
        (if env.mkdir x.trace path = true then
          ((some (CFType.url path),
            if DADiskGetUserUID ((x.emit (Event.mkdir path 0o111 (env.mkdir x.trace path))).disks
                disk) ≠ 0 then
              (x.emit (Event.mkdir path 0o111 (env.mkdir x.trace path))).emit
                (Event.chown path (DADiskGetUserUID
                  ((x.emit (Event.mkdir path 0o111 (env.mkdir x.trace path))).disks disk)))
            else x.emit (Event.mkdir path 0o111 (env.mkdir x.trace path))) :
              Option CFType × World)
        else (none, x.emit (Event.mkdir path 0o111 (env.mkdir x.trace path)))).2.trace
          = w.trace ++ new
        ∧ mkdirs new = [Event.mkdir path 0o111 made]
        ∧ (if env.mkdir x.trace path = true then
          ((some (CFType.url path),
            if DADiskGetUserUID ((x.emit (Event.mkdir path 0o111 (env.mkdir x.trace path))).disks
                disk) ≠ 0 then
              (x.emit (Event.mkdir path 0o111 (env.mkdir x.trace path))).emit
                (Event.chown path (DADiskGetUserUID
                  ((x.emit (Event.mkdir path 0o111 (env.mkdir x.trace path))).disks disk)))
            else x.emit (Event.mkdir path 0o111 (env.mkdir x.trace path))) :
              Option CFType × World)
        else (none, x.emit (Event.mkdir path 0o111 (env.mkdir x.trace path)))).1
          = if made then some (CFType.url path) else none := by
    intro x hx
    obtain ⟨pre, hpre, hm⟩ := hx
    cases hmade : env.mkdir x.trace path with
    | false =>
      refine ⟨pre ++ [Event.mkdir path 0o111 false], false, ?_, ?_, ?_⟩
      · simp [World.emit, hpre]
      · rw [mkdirs_append, hm]; rfl
      · simp
    | true =>
      by_cases hu : DADiskGetUserUID ((x.emit (Event.mkdir path 0o111 true)).disks disk) ≠ 0
      · refine ⟨pre ++ [Event.mkdir path 0o111 true,
          Event.chown path (DADiskGetUserUID ((x.emit (Event.mkdir path 0o111 true)).disks
            disk))], true, ?_, ?_, ?_⟩
        · simp only [if_true, if_pos hu]
          simp [World.emit, hpre]
        · rw [mkdirs_append, hm]; rfl
        · simp
      · refine ⟨pre ++ [Event.mkdir path 0o111 true], true, ?_, ?_, ?_⟩
        · simp only [if_true, if_neg hu]
          simp [World.emit, hpre]
        · rw [mkdirs_append, hm]; rfl
        · simp
  have base : ∃ new, w.trace = w.trace ++ new ∧ mkdirs new = [] := ⟨[], by simp, rfl⟩
  apply h1
  repeat' split
  all_goals first
    | exact DAMountRemoveMountPoint_mkdirs env _ w
    | exact base

theorem failedCandidates_succ (realMainMountPoint name : CFString) (index count : Nat) :
    failedCandidates realMainMountPoint name index (count + 1)
      = Event.mkdir (DAMountCreateMountPointWithAction.path realMainMountPoint name index)
          0o111 false :: failedCandidates realMainMountPoint name (index + 1) count := by
  unfold failedCandidates
  rw [List.range_succ_eq_map, List.map_cons, List.map_map]
  refine congrArg₂ _ rfl (List.map_congr_left fun j _ => ?_)
  show Event.mkdir _ _ _ = Event.mkdir _ _ _
  rw [show index + (j + 1) = index + 1 + j by omega]

theorem DAMountCreateMountPointWithAction.loop_make (env : Env) (disk : DADiskRef)
    (realMainMountPoint name : CFString) (remaining : Nat) :
    ∀ (index : Nat) (w : World), ∃ new,
      (DAMountCreateMountPointWithAction.loop env disk kDAMountPointActionMake
          realMainMountPoint name remaining index w).2.trace = w.trace ++ new
        ∧ ((∃ k, k < remaining
            ∧ (DAMountCreateMountPointWithAction.loop env disk kDAMountPointActionMake
                realMainMountPoint name remaining index w).1
              = some (CFType.url
                  (DAMountCreateMountPointWithAction.path realMainMountPoint name (index + k)))
            ∧ mkdirs new = failedCandidates realMainMountPoint name index k
                ++ [Event.mkdir
                  (DAMountCreateMountPointWithAction.path realMainMountPoint name (index + k))
                  0o111 true])
          ∨ ((DAMountCreateMountPointWithAction.loop env disk kDAMountPointActionMake
                realMainMountPoint name remaining index w).1 = none
            ∧ mkdirs new = failedCandidates realMainMountPoint name index remaining)) := by
  induction remaining with
  | zero =>
    intro index w
    exact ⟨[], by simp [DAMountCreateMountPointWithAction.loop], Or.inr ⟨rfl, rfl⟩⟩
  | succ n ih =>
    intro index w
    obtain ⟨new1, made, ht, hm, hr⟩ := DAMountCreateMountPointWithAction.candidate_make env disk
      (DAMountCreateMountPointWithAction.path realMainMountPoint name index) w
    unfold DAMountCreateMountPointWithAction.loop
    dsimp only
    cases made with
    | true =>
      rw [if_pos rfl] at hr
      rw [hr]
      dsimp only
      exact ⟨new1, ht, Or.inl ⟨0, Nat.succ_pos n, rfl, by rw [hm]; rfl⟩⟩
    | false =>
      rw [if_neg (by decide)] at hr
      rw [hr]
      dsimp only
      obtain ⟨new2, ht2, h2⟩ := ih (index + 1)
        (DAMountCreateMountPointWithAction.candidate env disk kDAMountPointActionMake
          (DAMountCreateMountPointWithAction.path realMainMountPoint name index) w).2
      refine ⟨new1 ++ new2, by rw [ht2, ht, List.append_assoc], ?_⟩
      rcases h2 with ⟨k, hk, h1, hmk⟩ | ⟨h1, hmk⟩
      · refine Or.inl ⟨k + 1, Nat.succ_lt_succ hk, ?_, ?_⟩
        · rw [h1, show index + 1 + k = index + (k + 1) by omega]
        · rw [mkdirs_append, hm, hmk, failedCandidates_succ,
            show index + 1 + k = index + (k + 1) by omega]
          rfl
      · refine Or.inr ⟨h1, ?_⟩
        rw [mkdirs_append, hm, hmk, failedCandidates_succ]
        rfl

theorem Nat.toDigits_length_le_two : ∀ index, index < 100 →
    (Nat.toDigits 10 index).length ≤ 2 := by
  decide

theorem DAMountCreateMountPointWithAction.path_of_short (name : CFString) (index : Nat)
    (hi : index < 100) (hn : name.length ≤ MNAMELEN - 21) :
    DAMountCreateMountPointWithAction.path kDAMainMountPointFolder name index
      = kDAMainMountPointFolder ++ ['/'] ++ name
          ++ (if index = 0 then [] else ' ' :: Nat.toDigits 10 index) := by
  have hd := Nat.toDigits_length_le_two index hi
  have hl : kDAMainMountPointFolder.length = 8 := rfl
  have hm : MNAMELEN - 21 = 1003 := rfl
  have hp : MAXPATHLEN - 1 = 1023 := rfl
  unfold DAMountCreateMountPointWithAction.path
  split
  · rw [List.append_nil, List.take_of_length_le]
    simp only [List.length_append, List.length_singleton, hl, hp]
    omega
  · rw [List.take_of_length_le]
    · simp
    · simp only [List.length_append, List.length_singleton, hl, hp]
      omega

theorem strrchr_eq_none (s : CFString) (c : Char) : strrchr s c = none ↔ c ∉ s := by
  induction s with
  | nil => simp [strrchr]
  | cons x rest ih =>
    unfold strrchr
    cases hr : strrchr rest c with
    | some i =>
      have : ¬ c ∉ rest := fun h => by rw [ih.2 h] at hr; exact absurd hr (by simp)
      simp only [reduceCtorEq, false_iff, List.mem_cons, not_or, not_and, not_not]
      intro _
      exact not_not.1 this
    | none =>
      have hn := ih.1 hr
      by_cases hx : x = c
      · simp [hx]
      · have hx1 : ¬ c = x := fun h => hx h.symm
        simp [hx, hx1, hn]

theorem strrchr_eq_zero (s : CFString) (c : Char) :
    strrchr s c = some 0 ↔ ∃ name, c ∉ name ∧ s = c :: name := by
  cases s with
  | nil => simp [strrchr]
  | cons x rest =>
    unfold strrchr
    cases hr : strrchr rest c with
    | some i =>
      have hm : ¬ c ∉ rest := fun h => by
        rw [(strrchr_eq_none rest c).2 h] at hr; exact absurd hr (by simp)
      simp only [Option.some.injEq, Nat.add_one_ne_zero, false_iff, not_exists, not_and]
      intro name hname heq
      exact hm ((List.cons.inj heq).2 ▸ hname)
    | none =>
      have hn := (strrchr_eq_none rest c).1 hr
      by_cases hx : x = c
      · subst hx
        simp only [if_true, true_iff]
        exact ⟨rest, hn, rfl⟩
      · simp only [hx, if_false, reduceCtorEq, false_iff, not_exists, not_and]
        intro name _ heq
        exact hx (List.cons.inj heq).1

theorem underMountPointFolder_iff (env : Env) (path : CFString) :
    (strncmpStart
        (if strncmpStart path env.kDAMainDataVolumeMountPointFolder then
          path.drop env.kDAMainDataVolumeMountPointFolder.length
        else path) kDAMainMountPointFolder
      && decide (strrchr
        ((if strncmpStart path env.kDAMainDataVolumeMountPointFolder then
          path.drop env.kDAMainDataVolumeMountPointFolder.length
        else path).drop kDAMainMountPointFolder.length) '/' = some 0)) = true
      ↔ underMountPointFolder env path := by
  have key : ∀ p : CFString,
      (strncmpStart p kDAMainMountPointFolder
        && decide (strrchr (p.drop kDAMainMountPointFolder.length) '/' = some 0)) = true
        ↔ ∃ name, '/' ∉ name ∧ p = kDAMainMountPointFolder ++ '/' :: name := by
    intro p
    rw [Bool.and_eq_true, decide_eq_true_eq, strrchr_eq_zero]
    unfold strncmpStart
    rw [List.isPrefixOf_iff_prefix]
    constructor
    · rintro ⟨⟨t, ht⟩, name, hname, hd⟩
      subst ht
      rw [List.drop_left] at hd
      exact ⟨name, hname, by rw [hd]⟩
    · rintro ⟨name, hname, hp⟩
      subst hp
      exact ⟨⟨_, rfl⟩, name, hname, by rw [List.drop_left]⟩
  unfold underMountPointFolder
  by_cases hpre : strncmpStart path env.kDAMainDataVolumeMountPointFolder = true
  · rw [if_pos hpre, key]
    have hpre1 : env.kDAMainDataVolumeMountPointFolder <+: path := by
      unfold strncmpStart at hpre
      exact List.isPrefixOf_iff_prefix.1 hpre
    obtain ⟨t, ht⟩ := hpre1
    subst ht
    rw [List.drop_left]
    constructor
    · rintro ⟨name, hname, hp⟩
      exact ⟨name, hname, Or.inr (by rw [hp])⟩
    · rintro ⟨name, hname, h | h⟩
      · exact absurd ⟨t, rfl⟩ h.1
      · exact ⟨name, hname, List.append_cancel_left h⟩
  · rw [if_neg hpre, key]
    have hpre1 : ¬ env.kDAMainDataVolumeMountPointFolder <+: path := by
      unfold strncmpStart at hpre
      exact fun h => hpre (List.isPrefixOf_iff_prefix.2 h)
    constructor
    · rintro ⟨name, hname, hp⟩
      exact ⟨name, hname, Or.inl ⟨hpre1, hp⟩⟩
    · rintro ⟨name, hname, h | h⟩
      · exact ⟨name, hname, h.2⟩
      · exact absurd ⟨_, h.symm⟩ hpre1

/-! ## The server -/

@[simp] theorem Server.trace_emit (s : Server) (e : ServerEvent) :
    (s.emit e).trace = s.trace ++ [e] := rfl

@[simp] theorem Server.disks_emit (s : Server) (e : ServerEvent) :
    (s.emit e).disks = s.disks := rfl

@[simp] theorem Server.emit_created (s : Server) (e : ServerEvent) :
    (s.emit e).created = s.created := rfl

theorem strrchr_spec (s : CFString) (c : Char) (i : Nat) (h : strrchr s c = some i) :
    i < s.length ∧ c ∉ s.drop (i + 1) ∧ s = s.take i ++ c :: s.drop (i + 1) := by
  induction s generalizing i with
  | nil => simp [strrchr] at h
  | cons x rest ih =>
    unfold strrchr at h
    cases hr : strrchr rest c with
    | some j =>
      rw [hr] at h
      have hi : i = j + 1 := (Option.some.inj h).symm
      subst hi
      obtain ⟨h1, h2, h3⟩ := ih j hr
      refine ⟨Nat.succ_lt_succ h1, h2, ?_⟩
      simp only [List.take_succ_cons, List.drop_succ_cons, List.cons_append]
      exact congrArg _ h3
    | none =>
      rw [hr] at h
      dsimp only at h
      split at h
      · have hi : i = 0 := (Option.some.inj h).symm
        subst hi
        rename_i hx
        subst hx
        exact ⟨Nat.succ_pos _, (strrchr_eq_none rest x).1 hr, rfl⟩
      · exact absurd h (by simp)

/-- The path an RPC directory operation works on is `/Volumes/<name>`, where
`<name>` is what follows the last `/` of the path given and what precedes it
resolves to `/Volumes`. -/
theorem _DAServermkdir.resolvedPath_eq_some (env : ServerEnv) (_path : CFString) (s : Server)
    (resolvedPath : CFString)
    (h : _DAServermkdir.resolvedPath env _path s = some resolvedPath) :
    _path.length < MAXPATHLEN
      ∧ ∃ len, strrchr _path '/' = some len
        ∧ env.realpath s.trace (_path.take len) = some kDAMainMountPointFolder
        ∧ '/' ∉ _path.drop (len + 1)
        ∧ resolvedPath = kDAMainMountPointFolder ++ '/' :: _path.drop (len + 1) := by
  unfold _DAServermkdir.resolvedPath at h
  split at h
  · exact absurd h (by simp)
  · rename_i hlen
    have hlen1 : _path.length < MAXPATHLEN := Nat.lt_of_not_le hlen
    refine ⟨hlen1, ?_⟩
    split at h
    · exact absurd h (by simp)
    · rename_i len hr
      dsimp only at h
      split at h
      · exact absurd h (by simp)
      · rename_i real hreal
        split at h
        · rename_i hpre
          split at h
          · rename_i heq
            split at h
            · exact absurd h (by simp)
            · split at h
              · exact absurd h (by simp)
              · have hreal1 : real = kDAMainMountPointFolder := by
                  unfold strncmpStart at hpre
                  obtain ⟨t, ht⟩ := List.isPrefixOf_iff_prefix.1 hpre
                  have hl := congrArg List.length ht
                  rw [List.length_append, heq] at hl
                  have ht0 : t = [] := List.length_eq_zero.1 (by omega)
                  rw [ht0, List.append_nil] at ht
                  exact ht.symm
                subst hreal1
                have htake : (_path.drop (len + 1)).take (MAXPATHLEN - 1) = _path.drop (len + 1) := by
                  apply List.take_of_length_le
                  rw [List.length_drop]
                  omega
                rw [htake] at h
                refine ⟨len, hr, hreal, (strrchr_spec _path '/' len hr).2.1, ?_⟩
                rw [← Option.some.inj h]
                simp
          · exact absurd h (by simp)
        · exact absurd h (by simp)

theorem __DASessionListGetSession_some (s : Server) (sessionID : mach_port_t)
    (session : DASessionRef) (h : __DASessionListGetSession s sessionID = some session) :
    session ∈ s.gDASessionList ∧ DASessionGetID (s.sessions session) = sessionID := by
  unfold __DASessionListGetSession at h
  exact ⟨List.mem_of_find?_eq_some h, by simpa using List.find?_some h⟩

theorem __DASessionListGetSession_none (s : Server) (sessionID : mach_port_t) :
    __DASessionListGetSession s sessionID = none ↔ sessionID ∉ sessionIDs s := by
  unfold __DASessionListGetSession sessionIDs
  rw [List.find?_eq_none]
  simp only [decide_eq_true_eq, List.mem_map, not_exists, not_and]

/-- What `_DAServerSessionRelease` does for a session it finds. -/
theorem _DAServerSessionRelease_of_some (s : Server) (_session : mach_port_t)
    (session : DASessionRef) (h0 : _session ≠ 0)
    (hl : __DASessionListGetSession s _session = some session) :
    (_DAServerSessionRelease _session s).1 = kDAReturnSuccess
      ∧ (_DAServerSessionRelease _session s).2.gDASessionList = s.gDASessionList.erase session
      ∧ (_DAServerSessionRelease _session s).2.gDADiskList = s.gDADiskList
      ∧ (_DAServerSessionRelease _session s).2.disks = s.disks
      ∧ (∀ other, other ≠ session →
          (_DAServerSessionRelease _session s).2.sessions other = s.sessions other)
      ∧ DASessionGetID ((_DAServerSessionRelease _session s).2.sessions session)
          = DASessionGetID (s.sessions session) := by
  unfold _DAServerSessionRelease
  rw [if_pos h0, hl]
  refine ⟨rfl, rfl, rfl, rfl, fun other ho => ?_, ?_⟩
  · simp [Server.emit, Server.setSession, Function.update, ho]
  · simp [Server.emit, Server.setSession, Function.update, DASessionSetState, DASessionGetID]

theorem __DADiskListGetDisk_congr (s s1 : Server) (diskID : CFString)
    (hl : s1.gDADiskList = s.gDADiskList)
    (hid : ∀ disk, DADiskGetID (s1.disks disk) = DADiskGetID (s.disks disk)) :
    __DADiskListGetDisk s1 diskID = __DADiskListGetDisk s diskID := by
  unfold __DADiskListGetDisk
  rw [hl]
  exact congrArg (fun p => List.find? p s.gDADiskList) (funext fun disk => by rw [hid])

theorem __DASessionListGetSession_congr (s s1 : Server) (sessionID : mach_port_t)
    (hl : s1.gDASessionList = s.gDASessionList) (hs : s1.sessions = s.sessions) :
    __DASessionListGetSession s1 sessionID = __DASessionListGetSession s sessionID := by
  unfold __DASessionListGetSession
  rw [hl, hs]

/-! ## The queue of a session -/

@[simp] theorem Server.queued_disks (s : Server) (r : DASessionRef) (a : List DACallback) :
    (s.queued r a).disks = s.disks := rfl

@[simp] theorem Server.queued_gDADiskList (s : Server) (r : DASessionRef)
    (a : List DACallback) : (s.queued r a).gDADiskList = s.gDADiskList := rfl

@[simp] theorem Server.queued_gDASessionList (s : Server) (r : DASessionRef)
    (a : List DACallback) : (s.queued r a).gDASessionList = s.gDASessionList := rfl

@[simp] theorem DASessionRegisterCallback_trace (r : DASessionRef) (callback : DACallback)
    (s : Server) :
    (DASessionRegisterCallback r callback s).trace
      = s.trace ++ [ServerEvent.DASessionRegisterCallback r callback] := rfl

@[simp] theorem DASessionRegisterCallback_disks (r : DASessionRef) (callback : DACallback)
    (s : Server) : (DASessionRegisterCallback r callback s).disks = s.disks := rfl

@[simp] theorem DASessionRegisterCallback_gDADiskList (r : DASessionRef)
    (callback : DACallback) (s : Server) :
    (DASessionRegisterCallback r callback s).gDADiskList = s.gDADiskList := rfl

@[simp] theorem DASessionRegisterCallback_gDASessionList (r : DASessionRef)
    (callback : DACallback) (s : Server) :
    (DASessionRegisterCallback r callback s).gDASessionList = s.gDASessionList := rfl

@[simp] theorem DASessionRegisterCallback_gDAIdle (r : DASessionRef) (callback : DACallback)
    (s : Server) : (DASessionRegisterCallback r callback s).gDAIdle = s.gDAIdle := rfl

theorem Server.Same.same_refl (s : Server) : s.Same s :=
  ⟨rfl, rfl, fun _ => rfl, fun _ => rfl⟩

theorem Server.Same.same_trans {a b c : Server} (h1 : a.Same b) (h2 : b.Same c) : a.Same c :=
  ⟨h2.1.trans h1.1, h2.2.1.trans h1.2.1, fun d => (h2.2.2.1 d).trans (h1.2.2.1 d),
    fun d => (h2.2.2.2 d).trans (h1.2.2.2 d)⟩

theorem Server.Same.emit (s : Server) (e : ServerEvent) : s.Same (s.emit e) :=
  ⟨rfl, rfl, fun _ => rfl, fun _ => rfl⟩

theorem Server.Same.setDisk (s : Server) (disk : DADiskRef) (value : DADisk)
    (hid : DADiskGetID value = DADiskGetID (s.disks disk))
    (hmedia : DADiskGetIOMedia value = DADiskGetIOMedia (s.disks disk)) :
    s.Same (s.setDisk disk value) := by
  refine ⟨rfl, rfl, fun d => ?_, fun d => ?_⟩
  · by_cases hd : d = disk
    · subst hd; simp [Server.setDisk, hid]
    · simp [Server.setDisk, Function.update, hd]
  · by_cases hd : d = disk
    · subst hd; simp [Server.setDisk, hmedia]
    · simp [Server.setDisk, Function.update, hd]

theorem Server.Same.setState (s : Server) (disk : DADiskRef) (state : DADiskState)
    (value : Bool) : s.Same (s.setState disk state value) :=
  Server.Same.setDisk s disk _ rfl rfl

theorem Server.Same.setDescription (s : Server) (disk : DADiskRef)
    (key : DADiskDescriptionKey) (value : Option CFType) :
    s.Same (s.setDisk disk (DADiskSetDescription (s.disks disk) key value)) :=
  Server.Same.setDisk s disk _ rfl rfl

theorem Server.Same.unit (s : Server) (disk : DADiskRef) (state : DAUnitState) (value : Bool) :
    s.Same (DAUnitSetState s disk state value) := by
  refine ⟨rfl, rfl, fun d => ?_, fun d => ?_⟩ <;>
  · unfold DAUnitSetState
    dsimp only
    split <;> rfl

theorem Server.Same.setWorld (s : Server) (w : World) (h : w.disks = s.disks) :
    s.Same (s.setWorld w) :=
  ⟨rfl, rfl, fun d => by simp [Server.setWorld, h], fun d => by simp [Server.setWorld, h]⟩

theorem Server.Same.shrinks {s s1 : Server} (h : s.Same s1) : s.Shrinks s1 :=
  ⟨h.1 ▸ List.Sublist.refl _, h.2⟩

theorem Server.Shrinks.shrinks_refl (s : Server) : s.Shrinks s :=
  (Server.Same.same_refl s).shrinks

theorem Server.Shrinks.shrinks_trans {a b c : Server} (h1 : a.Shrinks b) (h2 : b.Shrinks c) :
    a.Shrinks c :=
  ⟨h2.1.trans h1.1, h2.2.1.trans h1.2.1, fun d => (h2.2.2.1 d).trans (h1.2.2.1 d),
    fun d => (h2.2.2.2 d).trans (h1.2.2.2 d)⟩

theorem diskIDs_eq_map (s s1 : Server)
    (hid : ∀ disk, DADiskGetID (s1.disks disk) = DADiskGetID (s.disks disk)) :
    diskIDs s1 = s1.gDADiskList.map fun disk => DADiskGetID (s.disks disk) := by
  unfold diskIDs
  exact List.map_congr_left fun disk _ => hid disk

theorem Server.Shrinks.shrinks_registered {s s1 : Server} (h : s.Shrinks s1) (hr : s.Registered) :
    s1.Registered := by
  refine ⟨fun disk hd => ?_, ?_⟩
  · rw [h.2.1]
    exact hr.1 disk (h.1.subset hd)
  · rw [diskIDs_eq_map s s1 h.2.2.1]
    exact List.Nodup.sublist (h.1.map _) hr.2

theorem Server.Same.same_registered {s s1 : Server} (h : s.Same s1) (hr : s.Registered) :
    s1.Registered :=
  h.shrinks.shrinks_registered hr

theorem __DAMediaPropertyChangedCallback.update_same (s : Server) (disk : DADiskRef)
    (key : DADiskDescriptionKey) (object : Option CFType)
    (r : Server × List DADiskDescriptionKey) (h : s.Same r.1) :
    s.Same (__DAMediaPropertyChangedCallback.update disk key object r).1 := by
  unfold __DAMediaPropertyChangedCallback.update
  split
  · exact h.same_trans (Server.Same.setDescription _ _ _ _)
  · exact h

theorem __DAMediaPropertyChangedCallback.mediaName_same (env : ServerEnv)
    (service : io_service_t) (disk : DADiskRef) (s : Server) :
    s.Same (__DAMediaPropertyChangedCallback.mediaName env service disk s).1 := by
  unfold __DAMediaPropertyChangedCallback.mediaName
  repeat' split
  all_goals first
    | exact Server.Same.same_refl s
    | exact (Server.Same.setDescription _ _ _ _).same_trans (Server.Same.setDescription _ _ _ _)

theorem __DAMediaPropertyChangedCallback.volumeName_same (env : ServerEnv)
    (service : io_service_t) (disk : DADiskRef) (found : Bool) (s : Server) :
    s.Same (__DAMediaPropertyChangedCallback.volumeName env service disk found s).1 := by
  unfold __DAMediaPropertyChangedCallback.volumeName
  repeat' split
  all_goals first
    | exact Server.Same.same_refl s
    | exact Server.Same.setDescription _ _ _ _
    | exact __DAMediaPropertyChangedCallback.mediaName_same env service disk s

theorem __DAMediaPropertyChangedCallback.move_same (menv : Env) (s : Server) (disk : DADiskRef)
    (path : CFType) (r : Server × List DADiskDescriptionKey) (h : s.Same r.1) :
    s.Same (__DAMediaPropertyChangedCallback.move menv disk path r).1 := by
  have h1 : r.1.Same (r.1.setWorld
      (DAMountCreateMountPointWithAction menv disk kDAMountPointActionMove r.1.world).2) :=
    Server.Same.setWorld _ _ (DAMountCreateMountPointWithAction_disks menv disk _ r.1.world)
  unfold __DAMediaPropertyChangedCallback.move
  dsimp only
  split
  · have h2 := Server.Same.setDisk
      (r.1.setWorld
        (DAMountCreateMountPointWithAction menv disk kDAMountPointActionMove r.1.world).2)
      disk
      (DADiskSetBypath
        ((r.1.setWorld
          (DAMountCreateMountPointWithAction menv disk kDAMountPointActionMove
            r.1.world).2).disks disk)
        (match ‹CFType› with
          | CFType.url bypath => some bypath
          | _ => none)) rfl rfl
    split
    · exact (h.same_trans h1).same_trans h2
    · exact ((h.same_trans h1).same_trans h2).same_trans (Server.Same.setDescription _ _ _ _)
  · exact h.same_trans h1

theorem __DAMediaPropertyChangedCallback.rename_same (env : ServerEnv) (menv : Env)
    (service : io_service_t) (disk : DADiskRef) (s : Server) :
    s.Same (__DAMediaPropertyChangedCallback.rename env menv service disk s).1 := by
  unfold __DAMediaPropertyChangedCallback.rename
  split
  · dsimp only
    split
    · split
      · exact __DAMediaPropertyChangedCallback.move_same menv s disk _ _
          (__DAMediaPropertyChangedCallback.volumeName_same env service disk _ s)
      · exact __DAMediaPropertyChangedCallback.volumeName_same env service disk _ s
    · exact __DAMediaPropertyChangedCallback.volumeName_same env service disk _ s
  · exact Server.Same.same_refl s

theorem __DAMediaPropertyChangedCallback.properties_same (env : ServerEnv)
    (service : io_service_t) (disk : DADiskRef) (properties : CFString → Option CFType)
    (s : Server) (r : Server × List DADiskDescriptionKey) (h : s.Same r.1) :
    s.Same (__DAMediaPropertyChangedCallback.properties env service disk properties r).1 := by
  unfold __DAMediaPropertyChangedCallback.properties
  dsimp only
  repeat apply __DAMediaPropertyChangedCallback.update_same
  exact h

theorem __DAMediaPropertyChangedCallback_same (env : ServerEnv) (menv : Env)
    (service : io_service_t) (s : Server) :
    s.Same (__DAMediaPropertyChangedCallback env menv service s) := by
  unfold __DAMediaPropertyChangedCallback
  split
  · split
    · split
      · have h := __DAMediaPropertyChangedCallback.properties_same env service ‹DADiskRef›
          ‹CFString → Option CFType› s _
          (__DAMediaPropertyChangedCallback.rename_same env menv service ‹DADiskRef› s)
        dsimp only
        repeat' split
        all_goals exact h
      · exact Server.Same.same_refl s
    · exact Server.Same.same_refl s
  · exact Server.Same.same_refl s

theorem _DAMediaDisappearedCallback.unmount_same (env : ServerEnv) (disk : DADiskRef)
    (locals : _DAMediaDisappearedCallback.Locals) (s : Server) :
    s.Same (_DAMediaDisappearedCallback.unmount env disk locals s).2 := by
  unfold _DAMediaDisappearedCallback.unmount
  split
  · dsimp only
    repeat' split
    all_goals exact Server.Same.setState s disk _ _
  · exact Server.Same.same_refl s

theorem Server.Same.remove {s x : Server} (h : s.Same x) (disk : DADiskRef) :
    s.Shrinks (___CFArrayRemoveValue x disk) := by
  refine ⟨?_, h.2⟩
  show (x.gDADiskList.eraseP _).Sublist s.gDADiskList
  rw [← h.1]
  exact List.eraseP_sublist _

theorem _DAMediaDisappearedCallback.links_same (disk : DADiskRef) (s : Server) :
    s.Same (_DAMediaDisappearedCallback.links disk s) := by
  unfold _DAMediaDisappearedCallback.links
  dsimp only
  split <;> split <;> exact Server.Same.same_refl s

theorem _DAMediaDisappearedCallback.release_same (disk : DADiskRef) (s : Server) :
    s.Same (_DAMediaDisappearedCallback.release disk s) := by
  unfold _DAMediaDisappearedCallback.release
  dsimp only
  split <;> exact Server.Same.same_refl s

theorem _DAMediaDisappearedCallback.whole_same (disk : DADiskRef) (s : Server) :
    s.Same (_DAMediaDisappearedCallback.whole disk s) := by
  unfold _DAMediaDisappearedCallback.whole
  split
  · exact ((Server.Same.unit _ _ _ _).same_trans (Server.Same.unit _ _ _ _)).same_trans
      (Server.Same.unit _ _ _ _)
  · exact Server.Same.same_refl s

theorem _DAMediaDisappearedCallback.remove_shrinks (env : ServerEnv) (disk : DADiskRef)
    (locals : _DAMediaDisappearedCallback.Locals) (s : Server) :
    s.Shrinks (_DAMediaDisappearedCallback.remove env disk locals s).2 := by
  unfold _DAMediaDisappearedCallback.remove
  exact (((((_DAMediaDisappearedCallback.links_same disk s).same_trans
    (_DAMediaDisappearedCallback.release_same disk _)).same_trans
    (_DAMediaDisappearedCallback.unmount_same env disk locals _)).same_trans
    (_DAMediaDisappearedCallback.whole_same disk _)).same_trans
    (Server.Same.setState _ disk kDADiskStateZombie true)).remove disk

theorem _DAMediaDisappearedCallback.media_keeps (env : ServerEnv)
    (appeared : Server → Option Server) (context : Option DADiskRef) (media : io_service_t)
    (locals : _DAMediaDisappearedCallback.Locals) (s : Server)
    (r : _DAMediaDisappearedCallback.Locals × Server) (P : Server → Prop)
    (hshrink : ∀ x x1, P x → x.Shrinks x1 → P x1)
    (happ : ∀ x x1, P x → appeared x = some x1 → P x1) (hs : P s)
    (h : _DAMediaDisappearedCallback.media env appeared context media locals s = some r) :
    P r.2 := by
  unfold _DAMediaDisappearedCallback.media at h
  split at h
  · rw [← Option.some.inj h]
    exact hshrink _ _ hs (_DAMediaDisappearedCallback.remove_shrinks env _ locals s)
  · split at h
    · exact absurd h (by simp)
    · split at h
      · exact absurd h (by simp)
      · rename_i s1 hs1
        have hp1 := happ s s1 hs hs1
        split at h
        · rw [← Option.some.inj h]
          exact hshrink _ _ hp1 (_DAMediaDisappearedCallback.remove_shrinks env _ locals s1)
        · rw [← Option.some.inj h]
          exact hp1

theorem _DAMediaDisappearedCallback.loop_keeps (env : ServerEnv)
    (appeared : Server → Option Server) (context : Option DADiskRef) (P : Server → Prop)
    (hshrink : ∀ x x1, P x → x.Shrinks x1 → P x1)
    (happ : ∀ x x1, P x → appeared x = some x1 → P x1) (notification : List io_service_t) :
    ∀ (locals : _DAMediaDisappearedCallback.Locals) (s : Server)
      (r : _DAMediaDisappearedCallback.Locals × Server), P s →
      _DAMediaDisappearedCallback.loop env appeared context notification locals s = some r →
      P r.2 := by
  induction notification with
  | nil =>
    intro locals s r hs h
    unfold _DAMediaDisappearedCallback.loop at h
    rw [← Option.some.inj h]
    exact hs
  | cons media rest ih =>
    intro locals s r hs h
    unfold _DAMediaDisappearedCallback.loop at h
    split at h
    · rw [← Option.some.inj h]
      exact hs
    · split at h
      · exact absurd h (by simp)
      · rename_i r1 hr1
        have hp1 := _DAMediaDisappearedCallback.media_keeps env appeared context media locals s
          r1 P hshrink happ hs hr1
        split at h
        · rw [← Option.some.inj h]
          exact hp1
        · exact ih r1.1 r1.2 r hp1 h

theorem _DAMediaDisappearedCallback_keeps (env : ServerEnv)
    (appeared : Server → Option Server) (context : Option DADiskRef)
    (notification : List io_service_t) (s s1 : Server) (P : Server → Prop)
    (hshrink : ∀ x x1, P x → x.Shrinks x1 → P x1)
    (happ : ∀ x x1, P x → appeared x = some x1 → P x1) (hs : P s)
    (h : _DAMediaDisappearedCallback env appeared context notification s = some s1) :
    P s1 := by
  unfold _DAMediaDisappearedCallback at h
  dsimp only at h
  split at h
  · exact absurd h (by simp)
  · rename_i r hr
    have hp := _DAMediaDisappearedCallback.loop_keeps env appeared context P hshrink happ _ _ s
      r hs hr
    rw [← Option.some.inj h]
    split
    · exact hshrink _ _ hp
        ((Server.Same.emit _ _).same_trans (Server.Same.emit _ _)).shrinks
    · exact hshrink _ _ hp (Server.Same.emit _ _).shrinks

/-- The disappearance of a disk of the list, processed for an appearance: disks
leave the list, and nothing else happens to it. -/
theorem _DAMediaDisappearedCallback_shrinks (env : ServerEnv) (context : DADiskRef)
    (s s1 : Server)
    (h : _DAMediaDisappearedCallback env (fun _ => none) (some context) [] s = some s1) :
    s.Shrinks s1 :=
  _DAMediaDisappearedCallback_keeps env (fun _ => none) (some context) [] s s1 (s.Shrinks ·)
    (fun _ _ hx hx1 => hx.shrinks_trans hx1) (fun _ _ _ hx => absurd hx (by simp))
    (Server.Shrinks.shrinks_refl s) h

theorem Server.Same.diskIDs {s s1 : Server} (h : s.Same s1) : diskIDs s1 = diskIDs s := by
  rw [diskIDs_eq_map s s1 h.2.2.1, h.1]
  rfl

theorem CFArrayInsertValueAtIndex_registered (s : Server) (disk : DADiskRef)
    (hr : s.Registered) (hd : disk < s.created)
    (hid : DADiskGetID (s.disks disk) ∉ diskIDs s) :
    (CFArrayInsertValueAtIndex s disk).Registered := by
  refine ⟨fun r hm => ?_, ?_⟩
  · rcases List.mem_cons.1 hm with h | h
    · rw [h]; exact hd
    · exact hr.1 r h
  · show (List.map _ (disk :: s.gDADiskList)).Nodup
    rw [List.map_cons]
    exact List.nodup_cons.2 ⟨hid, hr.2⟩

theorem _DAMediaAppearedCallback.permissions_same (disk : DADiskRef) (s : Server) :
    s.Same (_DAMediaAppearedCallback.permissions disk s) := by
  have h1 : s.Same
      (if DADiskGetMode (s.disks disk) ≠ 0 then
        (s.emit (ServerEvent.chmod (DADiskGetBSDPath (s.disks disk) true)
          (DADiskGetMode (s.disks disk) &&& 0o666))).emit
          (ServerEvent.chmod (DADiskGetBSDPath (s.disks disk) false)
            (DADiskGetMode (s.disks disk) &&& 0o666))
      else s) := by
    split <;> exact Server.Same.same_refl s
  unfold _DAMediaAppearedCallback.permissions
  dsimp only
  generalize (if DADiskGetMode (s.disks disk) ≠ 0 then
      (s.emit (ServerEvent.chmod (DADiskGetBSDPath (s.disks disk) true)
        (DADiskGetMode (s.disks disk) &&& 0o666))).emit
        (ServerEvent.chmod (DADiskGetBSDPath (s.disks disk) false)
          (DADiskGetMode (s.disks disk) &&& 0o666))
    else s) = s1 at h1
  split
  · split
    · exact h1
    · exact h1
  · split
    · split
      · exact h1
      · exact h1
    · split
      · exact h1
      · exact h1

theorem _DAMediaAppearedCallback.link_same (env : ServerEnv) (disk : DADiskRef) (s : Server) :
    s.Same (_DAMediaAppearedCallback.link env disk s) := by
  have hforget : ∀ x : Server, s.Same x → s.Same
      ((x.setDisk disk (DADiskSetBSDLink (x.disks disk) true none)).setDisk disk
        (DADiskSetBSDLink ((x.setDisk disk (DADiskSetBSDLink (x.disks disk) true none)).disks
          disk) false none)) :=
    fun x hx => (hx.same_trans (Server.Same.setDisk x disk
        (DADiskSetBSDLink (x.disks disk) true none) rfl rfl)).same_trans
      (Server.Same.setDisk (x.setDisk disk (DADiskSetBSDLink (x.disks disk) true none)) disk
        (DADiskSetBSDLink ((x.setDisk disk (DADiskSetBSDLink (x.disks disk) true none)).disks
          disk) false none) rfl rfl)
  unfold _DAMediaAppearedCallback.link
  split
  · split
    · exact Server.Same.same_refl s
    · dsimp only
      split
      · split
        · split
          · exact Server.Same.same_refl s
          · rename_i hr
            exact absurd rfl hr
        · split
          · rename_i hr
            exact absurd hr (by simp)
          · exact hforget _ (Server.Same.same_refl s)
      · split
        · rename_i hr
          exact absurd hr (by simp)
        · exact hforget _ (Server.Same.same_refl s)
  · exact Server.Same.same_refl s

theorem _DAMediaAppearedCallback.stage_same (disk : DADiskRef) (s s1 : Server)
    (h : _DAMediaAppearedCallback.stage disk s = some s1) : s.Same s1 := by
  unfold _DAMediaAppearedCallback.stage at h
  split at h
  · exact absurd h (by simp)
  · rename_i content _
    dsimp only at h
    have h1 : s.Same
        (if content = CFType.string "41504653-0000-11AA-AA11-00306543ECAC".toList then
          DAUnitSetState s disk _kDAUnitStateHasAPFS true
        else s) := by
      split
      · exact Server.Same.unit _ _ _ _
      · exact Server.Same.same_refl s
    generalize (if content = CFType.string "41504653-0000-11AA-AA11-00306543ECAC".toList then
        DAUnitSetState s disk _kDAUnitStateHasAPFS true
      else s) = x at h h1
    split at h
    · split at h
      · rw [← Option.some.inj h]
        exact h1.same_trans (Server.Same.setState x disk kDADiskStateStagedMount true)
      · rw [← Option.some.inj h]
        exact h1
    · rw [← Option.some.inj h]
      exact h1

/-- What the set-up of a new disk object leaves: the disk list is the same but
for the new disk at its head. -/
theorem _DAMediaAppearedCallback.insert_eq (env : ServerEnv) (disk : DADiskRef)
    (s s1 : Server) (h : _DAMediaAppearedCallback.insert env disk s = some s1) :
    ∃ x, s.Same x ∧ s1 = CFArrayInsertValueAtIndex x disk := by
  unfold _DAMediaAppearedCallback.insert at h
  dsimp only at h
  split at h
  · exact absurd h (by simp)
  · rename_i s3 hs3
    exact ⟨_, (((_DAMediaAppearedCallback.permissions_same disk s).same_trans
      (_DAMediaAppearedCallback.link_same env disk _)).same_trans
      (_DAMediaAppearedCallback.stage_same disk _ s3 hs3)).same_trans
      (Server.Same.unit _ disk kDAUnitStateStagedUnreadable false), (Option.some.inj h).symm⟩

theorem _DAMediaAppearedCallback.insert_registered (env : ServerEnv) (disk : DADiskRef)
    (s s1 : Server) (hr : s.Registered) (hd : disk < s.created)
    (hid : DADiskGetID (s.disks disk) ∉ diskIDs s)
    (h1 : _DAMediaAppearedCallback.insert env disk s = some s1) : s1.Registered := by
  obtain ⟨x, h, hs1⟩ := _DAMediaAppearedCallback.insert_eq env disk s s1 h1
  rw [hs1]
  exact CFArrayInsertValueAtIndex_registered _ disk (h.same_registered hr) (by rw [h.2.1]; exact hd)
    (by rw [h.2.2.1, h.diskIDs]; exact hid)

theorem Server.Registered.of_update (s : Server) (value : DADisk) (hr : s.Registered) :
    Server.Registered
        { s with disks := Function.update s.disks s.created value, created := s.created + 1 }
      ∧ diskIDs
          { s with disks := Function.update s.disks s.created value, created := s.created + 1 }
        = diskIDs s := by
  have hids : diskIDs
      { s with disks := Function.update s.disks s.created value, created := s.created + 1 }
      = diskIDs s := by
    unfold diskIDs
    refine List.map_congr_left fun disk hd => ?_
    have hne : disk ≠ s.created := Nat.ne_of_lt (hr.1 disk hd)
    show DADiskGetID (Function.update s.disks s.created value disk) = _
    rw [Function.update_noteq hne]
  refine ⟨⟨fun disk hd => Nat.lt_succ_of_lt (hr.1 disk hd), ?_⟩, hids⟩
  rw [hids]
  exact hr.2

theorem ___CFArrayContainsValue_eq_false (s : Server) (disk : DADiskRef)
    (h : ___CFArrayContainsValue s disk = false) :
    DADiskGetID (s.disks disk) ∉ diskIDs s := by
  unfold ___CFArrayContainsValue at h
  rw [List.any_eq_false] at h
  intro hm
  obtain ⟨value, hv, hid⟩ := List.mem_map.1 hm
  exact h value hv (by simp [DADiskEqual, hid])

theorem ___CFArrayGetValue_eq_none (s : Server) (disk : DADiskRef)
    (h : ___CFArrayGetValue s disk = none) :
    DADiskGetID (s.disks disk) ∉ diskIDs s := by
  unfold ___CFArrayGetValue at h
  rw [List.find?_eq_none] at h
  intro hm
  obtain ⟨value, hv, hid⟩ := List.mem_map.1 hm
  exact h value hv (by simp [DADiskEqual, hid])

theorem _DAMediaAppearedCallback.media_registered (env : ServerEnv) (menv : Env)
    (media : io_service_t) (s s1 : Server) (hr : s.Registered)
    (h : _DAMediaAppearedCallback.media env menv media s = some s1) : s1.Registered := by
  unfold _DAMediaAppearedCallback.media at h
  split at h
  · have hp := (__DAMediaPropertyChangedCallback_same env menv media s).same_registered hr
    dsimp only at h
    split at h
    · split at h
      · rw [← Option.some.inj h]
        exact (Server.Same.emit _ _).same_registered hp
      · rw [← Option.some.inj h]
        exact hp
    · rw [← Option.some.inj h]
      exact hp
  · dsimp only at h
    unfold DADiskCreateFromIOMedia at h
    cases hc : env.DADiskCreateFromIOMedia s.trace media with
    | none =>
      rw [hc] at h
      dsimp only at h
      rw [← Option.some.inj h]
      exact hr
    | some disk =>
      rw [hc] at h
      dsimp only at h
      obtain ⟨hr0, _⟩ := Server.Registered.of_update s
        { disk with media := media, unitState := DAUnitGetFlags s (DADiskGetBSDUnit disk) } hr
      generalize hs0 : ({ s with
        disks := Function.update s.disks s.created
          { disk with media := media, unitState := DAUnitGetFlags s (DADiskGetBSDUnit disk) }
        created := s.created + 1 } : Server) = s0 at h hr0
      have hd0 : s.created < s0.created := by rw [← hs0]; exact Nat.lt_succ_self _
      split at h
      · split at h
        · exact absurd h (by simp)
        · rename_i context _ _ x hx
          have hsh := _DAMediaDisappearedCallback_shrinks env context s0 x hx
          split at h
          · exact absurd h (by simp)
          · rename_i hcont
            exact _DAMediaAppearedCallback.insert_registered env _ x s1
              (hsh.shrinks_registered hr0) (by rw [hsh.2.1]; exact hd0)
              (___CFArrayContainsValue_eq_false x _ (by simpa using hcont)) h
      · rename_i hnone
        exact _DAMediaAppearedCallback.insert_registered env _ s0 s1 hr0 hd0
          (___CFArrayGetValue_eq_none s0 _ hnone) h

theorem _DAMediaAppearedCallback.loop_registered (env : ServerEnv) (menv : Env)
    (notification : List io_service_t) :
    ∀ s s1 : Server, s.Registered →
      _DAMediaAppearedCallback.loop env menv notification s = some s1 → s1.Registered := by
  induction notification with
  | nil =>
    intro s s1 hr h
    unfold _DAMediaAppearedCallback.loop at h
    rw [← Option.some.inj h]
    exact hr
  | cons media rest ih =>
    intro s s1 hr h
    unfold _DAMediaAppearedCallback.loop at h
    split at h
    · rw [← Option.some.inj h]
      exact hr
    · split at h
      · exact absurd h (by simp)
      · rename_i x hx
        exact ih x s1 (_DAMediaAppearedCallback.media_registered env menv media s x hr hx) h

theorem _DAMediaAppearedCallback_registered (env : ServerEnv) (menv : Env)
    (notification : List io_service_t) (s s1 : Server) (hr : s.Registered)
    (h : _DAMediaAppearedCallback env menv notification s = some s1) : s1.Registered := by
  unfold _DAMediaAppearedCallback at h
  split at h
  · exact absurd h (by simp)
  · rename_i x hx
    rw [← Option.some.inj h]
    exact (Server.Same.emit _ _).same_registered
      (_DAMediaAppearedCallback.loop_registered env menv notification s x hr hx)

theorem _DAMediaAppearedCallback.pending_registered (env : ServerEnv) (menv : Env)
    (s s1 : Server) (hr : s.Registered)
    (h : _DAMediaAppearedCallback.pending env menv s = some s1) : s1.Registered :=
  _DAMediaAppearedCallback_registered env menv _
    { s with gDAMediaAppearedNotification := [] } s1 hr h

theorem __DADiskListGetDisk_eq_none (s : Server) (diskID : CFString)
    (h : __DADiskListGetDisk s diskID = none) : diskID ∉ diskIDs s := by
  unfold __DADiskListGetDisk at h
  rw [List.find?_eq_none] at h
  intro hm
  obtain ⟨value, hv, hid⟩ := List.mem_map.1 hm
  exact h value hv (by simp [hid])

theorem _DAVolumeMountedCallback.entry_registered (env : ServerEnv) (fs : statfs) (s : Server)
    (hr : s.Registered) : (_DAVolumeMountedCallback.entry env fs s).Registered := by
  unfold _DAVolumeMountedCallback.entry
  split
  · split
    · dsimp only
      split
      · exact ((Server.Same.emit s _).same_trans (Server.Same.emit _ _)).same_registered hr
      · exact (Server.Same.emit s _).same_registered hr
    · exact hr
  · rename_i hnone
    split
    · split
      · split
        · dsimp only
          unfold DADiskCreateFromVolumePath
          cases hc : env.DADiskCreateFromVolumePath s.trace fs with
          | none => exact hr
          | some disk =>
            dsimp only
            obtain ⟨hr0, hids⟩ := Server.Registered.of_update s
              { disk with
                id := env._DAVolumeGetID fs
                media := IO_OBJECT_NULL
                unitState := DAUnitGetFlags s (DADiskGetBSDUnit disk) } hr
            refine (Server.Same.emit _ _).same_registered
              (CFArrayInsertValueAtIndex_registered _ s.created hr0 (Nat.lt_succ_self _) ?_)
            rw [hids]
            have hid : DADiskGetID
                (({ s with
                  disks := Function.update s.disks s.created
                    { disk with
                      id := env._DAVolumeGetID fs
                      media := IO_OBJECT_NULL
                      unitState := DAUnitGetFlags s (DADiskGetBSDUnit disk) }
                  created := s.created + 1 } : Server).disks s.created)
                = env._DAVolumeGetID fs := by
              simp [DADiskGetID]
            rw [hid]
            exact __DADiskListGetDisk_eq_none s _ hnone
        · exact hr
      · exact hr
    · exact hr

theorem _DAVolumeMountedCallback_registered (env : ServerEnv) (mountList : List statfs) :
    ∀ s : Server, s.Registered → (_DAVolumeMountedCallback env mountList s).Registered := by
  induction mountList with
  | nil => intro s hr; exact hr
  | cons fs rest ih =>
    intro s hr
    exact ih _ (_DAVolumeMountedCallback.entry_registered env fs s hr)

theorem Server.notify_registered (env : ServerEnv) (menv : Env) (s s1 : Server)
    (notification : Notification) (hr : s.Registered)
    (h : s.notify env menv notification = some s1) : s1.Registered := by
  cases notification with
  | mediaAppeared media =>
    exact _DAMediaAppearedCallback.pending_registered env menv
      { s with gDAMediaAppearedNotification := s.gDAMediaAppearedNotification ++ media } s1 hr h
  | mediaDisappeared pending media =>
    exact _DAMediaDisappearedCallback_keeps env (_DAMediaAppearedCallback.pending env menv) none
      media { s with gDAMediaAppearedNotification := s.gDAMediaAppearedNotification ++ pending }
      s1 Server.Registered (fun _ _ hx hx1 => hx1.shrinks_registered hx)
      (fun x x1 hx hx1 => _DAMediaAppearedCallback.pending_registered env menv x x1 hx hx1)
      hr h
  | volumeMounted mountList =>
    rw [← Option.some.inj h]
    exact _DAVolumeMountedCallback_registered env mountList s hr

theorem Server.run_registered (env : ServerEnv) (menv : Env) (notifications : List Notification) :
    ∀ s s1 : Server, s.Registered → Server.run env menv s notifications = some s1 →
      s1.Registered := by
  induction notifications with
  | nil =>
    intro s s1 hr h
    unfold Server.run at h
    rw [← Option.some.inj h]
    exact hr
  | cons notification rest ih =>
    intro s s1 hr h
    unfold Server.run at h
    split at h
    · exact absurd h (by simp)
    · rename_i x hx
      exact ih x s1 (Server.notify_registered env menv s x notification hr hx) h

theorem _DAMediaAppearedCallback.insert_list (env : ServerEnv) (disk : DADiskRef)
    (s s1 : Server) (h1 : _DAMediaAppearedCallback.insert env disk s = some s1) :
    s1.gDADiskList = disk :: s.gDADiskList
      ∧ s1.created = s.created
      ∧ (∀ r, DADiskGetID (s1.disks r) = DADiskGetID (s.disks r))
      ∧ (∀ r, DADiskGetIOMedia (s1.disks r) = DADiskGetIOMedia (s.disks r)) := by
  obtain ⟨x, h, hs1⟩ := _DAMediaAppearedCallback.insert_eq env disk s s1 h1
  rw [hs1]
  exact ⟨congrArg (List.cons disk) h.1, h.2.1, h.2.2.1, h.2.2.2⟩

/-- The appearance of a media object that collides with a disk of the list: what
is left when it completes. -/
theorem _DAMediaAppearedCallback.media_of_collision (env : ServerEnv) (menv : Env)
    (media : io_service_t) (s s1 : Server) (disk : DADisk) (context : DADiskRef)
    (hm : __DADiskListGetDiskWithIOMedia s media = none)
    (hc : env.DADiskCreateFromIOMedia s.trace media = some disk)
    (hold : ___CFArrayGetValue (DADiskCreateFromIOMedia env media s).2 s.created = some context)
    (h : _DAMediaAppearedCallback.media env menv media s = some s1) :
    ∃ x, (DADiskCreateFromIOMedia env media s).2.Shrinks x
      ∧ ___CFArrayContainsValue x s.created = false
      ∧ _DAMediaAppearedCallback.insert env s.created x = some s1 := by
  unfold _DAMediaAppearedCallback.media at h
  rw [hm] at h
  dsimp only at h
  have hcreated : (DADiskCreateFromIOMedia env media s).1 = some s.created := by
    unfold DADiskCreateFromIOMedia
    rw [hc]
  rw [hcreated] at h
  dsimp only at h
  rw [hold] at h
  dsimp only at h
  split at h
  · exact absurd h (by simp)
  · rename_i x hx
    split at h
    · exact absurd h (by simp)
    · rename_i hcont
      exact ⟨x, _DAMediaDisappearedCallback_shrinks env context _ x hx, by simpa using hcont,
        h⟩

/-! # The claims -/

/-- C4: `DAMountGetPreference( disk, Defer )` returns the value configured for the
tier of the disk when there is one, and the default of the tier otherwise: true
for removable media (whatever the device), false for non-removable media on an
internal device, true for non-removable media on a device that is not internal. -/
theorem DAMountGetPreference_defer_tiers (gDAPreferenceList : DAPreferenceList)
    (disk : DADisk) :
    (DADiskGetDescription disk kDADiskDescriptionMediaRemovableKey = some kCFBooleanTrue →
      (∀ b, gDAPreferenceList kDAPreferenceMountDeferRemovableKey = some (CFType.boolean b) →
        DAMountGetPreference gDAPreferenceList disk kDAMountPreferenceDefer = b)
      ∧ (gDAPreferenceList kDAPreferenceMountDeferRemovableKey = none →
        DAMountGetPreference gDAPreferenceList disk kDAMountPreferenceDefer = true))
    ∧ (DADiskGetDescription disk kDADiskDescriptionMediaRemovableKey ≠ some kCFBooleanTrue →
      DADiskGetDescription disk kDADiskDescriptionDeviceInternalKey = some kCFBooleanTrue →
      (∀ b, gDAPreferenceList kDAPreferenceMountDeferInternalKey = some (CFType.boolean b) →
        DAMountGetPreference gDAPreferenceList disk kDAMountPreferenceDefer = b)
      ∧ (gDAPreferenceList kDAPreferenceMountDeferInternalKey = none →
        DAMountGetPreference gDAPreferenceList disk kDAMountPreferenceDefer = false))
    ∧ (DADiskGetDescription disk kDADiskDescriptionMediaRemovableKey ≠ some kCFBooleanTrue →
      DADiskGetDescription disk kDADiskDescriptionDeviceInternalKey ≠ some kCFBooleanTrue →
      (∀ b, gDAPreferenceList kDAPreferenceMountDeferExternalKey = some (CFType.boolean b) →
        DAMountGetPreference gDAPreferenceList disk kDAMountPreferenceDefer = b)
      ∧ (gDAPreferenceList kDAPreferenceMountDeferExternalKey = none →
        DAMountGetPreference gDAPreferenceList disk kDAMountPreferenceDefer = true)) := by
  refine ⟨fun hr => ⟨fun b hb => ?_, fun hn => ?_⟩,
    fun hr hi => ⟨fun b hb => ?_, fun hn => ?_⟩,
    fun hr hi => ⟨fun b hb => ?_, fun hn => ?_⟩⟩
  all_goals unfold DAMountGetPreference
  all_goals dsimp only
  · rw [if_pos hr, hb]; cases b <;> rfl
  · rw [if_pos hr, hn]; rfl
  · rw [if_neg hr, if_pos hi, hb]; cases b <;> rfl
  · rw [if_neg hr, if_pos hi, hn]; rfl
  · rw [if_neg hr, if_neg hi, hb]; cases b <;> rfl
  · rw [if_neg hr, if_neg hi, hn]; rfl

/-- C4 at a removable disk on an internal device, with a configured value and
without: the removable tier decides. -/
theorem DAMountGetPreference_defer_tiers_witness :
    DAMountGetPreference (fun _ => none) removableInternalDisk kDAMountPreferenceDefer = true
      ∧ DAMountGetPreference
          (fun key => if key = kDAPreferenceMountDeferRemovableKey then some (CFType.boolean false)
            else none)
          removableInternalDisk kDAMountPreferenceDefer = false :=
  ⟨((DAMountGetPreference_defer_tiers (fun _ => none) removableInternalDisk).1 (by decide)).2
      rfl,
    ((DAMountGetPreference_defer_tiers _ removableInternalDisk).1 (by decide)).1 false rfl⟩

/-- C1: in `__DAMountWithArgumentsCallback`, a mount attempt that was started with
the "automatic" argument and completes with `___EDIRTY` does nothing but re-issue
the mount through `DAMountWithArguments`, on the same disk, with no mount point,
with exactly the arguments `force` and `rdonly`, and with the original callback
and callback context: whatever the re-issued mount does is all that happens, so
the first attempt does not invoke the callback itself (with a mount that does
nothing, nothing is emitted).  With the real `DAMountWithArguments` the call is
recorded right after what came before, and it is the only call. -/
theorem automatic_dirty_mount_is_reissued (env : Env) (remount : Remount)
    (context : __DAMountCallbackContext) (w : World) (h : context.automatic = true) :
    __DAMountWithArgumentsCallback remount ___EDIRTY context w
        = remount context.disk none context.callback context.callbackContext
            [kDAFileSystemMountArgumentForce, kDAFileSystemMountArgumentNoWrite] w
      ∧ __DAMountWithArgumentsCallback (fun _ _ _ _ _ x => some x) ___EDIRTY context w = some w
      ∧ ∃ w1, __DAMountWithArgumentsCallback (DAMountWithArguments env) ___EDIRTY context w
            = some w1
          ∧ (w.trace ++ [Event.DAMountWithArguments context.disk none context.callback
              context.callbackContext
              [kDAFileSystemMountArgumentForce, kDAFileSystemMountArgumentNoWrite]])
            <+: w1.trace
          ∧ countCalls w1.trace = countCalls w.trace + 1 := by
  refine ⟨__DAMountWithArgumentsCallback_retry remount context w h,
    __DAMountWithArgumentsCallback_retry _ context w h, ?_⟩
  obtain ⟨w1, h1, hc⟩ := DAMountWithArgumentsDepth_retries env 1 context.disk context.callback
    context.callbackContext w
  refine ⟨w1, ?_, ?_, hc⟩
  · rw [__DAMountWithArgumentsCallback_retry _ context w h]
    exact h1
  · exact DAMountWithArgumentsDepth_records_call env 2 _ _ _ _ _ w w1 h1

/-- C1 on the quiet machine: the automatic attempt on the reference disk that
ends dirty is followed by the call with `force` and `rdonly`. -/
theorem automatic_dirty_mount_is_reissued_witness :
    traceOf (__DAMountWithArgumentsCallback (DAMountWithArguments Env.reference) ___EDIRTY
        { automatic := true, callback := some 7, callbackContext := 3, disk := 0,
          force := false, mountpoint := none, options := [], devicePath := none,
          useUserFS := false }
        World.reference)
      = traceOf (DAMountWithArguments Env.reference 0 none (some 7) 3
          [kDAFileSystemMountArgumentForce, kDAFileSystemMountArgumentNoWrite]
          World.reference) :=
  congrArg traceOf
    (automatic_dirty_mount_is_reissued Env.reference (DAMountWithArguments Env.reference)
      { automatic := true, callback := some 7, callbackContext := 3, disk := 0,
        force := false, mountpoint := none, options := [], devicePath := none,
        useUserFS := false }
      World.reference rfl).1

/-- C2: a mount attempt that was not started with the "automatic" argument and
completes with `___EDIRTY` invokes its completion callback with `___EDIRTY` and
does not call `DAMountWithArguments` again; the retry of an automatic attempt is
issued with `force` and `rdonly` only, so it completes without a nested call
(even when none is possible) and is one call; and a request as a whole
completes with at least one and at most two calls of `DAMountWithArguments`,
whatever bound above two is put on the nesting. -/
theorem dirty_mount_is_retried_at_most_once (env : Env) (remount : Remount)
    (context : __DAMountCallbackContext) (w : World) (disk : DADiskRef)
    (mountpoint : Option CFType) (callback : Option DAMountCallback) (callbackContext : Nat)
    (arguments : List CFString) (h : context.automatic = false) :
    __DAMountWithArgumentsCallback remount ___EDIRTY context w
        = some (invokeCallback context.callback ___EDIRTY context.mountpoint
            context.callbackContext w)
      ∧ (∀ cb, context.callback = some cb →
          (invokeCallback context.callback ___EDIRTY context.mountpoint
              context.callbackContext w).trace
            = w.trace ++ [Event.callback cb ___EDIRTY context.mountpoint
                context.callbackContext])
      ∧ countCalls (invokeCallback context.callback ___EDIRTY context.mountpoint
            context.callbackContext w).trace = countCalls w.trace
      ∧ (∃ w1, DAMountWithArguments.body env (fun _ _ _ _ _ _ => none) disk none callback
            callbackContext
            [kDAFileSystemMountArgumentForce, kDAFileSystemMountArgumentNoWrite] w = some w1
          ∧ DAMountWithArguments.body env remount disk none callback callbackContext
            [kDAFileSystemMountArgumentForce, kDAFileSystemMountArgumentNoWrite] w = some w1
          ∧ countCalls w1.trace = countCalls w.trace + 1)
      ∧ (∃ w1, DAMountWithArguments env disk mountpoint callback callbackContext arguments w
            = some w1
          ∧ countCalls w.trace + 1 ≤ countCalls w1.trace
          ∧ countCalls w1.trace ≤ countCalls w.trace + 2
          ∧ ∀ depth, DAMountWithArgumentsDepth env (depth + 2) disk mountpoint callback
              callbackContext arguments w = some w1) := by
  refine ⟨__DAMountWithArgumentsCallback_invoke remount _ context w (Or.inl h), ?_, ?_, ?_, ?_⟩
  · intro cb hcb
    rw [hcb]
    rfl
  · simp
  · obtain ⟨w1, h1, _, _, hf⟩ := DAMountWithArguments.body_counts env
      (fun _ _ _ _ _ _ => none) disk none callback callbackContext retryArguments w
      (fun h => absurd h retryArguments_not_automatic)
    refine ⟨w1, h1, ?_, hf retryArguments_not_automatic⟩
    rw [← h1]
    exact DAMountWithArguments.body_congr env _ _ disk none callback callbackContext
      retryArguments w (fun h => absurd h retryArguments_not_automatic)
  · obtain ⟨w1, h1, hle, hge, _⟩ := DAMountWithArguments.body_counts env
      (DAMountWithArgumentsDepth env 1) disk mountpoint callback callbackContext arguments w
      (fun _ => DAMountWithArgumentsDepth_retries env 0)
    refine ⟨w1, h1, hle, hge, fun depth => ?_⟩
    rw [DAMountWithArgumentsDepth_stable]
    exact h1

/-- C2 on the quiet machine with a repair helper that fails: a mount of the
dirty disk that is not automatic is completed with `___EDIRTY` after one call. -/
theorem dirty_mount_is_retried_at_most_once_witness :
    traceOf (DAMountWithArguments { Env.reference with DAFileSystemRepair := fun _ => 8 }
        0 none (some 7) 3 [] (World.of dirtyDisk))
      = some [Event.DAMountWithArguments 0 none (some 7) 3 [],
          Event.DADiskDescriptionChangedCallback 0 kDADiskDescriptionRepairRunningKey,
          Event.DAFileSystemRepair "msdos".toList "/dev/disk2s1".toList,
          Event.DADiskDescriptionChangedCallback 0 kDADiskDescriptionRepairRunningKey,
          Event.callback 7 ___EDIRTY none 3]
      ∧ __DAMountWithArgumentsCallback (DAMountWithArguments Env.reference) ___EDIRTY
          { automatic := false, callback := some 7, callbackContext := 3, disk := 0,
            force := false, mountpoint := none, options := [], devicePath := none,
            useUserFS := false }
          World.reference
        = some (invokeCallback (some 7) ___EDIRTY none 3 World.reference) :=
  ⟨by decide,
    (dirty_mount_is_retried_at_most_once Env.reference (DAMountWithArguments Env.reference)
      { automatic := false, callback := some 7, callbackContext := 3, disk := 0,
        force := false, mountpoint := none, options := [], devicePath := none,
        useUserFS := false }
      World.reference 0 none (some 7) 3 [] rfl).1⟩

/-- C3, as stated, fails: a disk locked in target disk mode whose role is PreBoot
is rejected with `EPERM` all the same when its unit is not flagged as holding
APFS. -/
theorem locked_preboot_disk_is_rejected_without_apfs :
    DADiskGetDescription lockedPreBootDisk kDADiskDescriptionDeviceTDMLockedKey
        = some kCFBooleanTrue
      ∧ DAAPFSCompareVolumeRole lockedPreBootDisk "PreBoot".toList = true
      ∧ DAMountWithArguments.tdmLocked lockedPreBootDisk = EPERM
      ∧ traceOf (DAMountWithArguments Env.reference 0 none (some 7) 3 []
          (World.of lockedPreBootDisk))
        = some [Event.DAMountWithArguments 0 none (some 7) 3 [],
            Event.callback 7 EPERM none 3] := by
  decide

/-- C3, amended: for a disk whose `DeviceTDMLocked` description is true, unless
its unit is flagged as holding APFS and its role is PreBoot,
`DAMountWithArguments` (its context and its option string allocated) does
nothing but record the call and invoke the completion callback, if there is one,
with `EPERM` and no mount point: no helper is invoked, no mount point is
created, no disk changes.  A disk with the same description on a unit flagged as
holding APFS and with the role PreBoot passes the check. -/
theorem locked_disk_mount_is_not_permitted (env : Env) (disk : DADiskRef)
    (mountpoint : Option CFType) (callback : Option DAMountCallback) (callbackContext : Nat)
    (arguments : List CFString) (w : World) (exempt : DADisk)
    (hm : env.malloc (w.trace ++ [Event.DAMountWithArguments disk mountpoint callback
      callbackContext arguments]) = true)
    (hs : env.CFStringCreateMutable (w.trace ++ [Event.DAMountWithArguments disk mountpoint
      callback callbackContext arguments]) = true)
    (hlocked : DADiskGetDescription (w.disks disk) kDADiskDescriptionDeviceTDMLockedKey
      = some kCFBooleanTrue)
    (hrole : ¬ (DAUnitGetState (w.disks disk) _kDAUnitStateHasAPFS = true
      ∧ DAAPFSCompareVolumeRole (w.disks disk) "PreBoot".toList = true))
    (hlocked' : DADiskGetDescription exempt kDADiskDescriptionDeviceTDMLockedKey
      = some kCFBooleanTrue)
    (hapfs' : DAUnitGetState exempt _kDAUnitStateHasAPFS = true)
    (hrole' : DAAPFSCompareVolumeRole exempt "PreBoot".toList = true) :
    DAMountWithArguments env disk mountpoint callback callbackContext arguments w
        = some (invokeCallback callback EPERM none callbackContext
            (w.emit (Event.DAMountWithArguments disk mountpoint callback callbackContext
              arguments)))
      ∧ (∀ cb, callback = some cb →
          traceOf (DAMountWithArguments env disk mountpoint callback callbackContext
              arguments w)
            = some (w.trace ++ [Event.DAMountWithArguments disk mountpoint callback
                callbackContext arguments, Event.callback cb EPERM none callbackContext]))
      ∧ DAMountWithArguments.tdmLocked exempt = 0 := by
  have ht : DAMountWithArguments.tdmLocked (w.disks disk) = EPERM := by
    unfold DAMountWithArguments.tdmLocked
    rw [if_pos hlocked]
    by_cases ha : DAUnitGetState (w.disks disk) _kDAUnitStateHasAPFS = true
    · have hr : ¬ DAAPFSCompareVolumeRole (w.disks disk) "PreBoot".toList = true :=
        fun hr => hrole ⟨ha, hr⟩
      rw [if_pos ha, if_neg hr]
    · rw [if_neg ha]
  have hc := DAMountWithArguments.compose_of_tdmLocked env disk mountpoint arguments
    (w.emit (Event.DAMountWithArguments disk mountpoint callback callbackContext arguments))
    hm hs (by
      show DAMountWithArguments.tdmLocked (w.disks disk) ≠ 0
      rw [ht]; decide)
  have hrun : DAMountWithArguments env disk mountpoint callback callbackContext arguments w
      = some (invokeCallback callback EPERM none callbackContext
          (w.emit (Event.DAMountWithArguments disk mountpoint callback callbackContext
            arguments))) := by
    show DAMountWithArguments.body env (DAMountWithArgumentsDepth env 1) disk mountpoint
      callback callbackContext arguments w = _
    rw [DAMountWithArguments.body_of_compose_error env _ disk mountpoint callback
      callbackContext arguments w _ _ hc]
    show some (DAMountWithArguments.exit (DAMountWithArguments.tdmLocked (w.disks disk))
      callback callbackContext _) = _
    rw [ht]
    rfl
  refine ⟨hrun, ?_, ?_⟩
  · intro cb hcb
    rw [hrun, hcb]
    simp [traceOf, invokeCallback]
  · unfold DAMountWithArguments.tdmLocked
    rw [if_pos hlocked', if_pos hapfs', if_pos hrole']

/-- C3, amended, on the quiet machine: a locked disk with no role is refused, a
locked PreBoot disk on an APFS unit passes the check. -/
theorem locked_disk_mount_is_not_permitted_witness :
    traceOf (DAMountWithArguments Env.reference 0 none (some 7) 3 [] (World.of lockedDisk))
        = some [Event.DAMountWithArguments 0 none (some 7) 3 [],
            Event.callback 7 EPERM none 3]
      ∧ DAMountWithArguments.tdmLocked lockedPreBootAPFSDisk = 0 :=
  ⟨(locked_disk_mount_is_not_permitted Env.reference 0 none (some 7) 3 []
      (World.of lockedDisk) lockedPreBootAPFSDisk rfl rfl (by decide) (by decide)
      (by decide) (by decide) (by decide)).2.1 7 rfl,
    (locked_disk_mount_is_not_permitted Env.reference 0 none (some 7) 3 []
      (World.of lockedDisk) lockedPreBootAPFSDisk rfl rfl (by decide) (by decide)
      (by decide) (by decide) (by decide)).2.2⟩

/-- C5: when `DAMountWithArguments` has composed its options for a disk that
`DAMountGetPreference( disk, Trust )` does not trust, the option string is the
trimmed string made of the ownership entries of an HFS volume (if the volume is
one), then `nodev,noowners,nosuid,`, then the string that holds the options of
the mount maps and of the caller; so its entries are those of the HFS volume,
then `nodev`, `noowners`, `nosuid`, then the rest.  The options of the caller
are what that string ends with, and the options of a matching mount map stand
in it in front of them.  For a trusted disk the three entries are not put in.
With no trust preference configured, the untrusted disks are those with
removable media or on a device that is not internal.  And every invocation of
the mount helper by a request on an untrusted disk carries the three entries,
one after the other. -/
theorem untrusted_mount_options (env : Env) (disk : DADiskRef) (mountpoint : Option CFType)
    (callback : Option DAMountCallback) (callbackContext : Nat) (arguments : List CFString)
    (w w1 x x1 : World) (setup : DAMountWithArguments.Setup)
    (hc : DAMountWithArguments.compose env disk mountpoint arguments w = (Except.ok setup, w1))
    (hx : DAMountWithArguments env disk mountpoint callback callbackContext arguments x
      = some x1) :
    (DAMountGetPreference env.gDAPreferenceList (w.disks disk) kDAMountPreferenceTrust = false →
      setup.options
          = CFStringTrim
              (DAMountWithArguments.hfsOptions (w.disks disk)
                ("nodev,noowners,nosuid,".toList
                  ++ DAMountWithArguments.writableOptions (w.disks disk)
                      (DAMountWithArguments.mappedOptions env disk (w.disks disk) arguments)))
              ','
        ∧ ∃ more, entries setup.options
          = (if DAFileSystemGetKind (w.disks disk) = "hfs".toList then hfsEntries (w.disks disk)
              else [])
            ++ [kDAFileSystemMountArgumentNoDevice, kDAFileSystemMountArgumentNoOwnership,
                kDAFileSystemMountArgumentNoSetUserID]
            ++ more)
    ∧ callerOptions arguments
        <:+ DAMountWithArguments.writableOptions (w.disks disk)
            (DAMountWithArguments.mappedOptions env disk (w.disks disk) arguments)
    ∧ (∀ map string,
        env.gDAMountMapList1.find? (DAMountWithArguments.matches1 env disk (w.disks disk))
          = some map →
        map.kDAMountMapMountOptionsKey = some string →
        (string ++ ',' :: DAMountWithArguments.requestOptions env (w.disks disk) arguments)
          <:+ DAMountWithArguments.writableOptions (w.disks disk)
              (DAMountWithArguments.mappedOptions env disk (w.disks disk) arguments))
    ∧ (∀ map string,
        env.gDAMountMapList2.find? (DAMountWithArguments.matches2 (w.disks disk)) = some map →
        map.kDAMountMapMountOptionsKey = some string →
        ∃ mapped, callerOptions arguments <:+ mapped
          ∧ (string ++ ',' :: mapped)
            <:+ DAMountWithArguments.writableOptions (w.disks disk)
                (DAMountWithArguments.mappedOptions env disk (w.disks disk) arguments))
    ∧ (DAMountGetPreference env.gDAPreferenceList (w.disks disk) kDAMountPreferenceTrust = true →
      setup.options
        = CFStringTrim
            (DAMountWithArguments.hfsOptions (w.disks disk)
              (DAMountWithArguments.writableOptions (w.disks disk)
                (DAMountWithArguments.mappedOptions env disk (w.disks disk) arguments)))
            ',')
    ∧ ((∀ key, env.gDAPreferenceList key = none) →
      (DAMountGetPreference env.gDAPreferenceList (w.disks disk) kDAMountPreferenceTrust = false
        ↔ (DADiskGetDescription (w.disks disk) kDADiskDescriptionMediaRemovableKey
              = some kCFBooleanTrue
            ∨ DADiskGetDescription (w.disks disk) kDADiskDescriptionDeviceInternalKey
              ≠ some kCFBooleanTrue)))
    ∧ (DAMountGetPreference env.gDAPreferenceList (x.disks disk) kDAMountPreferenceTrust = false →
      ∀ e ∈ x1.trace.drop x.trace.length, ∀ o, e.mountOptions = some o →
        ∃ front more, entries o
          = front ++ [kDAFileSystemMountArgumentNoDevice, kDAFileSystemMountArgumentNoOwnership,
              kDAFileSystemMountArgumentNoSetUserID] ++ more) := by
  have hok := DAMountWithArguments.compose_ok env disk mountpoint arguments w w1 setup hc
  refine ⟨fun ht => ⟨?_, ?_⟩, ?_, ?_, ?_, fun ht => ?_, fun hn => ?_, fun ht => ?_⟩
  · rw [hok.2.2.2.1, DAMountWithArguments.trustOptions_of_untrusted env _ _ ht]
    simp
  · rw [hok.2.2.2.1]
    exact DAMountWithArguments.untrusted_entries env (w.disks disk) _ ht
  · exact DAMountWithArguments.callerOptions_suffix env disk (w.disks disk) arguments
  · intro map string hmap hstring
    refine List.IsSuffix.trans ?_ (DAMountWithArguments.writableOptions_suffix _ _)
    unfold DAMountWithArguments.mappedOptions
    refine List.IsSuffix.trans ?_ (DAMountWithArguments.mapOptions_suffix _ _)
    rw [hmap, DAMountWithArguments.mapOptions_of_some map string _ hstring]
  · intro map string hmap hstring
    refine ⟨DAMountWithArguments.mapOptions
      (env.gDAMountMapList1.find? (DAMountWithArguments.matches1 env disk (w.disks disk)))
      (DAMountWithArguments.requestOptions env (w.disks disk) arguments), ?_, ?_⟩
    · refine List.IsSuffix.trans ?_ (DAMountWithArguments.mapOptions_suffix _ _)
      unfold DAMountWithArguments.requestOptions
      dsimp only
      exact (DAMountWithArguments.systemOptions_suffix _ _ _ _).trans
        (DAMountWithArguments.quarantineOptions_suffix _ _ _)
    · refine List.IsSuffix.trans ?_ (DAMountWithArguments.writableOptions_suffix _ _)
      unfold DAMountWithArguments.mappedOptions
      rw [hmap, DAMountWithArguments.mapOptions_of_some map string _ hstring]
  · rw [hok.2.2.2.1, DAMountWithArguments.trustOptions_of_trusted env _ _ ht]
  · unfold DAMountGetPreference
    dsimp only
    by_cases hr : DADiskGetDescription (w.disks disk) kDADiskDescriptionMediaRemovableKey
        = some kCFBooleanTrue
    · rw [if_pos hr, hn]
      exact ⟨fun _ => Or.inl hr, fun _ => rfl⟩
    · by_cases hi : DADiskGetDescription (w.disks disk) kDADiskDescriptionDeviceInternalKey
          = some kCFBooleanTrue
      · rw [if_neg hr, if_pos hi, hn]
        exact ⟨fun h => absurd h (by decide), fun h => h.elim (fun h => absurd h hr)
          (fun h => absurd hi h)⟩
      · rw [if_neg hr, if_neg hi, hn]
        exact ⟨fun _ => Or.inr hi, fun _ => rfl⟩
  · refine DAMountWithArgumentsDepth_mountOptions env disk
      (fun d => DAMountGetPreference env.gDAPreferenceList d kDAMountPreferenceTrust = false)
      (fun o => ∃ front more, entries o
          = front ++ [kDAFileSystemMountArgumentNoDevice, kDAFileSystemMountArgumentNoOwnership,
              kDAFileSystemMountArgumentNoSetUserID] ++ more)
      ?_ ?_ 2 mountpoint callback callbackContext arguments x x1 ht hx
    · intro y y1 options hp hf
      have hd := fun key hk => hp.description_eq disk key hk
      unfold DAMountGetPreference at hf ⊢
      dsimp only at hf ⊢
      unfold DADiskGetDescription at hf ⊢
      rw [hd kDADiskDescriptionMediaRemovableKey (by decide),
        hd kDADiskDescriptionDeviceInternalKey (by decide)]
      exact hf
    · intro y mp args su y1 hf hcy
      have hoky := DAMountWithArguments.compose_ok env disk mp args y y1 su hcy
      obtain ⟨more, hmore⟩ := DAMountWithArguments.untrusted_entries env (y.disks disk)
        (DAMountWithArguments.writableOptions (y.disks disk)
          (DAMountWithArguments.mappedOptions env disk (y.disks disk) args)) hf
      rw [hoky.2.2.2.1]
      exact ⟨_, more, hmore⟩

/-- C5 on the quiet machine: the reference disk (media not removable, device not
internal, no trust preference) is mounted with `nobrowse` from the caller; the
three entries come first. -/
theorem untrusted_mount_options_witness :
    ∃ more, entries "nodev,noowners,nosuid,nobrowse".toList
      = [] ++ [kDAFileSystemMountArgumentNoDevice, kDAFileSystemMountArgumentNoOwnership,
          kDAFileSystemMountArgumentNoSetUserID] ++ more :=
  ((untrusted_mount_options Env.reference 0 none (some 7) 3 ["nobrowse".toList]
    World.reference World.reference World.reference _
    { force := false, automatic := false, check := none, mountpoint := none,
      devicePath := some (CFType.url "/dev/disk2s1".toList),
      options := "nodev,noowners,nosuid,nobrowse".toList }
    rfl rfl).1 (by decide)).2

/-- C6: for a disk whose `MediaWritable` description is false, every invocation
of the mount helper that a call of `DAMountWithArguments` on the disk adds to
the trace (the one of an automatic retry included) carries the entry `rdonly` in
its option string, whatever the caller and the mount maps supply; and so does
every option string the daemon composes for the disk. -/
theorem read_only_media_is_mounted_rdonly (env : Env) (disk : DADiskRef)
    (mountpoint : Option CFType) (callback : Option DAMountCallback) (callbackContext : Nat)
    (arguments : List CFString) (w w1 : World)
    (hw : DADiskGetDescription (w.disks disk) kDADiskDescriptionMediaWritableKey
      = some kCFBooleanFalse)
    (h : DAMountWithArguments env disk mountpoint callback callbackContext arguments w
      = some w1) :
    (∀ e ∈ w1.trace.drop w.trace.length, ∀ o, e.mountOptions = some o →
      kDAFileSystemMountArgumentNoWrite ∈ entries o)
    ∧ (∀ mountpoint1 arguments1 setup x, DAMountWithArguments.compose env disk mountpoint1
        arguments1 w = (Except.ok setup, x) →
      kDAFileSystemMountArgumentNoWrite ∈ entries setup.options) := by
  have hcompose : ∀ (y : World) mp args su y1,
      DADiskGetDescription (y.disks disk) kDADiskDescriptionMediaWritableKey
        = some kCFBooleanFalse →
      DAMountWithArguments.compose env disk mp args y = (Except.ok su, y1) →
      kDAFileSystemMountArgumentNoWrite ∈ entries su.options := by
    intro y mp args su y1 hf hcy
    rw [(DAMountWithArguments.compose_ok env disk mp args y y1 su hcy).2.2.2.1]
    exact DAMountWithArguments.readOnly_entry env (y.disks disk) _ hf
  refine ⟨?_, fun mp args su x hcx => hcompose w mp args su x hw hcx⟩
  refine DAMountWithArgumentsDepth_mountOptions env disk
    (fun d => DADiskGetDescription d kDADiskDescriptionMediaWritableKey = some kCFBooleanFalse)
    (fun o => kDAFileSystemMountArgumentNoWrite ∈ entries o)
    ?_ hcompose 2 mountpoint callback callbackContext arguments w w1 hw h
  intro y y1 options hp hf
  unfold DADiskGetDescription at hf ⊢
  rw [hp.description_eq disk kDADiskDescriptionMediaWritableKey (by decide)]
  exact hf

/-- C6 on the quiet machine: a disk with read-only media is mounted with
`nobrowse` from the caller; the mount helper is invoked once, with `rdonly`
among its options. -/
theorem read_only_media_is_mounted_rdonly_witness :
    traceOf (DAMountWithArguments Env.reference 0 none (some 7) 3 ["nobrowse".toList]
        (World.of readOnlyDisk))
      = some [Event.DAMountWithArguments 0 none (some 7) 3 ["nobrowse".toList],
          Event.mkdir "/Volumes/Untitled".toList 0o111 true,
          Event.DAFileSystemMountWithArguments "msdos".toList
            (some (CFType.url "/dev/disk2s1".toList)) none
            (some (CFType.url "/Volumes/Untitled".toList)) 0 0 none
            "nodev,noowners,nosuid,rdonly,nobrowse".toList,
          Event.callback 7 0 (some (CFType.url "/Volumes/Untitled".toList)) 3]
      ∧ kDAFileSystemMountArgumentNoWrite ∈ entries "nodev,noowners,nosuid,rdonly,nobrowse".toList :=
  ⟨by decide,
    (read_only_media_is_mounted_rdonly Env.reference 0 none (some 7) 3 ["nobrowse".toList]
      (World.of readOnlyDisk) _ rfl rfl).1
      (Event.DAFileSystemMountWithArguments "msdos".toList
        (some (CFType.url "/dev/disk2s1".toList)) none
        (some (CFType.url "/Volumes/Untitled".toList)) 0 0 none
        "nodev,noowners,nosuid,rdonly,nobrowse".toList)
      (by decide) _ rfl⟩

/-- C7, as stated, fails: a mount of a quarantined disk that was not started with
the "automatic" argument is composed, and handed to the mount helper, without
the entry `quarantine`. -/
theorem quarantined_disk_is_mounted_without_quarantine :
    DADiskGetState quarantinedDisk _kDADiskStateMountQuarantined = true
      ∧ traceOf (DAMountWithArguments Env.reference 0 none (some 7) 3 []
          (World.of quarantinedDisk))
        = some [Event.DAMountWithArguments 0 none (some 7) 3 [],
            Event.mkdir "/Volumes/Untitled".toList 0o111 true,
            Event.DAFileSystemMountWithArguments "msdos".toList
              (some (CFType.url "/dev/disk2s1".toList)) none
              (some (CFType.url "/Volumes/Untitled".toList)) 0 0 none
              "nodev,noowners,nosuid".toList,
            Event.callback 7 0 (some (CFType.url "/Volumes/Untitled".toList)) 3]
      ∧ "quarantine".toList ∉ entries "nodev,noowners,nosuid".toList := by
  decide

/-- C7, amended: for a disk that carries the quarantine attribute, the option
string `DAMountWithArguments` composes for a mount started with the "automatic"
argument contains the entry `quarantine`.  For a mount started without that
argument the daemon puts no such entry in: the option string before the mount
maps is the caller's, and the composed options hold `quarantine` only if the
caller's options or the options of a matching mount map entry hold it. -/
theorem automatic_mount_of_quarantined_disk (env : Env) (disk : DADiskRef)
    (mountpoint : Option CFType) (arguments : List CFString) (w w1 : World)
    (setup : DAMountWithArguments.Setup)
    (hc : DAMountWithArguments.compose env disk mountpoint arguments w
      = (Except.ok setup, w1)) :
    ("automatic".toList ∈ arguments →
        DADiskGetState (w.disks disk) _kDADiskStateMountQuarantined = true →
        "quarantine".toList ∈ entries setup.options)
      ∧ ("automatic".toList ∉ arguments →
        DAMountWithArguments.requestOptions env (w.disks disk) arguments
            = callerOptions arguments
          ∧ ("quarantine".toList ∉ entries (callerOptions arguments) →
            (∀ found string,
              env.gDAMountMapList1.find? (DAMountWithArguments.matches1 env disk (w.disks disk))
                  = some found
                ∨ env.gDAMountMapList2.find? (DAMountWithArguments.matches2 (w.disks disk))
                  = some found →
              found.kDAMountMapMountOptionsKey = some string →
              "quarantine".toList ∉ entries string) →
            "quarantine".toList ∉ entries setup.options)) := by
  rw [(DAMountWithArguments.compose_ok env disk mountpoint arguments w w1 setup hc).2.2.2.1]
  refine ⟨fun ha hq => ?_, fun ha => ⟨?_, fun hcaller hmaps hmem => ?_⟩⟩
  · exact DAMountWithArguments.composed_entries env (w.disks disk) _ _ (by decide)
      (DAMountWithArguments.quarantine_entry env disk (w.disks disk) arguments ha hq)
  · exact DAMountWithArguments.requestOptions_of_not_automatic env _ arguments ha
  · have hd := quarantine_not_mem_daemon_entries (w.disks disk)
    rcases DAMountWithArguments.of_mem_composed _ _ _ _ hmem with h | h | h | h
    · exact hd.1 h
    · exact hd.2.1 h
    · exact hd.2.2 h
    unfold DAMountWithArguments.mappedOptions at h
    rcases DAMountWithArguments.of_mem_mapOptions _ _ _ h with ⟨found, string, hf, hs, hx⟩ | h
    · exact hmaps found string (Or.inr hf) hs hx
    rcases DAMountWithArguments.of_mem_mapOptions _ _ _ h with ⟨found, string, hf, hs, hx⟩ | h
    · exact hmaps found string (Or.inl hf) hs hx
    rw [DAMountWithArguments.requestOptions_of_not_automatic env _ arguments ha] at h
    exact hcaller h

/-- C7, amended, on the quiet machine: the automatic mount of a quarantined disk
that is not deferred holds the entry, and the mount of a quarantined disk
started without arguments does not. -/
theorem automatic_mount_of_quarantined_disk_witness :
    "quarantine".toList ∈ entries "nodev,noowners,nosuid,quarantine".toList
      ∧ DAMountWithArguments.requestOptions Env.reference quarantinedDisk [] = []
      ∧ "quarantine".toList ∉ entries "nodev,noowners,nosuid".toList :=
  ⟨(automatic_mount_of_quarantined_disk Env.reference 0 none ["automatic".toList]
      (World.of quarantinedAutomaticDisk) (World.of quarantinedAutomaticDisk)
      { force := false, automatic := true, check := some kCFBooleanTrue, mountpoint := none,
        devicePath := some (CFType.url "/dev/disk2s1".toList),
        options := "nodev,noowners,nosuid,quarantine".toList }
      rfl).1 (by decide) rfl,
    ((automatic_mount_of_quarantined_disk Env.reference 0 none []
      (World.of quarantinedDisk) (World.of quarantinedDisk)
      { force := false, automatic := false, check := none, mountpoint := none,
        devicePath := some (CFType.url "/dev/disk2s1".toList),
        options := "nodev,noowners,nosuid".toList }
      rfl).2 (by decide)).1,
    ((automatic_mount_of_quarantined_disk Env.reference 0 none []
      (World.of quarantinedDisk) (World.of quarantinedDisk)
      { force := false, automatic := false, check := none, mountpoint := none,
        devicePath := some (CFType.url "/dev/disk2s1".toList),
        options := "nodev,noowners,nosuid".toList }
      rfl).2 (by decide)).2 (by decide)
      (fun found string hf => by
        have hn : ∀ m : Option DAMountMap, m = none → ∀ x, m = some x → False :=
          fun m e x h => by rw [e] at h; cases h
        rcases hf with hf | hf
        · exact absurd hf (fun h => hn _ rfl found h)
        · exact absurd hf (fun h => hn _ rfl found h))⟩

/-- C8: when `DAMountWithArguments` has composed its options for a disk whose file
system kind is `hfs`, the option string begins with
`-u=<uid>,-g=<gid>,-m=755`, and these are its first three entries, in that
order, where `<uid>` and `<gid>` are the suggested user and group ids of the
disk when they are not zero and the reserved "unknown" ids otherwise; for any
other kind the option string is the trimmed string of the other entries, with
nothing put in front. -/
theorem hfs_mount_options (env : Env) (disk : DADiskRef) (mountpoint : Option CFType)
    (arguments : List CFString) (w w1 : World) (setup : DAMountWithArguments.Setup)
    (hc : DAMountWithArguments.compose env disk mountpoint arguments w
      = (Except.ok setup, w1)) :
    (DAFileSystemGetKind (w.disks disk) = "hfs".toList →
      ("-u=".toList
          ++ formatDecimal (if DADiskGetUserUID (w.disks disk) ≠ 0
              then DADiskGetUserUID (w.disks disk) else ___UID_UNKNOWN)
          ++ ",-g=".toList
          ++ formatDecimal (if DADiskGetUserGID (w.disks disk) ≠ 0
              then DADiskGetUserGID (w.disks disk) else ___GID_UNKNOWN)
          ++ ",-m=755".toList)
        <+: setup.options
      ∧ ∃ more, entries setup.options
        = ["-u=".toList
              ++ formatDecimal (if DADiskGetUserUID (w.disks disk) ≠ 0
                  then DADiskGetUserUID (w.disks disk) else ___UID_UNKNOWN),
            "-g=".toList
              ++ formatDecimal (if DADiskGetUserGID (w.disks disk) ≠ 0
                  then DADiskGetUserGID (w.disks disk) else ___GID_UNKNOWN),
            "-m=755".toList]
          ++ more)
    ∧ (DAFileSystemGetKind (w.disks disk) ≠ "hfs".toList →
      setup.options
        = CFStringTrim
            (DAMountWithArguments.trustOptions env (w.disks disk)
              (DAMountWithArguments.writableOptions (w.disks disk)
                (DAMountWithArguments.mappedOptions env disk (w.disks disk) arguments)))
            ',') := by
  have hok := DAMountWithArguments.compose_ok env disk mountpoint arguments w w1 setup hc
  refine ⟨fun hk => ?_, fun hk => ?_⟩
  · rw [hok.2.2.2.1]
    exact DAMountWithArguments.hfs_entries (w.disks disk) _ hk
  · rw [hok.2.2.2.1, DAMountWithArguments.hfsOptions_of_not_hfs _ _ hk]

/-- C8 on the quiet machine: an HFS disk suggested for user 501 and no group. -/
theorem hfs_mount_options_witness :
    "-u=501,-g=99,-m=755".toList <+: "-u=501,-g=99,-m=755,nodev,noowners,nosuid".toList
      ∧ ∃ more, entries "-u=501,-g=99,-m=755,nodev,noowners,nosuid".toList
        = ["-u=501".toList, "-g=99".toList, "-m=755".toList] ++ more :=
  (hfs_mount_options Env.reference 0 none [] (World.of hfsDisk) (World.of hfsDisk)
    { force := false, automatic := false, check := none, mountpoint := none,
      devicePath := some (CFType.url "/dev/disk2s1".toList),
      options := "-u=501,-g=99,-m=755,nodev,noowners,nosuid".toList }
    rfl).1 rfl

/-- C9, as stated, fails: a mount started with the "automatic" argument whose
composed options contain `rdonly` (the media is read-only), on a disk with
`RequireRepair` and without `force`, does not fail with `___EDIRTY`: the repair
helper is invoked, and on the quiet machine the disk is then mounted. -/
theorem automatic_read_only_mount_of_dirty_disk_is_repaired :
    DADiskGetState dirtyReadOnlyAutomaticDisk kDADiskStateRequireRepair = true
      ∧ DAMountContainsArgument Env.reference (some "nodev,noowners,nosuid,rdonly".toList)
          kDAFileSystemMountArgumentNoWrite = true
      ∧ traceOf (DAMountWithArguments Env.reference 0 none (some 7) 3 ["automatic".toList]
          (World.of dirtyReadOnlyAutomaticDisk))
        = some [Event.DAMountWithArguments 0 none (some 7) 3 ["automatic".toList],
            Event.DADiskDescriptionChangedCallback 0 kDADiskDescriptionRepairRunningKey,
            Event.DAFileSystemRepair "msdos".toList "/dev/disk2s1".toList,
            Event.DADiskDescriptionChangedCallback 0 kDADiskDescriptionRepairRunningKey,
            Event.mkdir "/Volumes/Untitled".toList 0o111 true,
            Event.DAFileSystemMountWithArguments "msdos".toList
              (some (CFType.url "/dev/disk2s1".toList)) none
              (some (CFType.url "/Volumes/Untitled".toList)) 0 0 none
              "nodev,noowners,nosuid,rdonly".toList,
            Event.callback 7 0 (some (CFType.url "/Volumes/Untitled".toList)) 3] := by
  decide

/-- C9, amended: in `DAMountWithArguments`, if the request was not started with
the "automatic" argument, the composed options contain `rdonly`
(`DAMountContainsArgument`), the disk has `RequireRepair` set and `force` was
not given, the request fails with `___EDIRTY`: nothing happens but the call and
the invocation of the completion callback, if there is one, with `___EDIRTY` and
no mount point; neither helper is invoked. -/
theorem read_only_mount_of_dirty_disk_fails (env : Env) (disk : DADiskRef)
    (mountpoint : Option CFType) (callback : Option DAMountCallback) (callbackContext : Nat)
    (arguments : List CFString) (w w1 : World) (setup : DAMountWithArguments.Setup)
    (hc : DAMountWithArguments.compose env disk mountpoint arguments
        (w.emit (Event.DAMountWithArguments disk mountpoint callback callbackContext arguments))
      = (Except.ok setup, w1))
    (ha : "automatic".toList ∉ arguments)
    (hro : DAMountContainsArgument env (some setup.options) kDAFileSystemMountArgumentNoWrite
      = true)
    (hd : DADiskGetState (w.disks disk) kDADiskStateRequireRepair = true)
    (hf : kDAFileSystemMountArgumentForce ∉ arguments) :
    DAMountWithArguments env disk mountpoint callback callbackContext arguments w
        = some (invokeCallback callback ___EDIRTY none callbackContext
            (w.emit (Event.DAMountWithArguments disk mountpoint callback callbackContext
              arguments)))
      ∧ (∀ cb, callback = some cb →
          traceOf (DAMountWithArguments env disk mountpoint callback callbackContext
              arguments w)
            = some (w.trace ++ [Event.DAMountWithArguments disk mountpoint callback
                callbackContext arguments, Event.callback cb ___EDIRTY none callbackContext])) := by
  have hargs := DAMountWithArguments.compose_ok_arguments env disk mountpoint arguments _ w1
    setup hc
  have hw1 := DAMountWithArguments.compose_world_of_not_automatic env disk mountpoint arguments
    (w.emit (Event.DAMountWithArguments disk mountpoint callback callbackContext arguments)) ha
  rw [hc] at hw1
  dsimp only at hw1
  subst hw1
  have hcheck : setup.check = none := hargs.2.1.2 ha
  have hforce : setup.force = false := by
    cases hs : setup.force with
    | false => rfl
    | true => exact absurd (hargs.1.1 hs) hf
  have hrep : DAMountWithArguments.repair env
      ((w.emit (Event.DAMountWithArguments disk mountpoint callback callbackContext
        arguments)).disks disk) setup = Except.error ___EDIRTY := by
    unfold DAMountWithArguments.repair
    simp only [hcheck, hro, if_true, World.emit_disks, hd, hforce, and_self]
  have hrun : DAMountWithArguments env disk mountpoint callback callbackContext arguments w
      = some (invokeCallback callback ___EDIRTY none callbackContext
          (w.emit (Event.DAMountWithArguments disk mountpoint callback callbackContext
            arguments))) := by
    show DAMountWithArguments.body env (DAMountWithArgumentsDepth env 1) disk mountpoint
      callback callbackContext arguments w = _
    rw [DAMountWithArguments.body_of_repair_error env _ disk mountpoint callback
      callbackContext arguments w _ setup ___EDIRTY hc hrep]
    rfl
  refine ⟨hrun, fun cb hcb => ?_⟩
  rw [hrun, hcb]
  simp [traceOf, invokeCallback]

/-- C9, amended, on the quiet machine: a read-only mount of the dirty disk,
asked for by the caller without `force`. -/
theorem read_only_mount_of_dirty_disk_fails_witness :
    traceOf (DAMountWithArguments Env.reference 0 none (some 7) 3
        [kDAFileSystemMountArgumentNoWrite] (World.of dirtyDisk))
      = some [Event.DAMountWithArguments 0 none (some 7) 3 [kDAFileSystemMountArgumentNoWrite],
          Event.callback 7 ___EDIRTY none 3] :=
  (read_only_mount_of_dirty_disk_fails Env.reference 0 none (some 7) 3
    [kDAFileSystemMountArgumentNoWrite] (World.of dirtyDisk) _
    { force := false, automatic := false, check := none, mountpoint := none,
      devicePath := some (CFType.url "/dev/disk2s1".toList),
      options := "nodev,noowners,nosuid,rdonly".toList }
    rfl (by decide) (by decide) (by decide) (by decide)).2 7 rfl

/-- C10, as stated, fails: a forced read-only mount (the arguments of the
automatic retry) of a disk with `RequireRepair` set passes the dirty-volume
check, and the repair helper is not invoked: the request goes directly to the
mount step. -/
theorem forced_read_only_mount_of_dirty_disk_is_not_repaired :
    DADiskGetState dirtyDisk kDADiskStateRequireRepair = true
      ∧ traceOf (DAMountWithArguments Env.reference 0 none (some 7) 3
          [kDAFileSystemMountArgumentForce, kDAFileSystemMountArgumentNoWrite]
          (World.of dirtyDisk))
        = some [Event.DAMountWithArguments 0 none (some 7) 3
              [kDAFileSystemMountArgumentForce, kDAFileSystemMountArgumentNoWrite],
            Event.mkdir "/Volumes/Untitled".toList 0o111 true,
            Event.DAFileSystemMountWithArguments "msdos".toList
              (some (CFType.url "/dev/disk2s1".toList)) none
              (some (CFType.url "/Volumes/Untitled".toList)) 0 0 none
              "nodev,noowners,nosuid,rdonly".toList,
            Event.callback 7 0 (some (CFType.url "/Volumes/Untitled".toList)) 3] := by
  decide

/-- C10, amended: for a mount request that passes the dirty-volume check in
`DAMountWithArguments`, the repair helper is invoked exactly if the
always-repair preference is enabled, or `RequireRepair` is set on the disk and
the request is automatic or its composed options do not contain `rdonly`.  When
it is invoked, that is the first thing after the call and the change of the
repair-running description, stage 1 is entered with the status of the helper,
and everything else, the invocation of the mount helper included, comes after.
Otherwise stage 1 is entered with `ECANCELED` right after the call, which takes
it to the mount step at once, and no repair helper is invoked up to the
completion of the request. -/
theorem repair_before_mount (env : Env) (disk : DADiskRef) (mountpoint : Option CFType)
    (callback : Option DAMountCallback) (callbackContext : Nat) (arguments : List CFString)
    (w w1 : World) (setup : DAMountWithArguments.Setup) (check : Bool)
    (hc : DAMountWithArguments.compose env disk mountpoint arguments
        (w.emit (Event.DAMountWithArguments disk mountpoint callback callbackContext arguments))
      = (Except.ok setup, w1))
    (hr : DAMountWithArguments.repair env (w1.disks disk) setup = Except.ok check) :
    (check = true ↔
      (DAMountGetPreference env.gDAPreferenceList (w1.disks disk)
          kDAMountPreferenceAlwaysRepair = true
        ∨ (DADiskGetState (w1.disks disk) kDADiskStateRequireRepair = true
          ∧ ("automatic".toList ∈ arguments
            ∨ DAMountContainsArgument env (some setup.options)
                kDAFileSystemMountArgumentNoWrite = false))))
    ∧ (check = true →
      DAMountWithArguments env disk mountpoint callback callbackContext arguments w
          = __DAMountWithArgumentsCallbackStage1 env (DAMountWithArgumentsDepth env 1)
              (env.DAFileSystemRepair (DAMountWithArguments.executeRepair disk w1).trace)
              (DAMountWithArguments.context disk callback callbackContext setup)
              (DAMountWithArguments.executeRepair disk w1)
        ∧ (DAMountWithArguments.executeRepair disk w1).trace
          = w.trace ++ [Event.DAMountWithArguments disk mountpoint callback callbackContext
                arguments,
              Event.DADiskDescriptionChangedCallback disk kDADiskDescriptionRepairRunningKey,
              Event.DAFileSystemRepair (DAFileSystemGetKind (w1.disks disk))
                (DADiskGetDevice (w1.disks disk))]
        ∧ ∀ w2, DAMountWithArguments env disk mountpoint callback callbackContext arguments w
            = some w2 →
          (w.trace ++ [Event.DAMountWithArguments disk mountpoint callback callbackContext
                arguments,
              Event.DADiskDescriptionChangedCallback disk kDADiskDescriptionRepairRunningKey,
              Event.DAFileSystemRepair (DAFileSystemGetKind (w1.disks disk))
                (DADiskGetDevice (w1.disks disk))])
            <+: w2.trace)
    ∧ (check = false →
      DAMountWithArguments env disk mountpoint callback callbackContext arguments w
          = __DAMountWithArgumentsCallbackStage1 env (DAMountWithArgumentsDepth env 1) ECANCELED
              (DAMountWithArguments.context disk callback callbackContext setup) w1
        ∧ DAMountWithArguments env disk mountpoint callback callbackContext arguments w
          = __DAMountWithArgumentsCallbackStage1.mount env (DAMountWithArgumentsDepth env 1)
              (DAMountWithArguments.context disk callback callbackContext setup)
              (__DAMountWithArgumentsCallbackStage1.repaired
                (DAMountWithArguments.context disk callback callbackContext setup) w1)
        ∧ w1.trace = w.trace ++ [Event.DAMountWithArguments disk mountpoint callback
            callbackContext arguments]
        ∧ ∃ status1 context1 w2,
          DAMountWithArguments env disk mountpoint callback callbackContext arguments w
              = __DAMountWithArgumentsCallback (DAMountWithArgumentsDepth env 1) status1
                  context1 w2
            ∧ w1.trace <+: w2.trace
            ∧ ∀ e ∈ w2.trace.drop w1.trace.length, e.isRepair = false) := by
  have hargs := DAMountWithArguments.compose_ok_arguments env disk mountpoint arguments _ w1
    setup hc
  have htrace : w1.trace = w.trace ++ [Event.DAMountWithArguments disk mountpoint callback
      callbackContext arguments] := by
    have := DAMountWithArguments.compose_trace env disk mountpoint arguments
      (w.emit (Event.DAMountWithArguments disk mountpoint callback callbackContext arguments))
    rw [hc] at this
    exact this
  have hbody := DAMountWithArguments.body_of_repair_ok env (DAMountWithArgumentsDepth env 1)
    disk mountpoint callback callbackContext arguments w w1 setup check hc hr
  change DAMountWithArguments env disk mountpoint callback callbackContext arguments w = _
    at hbody
  refine ⟨?_, fun ht => ?_, fun hf => ?_⟩
  · unfold DAMountWithArguments.repair at hr
    by_cases ha : "automatic".toList ∈ arguments
    · have hck : setup.check = some kCFBooleanTrue := hargs.2.2.2 ha
      have ha1 : ['a', 'u', 't', 'o', 'm', 'a', 't', 'i', 'c'] ∈ arguments := ha
      by_cases hd : DADiskGetState (w1.disks disk) kDADiskStateRequireRepair = true <;>
        by_cases hp : DAMountGetPreference env.gDAPreferenceList (w1.disks disk)
          kDAMountPreferenceAlwaysRepair = true <;>
        simp [hck, hd, hp, kCFBooleanTrue, kCFBooleanFalse] at hr <;>
        simp [hr, hd, hp, ha1]
    · have hck : setup.check = none := hargs.2.1.2 ha
      have ha1 : ['a', 'u', 't', 'o', 'm', 'a', 't', 'i', 'c'] ∉ arguments := ha
      by_cases hro : DAMountContainsArgument env (some setup.options)
          kDAFileSystemMountArgumentNoWrite = true <;>
        by_cases hd : DADiskGetState (w1.disks disk) kDADiskStateRequireRepair = true <;>
        by_cases hp : DAMountGetPreference env.gDAPreferenceList (w1.disks disk)
          kDAMountPreferenceAlwaysRepair = true <;>
        simp [hck, hro, hd, hp, kCFBooleanTrue, kCFBooleanFalse] at hr <;>
        first
          | (simp [hr, hro, hd, hp, ha1]; done)
          | (cases hforce : setup.force <;> simp [hforce] at hr
             simp [← hr, hro, hd, hp, ha1])
  · rw [if_pos ht] at hbody
    have htr : (DAMountWithArguments.executeRepair disk w1).trace
        = w.trace ++ [Event.DAMountWithArguments disk mountpoint callback callbackContext
              arguments,
            Event.DADiskDescriptionChangedCallback disk kDADiskDescriptionRepairRunningKey,
            Event.DAFileSystemRepair (DAFileSystemGetKind (w1.disks disk))
              (DADiskGetDevice (w1.disks disk))] := by
      rw [DAMountWithArguments.executeRepair_trace, htrace]
      simp
    refine ⟨hbody, htr, fun w2 h2 => ?_⟩
    rw [← htr]
    rw [hbody] at h2
    exact __DAMountWithArgumentsCallbackStage1_trace_extends env _ _ _ _ w2
      (fun d mp cb cc args x x1 => DAMountWithArgumentsDepth_trace_extends env 1 d mp cb cc
        args x x1) h2
  · have hf' : ¬ check = true := by simp [hf]
    rw [if_neg hf'] at hbody
    refine ⟨hbody, ?_, htrace, ?_⟩
    · rw [hbody, __DAMountWithArgumentsCallbackStage1_of_ECANCELED]
    · have hcompl := __DAMountWithArgumentsCallbackStage1_completion env
        (DAMountWithArgumentsDepth env 1) (DAMountWithArgumentsDepth env 1) ECANCELED
        (DAMountWithArguments.context disk callback callbackContext setup) w1
      rw [← hbody] at hcompl
      generalize DAMountWithArguments env disk mountpoint callback callbackContext arguments w
        = result at hcompl
      cases hcompl with
      | intro status1 context1 w2 hp hs =>
        exact ⟨status1, context1, w2, rfl, hp.trace_extends, fun e he => (hp.quiet e he).2.2⟩

/-- C10, amended, on the quiet machine with the always-repair preference: the
mount of a clean disk goes through the repair helper first. -/
theorem repair_before_mount_witness :
    traceOf (DAMountWithArguments
        { Env.reference with
          gDAPreferenceList := fun key =>
            if key = kDAPreferenceMountAlwaysRepairKey then some kCFBooleanTrue else none }
        0 none (some 7) 3 [] World.reference)
      = traceOf (__DAMountWithArgumentsCallbackStage1
          { Env.reference with
            gDAPreferenceList := fun key =>
              if key = kDAPreferenceMountAlwaysRepairKey then some kCFBooleanTrue else none }
          (DAMountWithArgumentsDepth
            { Env.reference with
              gDAPreferenceList := fun key =>
                if key = kDAPreferenceMountAlwaysRepairKey then some kCFBooleanTrue else none }
            1)
          0
          (DAMountWithArguments.context 0 (some 7) 3
            { force := false, automatic := false, check := none, mountpoint := none,
              devicePath := some (CFType.url "/dev/disk2s1".toList),
              options := "nodev,noowners,nosuid".toList })
          (DAMountWithArguments.executeRepair 0
            (World.reference.emit (Event.DAMountWithArguments 0 none (some 7) 3 [])))) :=
  congrArg traceOf
    ((repair_before_mount
      { Env.reference with
        gDAPreferenceList := fun key =>
          if key = kDAPreferenceMountAlwaysRepairKey then some kCFBooleanTrue else none }
      0 none (some 7) 3 [] World.reference
      (World.reference.emit (Event.DAMountWithArguments 0 none (some 7) 3 []))
      { force := false, automatic := false, check := none, mountpoint := none,
        devicePath := some (CFType.url "/dev/disk2s1".toList),
        options := "nodev,noowners,nosuid".toList }
      true rfl rfl).2.1 rfl).1

/-- C11, as stated, fails: for an automatic request without `force`, a repair of
the dirty disk that fails with status 8 does not end the mount with `___EDIRTY`.
`__DAMountWithArgumentsCallback` issues the mount again with `force` and
`rdonly`; the mount helper is invoked, the mount point is made, and the callback
of the request gets status 0 and the mount point. -/
theorem automatic_repair_failure_is_followed_by_a_mount :
    traceOf (__DAMountWithArgumentsCallbackStage1 Env.reference
        (DAMountWithArguments Env.reference) 8
        { automatic := true, callback := some 7, callbackContext := 3, disk := 0,
          force := false, mountpoint := none, options := "nodev".toList,
          devicePath := none, useUserFS := false }
        (World.of dirtyDisk))
      = some [Event.DAMountWithArguments 0 none (some 7) 3
            [kDAFileSystemMountArgumentForce, kDAFileSystemMountArgumentNoWrite],
          Event.mkdir "/Volumes/Untitled".toList 0o111 true,
          Event.DAFileSystemMountWithArguments "msdos".toList
            (some (CFType.url "/dev/disk2s1".toList)) none
            (some (CFType.url "/Volumes/Untitled".toList)) 0 0 none
            "nodev,noowners,nosuid,rdonly".toList,
          Event.callback 7 0 (some (CFType.url "/Volumes/Untitled".toList)) 3] := by
  decide

/-- C11, amended: in `__DAMountWithArgumentsCallbackStage1`, when the repair
helper completes with a status that is neither 0 nor `ECANCELED`: without
`force` the attempt completes, through `__DAMountWithArgumentsCallback`, with
`___EDIRTY`, after nothing but the end of the repair-running description, so
that up to the completion no mount helper is invoked and no directory is made;
a request that is not automatic ends there with `___EDIRTY` for its callback,
and for an automatic request the completion is the mount issued again through
`DAMountWithArguments` with the arguments `force` and `rdonly`, its callback
left to that mount.  With `force` stage 1 goes on to the mount step as it does
after `ECANCELED`.  On either failure `RequireRepair` is as it was.  When the
repair helper completes with 0, the mount step starts with `RequireRepair`
cleared on the disk, and the flag is clear when the mount helper is invoked. -/
theorem repair_failure_ends_the_mount_unless_forced (env : Env) (remount : Remount)
    (status : Status) (context : __DAMountCallbackContext) (w : World)
    (hs : status ≠ 0) (hc : status ≠ ECANCELED) :
    (context.force = false →
      __DAMountWithArgumentsCallbackStage1 env remount status context w
          = __DAMountWithArgumentsCallback remount ___EDIRTY context
              (__DAMountWithArgumentsCallbackStage1.repaired context w)
        ∧ (∀ e ∈ (__DAMountWithArgumentsCallbackStage1.repaired context w).trace.drop
              w.trace.length, e.isMount = false ∧ e.isMkdir = false)
        ∧ (__DAMountWithArgumentsCallbackStage1.repaired context w).gDAMountPointList
          = w.gDAMountPointList
        ∧ (context.automatic = false →
          __DAMountWithArgumentsCallbackStage1 env remount status context w
            = some (invokeCallback context.callback ___EDIRTY context.mountpoint
                context.callbackContext
                (__DAMountWithArgumentsCallbackStage1.repaired context w)))
        ∧ (context.automatic = true →
          __DAMountWithArgumentsCallbackStage1 env remount status context w
            = remount context.disk none context.callback context.callbackContext
                [kDAFileSystemMountArgumentForce, kDAFileSystemMountArgumentNoWrite]
                (__DAMountWithArgumentsCallbackStage1.repaired context w)))
    ∧ (context.force = true →
      __DAMountWithArgumentsCallbackStage1 env remount status context w
          = __DAMountWithArgumentsCallbackStage1.mount env remount context
              (__DAMountWithArgumentsCallbackStage1.repaired context w)
        ∧ __DAMountWithArgumentsCallbackStage1 env remount status context w
          = __DAMountWithArgumentsCallbackStage1 env remount ECANCELED context w)
    ∧ DADiskGetState
          ((__DAMountWithArgumentsCallbackStage1.repaired context w).disks context.disk)
          kDADiskStateRequireRepair
        = DADiskGetState (w.disks context.disk) kDADiskStateRequireRepair
    ∧ __DAMountWithArgumentsCallbackStage1 env remount 0 context w
        = __DAMountWithArgumentsCallbackStage1.mount env remount context
            ((__DAMountWithArgumentsCallbackStage1.repaired context w).setState context.disk
              kDADiskStateRequireRepair false)
    ∧ ∀ mountpoint,
        (__DAMountWithArgumentsCallbackStage1.mountpoint env context
          ((__DAMountWithArgumentsCallbackStage1.repaired context w).setState context.disk
            kDADiskStateRequireRepair false)).1 = some mountpoint →
        DADiskGetState
          ((__DAMountWithArgumentsCallbackStage1.execute env context mountpoint
            (__DAMountWithArgumentsCallbackStage1.mountpoint env context
              ((__DAMountWithArgumentsCallbackStage1.repaired context w).setState context.disk
                kDADiskStateRequireRepair false)).2).disks context.disk)
          kDADiskStateRequireRepair = false := by
  have hfail : context.force = false →
      __DAMountWithArgumentsCallbackStage1 env remount status context w
        = __DAMountWithArgumentsCallback remount ___EDIRTY context
            (__DAMountWithArgumentsCallbackStage1.repaired context w) := by
    intro hf
    unfold __DAMountWithArgumentsCallbackStage1
    simp only [hs, hc, hf, ne_eq, not_false_eq_true, if_true, if_false]
    cases __DAMountWithArgumentsCallback remount ___EDIRTY context
      (__DAMountWithArgumentsCallbackStage1.repaired context w) <;> simp [hs]
  have hforce : context.force = true →
      __DAMountWithArgumentsCallbackStage1 env remount status context w
        = __DAMountWithArgumentsCallbackStage1.mount env remount context
            (__DAMountWithArgumentsCallbackStage1.repaired context w) := by
    intro hf
    unfold __DAMountWithArgumentsCallbackStage1
    simp [hs, hc, hf]
  refine ⟨fun hf => ⟨hfail hf, ?_, ?_, fun ha => ?_, fun ha => ?_⟩,
    fun hf => ⟨hforce hf, ?_⟩, ?_, ?_, ?_⟩
  · intro e he
    rw [__DAMountWithArgumentsCallbackStage1.repaired_trace, List.drop_left] at he
    split at he
    · rw [List.mem_singleton] at he
      subst he
      exact ⟨rfl, rfl⟩
    · simp at he
  · unfold __DAMountWithArgumentsCallbackStage1.repaired
    split <;> rfl
  · rw [hfail hf]
    exact __DAMountWithArgumentsCallback_invoke remount ___EDIRTY context _ (Or.inl ha)
  · rw [hfail hf]
    exact __DAMountWithArgumentsCallback_retry remount context _ ha
  · rw [hforce hf, __DAMountWithArgumentsCallbackStage1_of_ECANCELED]
  · exact __DAMountWithArgumentsCallbackStage1.repaired_state context w _
  · unfold __DAMountWithArgumentsCallbackStage1
    simp
  · intro mountpoint _
    unfold __DAMountWithArgumentsCallbackStage1.execute
    simp [__DAMountWithArgumentsCallbackStage1.mountpoint_disks, World.setState, World.setDisk,
      World.emit, DADiskGetState, DADiskSetState]

/-- C11, amended, on the quiet machine: a repair of the dirty disk that fails
with status 8 ends a mount that is neither forced nor automatic with
`___EDIRTY`, and nothing else happens; the same failure of a forced mount is
followed by the mount; the same failure of an automatic mount is followed by the
mount issued again with `force` and `rdonly`. -/
theorem repair_failure_ends_the_mount_unless_forced_witness :
    traceOf (__DAMountWithArgumentsCallbackStage1 Env.reference
        (DAMountWithArguments Env.reference) 8
        { automatic := false, callback := some 7, callbackContext := 3, disk := 0,
          force := false, mountpoint := none, options := "nodev".toList,
          devicePath := none, useUserFS := false }
        (World.of dirtyDisk))
      = some [Event.callback 7 ___EDIRTY none 3]
    ∧ traceOf (__DAMountWithArgumentsCallbackStage1 Env.reference
        (DAMountWithArguments Env.reference) 8
        { automatic := false, callback := some 7, callbackContext := 3, disk := 0,
          force := true, mountpoint := none, options := "nodev".toList,
          devicePath := none, useUserFS := false }
        (World.of dirtyDisk))
      = some [Event.mkdir "/Volumes/Untitled".toList 0o111 true,
          Event.DAFileSystemMountWithArguments "msdos".toList none none
            (some (CFType.url "/Volumes/Untitled".toList)) 0 0 none "nodev".toList,
          Event.callback 7 0 (some (CFType.url "/Volumes/Untitled".toList)) 3]
    ∧ traceOf (__DAMountWithArgumentsCallbackStage1 Env.reference
        (DAMountWithArguments Env.reference) 8
        { automatic := true, callback := some 7, callbackContext := 3, disk := 0,
          force := false, mountpoint := none, options := "nodev".toList,
          devicePath := none, useUserFS := false }
        (World.of dirtyDisk))
      = some [Event.DAMountWithArguments 0 none (some 7) 3
            ["force".toList, "rdonly".toList],
          Event.mkdir "/Volumes/Untitled".toList 0o111 true,
          Event.DAFileSystemMountWithArguments "msdos".toList
            (some (CFType.url "/dev/disk2s1".toList)) none
            (some (CFType.url "/Volumes/Untitled".toList)) 0 0 none
            "nodev,noowners,nosuid,rdonly".toList,
          Event.callback 7 0 (some (CFType.url "/Volumes/Untitled".toList)) 3] :=
  ⟨(congrArg traceOf
      (((repair_failure_ends_the_mount_unless_forced Env.reference
        (DAMountWithArguments Env.reference) 8
        { automatic := false, callback := some 7, callbackContext := 3, disk := 0,
          force := false, mountpoint := none, options := "nodev".toList,
          devicePath := none, useUserFS := false }
        (World.of dirtyDisk) (by decide) (by decide)).1 rfl).2.2.2.1 rfl)).trans rfl,
    (congrArg traceOf
      ((repair_failure_ends_the_mount_unless_forced Env.reference
        (DAMountWithArguments Env.reference) 8
        { automatic := false, callback := some 7, callbackContext := 3, disk := 0,
          force := true, mountpoint := none, options := "nodev".toList,
          devicePath := none, useUserFS := false }
        (World.of dirtyDisk) (by decide) (by decide)).2.1 rfl).1).trans (by decide),
    (congrArg traceOf
      (((repair_failure_ends_the_mount_unless_forced Env.reference
        (DAMountWithArguments Env.reference) 8
        { automatic := true, callback := some 7, callbackContext := 3, disk := 0,
          force := false, mountpoint := none, options := "nodev".toList,
          devicePath := none, useUserFS := false }
        (World.of dirtyDisk) (by decide) (by decide)).1 rfl).2.2.2.2 rfl)).trans (by decide)⟩

/-- C12: the directory name `DAMountCreateMountPointWithAction` derives from a
volume name is the name, cut to the length of the buffer, with every `/`
replaced by `:` and every other character as it was: it has no `/` and the same
length.  The replacement loop ends after as many iterations as the name has
`/`, so any greater bound gives the same result, and the candidate paths are
made from that name.  A volume name that is absent or empty is replaced by the
localized "Untitled" before that. -/
theorem volume_name_is_sanitized (env : Env) (disk : DADiskRef) (action : DAMountPointAction)
    (w : World) (name : CFString) (fuel : Nat) (h : name.count '/' ≤ fuel) :
    adjustVolumeName fuel name = name.map sanitizeCharacter
      ∧ adjustVolumeName name.length name = name.map sanitizeCharacter
      ∧ '/' ∉ adjustVolumeName fuel name
      ∧ (adjustVolumeName fuel name).length = name.length
      ∧ (∀ i (hi : i < name.length), name.get ⟨i, hi⟩ ≠ '/' →
          (adjustVolumeName fuel name)[i]? = some (name.get ⟨i, hi⟩))
      ∧ (∀ realMainMountPoint,
          ___CFStringGetCString (DAMountCreateMountPointWithAction.volumeName env (w.disks disk))
            (MNAMELEN - 20) = some name →
          env.realpath w.trace kDAMainMountPointFolder = some realMainMountPoint →
          name = (DAMountCreateMountPointWithAction.volumeName env (w.disks disk)).take
              (MNAMELEN - 21)
            ∧ DAMountCreateMountPointWithAction env disk action w
              = DAMountCreateMountPointWithAction.loop env disk action realMainMountPoint
                  (name.map sanitizeCharacter) 100 0 w)
      ∧ (DADiskGetDescription (w.disks disk) kDADiskDescriptionVolumeNameKey = none
          ∨ DADiskGetDescription (w.disks disk) kDADiskDescriptionVolumeNameKey
            = some (CFType.string []) →
        DAMountCreateMountPointWithAction.volumeName env (w.disks disk) = env.untitled)
      ∧ (∀ theString, theString ≠ [] →
        DADiskGetDescription (w.disks disk) kDADiskDescriptionVolumeNameKey
            = some (CFType.string theString) →
        DAMountCreateMountPointWithAction.volumeName env (w.disks disk) = theString) := by
  have h1 := adjustVolumeName_eq_map fuel name h
  have h2 := adjustVolumeName_eq_map name.length name (List.count_le_length _ _)
  refine ⟨h1, h2, ?_, ?_, ?_, ?_, ?_, ?_⟩
  · rw [h1]
    exact not_mem_map_sanitizeCharacter name
  · rw [h1, List.length_map]
  · intro i hi hc
    have hc1 : name[i] ≠ '/' := hc
    rw [h1, List.getElem?_map, List.getElem?_eq_getElem hi]
    simp [sanitizeCharacter, hc1]
  · intro realMainMountPoint hn hr
    have hname : name = (DAMountCreateMountPointWithAction.volumeName env (w.disks disk)).take
        (MNAMELEN - 21) := by
      unfold ___CFStringGetCString at hn
      split at hn
      · exact absurd hn (by simp)
      · exact (Option.some.inj hn).symm
    refine ⟨hname, ?_⟩
    unfold DAMountCreateMountPointWithAction
    rw [hn]
    dsimp only
    rw [hr, h2]
  · intro hd
    unfold DAMountCreateMountPointWithAction.volumeName
    rcases hd with hd | hd <;> simp [hd]
  · intro theString hne hd
    unfold DAMountCreateMountPointWithAction.volumeName
    rw [hd]
    have : theString.length ≠ 0 := fun hl => hne (List.length_eq_zero.1 hl)
    simp [this]

/-- C12 on the quiet machine: the disk named `a/b/c` gets the mount point
`/Volumes/a:b:c`. -/
theorem volume_name_is_sanitized_witness :
    adjustVolumeName 5 "a/b/c".toList = "a:b:c".toList
      ∧ (DAMountCreateMountPointWithAction Env.reference 0 kDAMountPointActionNone
          (World.of { DADisk.reference with
            description := fun key =>
              if key = kDADiskDescriptionVolumeNameKey then some (CFType.string "a/b/c".toList)
              else none })).1 = some (CFType.url "/Volumes/a:b:c".toList) :=
  ⟨(volume_name_is_sanitized Env.reference 0 kDAMountPointActionNone World.reference
      "a/b/c".toList 5 (by decide)).1.trans (by decide),
    by decide⟩

/-- C13: `DAMountCreateMountPointWithAction` with the action Make, once it has
the volume name and the real path of `/Volumes`, makes the directory of one
candidate path after the other, in increasing order of the index: index 0 is
`<folder>/<name>`, index k is `<folder>/<name> k`, and there are 100 candidates,
the indices 0 to 99.  It returns the first candidate whose directory was made:
the directories made before are exactly those of the candidates before it, all
of which failed; and when all 100 fail it returns no mount point. -/
theorem mount_point_candidates_are_tried_in_order (env : Env) (disk : DADiskRef) (w : World)
    (name realMainMountPoint : CFString)
    (hn : ___CFStringGetCString
      (DAMountCreateMountPointWithAction.volumeName env (w.disks disk)) (MNAMELEN - 20)
        = some name)
    (hr : env.realpath w.trace kDAMainMountPointFolder = some realMainMountPoint) :
    (∃ new,
      (DAMountCreateMountPointWithAction env disk kDAMountPointActionMake w).2.trace
          = w.trace ++ new
        ∧ ((∃ k, k < 100
            ∧ (DAMountCreateMountPointWithAction env disk kDAMountPointActionMake w).1
              = some (CFType.url (DAMountCreateMountPointWithAction.path realMainMountPoint
                  (name.map sanitizeCharacter) k))
            ∧ mkdirs new
              = failedCandidates realMainMountPoint (name.map sanitizeCharacter) 0 k
                ++ [Event.mkdir (DAMountCreateMountPointWithAction.path realMainMountPoint
                  (name.map sanitizeCharacter) k) 0o111 true])
          ∨ ((DAMountCreateMountPointWithAction env disk kDAMountPointActionMake w).1 = none
            ∧ mkdirs new
              = failedCandidates realMainMountPoint (name.map sanitizeCharacter) 0 100)))
      ∧ ∀ index, index < 100 →
        DAMountCreateMountPointWithAction.path kDAMainMountPointFolder
            (name.map sanitizeCharacter) index
          = "/Volumes/".toList ++ name.map sanitizeCharacter
              ++ (if index = 0 then [] else ' ' :: Nat.toDigits 10 index) := by
  have hname : name.length ≤ MNAMELEN - 21 := by
    unfold ___CFStringGetCString at hn
    split at hn
    · exact absurd hn (by simp)
    · rw [← Option.some.inj hn]
      exact List.length_take_le _ _
  constructor
  · have hrun : DAMountCreateMountPointWithAction env disk kDAMountPointActionMake w
        = DAMountCreateMountPointWithAction.loop env disk kDAMountPointActionMake
            realMainMountPoint (name.map sanitizeCharacter) 100 0 w := by
      unfold DAMountCreateMountPointWithAction
      rw [hn]
      dsimp only
      rw [hr, adjustVolumeName_eq_map name.length name (List.count_le_length _ _)]
    rw [hrun]
    obtain ⟨new, ht, h⟩ := DAMountCreateMountPointWithAction.loop_make env disk
      realMainMountPoint (name.map sanitizeCharacter) 100 0 w
    refine ⟨new, ht, ?_⟩
    rcases h with ⟨k, hk, h1, hm⟩ | h
    · rw [Nat.zero_add] at h1 hm
      exact Or.inl ⟨k, hk, h1, hm⟩
    · exact Or.inr h
  · intro index hi
    rw [DAMountCreateMountPointWithAction.path_of_short _ index hi
      (by rw [List.length_map]; exact hname)]
    rfl

/-- C13 on a machine where the first two directories cannot be made: the third
candidate is returned, after the two failures. -/
theorem mount_point_candidates_are_tried_in_order_witness :
    (DAMountCreateMountPointWithAction
        { Env.reference with
          mkdir := fun _ path => decide (path = "/Volumes/Untitled 2".toList) }
        0 kDAMountPointActionMake World.reference).1
      = some (CFType.url "/Volumes/Untitled 2".toList)
      ∧ (DAMountCreateMountPointWithAction
        { Env.reference with
          mkdir := fun _ path => decide (path = "/Volumes/Untitled 2".toList) }
        0 kDAMountPointActionMake World.reference).2.trace
      = [Event.mkdir "/Volumes/Untitled".toList 0o111 false,
          Event.mkdir "/Volumes/Untitled 1".toList 0o111 false,
          Event.mkdir "/Volumes/Untitled 2".toList 0o111 true]
      ∧ DAMountCreateMountPointWithAction.path kDAMainMountPointFolder "Untitled".toList 99
        = "/Volumes/Untitled 99".toList :=
  ⟨by decide, by decide,
    ((mount_point_candidates_are_tried_in_order Env.reference 0 World.reference
      "Untitled".toList "/Volumes".toList rfl rfl).2 99 (by decide)).trans (by decide)⟩

/-- C14, as stated, fails: a directory directly under `/Volumes`, not on an
auto-mount file system, that holds no cookie file is removed all the same, and
so is a directory that holds the cookie file and is not under `/Volumes`. -/
theorem mount_point_is_removed_without_cookie_or_outside_the_folder :
    (DAMountRemoveMountPoint { Env.reference with unlink := fun _ _ => false }
        (CFType.url "/Volumes/Untitled".toList) World.reference).trace
      = [Event.unlink "/Volumes/Untitled/.autodiskmounted".toList false,
          Event.rmdir "/Volumes/Untitled".toList true]
    ∧ (DAMountRemoveMountPoint Env.reference (CFType.url "/private/tmp/a/b".toList)
        World.reference).trace
      = [Event.unlink "/private/tmp/a/b/.autodiskmounted".toList true,
          Event.rmdir "/private/tmp/a/b".toList true] := by
  decide

/-- C14, amended: `DAMountRemoveMountPoint`, for a mount point whose path it
obtains, does nothing when the path is on an auto-mount file system; otherwise
it always tries to unlink the cookie file `.autodiskmounted` of the directory
first, and then removes the directory exactly if the path is `/Volumes/<name>`
one level deep (directly or below the data-volume folder) or the cookie file was
unlinked: one of the two is enough.  When neither holds the directory is not
removed. -/
theorem mount_point_is_removed_under_the_folder_or_with_cookie (env : Env) (mountpoint : CFType)
    (w : World) (path : CFString)
    (hp : CFURLGetFileSystemRepresentation mountpoint MAXPATHLEN = some path) :
    (env.___isautofs w.trace path ≠ 0 → DAMountRemoveMountPoint env mountpoint w = w)
      ∧ (env.___isautofs w.trace path = 0 →
        underMountPointFolder env path ∨ env.unlink w.trace (cookieFile path) = true →
        DAMountRemoveMountPoint env mountpoint w
          = (w.emit (Event.unlink (cookieFile path) (env.unlink w.trace (cookieFile path)))).emit
              (Event.rmdir path
                (env.rmdir
                  (w.trace ++ [Event.unlink (cookieFile path)
                    (env.unlink w.trace (cookieFile path))])
                  path)))
      ∧ (env.___isautofs w.trace path = 0 →
        ¬ underMountPointFolder env path → env.unlink w.trace (cookieFile path) = false →
        DAMountRemoveMountPoint env mountpoint w
          = w.emit (Event.unlink (cookieFile path) false)) := by
  have hu := underMountPointFolder_iff env path
  refine ⟨fun ha => ?_, fun ha h => ?_, fun ha h1 h2 => ?_⟩
  · unfold DAMountRemoveMountPoint
    rw [hp]
    dsimp only
    rw [if_neg ha]
  · unfold DAMountRemoveMountPoint
    rw [hp]
    dsimp only
    rw [if_pos ha]
    have hr : (if env.unlink w.trace
          ((path ++ ['/'] ++ kDAMainMountPointFolderCookieFile).take (MAXPATHLEN - 1)) = true
        then true
        else (strncmpStart
            (if strncmpStart path env.kDAMainDataVolumeMountPointFolder then
              path.drop env.kDAMainDataVolumeMountPointFolder.length
            else path) kDAMainMountPointFolder
          && decide (strrchr
            ((if strncmpStart path env.kDAMainDataVolumeMountPointFolder then
              path.drop env.kDAMainDataVolumeMountPointFolder.length
            else path).drop kDAMainMountPointFolder.length) '/' = some 0))) = true := by
      rcases h with h | h
      · split
        · rfl
        · exact hu.2 h
      · have h' : env.unlink w.trace
            ((path ++ ['/'] ++ kDAMainMountPointFolderCookieFile).take (MAXPATHLEN - 1))
            = true := h
        rw [if_pos h']
    rw [if_pos hr]
    rfl
  · unfold DAMountRemoveMountPoint
    rw [hp]
    dsimp only
    rw [if_pos ha]
    have h2' : env.unlink w.trace
        ((path ++ ['/'] ++ kDAMainMountPointFolderCookieFile).take (MAXPATHLEN - 1))
        = false := h2
    have hr : ¬ (if env.unlink w.trace
          ((path ++ ['/'] ++ kDAMainMountPointFolderCookieFile).take (MAXPATHLEN - 1)) = true
        then true
        else (strncmpStart
            (if strncmpStart path env.kDAMainDataVolumeMountPointFolder then
              path.drop env.kDAMainDataVolumeMountPointFolder.length
            else path) kDAMainMountPointFolder
          && decide (strrchr
            ((if strncmpStart path env.kDAMainDataVolumeMountPointFolder then
              path.drop env.kDAMainDataVolumeMountPointFolder.length
            else path).drop kDAMainMountPointFolder.length) '/' = some 0))) = true := by
      rw [h2', if_neg (by decide)]
      exact fun h => h1 (hu.1 h)
    rw [if_neg hr, h2']
    rfl

/-- C14, amended, on the quiet machine: a directory under another folder that
holds no cookie file is not removed. -/
theorem mount_point_is_removed_under_the_folder_or_with_cookie_witness :
    DAMountRemoveMountPoint { Env.reference with unlink := fun _ _ => false }
        (CFType.url "/private/tmp/a/b".toList) World.reference
      = World.reference.emit
          (Event.unlink (cookieFile "/private/tmp/a/b".toList) false) :=
  (mount_point_is_removed_under_the_folder_or_with_cookie
    { Env.reference with unlink := fun _ _ => false }
    (CFType.url "/private/tmp/a/b".toList) World.reference "/private/tmp/a/b".toList rfl).2.2
    rfl
    (fun h => absurd ((underMountPointFolder_iff _ _).2 h) (by decide))
    rfl

/-- C15: `_DAServermkdir` and `_DAServerrmdir` return `kDAReturnBadArgument` and
change nothing for a zero or unknown session, a path without `/`, a path of
`MAXPATHLEN` or more characters, and a path whose part before the last `/` does
not resolve to `/Volumes` itself.  Whatever directory call either of them makes
is made for a known session on `/Volumes/<name>`, where `<name>` is what follows
the last `/` of the path, a single component, and what precedes it resolves to
`/Volumes`. -/
theorem rpc_directory_operations_stay_in_the_folder (env : ServerEnv) (_session : mach_port_t)
    (_path : CFString) (_token : uid_t) (s : Server) :
    (_session = 0 ∨ __DASessionListGetSession s _session = none
        ∨ strrchr _path '/' = none ∨ MAXPATHLEN ≤ _path.length
        ∨ (∀ len, strrchr _path '/' = some len →
          env.realpath s.trace (_path.take len) ≠ some kDAMainMountPointFolder) →
      _DAServermkdir env _session _path _token s = (kDAReturnBadArgument, s)
        ∧ _DAServerrmdir env _session _path _token s = (kDAReturnBadArgument, s))
    ∧ (∀ e, e ∈ (_DAServermkdir env _session _path _token s).2.trace.drop s.trace.length
          ∨ e ∈ (_DAServerrmdir env _session _path _token s).2.trace.drop s.trace.length →
        _session ≠ 0 ∧ __DASessionListGetSession s _session ≠ none
          ∧ _path.length < MAXPATHLEN
          ∧ ∃ len, strrchr _path '/' = some len
            ∧ env.realpath s.trace (_path.take len) = some kDAMainMountPointFolder
            ∧ '/' ∉ _path.drop (len + 1)
            ∧ e.directory = some (kDAMainMountPointFolder ++ '/' :: _path.drop (len + 1))) := by
  constructor
  · intro h
    have hnone : _session ≠ 0 → __DASessionListGetSession s _session ≠ none →
        _DAServermkdir.resolvedPath env _path s = none := by
      intro h0 hl
      cases hp : _DAServermkdir.resolvedPath env _path s with
      | none => rfl
      | some p =>
        obtain ⟨hlen, len, hr, hreal, _, _⟩ := _DAServermkdir.resolvedPath_eq_some env _path s p hp
        rcases h with h | h | h | h | h
        · exact absurd h h0
        · exact absurd h hl
        · rw [hr] at h; exact absurd h (by simp)
        · exact absurd hlen (Nat.not_lt.2 h)
        · exact absurd hreal (h len hr)
    unfold _DAServermkdir _DAServerrmdir
    by_cases h0 : _session = 0
    · simp [h0]
    · rw [if_pos h0, if_pos h0]
      cases hl : __DASessionListGetSession s _session with
      | none => exact ⟨rfl, rfl⟩
      | some session =>
        have := hnone h0 (by rw [hl]; simp)
        simp [this]
  · intro e he
    have key : ∀ p, _DAServermkdir.resolvedPath env _path s = some p →
        e.directory = some p →
        _path.length < MAXPATHLEN
          ∧ ∃ len, strrchr _path '/' = some len
            ∧ env.realpath s.trace (_path.take len) = some kDAMainMountPointFolder
            ∧ '/' ∉ _path.drop (len + 1)
            ∧ e.directory = some (kDAMainMountPointFolder ++ '/' :: _path.drop (len + 1)) := by
      intro p hp hd
      obtain ⟨hlen, len, hr, hreal, hname, hpe⟩ :=
        _DAServermkdir.resolvedPath_eq_some env _path s p hp
      exact ⟨hlen, len, hr, hreal, hname, by rw [hd, hpe]⟩
    unfold _DAServermkdir _DAServerrmdir at he
    by_cases h0 : _session = 0
    · simp [h0] at he
    · rw [if_pos h0, if_pos h0] at he
      refine ⟨h0, ?_⟩
      cases hl : __DASessionListGetSession s _session with
      | none => simp [hl] at he
      | some session =>
        refine ⟨by simp, ?_⟩
        simp only [hl] at he
        cases hp : _DAServermkdir.resolvedPath env _path s with
        | none => simp [hp] at he
        | some p =>
          apply key p hp
          simp only [hp] at he
          rcases he with he | he
          · split at he
            · simp only [Server.trace_emit, List.append_assoc, List.drop_left, List.mem_cons,
                List.singleton_append, List.mem_singleton, List.not_mem_nil, or_false] at he
              rcases he with he | he <;> (subst he; rfl)
            · simp only [Server.trace_emit, List.drop_left, List.mem_singleton] at he
              subst he; rfl
          · split at he
            · simp at he
            · split at he
              · split at he
                all_goals
                  simp only [Server.trace_emit, List.drop_left, List.mem_singleton] at he
                  subst he; rfl
              · simp at he

/-- C15 for a client of the example daemon: a directory directly under `/Volumes`
is made, one that is two levels deep is not, and neither is one asked for with
an unknown session. -/
theorem rpc_directory_operations_stay_in_the_folder_witness :
    (_DAServermkdir ServerEnv.reference 101 "/Volumes/a".toList 501 Server.withSessions).2.trace
        = [ServerEvent.mkdir "/Volumes/a".toList 0o111 0,
            ServerEvent.lchown "/Volumes/a".toList 501]
      ∧ _DAServermkdir ServerEnv.reference 101 "/Volumes/a/b".toList 501 Server.withSessions
        = (kDAReturnBadArgument, Server.withSessions)
      ∧ _DAServerrmdir ServerEnv.reference 109 "/Volumes/a".toList 501 Server.withSessions
        = (kDAReturnBadArgument, Server.withSessions) :=
  ⟨by decide,
    ((rpc_directory_operations_stay_in_the_folder ServerEnv.reference 101
      "/Volumes/a/b".toList 501 Server.withSessions).1
      (Or.inr (Or.inr (Or.inr (Or.inr (fun len hlen => by
        have h : len = 10 := by
          have h1 : strrchr "/Volumes/a/b".toList '/' = some 10 := by decide
          rw [h1] at hlen
          exact (Option.some.inj hlen).symm
        subst h
        decide)))))).1,
    ((rpc_directory_operations_stay_in_the_folder ServerEnv.reference 109
      "/Volumes/a".toList 501 Server.withSessions).1 (Or.inr (Or.inl (by decide)))).2⟩

/-- C16: for a known session and a path accepted as `/Volumes/<name>` that
`stat` finds, `_DAServerrmdir` calls `rmdir` exactly if the effective user id of
the caller is 0 or the owner of the path and the path is a directory, and then
returns the outcome of `rmdir`; in every other case it calls nothing, changes
nothing and returns `kDAReturnNotPrivileged`. -/
theorem rmdir_is_for_root_or_the_owner (env : ServerEnv) (_session : mach_port_t)
    (_path : CFString) (_token : uid_t) (s : Server) (session : DASessionRef)
    (resolvedPath : CFString) (st_uid : uid_t) (isDirectory : Bool)
    (h0 : _session ≠ 0) (hl : __DASessionListGetSession s _session = some session)
    (hp : _DAServermkdir.resolvedPath env _path s = some resolvedPath)
    (hs : env.stat s.trace resolvedPath = Except.ok (st_uid, isDirectory)) :
    ((_token = 0 ∨ _token = st_uid) ∧ isDirectory = true →
      _DAServerrmdir env _session _path _token s
        = (if env.rmdir s.trace resolvedPath ≠ 0 then unix_err (env.rmdir s.trace resolvedPath)
            else 0,
          s.emit (ServerEvent.rmdir resolvedPath (env.rmdir s.trace resolvedPath))))
    ∧ (¬ ((_token = 0 ∨ _token = st_uid) ∧ isDirectory = true) →
      _DAServerrmdir env _session _path _token s = (kDAReturnNotPrivileged, s))
    ∧ ((_DAServerrmdir env _session _path _token s).2 ≠ s →
      (_token = 0 ∨ _token = st_uid) ∧ isDirectory = true) := by
  have hrun : _DAServerrmdir env _session _path _token s
      = if (_token = 0 ∨ _token = st_uid) ∧ isDirectory = true then
          (if env.rmdir s.trace resolvedPath ≠ 0 then
              unix_err (env.rmdir s.trace resolvedPath)
            else 0,
            s.emit (ServerEvent.rmdir resolvedPath (env.rmdir s.trace resolvedPath)))
        else (kDAReturnNotPrivileged, s) := by
    unfold _DAServerrmdir
    rw [if_pos h0, hl]
    dsimp only
    rw [hp]
    dsimp only
    rw [hs]
    dsimp only
    split
    · split <;> rfl
    · rfl
  refine ⟨fun h => ?_, fun h => ?_, fun h => ?_⟩
  · rw [hrun, if_pos h]
  · rw [hrun, if_neg h]
  · by_contra hn
    rw [hrun, if_neg hn] at h
    exact h rfl

/-- C16 for a client of the example daemon that is neither root nor the owner of
the directory: nothing is removed. -/
theorem rmdir_is_for_root_or_the_owner_witness :
    _DAServerrmdir ServerEnv.reference 101 "/Volumes/a".toList 501 Server.withSessions
      = (kDAReturnNotPrivileged, Server.withSessions) :=
  (rmdir_is_for_root_or_the_owner ServerEnv.reference 101 "/Volumes/a".toList 501
    Server.withSessions 1 "/Volumes/a".toList 0 true (by decide) (by decide) (by decide)
    rfl).2.1 (by decide)

/-- C17: `_DAServerSessionRelease` with the handle of a session of the session
list returns `kDAReturnSuccess` and removes that session from the list, leaving
the disk list, the disks and the other sessions as they were; with the handle 0
or a handle that no session of the list has, it returns `kDAReturnBadArgument`
and changes nothing.  So, the handles of the list being distinct, the released
handle is no longer in the list, and a second release returns
`kDAReturnBadArgument` and changes nothing. -/
theorem session_release_is_done_once (s : Server) (_session : mach_port_t) :
    (_session = 0 ∨ __DASessionListGetSession s _session = none →
      _DAServerSessionRelease _session s = (kDAReturnBadArgument, s))
    ∧ (∀ session, _session ≠ 0 → __DASessionListGetSession s _session = some session →
      (_DAServerSessionRelease _session s).1 = kDAReturnSuccess
        ∧ (_DAServerSessionRelease _session s).2.gDASessionList
          = s.gDASessionList.erase session
        ∧ (_DAServerSessionRelease _session s).2.gDADiskList = s.gDADiskList
        ∧ (_DAServerSessionRelease _session s).2.disks = s.disks
        ∧ (∀ other, other ≠ session →
            (_DAServerSessionRelease _session s).2.sessions other = s.sessions other)
        ∧ ((sessionIDs s).Nodup →
          session ∉ (_DAServerSessionRelease _session s).2.gDASessionList
            ∧ _session ∉ sessionIDs (_DAServerSessionRelease _session s).2
            ∧ _DAServerSessionRelease _session (_DAServerSessionRelease _session s).2
              = (kDAReturnBadArgument, (_DAServerSessionRelease _session s).2))) := by
  have hbad : ∀ x : Server, _session = 0 ∨ __DASessionListGetSession x _session = none →
      _DAServerSessionRelease _session x = (kDAReturnBadArgument, x) := by
    intro x h
    unfold _DAServerSessionRelease
    rcases h with h | h
    · simp [h]
    · split
      · rw [h]
      · rfl
  refine ⟨hbad s, fun session h0 hl => ?_⟩
  obtain ⟨h1, h2, h3, h4, h5, h6⟩ := _DAServerSessionRelease_of_some s _session session h0 hl
  refine ⟨h1, h2, h3, h4, h5, fun hnd => ?_⟩
  obtain ⟨hmem, hid⟩ := __DASessionListGetSession_some s _session session hl
  have hnd1 : s.gDASessionList.Nodup := List.Nodup.of_map _ hnd
  have hnot : session ∉ (_DAServerSessionRelease _session s).2.gDASessionList := by
    rw [h2]
    exact fun h => ((List.Nodup.mem_erase_iff hnd1).1 h).1 rfl
  have hids : _session ∉ sessionIDs (_DAServerSessionRelease _session s).2 := by
    unfold sessionIDs
    rw [h2]
    intro h
    obtain ⟨other, ho, hoid⟩ := List.mem_map.1 h
    have ho1 := (List.Nodup.mem_erase_iff hnd1).1 ho
    rw [h5 other ho1.1] at hoid
    exact ho1.1 (List.inj_on_of_nodup_map hnd ho1.2 hmem (hoid.trans hid.symm))
  exact ⟨hnot, hids, hbad _ (Or.inr ((__DASessionListGetSession_none _ _).2 hids))⟩

/-- C17 for the example daemon: the session with the port 101 is released, and
the second release is refused. -/
theorem session_release_is_done_once_witness :
    (_DAServerSessionRelease 101 Server.withSessions).1 = kDAReturnSuccess
      ∧ (_DAServerSessionRelease 101 Server.withSessions).2.gDASessionList = [2]
      ∧ (_DAServerSessionRelease 101 (_DAServerSessionRelease 101 Server.withSessions).2).1
        = kDAReturnBadArgument :=
  ⟨by decide, by decide,
    congrArg Prod.fst
      (((session_release_is_done_once Server.withSessions 101).2 1 (by decide)
        (by decide)).2.2.2.2.2 (by decide)).2.2⟩

/-- C18: when `_DAServerDiskUnclaim` has succeeded, the disk it found is without
a claim and nothing else has changed: the other disks, the sessions and the
lists are as they were; and a second `_DAServerDiskUnclaim` with the same
arguments returns `kDAReturnBadArgument` and changes nothing at all. -/
theorem double_unclaim_changes_nothing (s s1 : Server) (_session : mach_port_t)
    (_disk : CFString)
    (h : _DAServerDiskUnclaim _session _disk s = (kDAReturnSuccess, s1)) :
    (∃ disk, __DADiskListGetDisk s _disk = some disk
        ∧ s1 = s.setDisk disk (DADiskSetClaim (s.disks disk) none)
        ∧ DADiskGetClaim (s1.disks disk) = none
        ∧ (∀ other, other ≠ disk → s1.disks other = s.disks other))
      ∧ s1.sessions = s.sessions ∧ s1.gDADiskList = s.gDADiskList
      ∧ s1.gDASessionList = s.gDASessionList ∧ s1.trace = s.trace
      ∧ _DAServerDiskUnclaim _session _disk s1 = (kDAReturnBadArgument, s1) := by
  have hne : kDAReturnBadArgument ≠ kDAReturnSuccess := by decide
  unfold _DAServerDiskUnclaim at h
  split at h
  · rename_i h0
    split at h
    · rename_i session hl
      split at h
      · rename_i disk hd
        split at h
        · rename_i callback hc
          split at h
          · have hs1 : s1 = s.setDisk disk (DADiskSetClaim (s.disks disk) none) :=
              (Prod.mk.inj h).2.symm
            subst hs1
            have hclaim : DADiskGetClaim
                ((s.setDisk disk (DADiskSetClaim (s.disks disk) none)).disks disk) = none := by
              simp [Server.setDisk, DADiskGetClaim, DADiskSetClaim]
            refine ⟨⟨disk, hd, rfl, hclaim, fun other ho => ?_⟩, rfl, rfl, rfl, rfl, ?_⟩
            · simp [Server.setDisk, Function.update, ho]
            · have hl1 : __DASessionListGetSession
                  (s.setDisk disk (DADiskSetClaim (s.disks disk) none)) _session
                  = some session :=
                (__DASessionListGetSession_congr s
                  (s.setDisk disk (DADiskSetClaim (s.disks disk) none)) _session rfl rfl).trans hl
              have hd1 : __DADiskListGetDisk
                  (s.setDisk disk (DADiskSetClaim (s.disks disk) none)) _disk = some disk := by
                refine (__DADiskListGetDisk_congr s
                  (s.setDisk disk (DADiskSetClaim (s.disks disk) none)) _disk rfl
                  fun r => ?_).trans hd
                by_cases hr : r = disk
                · subst hr
                  simp [Server.setDisk, DADiskGetID, DADiskSetClaim]
                · simp [Server.setDisk, Function.update, hr]
              unfold _DAServerDiskUnclaim
              rw [if_pos h0, hl1]
              dsimp only
              rw [hd1]
              dsimp only
              rw [hclaim]
          · exact absurd (Prod.mk.inj h).1 hne
        · exact absurd (Prod.mk.inj h).1 hne
      · exact absurd (Prod.mk.inj h).1 hne
    · exact absurd (Prod.mk.inj h).1 hne
  · exact absurd (Prod.mk.inj h).1 hne

/-- C18 for the example daemon: session 1 gives up its claim on `/dev/disk2`,
and its second attempt is refused. -/
theorem double_unclaim_changes_nothing_witness :
    (_DAServerDiskUnclaim 101 "/dev/disk2".toList Server.withClaim).1 = kDAReturnSuccess
      ∧ (_DAServerDiskUnclaim 101 "/dev/disk2".toList
          (_DAServerDiskUnclaim 101 "/dev/disk2".toList Server.withClaim).2).1
        = kDAReturnBadArgument :=
  ⟨by decide,
    congrArg Prod.fst
      (double_unclaim_changes_nothing Server.withClaim
        (_DAServerDiskUnclaim 101 "/dev/disk2".toList Server.withClaim).2 101
        "/dev/disk2".toList
        (Prod.ext (by decide) rfl)).2.2.2.2.2⟩

/-- C19: whatever media appearances, media disappearances and mount table
changes the daemon has handled, starting with an empty disk list, no two disks
of the disk list have the same id.  In particular, when a media object that is
not in the list appears and its new disk has the id of a disk of the list, then,
when the appearance is handled, the new disk object is at the head of the list,
with that id and that media object; the rest of the list are disks that were in
it, in their order; the old disk is not among them; and the new disk is the
only disk of the list with the id. -/
theorem disk_ids_are_unique (env : ServerEnv) (menv : Env) :
    (∀ (s0 s : Server) (notifications : List Notification), s0.gDADiskList = [] →
      Server.run env menv s0 notifications = some s → (diskIDs s).Nodup)
    ∧ (∀ (s s1 : Server) (media : io_service_t) (disk : DADisk) (context : DADiskRef),
      s.Registered →
      __DADiskListGetDiskWithIOMedia s media = none →
      env.DADiskCreateFromIOMedia s.trace media = some disk →
      context ∈ s.gDADiskList → DADiskGetID (s.disks context) = DADiskGetID disk →
      _DAMediaAppearedCallback.media env menv media s = some s1 →
      ∃ rest, s1.gDADiskList = s.created :: rest ∧ rest.Sublist s.gDADiskList
        ∧ context ∉ s1.gDADiskList
        ∧ DADiskGetID (s1.disks s.created) = DADiskGetID disk
        ∧ DADiskGetIOMedia (s1.disks s.created) = media
        ∧ ∀ other ∈ s1.gDADiskList,
            DADiskGetID (s1.disks other) = DADiskGetID disk → other = s.created) := by
  constructor
  · intro s0 s notifications h0 hrun
    have hr0 : s0.Registered := by
      refine ⟨fun disk hd => ?_, ?_⟩
      · rw [h0] at hd
        exact absurd hd (List.not_mem_nil _)
      · unfold diskIDs
        rw [h0]
        exact List.nodup_nil
    exact (Server.run_registered env menv notifications s0 s hr0 hrun).2
  · intro s s1 media disk context hr hm hc hmem hid h
    have hreg1 := _DAMediaAppearedCallback.media_registered env menv media s s1 hr h
    -- the state in which the new disk object has been made
    have hs0 : (DADiskCreateFromIOMedia env media s).2
        = { s with
            disks := Function.update s.disks s.created
              { disk with media := media, unitState := DAUnitGetFlags s (DADiskGetBSDUnit disk) }
            created := s.created + 1 } := by
      unfold DADiskCreateFromIOMedia
      rw [hc]
    have hnew_id : DADiskGetID ((DADiskCreateFromIOMedia env media s).2.disks s.created)
        = DADiskGetID disk := by
      rw [hs0]
      simp [DADiskGetID]
    have hnew_media : DADiskGetIOMedia ((DADiskCreateFromIOMedia env media s).2.disks s.created)
        = media := by
      rw [hs0]
      simp [DADiskGetIOMedia]
    have hold_id : ∀ r ∈ s.gDADiskList,
        DADiskGetID ((DADiskCreateFromIOMedia env media s).2.disks r)
          = DADiskGetID (s.disks r) := by
      intro r hrm
      rw [hs0]
      have hne : r ≠ s.created := Nat.ne_of_lt (hr.1 r hrm)
      show DADiskGetID (Function.update s.disks s.created _ r) = _
      rw [Function.update_noteq hne]
    have hlist0 : (DADiskCreateFromIOMedia env media s).2.gDADiskList = s.gDADiskList := by
      rw [hs0]
    -- the disk of the list that is equal to the new one is the old disk
    have hfound : ___CFArrayGetValue (DADiskCreateFromIOMedia env media s).2 s.created
        = some context := by
      cases hf : ___CFArrayGetValue (DADiskCreateFromIOMedia env media s).2 s.created with
      | none =>
        have := ___CFArrayGetValue_eq_none _ _ hf
        rw [hnew_id] at this
        exfalso
        apply this
        unfold diskIDs
        rw [hlist0]
        exact List.mem_map.2 ⟨context, hmem, (hold_id context hmem).trans hid⟩
      | some found =>
        unfold ___CFArrayGetValue at hf
        have hfm := List.mem_of_find?_eq_some hf
        rw [hlist0] at hfm
        have hfe := List.find?_some hf
        simp only [DADiskEqual, decide_eq_true_eq] at hfe
        rw [hnew_id, hold_id found hfm] at hfe
        exact congrArg some
          (List.inj_on_of_nodup_map hr.2 hfm hmem (hfe.trans hid.symm))
    obtain ⟨x, hsh, hcont, hs1⟩ := _DAMediaAppearedCallback.media_of_collision env menv media s
      s1 disk context hm hc hfound h
    obtain ⟨hl, _, hids, hmedias⟩ := _DAMediaAppearedCallback.insert_list env s.created x s1 hs1
    have hid1 : DADiskGetID (s1.disks s.created) = DADiskGetID disk := by
      rw [hids, hsh.2.2.1, hnew_id]
    refine ⟨x.gDADiskList, hl, hlist0 ▸ hsh.1, ?_, hid1, ?_, ?_⟩
    · rw [hl]
      intro hin
      rcases List.mem_cons.1 hin with hin | hin
      · exact absurd hin (Nat.ne_of_lt (hr.1 context hmem))
      · have hx := ___CFArrayContainsValue_eq_false x s.created hcont
        apply hx
        unfold diskIDs
        refine List.mem_map.2 ⟨context, hin, ?_⟩
        rw [hsh.2.2.1, hsh.2.2.1, hold_id context hmem, hid, hnew_id]
    · rw [hmedias, hsh.2.2.2, hnew_media]
    · intro other ho hoid
      refine List.inj_on_of_nodup_map hreg1.2 ho ?_ (hoid.trans hid1.symm)
      rw [hl]
      exact List.mem_cons_self _ _

/-- C19 on the example machine: the media objects 40 and 50 appear, then the
media object 41, a new object for the disk `/dev/disk4`, whose old disk object
leaves the list before the new one joins it. -/
theorem disk_ids_are_unique_witness :
    (Server.run ServerEnv.reference Env.reference Server.reference
        [Notification.mediaAppeared [40, 50], Notification.mediaAppeared [41]]).map
        (fun s => (s.gDADiskList, diskIDs s))
      = some ([2, 1], ["/dev/disk4".toList, "/dev/disk5".toList])
    ∧ (diskIDs
        ((Server.run ServerEnv.reference Env.reference Server.reference
          [Notification.mediaAppeared [40, 50], Notification.mediaAppeared [41]]).get
          (by decide))).Nodup :=
  ⟨by decide,
    (disk_ids_are_unique ServerEnv.reference Env.reference).1 Server.reference _
      [Notification.mediaAppeared [40, 50], Notification.mediaAppeared [41]] rfl
      (Option.some_get _).symm⟩

/-! ## Further lemmas -/

/-- A character that lowering leaves alone is in a string when it is in the
lowered string. -/
theorem not_mem_of_not_mem_map_toLower (c : Char) (hc : c.toLower = c) (s : CFString)
    (h : c ∉ s.map Char.toLower) : c ∉ s := fun hm =>
  h (List.mem_map.2 ⟨c, hm, hc⟩)

/-- The first item of an ownership pair has no comma, no `=` and no leading
`-`. -/
theorem ownershipItem_plain (itemOne : CFString)
    (h1 : itemOne.length = 0
      ∨ CFStringCompareCaseInsensitive itemOne kDAFileSystemMountArgumentOwnership = true
      ∨ CFStringCompareCaseInsensitive itemOne kDAFileSystemMountArgumentPermission = true) :
    ',' ∉ itemOne ∧ '=' ∉ itemOne ∧ '-' ∉ itemOne := by
  rcases h1 with h | h | h
  · rw [List.length_eq_zero.1 h]
    simp
  · have hm : itemOne.map Char.toLower = kDAFileSystemMountArgumentOwnership.map Char.toLower := by
      simpa [CFStringCompareCaseInsensitive] using h
    refine ⟨not_mem_of_not_mem_map_toLower ',' (by decide) _ ?_,
      not_mem_of_not_mem_map_toLower '=' (by decide) _ ?_,
      not_mem_of_not_mem_map_toLower '-' (by decide) _ ?_⟩ <;>
    · rw [hm]
      decide
  · have hm : itemOne.map Char.toLower
        = kDAFileSystemMountArgumentPermission.map Char.toLower := by
      simpa [CFStringCompareCaseInsensitive] using h
    refine ⟨not_mem_of_not_mem_map_toLower ',' (by decide) _ ?_,
      not_mem_of_not_mem_map_toLower '=' (by decide) _ ?_,
      not_mem_of_not_mem_map_toLower '-' (by decide) _ ?_⟩ <;>
    · rw [hm]
      decide

/-- The mapping of an ownership pair (DAMount.c 647-693). -/
theorem DAMountContainsArgument.mapArgument_pair (itemOne itemTwo : CFString)
    (h1 : itemOne.length = 0
      ∨ CFStringCompareCaseInsensitive itemOne kDAFileSystemMountArgumentOwnership = true
      ∨ CFStringCompareCaseInsensitive itemOne kDAFileSystemMountArgumentPermission = true)
    (h2 : itemTwo = kDAFileSystemMountArgumentNoOwnership
      ∨ itemTwo = kDAFileSystemMountArgumentNoPermission) :
    DAMountContainsArgument.mapArgument (itemOne ++ '=' :: itemTwo)
      = kDAFileSystemMountArgumentNoOwnership := by
  have hp := ownershipItem_plain itemOne h1
  have h2e : '=' ∉ itemTwo := by
    rcases h2 with h | h <;> subst h <;> decide
  have hf : (CFStringFind itemTwo kDAFileSystemMountArgumentNoOwnership
      || CFStringFind itemTwo kDAFileSystemMountArgumentNoPermission) = true := by
    rcases h2 with h | h <;> subst h <;> decide
  unfold DAMountContainsArgument.mapArgument
  rw [separating_append, separating_of_not_mem itemOne '=' hp.2.1,
    separating_of_not_mem itemTwo '=' h2e]
  simp only [List.singleton_append]
  rw [if_pos h1, if_pos hf]

/-- A composition that the update check or the snapshot check rejects ends with
the status of the check, and changes nothing. -/
theorem DAMountWithArguments.compose_of_check_error (env : Env) (disk : DADiskRef)
    (mountpoint : Option CFType) (arguments : List CFString) (w : World) (status : Status)
    (hm : env.malloc w.trace = true) (hs : env.CFStringCreateMutable w.trace = true)
    (ht : DAMountWithArguments.tdmLocked (w.disks disk) = 0)
    (h : DAMountWithArguments.update env (w.disks disk)
          (DAMountWithArguments.requestOptions env (w.disks disk) arguments) mountpoint
        = Except.error status
      ∨ ∃ mountpoint1, DAMountWithArguments.update env (w.disks disk)
          (DAMountWithArguments.requestOptions env (w.disks disk) arguments) mountpoint
            = Except.ok mountpoint1
        ∧ DAMountWithArguments.snapshot env (w.disks disk)
          (DAMountWithArguments.requestOptions env (w.disks disk) arguments) mountpoint1
            = Except.error status) :
    DAMountWithArguments.compose env disk mountpoint arguments w = (Except.error status, w) := by
  unfold DAMountWithArguments.compose
  rw [if_neg (by simp [hm]), if_neg (by simp [hs])]
  dsimp only
  rw [if_neg (by simp [ht])]
  rcases h with h | ⟨mountpoint1, h, h1⟩
  · rw [h]
  · rw [h]
    dsimp only
    rw [h1]

/-- The mount point and the device path of a successful composition are those
the update check and the snapshot check leave. -/
theorem DAMountWithArguments.compose_ok_paths (env : Env) (disk : DADiskRef)
    (mountpoint : Option CFType) (arguments : List CFString) (w w1 : World)
    (setup : DAMountWithArguments.Setup)
    (h : DAMountWithArguments.compose env disk mountpoint arguments w = (Except.ok setup, w1)) :
    ∃ mountpoint1, DAMountWithArguments.update env (w.disks disk)
          (DAMountWithArguments.requestOptions env (w.disks disk) arguments) mountpoint
        = Except.ok mountpoint1
      ∧ DAMountWithArguments.snapshot env (w.disks disk)
          (DAMountWithArguments.requestOptions env (w.disks disk) arguments) mountpoint1
        = Except.ok setup.devicePath
      ∧ (mountpoint1 ≠ none → setup.mountpoint = mountpoint1) := by
  unfold DAMountWithArguments.compose at h
  dsimp only at h
  split at h
  · simp at h
  split at h
  · simp at h
  split at h
  · simp at h
  cases hu : DAMountWithArguments.update env (w.disks disk)
      (DAMountWithArguments.requestOptions env (w.disks disk) arguments) mountpoint with
  | error status => rw [hu] at h; simp at h
  | ok mountpoint1 =>
    rw [hu] at h
    dsimp only at h
    cases hsn : DAMountWithArguments.snapshot env (w.disks disk)
        (DAMountWithArguments.requestOptions env (w.disks disk) arguments) mountpoint1 with
    | error status => rw [hsn] at h; simp at h
    | ok devicePath =>
      rw [hsn] at h
      dsimp only at h
      split at h <;> split at h
      all_goals first
        | (simp at h; done)
        | (simp only [Prod.mk.injEq, Except.ok.injEq] at h
           obtain ⟨hsetup, _⟩ := h
           subst hsetup
           refine ⟨mountpoint1, rfl, hsn, fun hne => ?_⟩
           cases mountpoint1 with
           | none => exact absurd rfl hne
           | some m => first | rfl | (dsimp only; split <;> rfl))

theorem callbacks_append (a b : List Event) : callbacks (a ++ b) = callbacks a ++ callbacks b := by
  simp [callbacks]

/-- Progress of a request adds events to the trace, none of which is the
invocation of a callback. -/
theorem Progress.callbacks_eq {disk : DADiskRef} {options : CFString} {w w1 : World}
    (h : Progress disk options w w1) :
    ∃ new, w1.trace = w.trace ++ new ∧ callbacks new = [] := by
  obtain ⟨new, hnew⟩ := h.trace_extends
  refine ⟨new, hnew.symm, ?_⟩
  have hc := h.countCallbacks_eq
  rw [← hnew] at hc
  simp only [countCallbacks, List.countP_append] at hc
  have h0 : new.countP Event.isCallback = 0 := by omega
  unfold callbacks
  rw [List.filter_eq_nil_iff]
  intro e he
  exact (List.countP_eq_zero.1 h0) e he

theorem invokeCallback_completesOnce (callback : Option DAMountCallback) (status : Status)
    (mountpoint : Option CFType) (callbackContext : Nat) (w : World) :
    ∃ new, (invokeCallback callback status mountpoint callbackContext w).trace = w.trace ++ new
      ∧ completesOnce callback callbackContext new := by
  cases callback with
  | none => exact ⟨[], by simp [invokeCallback], rfl⟩
  | some cb =>
    exact ⟨[Event.callback cb status mountpoint callbackContext], by simp [invokeCallback],
      status, mountpoint, rfl⟩

/-- The completion routine completes and invokes the callback of the request
once, through the retry or by itself. -/
theorem __DAMountWithArgumentsCallback_completesOnce (r : Remount) (status : Status)
    (context : __DAMountCallbackContext) (w : World)
    (hr : context.automatic = true → Remount.CompletesOnce r) :
    ∃ w1 new, __DAMountWithArgumentsCallback r status context w = some w1
      ∧ w1.trace = w.trace ++ new
      ∧ completesOnce context.callback context.callbackContext new := by
  by_cases h : context.automatic = true ∧ status = ___EDIRTY
  · obtain ⟨ha, hs⟩ := h
    subst hs
    obtain ⟨w1, new, h1, h2, h3⟩ := hr ha context.disk context.callback context.callbackContext w
    exact ⟨w1, new, by rw [__DAMountWithArgumentsCallback_retry r context w ha, h1], h2, h3⟩
  · have h' : context.automatic = false ∨ status ≠ ___EDIRTY := by
      by_cases ha : context.automatic = true
      · exact Or.inr (fun hs => h ⟨ha, hs⟩)
      · exact Or.inl (by simpa using ha)
    obtain ⟨new, h2, h3⟩ := invokeCallback_completesOnce context.callback status
      context.mountpoint context.callbackContext w
    exact ⟨_, new, __DAMountWithArgumentsCallback_invoke r status context w h', h2, h3⟩

theorem completesOnce_of_quiet (callback : Option DAMountCallback) (callbackContext : Nat)
    (quiet new : List Event) (hq : callbacks quiet = [])
    (h : completesOnce callback callbackContext new) :
    completesOnce callback callbackContext (quiet ++ new) := by
  cases callback with
  | none =>
    show callbacks (quiet ++ new) = []
    rw [callbacks_append, hq]
    exact h
  | some cb =>
    obtain ⟨status, mountpoint, hc⟩ := h
    exact ⟨status, mountpoint, by rw [callbacks_append, hq, hc]; rfl⟩

theorem Completion.completesOnce {r r' : Remount} {context : __DAMountCallbackContext}
    {w : World} {a b : Option World} (h : Completion r r' context w a b)
    (hr : context.automatic = true → Remount.CompletesOnce r) :
    ∃ w1 new, a = some w1 ∧ w1.trace = w.trace ++ new
      ∧ completesOnce context.callback context.callbackContext new := by
  cases h with
  | intro status1 context1 w1 hp hs =>
    obtain ⟨quiet, hq1, hq2⟩ := hp.callbacks_eq
    obtain ⟨w2, new, h1, h2, h3⟩ := __DAMountWithArgumentsCallback_completesOnce r status1
      context1 w1 (fun ha => hr (hs.1 ▸ ha))
    refine ⟨w2, quiet ++ new, h1, by rw [h2, hq1, List.append_assoc], ?_⟩
    rw [hs.2.1, hs.2.2.1]
    exact completesOnce_of_quiet _ _ _ _ hq2 h3

/-- The status of a composition that fails is not 0. -/
theorem DAMountWithArguments.compose_error_ne_zero (env : Env) (disk : DADiskRef)
    (mountpoint : Option CFType) (arguments : List CFString) (w w1 : World) (status : Status)
    (h : DAMountWithArguments.compose env disk mountpoint arguments w
      = (Except.error status, w1)) :
    status ≠ 0 := by
  unfold DAMountWithArguments.compose at h
  dsimp only at h
  split at h
  · cases h; decide
  split at h
  · cases h; decide
  split at h
  · rename_i ht
    cases h
    exact ht
  cases hu : DAMountWithArguments.update env (w.disks disk)
      (DAMountWithArguments.requestOptions env (w.disks disk) arguments) mountpoint with
  | error st =>
    rw [hu] at h
    cases h
    unfold DAMountWithArguments.update at hu
    repeat' split at hu
    all_goals first
      | (cases hu; decide)
      | cases hu
  | ok mountpoint1 =>
    rw [hu] at h
    dsimp only at h
    cases hsn : DAMountWithArguments.snapshot env (w.disks disk)
        (DAMountWithArguments.requestOptions env (w.disks disk) arguments) mountpoint1 with
    | error st =>
      rw [hsn] at h
      cases h
      unfold DAMountWithArguments.snapshot at hsn
      repeat' split at hsn
      all_goals first
        | (cases hsn; decide)
        | cases hsn
    | ok devicePath =>
      rw [hsn] at h
      dsimp only at h
      split at h <;> split at h
      all_goals first
        | (cases h; decide)
        | simp at h

/-- The status of a repair decision that fails is not 0. -/
theorem DAMountWithArguments.repair_error_ne_zero (env : Env) (disk : DADisk)
    (setup : DAMountWithArguments.Setup) (status : Status)
    (h : DAMountWithArguments.repair env disk setup = Except.error status) : status ≠ 0 := by
  unfold DAMountWithArguments.repair at h
  dsimp only at h
  repeat' split at h
  all_goals first
    | (cases h; decide)
    | cases h

/-- A run of the body completes and invokes the callback of the request once,
whether it ends through `DAMountWithArgumentsErr` or in the completion of the
request. -/
theorem DAMountWithArguments.body_completesOnce (env : Env) (r : Remount) (disk : DADiskRef)
    (mountpoint : Option CFType) (callback : Option DAMountCallback) (callbackContext : Nat)
    (arguments : List CFString) (w : World)
    (hr : "automatic".toList ∈ arguments → Remount.CompletesOnce r) :
    ∃ w1 new,
      DAMountWithArguments.body env r disk mountpoint callback callbackContext arguments w
        = some w1
      ∧ w1.trace = w.trace ++ new ∧ completesOnce callback callbackContext new := by
  have hexit : ∀ status (x : World) (quiet : List Event), status ≠ 0 →
      x.trace = w.trace ++ quiet → callbacks quiet = [] →
      ∃ new, (DAMountWithArguments.exit status callback callbackContext x).trace = w.trace ++ new
        ∧ completesOnce callback callbackContext new := by
    intro status x quiet hs hx hq
    rw [DAMountWithArguments.exit, if_pos hs]
    obtain ⟨new, h2, h3⟩ := invokeCallback_completesOnce callback status none callbackContext x
    exact ⟨quiet ++ new, by rw [h2, hx, List.append_assoc],
      completesOnce_of_quiet _ _ _ _ hq h3⟩
  have hp := DAMountWithArguments.compose_progress env disk mountpoint arguments []
    (w.emit (Event.DAMountWithArguments disk mountpoint callback callbackContext arguments))
  cases hc : DAMountWithArguments.compose env disk mountpoint arguments
      (w.emit (Event.DAMountWithArguments disk mountpoint callback callbackContext arguments)) with
  | mk result x =>
    rw [hc] at hp
    obtain ⟨quiet, hq1, hq2⟩ := hp.callbacks_eq
    have hx : x.trace = w.trace
        ++ (Event.DAMountWithArguments disk mountpoint callback callbackContext arguments
          :: quiet) := by
      rw [hq1]
      simp
    have hxq : callbacks (Event.DAMountWithArguments disk mountpoint callback callbackContext
        arguments :: quiet) = [] := by
      have : callbacks (Event.DAMountWithArguments disk mountpoint callback callbackContext
          arguments :: quiet) = callbacks quiet := by
        simp [callbacks, Event.isCallback]
      rw [this, hq2]
    cases result with
    | error status =>
      obtain ⟨new, h2, h3⟩ := hexit status x _
        (DAMountWithArguments.compose_error_ne_zero env disk mountpoint arguments _ x status hc)
        hx hxq
      exact ⟨_, new, DAMountWithArguments.body_of_compose_error env r disk mountpoint callback
        callbackContext arguments w x status hc, h2, h3⟩
    | ok setup =>
      cases hrep : DAMountWithArguments.repair env (x.disks disk) setup with
      | error status =>
        obtain ⟨new, h2, h3⟩ := hexit status x _
          (DAMountWithArguments.repair_error_ne_zero env _ setup status hrep) hx hxq
        exact ⟨_, new, DAMountWithArguments.body_of_repair_error env r disk mountpoint callback
          callbackContext arguments w x setup status hc hrep, h2, h3⟩
      | ok check =>
        have hok := DAMountWithArguments.compose_ok env disk mountpoint arguments _ x setup hc
        have haut : (DAMountWithArguments.context disk callback callbackContext setup).automatic
            = decide ("automatic".toList ∈ arguments) := hok.2.1
        have hr' : (DAMountWithArguments.context disk callback callbackContext setup).automatic
            = true → Remount.CompletesOnce r := fun h =>
          hr (by rw [haut] at h; exact of_decide_eq_true h)
        rw [DAMountWithArguments.body_of_repair_ok env r disk mountpoint callback
          callbackContext arguments w x setup check hc hrep]
        by_cases hch : check = true
        · rw [if_pos hch]
          obtain ⟨w2, new, h1, h2, h3⟩ :=
            (__DAMountWithArgumentsCallbackStage1_completion env r r
              (env.DAFileSystemRepair (DAMountWithArguments.executeRepair disk x).trace)
              (DAMountWithArguments.context disk callback callbackContext setup)
              (DAMountWithArguments.executeRepair disk x)).completesOnce hr'
          refine ⟨w2, (Event.DAMountWithArguments disk mountpoint callback callbackContext
            arguments :: quiet)
            ++ ([Event.DADiskDescriptionChangedCallback disk kDADiskDescriptionRepairRunningKey,
              Event.DAFileSystemRepair (DAFileSystemGetKind (x.disks disk))
                (DADiskGetDevice (x.disks disk))] ++ new), h1, ?_, ?_⟩
          · rw [h2, DAMountWithArguments.executeRepair_trace, hx]
            simp
          · exact completesOnce_of_quiet _ _ _ _ hxq
              (completesOnce_of_quiet _ _ _ _ (by simp [callbacks, Event.isCallback]) h3)
        · rw [if_neg hch]
          obtain ⟨w2, new, h1, h2, h3⟩ :=
            (__DAMountWithArgumentsCallbackStage1_completion env r r ECANCELED
              (DAMountWithArguments.context disk callback callbackContext setup)
              x).completesOnce hr'
          exact ⟨w2, _ ++ new, h1, by rw [h2, hx, List.append_assoc],
            completesOnce_of_quiet _ _ _ _ hxq h3⟩

/-- At every depth but 0 the retry completes and invokes the callback once. -/
theorem DAMountWithArgumentsDepth_completesOnce (env : Env) (depth : Nat) :
    Remount.CompletesOnce (DAMountWithArgumentsDepth env (depth + 1)) := by
  intro disk callback callbackContext w
  exact DAMountWithArguments.body_completesOnce env (DAMountWithArgumentsDepth env depth) disk
    none callback callbackContext retryArguments w
    (fun h => absurd h retryArguments_not_automatic)

/-- The status of a mount request that passes the authorization, from a caller
that is neither root nor the user of the disk. -/
theorem _DAServerSessionQueueRequest.mount_of_other_user (env : ServerEnv)
    (session : DASessionRef) (disk : DADiskRef) (argument2 : Option CFType) (euid : uid_t)
    (egid : Nat) (s : Server) (content : CFType)
    (hauth : env.DAAuthorize s.trace session disk euid egid _kDAAuthorizeRightMount = 0)
    (hcontent : DADiskGetDescription (s.disks disk) kDADiskDescriptionMediaContentKey
      = some content)
    (h0 : euid ≠ 0) (hu : euid ≠ DADiskGetUserUID (s.disks disk)) :
    (content = kEFISystemPartitionContent →
      _DAServerSessionQueueRequest.mount env session disk argument2 euid egid s
        = some kDAReturnNotPermitted)
    ∧ (content ≠ kEFISystemPartitionContent →
      ∀ string mountpoint, argument2 = some string →
        env.CFURLCreateWithString string = some mountpoint →
        _DAServerSessionQueueRequest.mount env session disk argument2 euid egid s
          = some kDAReturnNotPrivileged) := by
  have hne : kDAReturnNotPermitted ≠ 0 := by decide
  refine ⟨fun hc => ?_, fun hc string mountpoint ha hm => ?_⟩
  · unfold _DAServerSessionQueueRequest.mount
    simp only [hauth, hcontent, hc, if_true, if_pos h0, if_pos hu]
    rw [if_neg hne]
  · unfold _DAServerSessionQueueRequest.mount
    simp only [hauth, hcontent, if_true, if_neg hc, ha, hm, if_pos h0, if_pos hu]

/-- The status of a mount request that the authorization refuses is the status
of the authorization. -/
theorem _DAServerSessionQueueRequest.mount_of_refused (env : ServerEnv)
    (session : DASessionRef) (disk : DADiskRef) (argument2 : Option CFType) (euid : uid_t)
    (egid : Nat) (s : Server)
    (hauth : env.DAAuthorize s.trace session disk euid egid _kDAAuthorizeRightMount ≠ 0) :
    _DAServerSessionQueueRequest.mount env session disk argument2 euid egid s
      = some (env.DAAuthorize s.trace session disk euid egid _kDAAuthorizeRightMount) := by
  unfold _DAServerSessionQueueRequest.mount
  simp only [if_neg hauth]

/-- What `_DAServerSessionQueueRequest` does once it has the session, the disk
and the request. -/
theorem _DAServerSessionQueueRequest_of_request (env : ServerEnv) (_session : mach_port_t)
    (_kind : Nat) (_argument0 : CFString) (_argument1 : Int)
    (_argument2 _argument3 : Option CFType) (_address _context : Nat) (_token : uid_t × Nat)
    (s : Server) (session : DASessionRef) (disk : DADiskRef) (status : kern_return_t)
    (h0 : _session ≠ 0) (hl : __DASessionListGetSession s _session = some session)
    (hd : __DADiskListGetDisk s _argument0 = some disk)
    (hr : env.DARequestCreate s.trace = true) (hk : _kind = _kDADiskMount)
    (hm : _DAServerSessionQueueRequest.mount env session disk _argument2 _token.1 _token.2 s
      = some status)
    (hs : status ≠ kDAReturnSuccess) :
    _DAServerSessionQueueRequest env _session _kind _argument0 _argument1 _argument2 _argument3
        _address _context _token s
      = some (status, s) := by
  have hne : _kDADiskMount ≠ _kDADiskEject := by decide
  unfold _DAServerSessionQueueRequest
  rw [if_pos h0, hl]
  dsimp only
  rw [hd]
  dsimp only
  rw [if_pos hr, hk, if_neg hne, if_pos rfl, hm]
  dsimp only
  rw [if_neg hs]

theorem _DAConfigurationCallback.setPermissions_trace (disk : DADiskRef) (deviceMode : Nat)
    (deviceUser : uid_t) (s : Server) :
    (_DAConfigurationCallback.setPermissions disk deviceMode deviceUser s).trace
      = s.trace ++ permissionEvents (s.disks disk) (deviceMode, deviceUser) := by
  simp [_DAConfigurationCallback.setPermissions, permissionEvents, Server.emit]

theorem unmounts_append (a b : List ServerEvent) : unmounts (a ++ b) = unmounts a ++ unmounts b := by
  simp [unmounts]

theorem unmounts_of_quiet (events : List ServerEvent)
    (h : ∀ e ∈ events, e.isUnmountOrLock = false) : unmounts events = [] := by
  unfold unmounts
  rw [List.filterMap_eq_nil_iff]
  intro e he
  have := h e he
  cases e <;> simp [ServerEvent.isUnmountOrLock] at this ⊢

theorem LocksFollowUnmounts.of_quiet (events : List ServerEvent)
    (h : ∀ e ∈ events, e.isUnmountOrLock = false) : LocksFollowUnmounts events := by
  intro pre family post he
  have := h (ServerEvent.__CoreStorageLockFamily family) (by rw [he]; simp)
  simp [ServerEvent.isUnmountOrLock] at this

theorem LocksFollowUnmounts.append {a b : List ServerEvent} (ha : LocksFollowUnmounts a)
    (hb : LocksFollowUnmounts b) : LocksFollowUnmounts (a ++ b) := by
  intro pre family post he
  rcases List.append_eq_append_iff.1 he with ⟨c, hc1, hc2⟩ | ⟨c, hc1, hc2⟩
  · obtain ⟨pre1, disk, hp⟩ := hb c family post hc2
    exact ⟨a ++ pre1, disk, by rw [hc1, hp, List.append_assoc]⟩
  · cases c with
    | nil =>
      simp only [List.nil_append] at hc2
      obtain ⟨pre1, disk, hp⟩ := hb [] family post hc2.symm
      simp at hp
    | cons e c1 =>
      simp only [List.cons_append, List.cons.injEq] at hc2
      obtain ⟨he1, _⟩ := hc2
      subst he1
      exact ha pre family (c1) hc1

/-- The logical volume family of a disk is read off the disks and the trace. -/
theorem _DAConfigurationCallback.family_congr (env : ServerEnv) (disk : DADiskRef)
    (s x : Server) (hd : x.disks = s.disks) (ht : x.trace = s.trace) :
    _DAConfigurationCallback.family env disk x = _DAConfigurationCallback.family env disk s := by
  unfold _DAConfigurationCallback.family
  rw [hd, ht]

theorem deferredVolume_congr (s x : Server) (disk : DADiskRef) (hd : x.disks = s.disks)
    (hp : x.gDAPreferenceList = s.gDAPreferenceList) :
    deferredVolume x disk = deferredVolume s disk := by
  unfold deferredVolume
  rw [hd, hp]

/-- The permissions while no console user is logged in add system calls on the
device nodes to the trace, and change nothing else. -/
theorem _DAConfigurationCallback.logoutPermissions_spec (disk : DADiskRef) (s : Server) :
    ∃ new, (_DAConfigurationCallback.logoutPermissions disk s).trace = s.trace ++ new
      ∧ (∀ e ∈ new, e.isUnmountOrLock = false)
      ∧ (_DAConfigurationCallback.logoutPermissions disk s).disks = s.disks
      ∧ (_DAConfigurationCallback.logoutPermissions disk s).gDAPreferenceList
        = s.gDAPreferenceList := by
  unfold _DAConfigurationCallback.logoutPermissions
  split
  · refine ⟨_, _DAConfigurationCallback.setPermissions_trace disk _ _ s, ?_, rfl, rfl⟩
    intro e he
    simp only [permissionEvents, List.mem_cons, List.mem_singleton, List.not_mem_nil,
      or_false] at he
    rcases he with he | he | he | he <;> subst he <;> rfl
  · exact ⟨[], by simp, by simp, rfl, rfl⟩

/-- What the unmount step for a disk adds to the trace: nothing for a volume
that is not deferred; for one that is, the unmount, followed by the lock of its
logical volume family when it has one and the lock is there. -/
theorem _DAConfigurationCallback.logoutUnmount_spec (env : ServerEnv) (disk : DADiskRef)
    (s : Server) :
    (_DAConfigurationCallback.logoutUnmount env disk s).trace
        = s.trace ++
          (if deferredVolume s disk then
            ServerEvent.DADiskUnmount disk kDADiskUnmountOptionDefault ::
              (match _DAConfigurationCallback.family env disk s with
                | some lvfUUID =>
                  if env.__CoreStorageLockFamily then
                    [ServerEvent.__CoreStorageLockFamily lvfUUID]
                  else []
                | none => [])
          else [])
      ∧ (_DAConfigurationCallback.logoutUnmount env disk s).disks = s.disks
      ∧ (_DAConfigurationCallback.logoutUnmount env disk s).gDAPreferenceList
        = s.gDAPreferenceList := by
  unfold _DAConfigurationCallback.logoutUnmount deferredVolume
  by_cases hm : DADiskGetDescription (s.disks disk) kDADiskDescriptionVolumeMountableKey
      = some kCFBooleanTrue
  · by_cases hdefer : DAMountGetPreference s.gDAPreferenceList (s.disks disk)
        kDAMountPreferenceDefer = true
    · cases hn : DADiskGetState (s.disks disk) _kDADiskStateMountAutomaticNoDefer
      · simp only [hm, hdefer, if_true, decide_True, Bool.true_and, Bool.not_false]
        cases hf : _DAConfigurationCallback.family env disk s with
        | none => exact ⟨by simp [Server.emit], rfl, rfl⟩
        | some lvfUUID =>
          dsimp only
          by_cases hlock : env.__CoreStorageLockFamily = true
          · simp only [hlock, if_true]
            exact ⟨by simp [Server.emit], rfl, rfl⟩
          · simp only [hlock, if_false]
            exact ⟨by simp [Server.emit], rfl, rfl⟩
      · simp [hm, hdefer]
    · simp [hm, hdefer]
  · simp [hm]

theorem LocksFollowUnmounts.unmount (disk : DADiskRef) (tail : List ServerEvent)
    (h : tail = [] ∨ ∃ family, tail = [ServerEvent.__CoreStorageLockFamily family]) :
    LocksFollowUnmounts
      (ServerEvent.DADiskUnmount disk kDADiskUnmountOptionDefault :: tail) := by
  intro pre family post he
  rcases h with h | ⟨f, h⟩
  · subst h
    cases pre with
    | nil => simp at he
    | cons x pre1 => simp at he
  · subst h
    cases pre with
    | nil => simp at he
    | cons x pre1 =>
      cases pre1 with
      | nil =>
        simp only [List.cons_append, List.nil_append, List.cons.injEq] at he
        exact ⟨[], disk, by rw [← he.1]; rfl⟩
      | cons y pre2 => simp at he

theorem unmounts_unmount (disk : DADiskRef) (tail : List ServerEvent)
    (h : tail = [] ∨ ∃ family, tail = [ServerEvent.__CoreStorageLockFamily family]) :
    unmounts (ServerEvent.DADiskUnmount disk kDADiskUnmountOptionDefault :: tail) = [disk] := by
  rcases h with h | ⟨f, h⟩ <;> subst h <;> simp [unmounts]

/-- The shape of what the unmount step for a disk adds to the trace. -/
theorem _DAConfigurationCallback.logoutUnmount_shape (env : ServerEnv) (disk : DADiskRef)
    (s : Server) :
    ∃ u, (_DAConfigurationCallback.logoutUnmount env disk s).trace = s.trace ++ u
      ∧ ((deferredVolume s disk = false ∧ u = [])
        ∨ (deferredVolume s disk = true
          ∧ ∃ tail, u = ServerEvent.DADiskUnmount disk kDADiskUnmountOptionDefault :: tail
            ∧ (tail = [] ∨ ∃ family, tail = [ServerEvent.__CoreStorageLockFamily family])
            ∧ ∀ family, _DAConfigurationCallback.family env disk s = some family →
              env.__CoreStorageLockFamily = true →
              tail = [ServerEvent.__CoreStorageLockFamily family])) := by
  refine ⟨_, (_DAConfigurationCallback.logoutUnmount_spec env disk s).1, ?_⟩
  by_cases hdef : deferredVolume s disk = true
  · right
    rw [if_pos hdef]
    refine ⟨hdef, _, rfl, ?_, ?_⟩
    · cases _DAConfigurationCallback.family env disk s with
      | none => exact Or.inl rfl
      | some f =>
        dsimp only
        split
        · exact Or.inr ⟨f, rfl⟩
        · exact Or.inl rfl
    · intro family hf hlock
      rw [hf]
      dsimp only
      rw [if_pos hlock]
  · left
    rw [if_neg hdef]
    exact ⟨by simpa using hdef, rfl⟩

/-- The loop of the branch for no console user, over a list of disks: what it
adds to the trace holds the unmounts of the deferred volumes of the list, in the
order of the list, every lock right after an unmount, and, for a deferred volume
of the list, its unmount followed at once by the lock of the logical volume
family it has at that time, when the lock is there. -/
theorem _DAConfigurationCallback.loggedOut.loop_spec (env : ServerEnv) :
    ∀ (list : List DADiskRef) (s : Server), ∃ new,
      (_DAConfigurationCallback.loggedOut.loop env list s).trace = s.trace ++ new
        ∧ (_DAConfigurationCallback.loggedOut.loop env list s).disks = s.disks
        ∧ (_DAConfigurationCallback.loggedOut.loop env list s).gDAPreferenceList
          = s.gDAPreferenceList
        ∧ unmounts new = list.filter (deferredVolume s)
        ∧ LocksFollowUnmounts new
        ∧ ∀ disk ∈ list, deferredVolume s disk = true → ∃ pre post,
          new = pre ++ ServerEvent.DADiskUnmount disk kDADiskUnmountOptionDefault :: post
            ∧ ∀ family,
              _DAConfigurationCallback.family env disk { s with trace := s.trace ++ pre }
                  = some family →
              env.__CoreStorageLockFamily = true →
              ∃ post1, post = ServerEvent.__CoreStorageLockFamily family :: post1 := by
  intro list
  induction list with
  | nil =>
    intro s
    exact ⟨[], by simp [_DAConfigurationCallback.loggedOut.loop], rfl, rfl, rfl,
      LocksFollowUnmounts.of_quiet [] (by simp), by simp⟩
  | cons disk0 rest ih =>
    intro s
    obtain ⟨p, hp1, hp2, hp3, hp4⟩ := _DAConfigurationCallback.logoutPermissions_spec disk0 s
    obtain ⟨u, hu1, hshape⟩ := _DAConfigurationCallback.logoutUnmount_shape env disk0
      (_DAConfigurationCallback.logoutPermissions disk0 s)
    obtain ⟨_, hu2, hu3⟩ := _DAConfigurationCallback.logoutUnmount_spec env disk0
      (_DAConfigurationCallback.logoutPermissions disk0 s)
    obtain ⟨new, hn1, hn2, hn3, hn4, hn5, hn6⟩ := ih
      (_DAConfigurationCallback.logoutUnmount env disk0
        (_DAConfigurationCallback.logoutPermissions disk0 s))
    have hloop : _DAConfigurationCallback.loggedOut.loop env (disk0 :: rest) s
        = _DAConfigurationCallback.loggedOut.loop env rest
          (_DAConfigurationCallback.logoutUnmount env disk0
            (_DAConfigurationCallback.logoutPermissions disk0 s)) := rfl
    generalize _DAConfigurationCallback.logoutPermissions disk0 s = s1
      at hp1 hp3 hp4 hu1 hu2 hu3 hshape hn1 hn2 hn3 hn4 hn6 hloop
    generalize _DAConfigurationCallback.logoutUnmount env disk0 s1 = s2
      at hu1 hu2 hu3 hn1 hn2 hn3 hn4 hn6 hloop
    have hd1 : deferredVolume s1 disk0 = deferredVolume s disk0 :=
      deferredVolume_congr s s1 disk0 hp3 hp4
    have hd2 : deferredVolume s2 = deferredVolume s := funext fun d =>
      deferredVolume_congr s s2 d (hu2.trans hp3) (hu3.trans hp4)
    rw [hd1] at hshape
    rw [hd2] at hn4 hn6
    have hpu : unmounts p = [] := unmounts_of_quiet p hp2
    have hpl : LocksFollowUnmounts p := LocksFollowUnmounts.of_quiet p hp2
    refine ⟨p ++ (u ++ new), ?_, ?_, ?_, ?_, ?_, ?_⟩
    · rw [hloop, hn1, hu1, hp1]
      simp
    · rw [hloop, hn2, hu2, hp3]
    · rw [hloop, hn3, hu3, hp4]
    · rw [unmounts_append, unmounts_append, hpu, hn4, List.filter_cons]
      rcases hshape with ⟨hdef, hu⟩ | ⟨hdef, tail, hu, htail, _⟩
      · rw [hu, hdef]
        rfl
      · rw [hu, hdef, unmounts_unmount disk0 tail htail]
        rfl
    · refine hpl.append (LocksFollowUnmounts.append ?_ hn5)
      rcases hshape with ⟨_, hu⟩ | ⟨_, tail, hu, htail, _⟩
      · rw [hu]
        exact LocksFollowUnmounts.of_quiet [] (by simp)
      · rw [hu]
        exact LocksFollowUnmounts.unmount disk0 tail htail
    · intro disk hmem hdef
      rcases List.mem_cons.1 hmem with hhead | hrest
      · subst hhead
        rcases hshape with ⟨hno, _⟩ | ⟨_, tail, hu, _, hfam⟩
        · rw [hdef] at hno
          cases hno
        · refine ⟨p, tail ++ new, by rw [hu]; simp, fun family hf hlock => ?_⟩
          have hf1 : _DAConfigurationCallback.family env disk s1 = some family := by
            rw [← hf]
            exact _DAConfigurationCallback.family_congr env disk _ s1 hp3 hp1
          rw [hfam family hf1 hlock]
          exact ⟨new, rfl⟩
      · obtain ⟨pre, post, hnew, hfam⟩ := hn6 disk hrest hdef
        refine ⟨p ++ (u ++ pre), post, by rw [hnew]; simp, fun family hf hlock => ?_⟩
        refine hfam family ?_ hlock
        rw [← hf]
        refine _DAConfigurationCallback.family_congr env disk _ _ ?_ ?_
        · exact hu2.trans hp3
        · show s2.trace ++ pre = s.trace ++ (p ++ (u ++ pre))
          rw [hu1, hp1]
          simp

theorem _DAConfigurationCallback.departedUnmount_frame (previousUserUID : uid_t) :
    ∀ (list : List DADiskRef) (s : Server),
      (_DAConfigurationCallback.departedUnmount previousUserUID list s).disks = s.disks
        ∧ (_DAConfigurationCallback.departedUnmount previousUserUID list s).gDADiskList
          = s.gDADiskList
        ∧ (_DAConfigurationCallback.departedUnmount previousUserUID list s).gDAConsoleUserList
          = s.gDAConsoleUserList
        ∧ s.trace <+: (_DAConfigurationCallback.departedUnmount previousUserUID list s).trace := by
  intro list
  induction list with
  | nil => intro s; exact ⟨rfl, rfl, rfl, List.prefix_refl _⟩
  | cons disk rest ih =>
    intro s
    unfold _DAConfigurationCallback.departedUnmount
    split
    · split
      · obtain ⟨h1, h2, h3, h4⟩ := ih (s.emit _)
        exact ⟨h1, h2, h3, (List.prefix_append _ _).trans h4⟩
      · exact ih _
    · exact ih _

theorem _DAConfigurationCallback.departedEject_frame (previousUserUID : uid_t) :
    ∀ (list : List DADiskRef) (s : Server),
      (_DAConfigurationCallback.departedEject previousUserUID list s).disks = s.disks
        ∧ (_DAConfigurationCallback.departedEject previousUserUID list s).gDADiskList
          = s.gDADiskList
        ∧ (_DAConfigurationCallback.departedEject previousUserUID list s).gDAConsoleUserList
          = s.gDAConsoleUserList
        ∧ s.trace <+: (_DAConfigurationCallback.departedEject previousUserUID list s).trace := by
  intro list
  induction list with
  | nil => intro s; exact ⟨rfl, rfl, rfl, List.prefix_refl _⟩
  | cons disk rest ih =>
    intro s
    unfold _DAConfigurationCallback.departedEject
    split
    · split
      · obtain ⟨h1, h2, h3, h4⟩ := ih (s.emit _)
        exact ⟨h1, h2, h3, (List.prefix_append _ _).trans h4⟩
      · exact ih _
    · exact ih _

/-- The unmounts and ejects for the user that logged out change the trace
only, and extend it. -/
theorem _DAConfigurationCallback.departed_frame (env : ServerEnv) (previousUserUID : uid_t)
    (s : Server) :
    (_DAConfigurationCallback.departed env previousUserUID s).disks = s.disks
      ∧ (_DAConfigurationCallback.departed env previousUserUID s).gDADiskList = s.gDADiskList
      ∧ (_DAConfigurationCallback.departed env previousUserUID s).gDAConsoleUserList
        = s.gDAConsoleUserList
      ∧ s.trace <+: (_DAConfigurationCallback.departed env previousUserUID s).trace := by
  unfold _DAConfigurationCallback.departed
  split
  · exact ⟨rfl, rfl, rfl, List.prefix_refl _⟩
  · obtain ⟨h1, h2, h3, h7⟩ := _DAConfigurationCallback.departedEject_frame previousUserUID
      s.gDADiskList (_DAConfigurationCallback.departedUnmount previousUserUID s.gDADiskList s)
    obtain ⟨h4, h5, h6, h8⟩ := _DAConfigurationCallback.departedUnmount_frame previousUserUID
      s.gDADiskList s
    exact ⟨h1.trans h4, h2.trans h5, h3.trans h6, h8.trans h7⟩

theorem Server.setDisk_self (s : Server) (disk : DADiskRef) :
    s.setDisk disk (s.disks disk) = s := by
  unfold Server.setDisk
  rw [Function.update_eq_self]

theorem Server.setDisk_setDisk (s : Server) (disk : DADiskRef) (v w : DADisk) :
    (s.setDisk disk v).setDisk disk w = s.setDisk disk w := by
  unfold Server.setDisk
  simp

@[simp] theorem Server.setDisk_disks_self (s : Server) (disk : DADiskRef) (v : DADisk) :
    (s.setDisk disk v).disks disk = v := by
  simp [Server.setDisk]

@[simp] theorem Server.trace_setDisk (s : Server) (disk : DADiskRef) (v : DADisk) :
    (s.setDisk disk v).trace = s.trace := rfl

theorem DADiskSetDescription_self (d : DADisk) (key : DADiskDescriptionKey) :
    DADiskSetDescription d key (d.description key) = d := by
  unfold DADiskSetDescription
  simp

theorem List.filter_cons_append {α : Type} (p : α → Bool) (a : α) (l : List α) :
    (a :: l).filter p = (if p a = true then [a] else []) ++ l.filter p := by
  rw [List.filter_cons]
  split <;> rfl

/-- One watched key, in one equation: the description of the disk has the
object, and the key has joined the changed keys when the description differed
from the object. -/
theorem __DAMediaPropertyChangedCallback.update_eq (disk : DADiskRef)
    (key : DADiskDescriptionKey) (object : Option CFType)
    (r : Server × List DADiskDescriptionKey) :
    __DAMediaPropertyChangedCallback.update disk key object r
      = (r.1.setDisk disk (DADiskSetDescription (r.1.disks disk) key object),
        r.2 ++ (if (r.1.disks disk).description key = object then [] else [key])) := by
  unfold __DAMediaPropertyChangedCallback.update DADiskCompareDescription
  by_cases h : (r.1.disks disk).description key = object
  · subst h
    simp [DADiskSetDescription_self, Server.setDisk_self]
  · simp [h]

/-- The watched properties, in one equation. -/
theorem __DAMediaPropertyChangedCallback.properties_eq (env : ServerEnv)
    (service : io_service_t) (disk : DADiskRef) (properties : CFString → Option CFType)
    (r : Server × List DADiskDescriptionKey) :
    __DAMediaPropertyChangedCallback.properties env service disk properties r
      = (r.1.setDisk disk
          { r.1.disks disk with
            description := fun key =>
              if key ∈ watchedKeys then
                watchedValue env service disk properties r.1.trace key
              else (r.1.disks disk).description key },
        r.2 ++ watchedKeys.filter fun key =>
          decide ((r.1.disks disk).description key
            ≠ watchedValue env service disk properties r.1.trace key)) := by
  unfold __DAMediaPropertyChangedCallback.properties
  simp only [__DAMediaPropertyChangedCallback.update_eq, Server.setDisk_setDisk,
    Server.setDisk_disks_self, Server.trace_setDisk]
  refine Prod.ext ?_ ?_
  · dsimp only
    congr 1
    unfold DADiskSetDescription
    dsimp only
    congr 1
    funext key
    cases key <;> rfl
  · dsimp only
    simp only [watchedKeys, List.filter_cons_append, List.filter_nil, List.append_assoc,
      DADiskSetDescription, watchedValue]
    simp [Function.update]

theorem Server.Redescribed.redescribed_refl (disk : DADiskRef) (s : Server) :
    Server.Redescribed disk s s :=
  ⟨rfl, (s.disks disk).description, (s.disks disk).bypath, rfl⟩

theorem Server.Redescribed.redescribed_trans {disk : DADiskRef} {a b c : Server}
    (h1 : Server.Redescribed disk a b) (h2 : Server.Redescribed disk b c) :
    Server.Redescribed disk a c := by
  obtain ⟨t1, d1, b1, e1⟩ := h1
  obtain ⟨t2, d2, b2, e2⟩ := h2
  exact ⟨t2.trans t1, d2, b2, by rw [e2, e1]⟩

theorem Server.Redescribed.redescribed_setDescription (disk : DADiskRef) (s : Server)
    (key : DADiskDescriptionKey) (value : Option CFType) :
    Server.Redescribed disk s
      (s.setDisk disk (DADiskSetDescription (s.disks disk) key value)) :=
  ⟨rfl, Function.update (s.disks disk).description key value, (s.disks disk).bypath,
    by simp [Server.setDisk, DADiskSetDescription]⟩

theorem Server.Redescribed.redescribed_setBypath (disk : DADiskRef) (s : Server) (bypath : Option CFURL) :
    Server.Redescribed disk s (s.setDisk disk (DADiskSetBypath (s.disks disk) bypath)) :=
  ⟨rfl, (s.disks disk).description, bypath, by simp [Server.setDisk, DADiskSetBypath]⟩

theorem Server.Redescribed.redescribed_setWorld (disk : DADiskRef) (s : Server) (w : World)
    (h : w.disks = s.disks) : Server.Redescribed disk s (s.setWorld w) :=
  ⟨rfl, (s.disks disk).description, (s.disks disk).bypath, by simp [Server.setWorld, h]⟩

theorem Server.Redescribed.redescribed_state {disk : DADiskRef} {a b : Server}
    (h : Server.Redescribed disk a b) :
    (b.disks disk).state = (a.disks disk).state
      ∧ (b.disks disk).unitState = (a.disks disk).unitState
      ∧ (b.disks disk).filesystemKind = (a.disks disk).filesystemKind
      ∧ (b.disks disk).id = (a.disks disk).id := by
  obtain ⟨_, d, b, e⟩ := h
  rw [e]
  exact ⟨rfl, rfl, rfl, rfl⟩

theorem __DAMediaPropertyChangedCallback.mediaName_spec (env : ServerEnv)
    (service : io_service_t) (disk : DADiskRef) (s : Server) :
    Server.Redescribed disk s
        (__DAMediaPropertyChangedCallback.mediaName env service disk s).1
      ∧ ((__DAMediaPropertyChangedCallback.mediaName env service disk s).1.disks
          disk).description kDADiskDescriptionVolumePathKey
        = (s.disks disk).description kDADiskDescriptionVolumePathKey
      ∧ (DAUnitGetState (s.disks disk) _kDAUnitStateHasAPFS = true →
        ∀ name, env.IORegistryEntryGetName s.trace service = some name →
          ((__DAMediaPropertyChangedCallback.mediaName env service disk s).1.disks
            disk).description kDADiskDescriptionVolumeNameKey = some (CFType.string name)) := by
  unfold __DAMediaPropertyChangedCallback.mediaName
  split
  · split
    · rename_i name hname
      split
      · refine ⟨(Server.Redescribed.redescribed_setDescription disk s _ _).redescribed_trans
          (Server.Redescribed.redescribed_setDescription disk _ _ _), ?_, fun _ name1 h1 => ?_⟩
        · simp [Server.setDisk, DADiskSetDescription]
        · rw [hname] at h1
          cases h1
          simp [Server.setDisk, DADiskSetDescription]
      · rename_i hc
        refine ⟨Server.Redescribed.redescribed_refl disk s, rfl, fun _ name1 h1 => ?_⟩
        rw [hname] at h1
        cases h1
        simpa [DADiskCompareDescription] using hc
    · rename_i hname
      exact ⟨Server.Redescribed.redescribed_refl disk s, rfl,
        fun _ name1 h1 => by rw [hname] at h1; cases h1⟩
  · rename_i hapfs
    exact ⟨Server.Redescribed.redescribed_refl disk s, rfl, fun h => absurd h hapfs⟩

theorem __DAMediaPropertyChangedCallback.volumeName_spec (env : ServerEnv)
    (service : io_service_t) (disk : DADiskRef) (found : Bool) (s : Server) :
    Server.Redescribed disk s
        (__DAMediaPropertyChangedCallback.volumeName env service disk found s).1
      ∧ ((__DAMediaPropertyChangedCallback.volumeName env service disk found s).1.disks
          disk).description kDADiskDescriptionVolumePathKey
        = (s.disks disk).description kDADiskDescriptionVolumePathKey
      ∧ (∀ path name,
        (s.disks disk).description kDADiskDescriptionVolumePathKey = some path →
        found = true →
        env._DAFileSystemCopyName s.trace (DAFileSystemGetKind (s.disks disk)) path
          = some name →
        ((__DAMediaPropertyChangedCallback.volumeName env service disk found s).1.disks
          disk).description kDADiskDescriptionVolumeNameKey = some (CFType.string name))
      ∧ ((s.disks disk).description kDADiskDescriptionVolumePathKey = none ∨ found = false →
        DAUnitGetState (s.disks disk) _kDAUnitStateHasAPFS = true →
        ∀ name, env.IORegistryEntryGetName s.trace service = some name →
          ((__DAMediaPropertyChangedCallback.volumeName env service disk found s).1.disks
            disk).description kDADiskDescriptionVolumeNameKey = some (CFType.string name)) := by
  obtain ⟨m1, m2, m3⟩ := __DAMediaPropertyChangedCallback.mediaName_spec env service disk s
  unfold __DAMediaPropertyChangedCallback.volumeName DADiskGetDescription
  split
  · rename_i path hpath
    split
    · rename_i hfound
      split
      · rename_i name hname
        split
        · refine ⟨Server.Redescribed.redescribed_setDescription disk s _ _, ?_, fun path1 name1 h1 _ h3 => ?_,
            fun h => ?_⟩
          · simp [Server.setDisk, DADiskSetDescription]
          · rw [hpath] at h1
            cases h1
            rw [hname] at h3
            cases h3
            simp [Server.setDisk, DADiskSetDescription]
          · rcases h with h | h
            · rw [hpath] at h
              cases h
            · rw [hfound] at h
              cases h
        · rename_i hc
          refine ⟨Server.Redescribed.redescribed_refl disk s, rfl, fun path1 name1 h1 _ h3 => ?_,
            fun h => ?_⟩
          · rw [hpath] at h1
            cases h1
            rw [hname] at h3
            cases h3
            simpa [DADiskCompareDescription] using hc
          · rcases h with h | h
            · rw [hpath] at h
              cases h
            · rw [hfound] at h
              cases h
      · rename_i hname
        refine ⟨Server.Redescribed.redescribed_refl disk s, rfl, fun path1 name1 h1 _ h3 => ?_,
          fun h => ?_⟩
        · rw [hpath] at h1
          cases h1
          rw [hname] at h3
          cases h3
        · rcases h with h | h
          · rw [hpath] at h
            cases h
          · rw [hfound] at h
            cases h
    · rename_i hfound
      exact ⟨m1, m2, fun _ _ _ h2 => absurd h2 hfound, fun _ => m3⟩
  · exact ⟨m1, m2, fun path1 name1 h1 => by simp_all, fun _ => m3⟩

theorem __DAMediaPropertyChangedCallback.move_spec (menv : Env) (disk : DADiskRef)
    (path : CFType) (r : Server × List DADiskDescriptionKey) :
    Server.Redescribed disk r.1 (__DAMediaPropertyChangedCallback.move menv disk path r).1
      ∧ ((__DAMediaPropertyChangedCallback.move menv disk path r).1.disks disk).description
          kDADiskDescriptionVolumeNameKey
        = (r.1.disks disk).description kDADiskDescriptionVolumeNameKey
      ∧ (((r.1.disks disk).description kDADiskDescriptionVolumePathKey).isSome = true →
        (((__DAMediaPropertyChangedCallback.move menv disk path r).1.disks disk).description
          kDADiskDescriptionVolumePathKey).isSome = true) := by
  have hd := DAMountCreateMountPointWithAction_disks menv disk kDAMountPointActionMove r.1.world
  have h1 : Server.Redescribed disk r.1 (r.1.setWorld
      (DAMountCreateMountPointWithAction menv disk kDAMountPointActionMove r.1.world).2) :=
    Server.Redescribed.redescribed_setWorld disk _ _ hd
  have hw : (r.1.setWorld
      (DAMountCreateMountPointWithAction menv disk kDAMountPointActionMove r.1.world).2).disks
      = r.1.disks := hd
  unfold __DAMediaPropertyChangedCallback.move
  dsimp only
  split
  · split
    · refine ⟨h1.redescribed_trans (Server.Redescribed.redescribed_setBypath disk _ _), ?_, fun h => ?_⟩
      · simp [Server.setDisk, DADiskSetBypath, hw]
      · simpa [Server.setDisk, DADiskSetBypath, hw] using h
    · refine ⟨(h1.redescribed_trans (Server.Redescribed.redescribed_setBypath disk _ _)).redescribed_trans
        (Server.Redescribed.redescribed_setDescription disk _ _ _), ?_, fun _ => ?_⟩
      · simp [Server.setDisk, DADiskSetBypath, DADiskSetDescription, hw]
      · simp [Server.setDisk, DADiskSetDescription]
  · refine ⟨h1, ?_, fun h => ?_⟩
    · rw [hw]
    · rw [hw]
      exact h

/-- What `__DAMediaPropertyChangedCallback` leaves when it has looked at the name
of the volume: the description of the disk has the name the file system or the
registry gives. -/
theorem __DAMediaPropertyChangedCallback.rename_spec (env : ServerEnv) (menv : Env)
    (service : io_service_t) (disk : DADiskRef) (s : Server) :
    Server.Redescribed disk s
        (__DAMediaPropertyChangedCallback.rename env menv service disk s).1
      ∧ (((__DAMediaPropertyChangedCallback.rename env menv service disk s).1.disks
          disk).description kDADiskDescriptionVolumePathKey).isSome
        = ((s.disks disk).description kDADiskDescriptionVolumePathKey).isSome
      ∧ (DADiskGetState (s.disks disk) kDADiskStateCommandActive = false →
        (∀ path name,
          (s.disks disk).description kDADiskDescriptionVolumePathKey = some path →
          ((env.getmntinfo s.trace).any fun fs =>
            decide (env._DAVolumeGetID fs = DADiskGetID (s.disks disk))) = true →
          env._DAFileSystemCopyName s.trace (DAFileSystemGetKind (s.disks disk)) path
            = some name →
          ((__DAMediaPropertyChangedCallback.rename env menv service disk s).1.disks
            disk).description kDADiskDescriptionVolumeNameKey = some (CFType.string name))
        ∧ ((s.disks disk).description kDADiskDescriptionVolumePathKey = none
            ∨ ((env.getmntinfo s.trace).any fun fs =>
              decide (env._DAVolumeGetID fs = DADiskGetID (s.disks disk))) = false →
          DAUnitGetState (s.disks disk) _kDAUnitStateHasAPFS = true →
          ∀ name, env.IORegistryEntryGetName s.trace service = some name →
            ((__DAMediaPropertyChangedCallback.rename env menv service disk s).1.disks
              disk).description kDADiskDescriptionVolumeNameKey
              = some (CFType.string name))) := by
  obtain ⟨v1, v2, v3, v4⟩ := __DAMediaPropertyChangedCallback.volumeName_spec env service disk
    ((env.getmntinfo s.trace).any fun fs =>
      decide (env._DAVolumeGetID fs = DADiskGetID (s.disks disk))) s
  unfold __DAMediaPropertyChangedCallback.rename
  split
  · dsimp only
    unfold DADiskGetDescription
    split
    · rename_i path hpath
      split
      · obtain ⟨m1, m2, m3⟩ := __DAMediaPropertyChangedCallback.move_spec menv disk path
          ((__DAMediaPropertyChangedCallback.volumeName env service disk
            ((env.getmntinfo s.trace).any fun fs =>
              decide (env._DAVolumeGetID fs = DADiskGetID (s.disks disk))) s).1,
           (__DAMediaPropertyChangedCallback.volumeName env service disk
            ((env.getmntinfo s.trace).any fun fs =>
              decide (env._DAVolumeGetID fs = DADiskGetID (s.disks disk))) s).2.1)
        refine ⟨v1.redescribed_trans m1, ?_, fun _ => ⟨fun path1 name h1 h2 h3 => ?_,
          fun h1 h2 name h3 => ?_⟩⟩
        · rw [hpath, m3 (by rw [v2, hpath]; rfl)]
          rfl
        · rw [m2]
          exact v3 path1 name h1 h2 h3
        · rw [m2]
          exact v4 h1 h2 name h3
      · refine ⟨v1, by rw [v2], fun _ => ⟨v3, v4⟩⟩
    · refine ⟨v1, by rw [v2], fun _ => ⟨v3, v4⟩⟩
  · rename_i hactive
    exact ⟨Server.Redescribed.redescribed_refl disk s, rfl, fun h => absurd h hactive⟩

/-- When the description of the disk has the name the file system or the
registry gives, `__DAMediaPropertyChangedCallback` finds no new name. -/
theorem __DAMediaPropertyChangedCallback.rename_of_named (env : ServerEnv) (menv : Env)
    (service : io_service_t) (disk : DADiskRef) (s : Server)
    (h1 : ∀ path name,
      (s.disks disk).description kDADiskDescriptionVolumePathKey = some path →
      ((env.getmntinfo s.trace).any fun fs =>
        decide (env._DAVolumeGetID fs = DADiskGetID (s.disks disk))) = true →
      env._DAFileSystemCopyName s.trace (DAFileSystemGetKind (s.disks disk)) path = some name →
      (s.disks disk).description kDADiskDescriptionVolumeNameKey = some (CFType.string name))
    (h2 : (s.disks disk).description kDADiskDescriptionVolumePathKey = none
        ∨ ((env.getmntinfo s.trace).any fun fs =>
          decide (env._DAVolumeGetID fs = DADiskGetID (s.disks disk))) = false →
      DAUnitGetState (s.disks disk) _kDAUnitStateHasAPFS = true →
      ∀ name, env.IORegistryEntryGetName s.trace service = some name →
        (s.disks disk).description kDADiskDescriptionVolumeNameKey
          = some (CFType.string name)) :
    __DAMediaPropertyChangedCallback.rename env menv service disk s = (s, []) := by
  have hmedia : (s.disks disk).description kDADiskDescriptionVolumePathKey = none
        ∨ ((env.getmntinfo s.trace).any fun fs =>
          decide (env._DAVolumeGetID fs = DADiskGetID (s.disks disk))) = false →
      __DAMediaPropertyChangedCallback.mediaName env service disk s = (s, [], false) := by
    intro h
    unfold __DAMediaPropertyChangedCallback.mediaName
    split
    · rename_i hapfs
      split
      · rename_i name hname
        rw [if_neg]
        simp [DADiskCompareDescription, h2 h hapfs name hname]
      · rfl
    · rfl
  have hvolume : __DAMediaPropertyChangedCallback.volumeName env service disk
      ((env.getmntinfo s.trace).any fun fs =>
        decide (env._DAVolumeGetID fs = DADiskGetID (s.disks disk))) s = (s, [], false) := by
    unfold __DAMediaPropertyChangedCallback.volumeName DADiskGetDescription
    split
    · rename_i path hpath
      split
      · rename_i hfound
        split
        · rename_i name hname
          rw [if_neg]
          simp [DADiskCompareDescription, h1 path name hpath hfound hname]
        · rfl
      · rename_i hfound
        exact hmedia (Or.inr (by simpa using hfound))
    · rename_i hpath
      exact hmedia (Or.inl hpath)
  unfold __DAMediaPropertyChangedCallback.rename
  split
  · dsimp only
    rw [hvolume]
    unfold DADiskGetDescription
    split
    · rw [if_neg]
      simp
    · rfl
  · rfl

theorem __DADiskListGetDiskWithIOMedia_congr (s s1 : Server) (media : io_service_t)
    (hl : s1.gDADiskList = s.gDADiskList)
    (hm : ∀ disk, DADiskGetIOMedia (s1.disks disk) = DADiskGetIOMedia (s.disks disk)) :
    __DADiskListGetDiskWithIOMedia s1 media = __DADiskListGetDiskWithIOMedia s media := by
  unfold __DADiskListGetDiskWithIOMedia
  rw [hl]
  exact congrArg (fun p => List.find? p s.gDADiskList) (funext fun disk => by rw [hm])

theorem watchedValue_steady (env : ServerEnv) (service : io_service_t) (disk : DADiskRef)
    (properties : CFString → Option CFType) (t1 t2 : List ServerEvent)
    (key : DADiskDescriptionKey) (hsteady : env.Steady service) :
    watchedValue env service disk properties t1 key
      = watchedValue env service disk properties t2 key := by
  obtain ⟨_, _, _, _, _, c6, c7⟩ := hsteady
  unfold watchedValue
  split <;> first
    | rfl
    | rw [c6 t1 t2]
    | rw [c7 t1 t2]

/-- When the kernel answers the same, a disk that has been through
`__DAMediaPropertyChangedCallback` is left as it is by the callback. -/
theorem __DAMediaPropertyChangedCallback.settled (env : ServerEnv) (menv : Env)
    (service : io_service_t) (s : Server) (disk : DADiskRef)
    (properties : CFString → Option CFType) (hsteady : env.Steady service)
    (hp : env.IORegistryEntryCreateCFProperties s.trace service = some properties)
    (hl : __DADiskListGetDiskWithIOMedia s service = some disk) (s1 : Server)
    (hd : s1.disks
      = (__DAMediaPropertyChangedCallback.properties env service disk properties
          (__DAMediaPropertyChangedCallback.rename env menv service disk s)).1.disks)
    (hlist : s1.gDADiskList = s.gDADiskList) :
    __DAMediaPropertyChangedCallback env menv service s1 = s1 := by
  have hsteady1 := hsteady
  obtain ⟨_, c2, c3, c4, c5, _, _⟩ := hsteady
  obtain ⟨q1, q2, q3⟩ := __DAMediaPropertyChangedCallback.rename_spec env menv service disk s
  obtain ⟨st, ust, kind, id⟩ := q1.redescribed_state
  have hsame := __DAMediaPropertyChangedCallback.properties_same env service disk properties s _
    (__DAMediaPropertyChangedCallback.rename_same env menv service disk s)
  have hdisk : s1.disks disk
      = { (__DAMediaPropertyChangedCallback.rename env menv service disk s).1.disks disk with
          description := fun key =>
            if key ∈ watchedKeys then
              watchedValue env service disk properties
                (__DAMediaPropertyChangedCallback.rename env menv service disk s).1.trace key
            else
              ((__DAMediaPropertyChangedCallback.rename env menv service disk s).1.disks
                disk).description key } := by
    rw [hd, __DAMediaPropertyChangedCallback.properties_eq]
    simp [Server.setDisk]
  have hstate : (s1.disks disk).state = (s.disks disk).state := by rw [hdisk]; exact st
  have hunit : (s1.disks disk).unitState = (s.disks disk).unitState := by rw [hdisk]; exact ust
  have hkind : (s1.disks disk).filesystemKind = (s.disks disk).filesystemKind := by
    rw [hdisk]; exact kind
  have hid : (s1.disks disk).id = (s.disks disk).id := by rw [hdisk]; exact id
  have hname : (s1.disks disk).description kDADiskDescriptionVolumeNameKey
      = ((__DAMediaPropertyChangedCallback.rename env menv service disk s).1.disks
          disk).description kDADiskDescriptionVolumeNameKey := by
    rw [hdisk]; rfl
  have hpath : (s1.disks disk).description kDADiskDescriptionVolumePathKey
      = ((__DAMediaPropertyChangedCallback.rename env menv service disk s).1.disks
          disk).description kDADiskDescriptionVolumePathKey := by
    rw [hdisk]; rfl
  have hwatched : ∀ key ∈ watchedKeys, (s1.disks disk).description key
      = watchedValue env service disk properties s1.trace key := by
    intro key hkey
    rw [hdisk]
    dsimp only
    rw [if_pos hkey]
    exact watchedValue_steady env service disk properties _ _ key hsteady1
  have hfound : ((env.getmntinfo s1.trace).any fun fs =>
        decide (env._DAVolumeGetID fs = DADiskGetID (s1.disks disk)))
      = ((env.getmntinfo s.trace).any fun fs =>
        decide (env._DAVolumeGetID fs = DADiskGetID (s.disks disk))) := by
    rw [c3 s1.trace s.trace]
    unfold DADiskGetID
    rw [hid]
  have hl1 : __DADiskListGetDiskWithIOMedia s1 service = some disk := by
    rw [__DADiskListGetDiskWithIOMedia_congr s s1 service hlist
      (fun d => by rw [hd]; exact hsame.2.2.2 d)]
    exact hl
  have hren : __DAMediaPropertyChangedCallback.rename env menv service disk s1 = (s1, []) := by
    by_cases hactive : DADiskGetState (s.disks disk) kDADiskStateCommandActive = true
    · unfold __DAMediaPropertyChangedCallback.rename
      rw [if_neg]
      unfold DADiskGetState at hactive ⊢
      rw [hstate, hactive]
      decide
    · obtain ⟨n1, n2⟩ := q3 (by simpa using hactive)
      apply __DAMediaPropertyChangedCallback.rename_of_named
      · intro path name h1 h2 h3
        have hsome : ((s.disks disk).description kDADiskDescriptionVolumePathKey).isSome
            = true := by
          rw [← q2, ← hpath, h1]
          rfl
        obtain ⟨path0, hpath0⟩ := Option.isSome_iff_exists.1 hsome
        rw [hname]
        refine n1 path0 name hpath0 (hfound ▸ h2) ?_
        rw [c4 s.trace s1.trace _ path0 path]
        unfold DAFileSystemGetKind at h3 ⊢
        rw [← hkind]
        exact h3
      · intro h hapfs name h3
        rw [hname]
        refine n2 ?_ ?_ name ?_
        · rcases h with h | h
          · left
            have hnone : ((s.disks disk).description kDADiskDescriptionVolumePathKey).isSome
                = false := by
              rw [← q2, ← hpath, h]
              rfl
            simpa using hnone
          · right
            rw [← hfound]
            exact h
        · unfold DAUnitGetState at hapfs ⊢
          rw [← hunit]
          exact hapfs
        · rw [c5 s.trace s1.trace]
          exact h3
  have hprop : __DAMediaPropertyChangedCallback.properties env service disk properties (s1, [])
      = (s1, []) := by
    rw [__DAMediaPropertyChangedCallback.properties_eq]
    have hfun : (fun key =>
          if key ∈ watchedKeys then watchedValue env service disk properties s1.trace key
          else (s1.disks disk).description key) = (s1.disks disk).description :=
      funext fun key => by
        split
        · exact (hwatched key ‹_›).symm
        · rfl
    refine Prod.ext ?_ ?_
    · dsimp only
      rw [hfun]
      exact Server.setDisk_self s1 disk
    · dsimp only
      rw [List.nil_append, List.filter_eq_nil_iff]
      intro key hkey
      simp [hwatched key hkey]
  unfold __DAMediaPropertyChangedCallback
  rw [hl1]
  dsimp only
  split
  · rw [c2 s1.trace s.trace, hp]
    dsimp only
    rw [hren, hprop]
    simp
  · rfl

theorem Server.Unmarked.unmarked_refl (s : Server) : s.Unmarked s :=
  fun _ => rfl

theorem Server.Unmarked.unmarked_trans {a b c : Server} (h1 : a.Unmarked b)
    (h2 : b.Unmarked c) : a.Unmarked c :=
  fun d => (h2 d).trans (h1 d)

theorem Server.Unmarked.unmarked_emit (s : Server) (e : ServerEvent) : s.Unmarked (s.emit e) :=
  fun _ => rfl

theorem Server.Unmarked.unmarked_setDisk (s : Server) (disk : DADiskRef) (value : DADisk)
    (h : DADiskGetState value kDADiskStateZombie
      = DADiskGetState (s.disks disk) kDADiskStateZombie) :
    s.Unmarked (s.setDisk disk value) := by
  intro d
  by_cases hd : d = disk
  · subst hd; simp [Server.setDisk, h]
  · simp [Server.setDisk, Function.update, hd]

theorem Server.Unmarked.unmarked_setState (s : Server) (disk : DADiskRef) (state : DADiskState)
    (value : Bool) (h : state ≠ kDADiskStateZombie) : s.Unmarked (s.setState disk state value) :=
  Server.Unmarked.unmarked_setDisk s disk _
    (by simp [DADiskSetState, DADiskGetState, Function.update, Ne.symm h])

theorem Server.Unmarked.unmarked_setDescription (s : Server) (disk : DADiskRef)
    (key : DADiskDescriptionKey) (value : Option CFType) :
    s.Unmarked (s.setDisk disk (DADiskSetDescription (s.disks disk) key value)) :=
  Server.Unmarked.unmarked_setDisk s disk _ rfl

theorem Server.Unmarked.unmarked_unit (s : Server) (disk : DADiskRef) (state : DAUnitState)
    (value : Bool) : s.Unmarked (DAUnitSetState s disk state value) := by
  intro d
  unfold DAUnitSetState
  dsimp only
  split <;> rfl

theorem Server.Unmarked.unmarked_setWorld (s : Server) (w : World) (h : w.disks = s.disks) :
    s.Unmarked (s.setWorld w) :=
  fun d => by simp [Server.setWorld, h]

theorem __DAMediaPropertyChangedCallback.update_unmarked (s : Server) (disk : DADiskRef)
    (key : DADiskDescriptionKey) (object : Option CFType)
    (r : Server × List DADiskDescriptionKey) (h : s.Unmarked r.1) :
    s.Unmarked (__DAMediaPropertyChangedCallback.update disk key object r).1 := by
  unfold __DAMediaPropertyChangedCallback.update
  split
  · exact h.unmarked_trans (Server.Unmarked.unmarked_setDescription _ _ _ _)
  · exact h

theorem __DAMediaPropertyChangedCallback.mediaName_unmarked (env : ServerEnv)
    (service : io_service_t) (disk : DADiskRef) (s : Server) :
    s.Unmarked (__DAMediaPropertyChangedCallback.mediaName env service disk s).1 := by
  unfold __DAMediaPropertyChangedCallback.mediaName
  repeat' split
  all_goals first
    | exact Server.Unmarked.unmarked_refl s
    | exact (Server.Unmarked.unmarked_setDescription _ _ _ _).unmarked_trans (Server.Unmarked.unmarked_setDescription _ _ _ _)

theorem __DAMediaPropertyChangedCallback.volumeName_unmarked (env : ServerEnv)
    (service : io_service_t) (disk : DADiskRef) (found : Bool) (s : Server) :
    s.Unmarked (__DAMediaPropertyChangedCallback.volumeName env service disk found s).1 := by
  unfold __DAMediaPropertyChangedCallback.volumeName
  repeat' split
  all_goals first
    | exact Server.Unmarked.unmarked_refl s
    | exact Server.Unmarked.unmarked_setDescription _ _ _ _
    | exact __DAMediaPropertyChangedCallback.mediaName_unmarked env service disk s

theorem __DAMediaPropertyChangedCallback.move_unmarked (menv : Env) (s : Server) (disk : DADiskRef)
    (path : CFType) (r : Server × List DADiskDescriptionKey) (h : s.Unmarked r.1) :
    s.Unmarked (__DAMediaPropertyChangedCallback.move menv disk path r).1 := by
  have h1 : r.1.Unmarked (r.1.setWorld
      (DAMountCreateMountPointWithAction menv disk kDAMountPointActionMove r.1.world).2) :=
    Server.Unmarked.unmarked_setWorld _ _ (DAMountCreateMountPointWithAction_disks menv disk _ r.1.world)
  unfold __DAMediaPropertyChangedCallback.move
  dsimp only
  split
  · have h2 := Server.Unmarked.unmarked_setDisk
      (r.1.setWorld
        (DAMountCreateMountPointWithAction menv disk kDAMountPointActionMove r.1.world).2)
      disk
      (DADiskSetBypath
        ((r.1.setWorld
          (DAMountCreateMountPointWithAction menv disk kDAMountPointActionMove
            r.1.world).2).disks disk)
        (match ‹CFType› with
          | CFType.url bypath => some bypath
          | _ => none)) rfl
    split
    · exact (h.unmarked_trans h1).unmarked_trans h2
    · exact ((h.unmarked_trans h1).unmarked_trans h2).unmarked_trans (Server.Unmarked.unmarked_setDescription _ _ _ _)
  · exact h.unmarked_trans h1

theorem __DAMediaPropertyChangedCallback.rename_unmarked (env : ServerEnv) (menv : Env)
    (service : io_service_t) (disk : DADiskRef) (s : Server) :
    s.Unmarked (__DAMediaPropertyChangedCallback.rename env menv service disk s).1 := by
  unfold __DAMediaPropertyChangedCallback.rename
  split
  · dsimp only
    split
    · split
      · exact __DAMediaPropertyChangedCallback.move_unmarked menv s disk _ _
          (__DAMediaPropertyChangedCallback.volumeName_unmarked env service disk _ s)
      · exact __DAMediaPropertyChangedCallback.volumeName_unmarked env service disk _ s
    · exact __DAMediaPropertyChangedCallback.volumeName_unmarked env service disk _ s
  · exact Server.Unmarked.unmarked_refl s

theorem __DAMediaPropertyChangedCallback.properties_unmarked (env : ServerEnv)
    (service : io_service_t) (disk : DADiskRef) (properties : CFString → Option CFType)
    (s : Server) (r : Server × List DADiskDescriptionKey) (h : s.Unmarked r.1) :
    s.Unmarked (__DAMediaPropertyChangedCallback.properties env service disk properties r).1 := by
  unfold __DAMediaPropertyChangedCallback.properties
  dsimp only
  repeat apply __DAMediaPropertyChangedCallback.update_unmarked
  exact h

theorem __DAMediaPropertyChangedCallback_unmarked (env : ServerEnv) (menv : Env)
    (service : io_service_t) (s : Server) :
    s.Unmarked (__DAMediaPropertyChangedCallback env menv service s) := by
  unfold __DAMediaPropertyChangedCallback
  split
  · split
    · split
      · have h := __DAMediaPropertyChangedCallback.properties_unmarked env service ‹DADiskRef›
          ‹CFString → Option CFType› s _
          (__DAMediaPropertyChangedCallback.rename_unmarked env menv service ‹DADiskRef› s)
        dsimp only
        repeat' split
        all_goals exact h
      · exact Server.Unmarked.unmarked_refl s
    · exact Server.Unmarked.unmarked_refl s
  · exact Server.Unmarked.unmarked_refl s

theorem _DAMediaDisappearedCallback.unmount_unmarked (env : ServerEnv) (disk : DADiskRef)
    (locals : _DAMediaDisappearedCallback.Locals) (s : Server) :
    s.Unmarked (_DAMediaDisappearedCallback.unmount env disk locals s).2 := by
  unfold _DAMediaDisappearedCallback.unmount
  split
  · dsimp only
    repeat' split
    all_goals exact Server.Unmarked.unmarked_setState s disk _ _ (by decide)
  · exact Server.Unmarked.unmarked_refl s

theorem _DAMediaDisappearedCallback.links_unmarked (disk : DADiskRef) (s : Server) :
    s.Unmarked (_DAMediaDisappearedCallback.links disk s) := by
  unfold _DAMediaDisappearedCallback.links
  dsimp only
  split <;> split <;> exact Server.Unmarked.unmarked_refl s

theorem _DAMediaDisappearedCallback.release_unmarked (disk : DADiskRef) (s : Server) :
    s.Unmarked (_DAMediaDisappearedCallback.release disk s) := by
  unfold _DAMediaDisappearedCallback.release
  dsimp only
  split <;> exact Server.Unmarked.unmarked_refl s

theorem _DAMediaDisappearedCallback.whole_unmarked (disk : DADiskRef) (s : Server) :
    s.Unmarked (_DAMediaDisappearedCallback.whole disk s) := by
  unfold _DAMediaDisappearedCallback.whole
  split
  · exact ((Server.Unmarked.unmarked_unit _ _ _ _).unmarked_trans (Server.Unmarked.unmarked_unit _ _ _ _)).unmarked_trans
      (Server.Unmarked.unmarked_unit _ _ _ _)
  · exact Server.Unmarked.unmarked_refl s

theorem _DAMediaAppearedCallback.permissions_unmarked (disk : DADiskRef) (s : Server) :
    s.Unmarked (_DAMediaAppearedCallback.permissions disk s) := by
  have h1 : s.Unmarked
      (if DADiskGetMode (s.disks disk) ≠ 0 then
        (s.emit (ServerEvent.chmod (DADiskGetBSDPath (s.disks disk) true)
          (DADiskGetMode (s.disks disk) &&& 0o666))).emit
          (ServerEvent.chmod (DADiskGetBSDPath (s.disks disk) false)
            (DADiskGetMode (s.disks disk) &&& 0o666))
      else s) := by
    split <;> exact Server.Unmarked.unmarked_refl s
  unfold _DAMediaAppearedCallback.permissions
  dsimp only
  generalize (if DADiskGetMode (s.disks disk) ≠ 0 then
      (s.emit (ServerEvent.chmod (DADiskGetBSDPath (s.disks disk) true)
        (DADiskGetMode (s.disks disk) &&& 0o666))).emit
        (ServerEvent.chmod (DADiskGetBSDPath (s.disks disk) false)
          (DADiskGetMode (s.disks disk) &&& 0o666))
    else s) = s1 at h1
  split
  · split
    · exact h1
    · exact h1
  · split
    · split
      · exact h1
      · exact h1
    · split
      · exact h1
      · exact h1

theorem _DAMediaAppearedCallback.link_unmarked (env : ServerEnv) (disk : DADiskRef) (s : Server) :
    s.Unmarked (_DAMediaAppearedCallback.link env disk s) := by
  have hforget : ∀ x : Server, s.Unmarked x → s.Unmarked
      ((x.setDisk disk (DADiskSetBSDLink (x.disks disk) true none)).setDisk disk
        (DADiskSetBSDLink ((x.setDisk disk (DADiskSetBSDLink (x.disks disk) true none)).disks
          disk) false none)) :=
    fun x hx => (hx.unmarked_trans (Server.Unmarked.unmarked_setDisk x disk
        (DADiskSetBSDLink (x.disks disk) true none) rfl)).unmarked_trans
      (Server.Unmarked.unmarked_setDisk (x.setDisk disk (DADiskSetBSDLink (x.disks disk) true none)) disk
        (DADiskSetBSDLink ((x.setDisk disk (DADiskSetBSDLink (x.disks disk) true none)).disks
          disk) false none) rfl)
  unfold _DAMediaAppearedCallback.link
  split
  · split
    · exact Server.Unmarked.unmarked_refl s
    · dsimp only
      split
      · split
        · split
          · exact Server.Unmarked.unmarked_refl s
          · rename_i hr
            exact absurd rfl hr
        · split
          · rename_i hr
            exact absurd hr (by simp)
          · exact hforget _ (Server.Unmarked.unmarked_refl s)
      · split
        · rename_i hr
          exact absurd hr (by simp)
        · exact hforget _ (Server.Unmarked.unmarked_refl s)
  · exact Server.Unmarked.unmarked_refl s

theorem _DAMediaAppearedCallback.stage_unmarked (disk : DADiskRef) (s s1 : Server)
    (h : _DAMediaAppearedCallback.stage disk s = some s1) : s.Unmarked s1 := by
  unfold _DAMediaAppearedCallback.stage at h
  split at h
  · exact absurd h (by simp)
  · rename_i content _
    dsimp only at h
    have h1 : s.Unmarked
        (if content = CFType.string "41504653-0000-11AA-AA11-00306543ECAC".toList then
          DAUnitSetState s disk _kDAUnitStateHasAPFS true
        else s) := by
      split
      · exact Server.Unmarked.unmarked_unit _ _ _ _
      · exact Server.Unmarked.unmarked_refl s
    generalize (if content = CFType.string "41504653-0000-11AA-AA11-00306543ECAC".toList then
        DAUnitSetState s disk _kDAUnitStateHasAPFS true
      else s) = x at h h1
    split at h
    · split at h
      · rw [← Option.some.inj h]
        exact h1.unmarked_trans
          (Server.Unmarked.unmarked_setState x disk kDADiskStateStagedMount true (by decide))
      · rw [← Option.some.inj h]
        exact h1
    · rw [← Option.some.inj h]
      exact h1

theorem List.eraseP_eq_erase_of_nodup {β : Type} (f : DADiskRef → β) [DecidableEq β]
    (a : DADiskRef) :
    ∀ l : List DADiskRef, (l.map f).Nodup → a ∈ l →
      l.eraseP (fun v => decide (f v = f a)) = l.erase a := by
  intro l
  induction l with
  | nil => intro _ h; cases h
  | cons b l ih =>
    intro hn ha
    rw [List.map_cons, List.nodup_cons] at hn
    by_cases hb : b = a
    · subst hb
      simp
    · have ha1 : a ∈ l := by
        rcases List.mem_cons.1 ha with h | h
        · exact absurd h.symm hb
        · exact h
      have hf : f b ≠ f a := fun h => hn.1 (h ▸ List.mem_map_of_mem f ha1)
      rw [List.eraseP_cons_of_neg (by simpa using hf), List.erase_cons_tail (by simpa using hb),
        ih hn.2 ha1]

theorem Server.Registered.nodup {s : Server} (hr : s.Registered) : s.gDADiskList.Nodup :=
  List.Nodup.of_map _ hr.2

/-- What `_DAMediaDisappearedCallback` does to the disk list and to the Zombie
flags when it removes a disk of the list. -/
theorem _DAMediaDisappearedCallback.remove_spec (env : ServerEnv) (disk : DADiskRef)
    (locals : _DAMediaDisappearedCallback.Locals) (s : Server) (hr : s.Registered)
    (hmem : disk ∈ s.gDADiskList) :
    DADiskGetState ((_DAMediaDisappearedCallback.remove env disk locals s).2.disks disk)
        kDADiskStateZombie = true
      ∧ (_DAMediaDisappearedCallback.remove env disk locals s).2.gDADiskList
        = s.gDADiskList.erase disk
      ∧ disk ∉ (_DAMediaDisappearedCallback.remove env disk locals s).2.gDADiskList
      ∧ ∀ d, d ≠ disk →
        DADiskGetState ((_DAMediaDisappearedCallback.remove env disk locals s).2.disks d)
            kDADiskStateZombie
          = DADiskGetState (s.disks d) kDADiskStateZombie := by
  have hsame := (((_DAMediaDisappearedCallback.links_same disk s).same_trans
    (_DAMediaDisappearedCallback.release_same disk _)).same_trans
    (_DAMediaDisappearedCallback.unmount_same env disk locals _)).same_trans
    (_DAMediaDisappearedCallback.whole_same disk _)
  have hun := (((_DAMediaDisappearedCallback.links_unmarked disk s).unmarked_trans
    (_DAMediaDisappearedCallback.release_unmarked disk _)).unmarked_trans
    (_DAMediaDisappearedCallback.unmount_unmarked env disk locals _)).unmarked_trans
    (_DAMediaDisappearedCallback.whole_unmarked disk _)
  have hlist : (_DAMediaDisappearedCallback.remove env disk locals s).2.gDADiskList
      = s.gDADiskList.erase disk := by
    unfold _DAMediaDisappearedCallback.remove
    dsimp only
    generalize _DAMediaDisappearedCallback.whole disk
      (_DAMediaDisappearedCallback.unmount env disk locals
        (_DAMediaDisappearedCallback.release disk
          (_DAMediaDisappearedCallback.links disk s))).2 = x at hsame
    have hs4 := hsame.same_trans (Server.Same.setState x disk kDADiskStateZombie true)
    show ((x.setState disk kDADiskStateZombie true).gDADiskList.eraseP _) = _
    rw [hs4.1]
    have hp : (fun value => DADiskEqual (x.setState disk kDADiskStateZombie true) value disk)
        = fun v => decide (DADiskGetID (s.disks v) = DADiskGetID (s.disks disk)) := by
      funext v
      unfold DADiskEqual
      rw [hs4.2.2.1 v, hs4.2.2.1 disk]
    rw [hp]
    exact List.eraseP_eq_erase_of_nodup (fun v => DADiskGetID (s.disks v)) disk _ hr.2 hmem
  refine ⟨?_, hlist, ?_, fun d hd => ?_⟩
  · unfold _DAMediaDisappearedCallback.remove
    simp [___CFArrayRemoveValue, Server.setState, Server.setDisk, DADiskSetState, DADiskGetState]
  · rw [hlist]
    exact fun h => (hr.nodup.mem_erase_iff.1 h).1 rfl
  · rw [← hun d]
    unfold _DAMediaDisappearedCallback.remove
    simp [___CFArrayRemoveValue, Server.setState, Server.setDisk, Function.update, hd]

theorem _DAMediaDisappearedCallback.links_trace (disk : DADiskRef) (s : Server) :
    ∃ new, (_DAMediaDisappearedCallback.links disk s).trace = s.trace ++ new
      ∧ (∀ e ∈ new, ∃ link, e = ServerEvent.unlink link)
      ∧ (_DAMediaDisappearedCallback.links disk s).disks = s.disks := by
  unfold _DAMediaDisappearedCallback.links
  dsimp only
  cases hraw : DADiskGetBSDLink (s.disks disk) true with
  | none =>
    dsimp only
    cases hl : DADiskGetBSDLink (s.disks disk) false with
    | none => exact ⟨[], by simp, by simp, rfl⟩
    | some link => exact ⟨[ServerEvent.unlink link], by simp [Server.emit], by simp, rfl⟩
  | some raw =>
    dsimp only
    rw [Server.disks_emit]
    cases hl : DADiskGetBSDLink (s.disks disk) false with
    | none => exact ⟨[ServerEvent.unlink raw], by simp [Server.emit], by simp, rfl⟩
    | some link =>
      exact ⟨[ServerEvent.unlink raw, ServerEvent.unlink link], by simp [Server.emit], by simp,
        rfl⟩

theorem _DAMediaDisappearedCallback.unmount_trace (env : ServerEnv) (disk : DADiskRef)
    (locals : _DAMediaDisappearedCallback.Locals) (s : Server) :
    ∃ new, (_DAMediaDisappearedCallback.unmount env disk locals s).2.trace = s.trace ++ new
      ∧ ServerEvent.DADiskDisappearedCallback disk ∉ new := by
  unfold _DAMediaDisappearedCallback.unmount
  split
  · dsimp only
    split
    · split
      · exact ⟨[ServerEvent.DADiskUnmount disk kDADiskUnmountOptionForce],
          by simp [Server.emit, Server.setState, Server.setDisk], by simp⟩
      · exact ⟨[ServerEvent.DADiskUnmount disk kDADiskUnmountOptionForce,
            ServerEvent.DADialogShowDeviceRemoval locals.diskInfoArray],
          by simp [Server.emit, Server.setState, Server.setDisk], by simp⟩
    · exact ⟨[ServerEvent.DADiskUnmount disk kDADiskUnmountOptionForce],
        by simp [Server.emit, Server.setState, Server.setDisk], by simp⟩
  · exact ⟨[], by simp, by simp⟩

/-- The trace of the removal of a disk: the clients are told that the disk
disappeared exactly when the disk had appeared to them. -/
theorem _DAMediaDisappearedCallback.remove_trace (env : ServerEnv) (disk : DADiskRef)
    (locals : _DAMediaDisappearedCallback.Locals) (s : Server) :
    ∃ new, (_DAMediaDisappearedCallback.remove env disk locals s).2.trace = s.trace ++ new
      ∧ (ServerEvent.DADiskDisappearedCallback disk ∈ new
        ↔ DADiskGetState (s.disks disk) kDADiskStateStagedAppear = true) := by
  obtain ⟨n1, h1, h2, h3⟩ := _DAMediaDisappearedCallback.links_trace disk s
  obtain ⟨n3, h4, h5⟩ := _DAMediaDisappearedCallback.unmount_trace env disk locals
    (_DAMediaDisappearedCallback.release disk (_DAMediaDisappearedCallback.links disk s))
  have htr : (_DAMediaDisappearedCallback.remove env disk locals s).2.trace
      = (_DAMediaDisappearedCallback.unmount env disk locals
          (_DAMediaDisappearedCallback.release disk
            (_DAMediaDisappearedCallback.links disk s))).2.trace := by
    unfold _DAMediaDisappearedCallback.remove _DAMediaDisappearedCallback.whole
    dsimp only
    split <;> rfl
  have hn1 : ServerEvent.DADiskDisappearedCallback disk ∉ n1 := by
    intro h
    obtain ⟨link, hl⟩ := h2 _ h
    cases hl
  rw [htr, h4]
  unfold _DAMediaDisappearedCallback.release
  dsimp only
  rw [Server.disks_emit, h3]
  by_cases hs : DADiskGetState (s.disks disk) kDADiskStateStagedAppear = true
  · rw [if_pos hs]
    refine ⟨n1 ++ [ServerEvent.DAQueueReleaseDisk disk,
      ServerEvent.DADiskDisappearedCallback disk] ++ n3, ?_, ?_⟩
    · simp [Server.emit, h1]
    · simp [hs]
  · rw [if_neg hs]
    refine ⟨n1 ++ [ServerEvent.DAQueueReleaseDisk disk] ++ n3, ?_, ?_⟩
    · simp [Server.emit, h1]
    · simp [hs, hn1, h5]

theorem Server.Live.of_unmarked {s s1 : Server} (hl : s.Live)
    (hlist : ∀ disk ∈ s1.gDADiskList, disk ∈ s.gDADiskList) (hu : s.Unmarked s1) : s1.Live :=
  fun disk hd => (hu disk).trans (hl disk (hlist disk hd))

theorem Server.Live.of_same {s s1 : Server} (hl : s.Live) (hs : s.Same s1)
    (hu : s.Unmarked s1) : s1.Live :=
  hl.of_unmarked (fun _ hd => hs.1 ▸ hd) hu

theorem _DAMediaDisappearedCallback.remove_live (env : ServerEnv) (disk : DADiskRef)
    (locals : _DAMediaDisappearedCallback.Locals) (s : Server) (hr : s.Registered)
    (hl : s.Live) (hmem : disk ∈ s.gDADiskList) :
    (_DAMediaDisappearedCallback.remove env disk locals s).2.Live := by
  obtain ⟨_, h2, _, h4⟩ := _DAMediaDisappearedCallback.remove_spec env disk locals s hr hmem
  intro d hd
  rw [h2] at hd
  obtain ⟨hne, hd1⟩ := hr.nodup.mem_erase_iff.1 hd
  rw [h4 d hne]
  exact hl d hd1

theorem _DAMediaDisappearedCallback.media_holds (env : ServerEnv)
    (appeared : Server → Option Server) (context : Option DADiskRef) (media : io_service_t)
    (locals : _DAMediaDisappearedCallback.Locals) (s : Server)
    (r : _DAMediaDisappearedCallback.Locals × Server) (P : Server → Prop)
    (hremove : ∀ x disk locals, P x → disk ∈ x.gDADiskList →
      P (_DAMediaDisappearedCallback.remove env disk locals x).2)
    (happ : ∀ x x1, P x → appeared x = some x1 → P x1) (hs : P s)
    (h : _DAMediaDisappearedCallback.media env appeared context media locals s = some r) :
    P r.2 := by
  unfold _DAMediaDisappearedCallback.media at h
  split at h
  · rename_i disk hdisk
    rw [← Option.some.inj h]
    exact hremove _ _ _ hs (List.mem_of_find?_eq_some hdisk)
  · split at h
    · exact absurd h (by simp)
    · split at h
      · exact absurd h (by simp)
      · rename_i s1 hs1
        have hp1 := happ s s1 hs hs1
        split at h
        · rename_i disk hdisk
          rw [← Option.some.inj h]
          exact hremove _ _ _ hp1 (List.mem_of_find?_eq_some hdisk)
        · rw [← Option.some.inj h]
          exact hp1

theorem _DAMediaDisappearedCallback.loop_holds (env : ServerEnv)
    (appeared : Server → Option Server) (context : Option DADiskRef) (P : Server → Prop)
    (hremove : ∀ x disk locals, P x → disk ∈ x.gDADiskList →
      P (_DAMediaDisappearedCallback.remove env disk locals x).2)
    (happ : ∀ x x1, P x → appeared x = some x1 → P x1) (notification : List io_service_t) :
    ∀ (locals : _DAMediaDisappearedCallback.Locals) (s : Server)
      (r : _DAMediaDisappearedCallback.Locals × Server), P s →
      _DAMediaDisappearedCallback.loop env appeared context notification locals s = some r →
      P r.2 := by
  induction notification with
  | nil =>
    intro locals s r hs h
    unfold _DAMediaDisappearedCallback.loop at h
    rw [← Option.some.inj h]
    exact hs
  | cons media rest ih =>
    intro locals s r hs h
    unfold _DAMediaDisappearedCallback.loop at h
    split at h
    · rw [← Option.some.inj h]
      exact hs
    · split at h
      · exact absurd h (by simp)
      · rename_i r1 hr1
        have hp1 := _DAMediaDisappearedCallback.media_holds env appeared context media locals s
          r1 P hremove happ hs hr1
        split at h
        · rw [← Option.some.inj h]
          exact hp1
        · exact ih r1.1 r1.2 r hp1 h

theorem _DAMediaDisappearedCallback_holds (env : ServerEnv)
    (appeared : Server → Option Server) (context : Option DADiskRef)
    (notification : List io_service_t) (s s1 : Server) (P : Server → Prop)
    (hremove : ∀ x disk locals, P x → disk ∈ x.gDADiskList →
      P (_DAMediaDisappearedCallback.remove env disk locals x).2)
    (hemit : ∀ x e, P x → P (x.emit e))
    (happ : ∀ x x1, P x → appeared x = some x1 → P x1) (hs : P s)
    (h : _DAMediaDisappearedCallback env appeared context notification s = some s1) :
    P s1 := by
  unfold _DAMediaDisappearedCallback at h
  dsimp only at h
  split at h
  · exact absurd h (by simp)
  · rename_i r hr
    have hp := _DAMediaDisappearedCallback.loop_holds env appeared context P hremove happ _ _ s
      r hs hr
    rw [← Option.some.inj h]
    split
    · exact hemit _ _ (hemit _ _ hp)
    · exact hemit _ _ hp

/-- The removal of a disk of the list keeps the list registered and free of
zombies, and leaves a disk object outside the list as it is. -/
theorem _DAMediaDisappearedCallback.remove_apart (env : ServerEnv) (new : DADiskRef)
    (x : Server) (disk : DADiskRef) (locals : _DAMediaDisappearedCallback.Locals)
    (hp : (x.Registered ∧ x.Live)
      ∧ new ∉ x.gDADiskList ∧ DADiskGetState (x.disks new) kDADiskStateZombie = false)
    (hmem : disk ∈ x.gDADiskList) :
    ((_DAMediaDisappearedCallback.remove env disk locals x).2.Registered
        ∧ (_DAMediaDisappearedCallback.remove env disk locals x).2.Live)
      ∧ new ∉ (_DAMediaDisappearedCallback.remove env disk locals x).2.gDADiskList
      ∧ DADiskGetState ((_DAMediaDisappearedCallback.remove env disk locals x).2.disks new)
          kDADiskStateZombie = false := by
  obtain ⟨⟨hr, hl⟩, hn, hz⟩ := hp
  obtain ⟨_, h2, _, h4⟩ := _DAMediaDisappearedCallback.remove_spec env disk locals x hr hmem
  refine ⟨⟨(_DAMediaDisappearedCallback.remove_shrinks env disk locals x).shrinks_registered hr,
    _DAMediaDisappearedCallback.remove_live env disk locals x hr hl hmem⟩, ?_, ?_⟩
  · rw [h2]
    exact fun h => hn (List.mem_of_mem_erase h)
  · rw [h4 new (fun h => hn (h ▸ hmem))]
    exact hz

theorem _DAMediaAppearedCallback.insert_live (env : ServerEnv) (disk : DADiskRef)
    (s s1 : Server) (hl : s.Live)
    (hz : DADiskGetState (s.disks disk) kDADiskStateZombie = false)
    (h : _DAMediaAppearedCallback.insert env disk s = some s1) : s1.Live := by
  have hlist := (_DAMediaAppearedCallback.insert_list env disk s s1 h).1
  have hu1 : s.Unmarked s1 := by
    unfold _DAMediaAppearedCallback.insert at h
    dsimp only at h
    split at h
    · exact absurd h (by simp)
    · rename_i s3 hs3
      rw [← Option.some.inj h]
      exact (((_DAMediaAppearedCallback.permissions_unmarked disk s).unmarked_trans
        (_DAMediaAppearedCallback.link_unmarked env disk _)).unmarked_trans
        (_DAMediaAppearedCallback.stage_unmarked disk _ s3 hs3)).unmarked_trans
        (Server.Unmarked.unmarked_unit _ disk kDAUnitStateStagedUnreadable false)
  intro d hd
  rw [hlist] at hd
  rw [hu1 d]
  rcases List.mem_cons.1 hd with h | h
  · rw [h]
    exact hz
  · exact hl d h

theorem Server.Live.live_of_update (s : Server) (value : DADisk) (hr : s.Registered) (hl : s.Live)
    (hz : DADiskGetState value kDADiskStateZombie = false) :
    Server.Live
        { s with disks := Function.update s.disks s.created value, created := s.created + 1 }
      ∧ s.created ∉
        ({ s with disks := Function.update s.disks s.created value
                  created := s.created + 1 } : Server).gDADiskList
      ∧ DADiskGetState
          (({ s with disks := Function.update s.disks s.created value
                     created := s.created + 1 } : Server).disks s.created)
          kDADiskStateZombie = false := by
  have hn : s.created ∉ s.gDADiskList := fun h => Nat.lt_irrefl _ (hr.1 _ h)
  refine ⟨fun d hd => ?_, hn, by simpa using hz⟩
  have hne : d ≠ s.created := fun h => hn (h ▸ hd)
  show DADiskGetState (Function.update s.disks s.created value d) _ = _
  rw [Function.update_noteq hne]
  exact hl d hd

theorem _DAMediaAppearedCallback.media_live (env : ServerEnv) (menv : Env)
    (media : io_service_t) (s s1 : Server) (hr : s.Registered) (hl : s.Live)
    (hcreate : ∀ t m d, env.DADiskCreateFromIOMedia t m = some d →
      DADiskGetState d kDADiskStateZombie = false)
    (h : _DAMediaAppearedCallback.media env menv media s = some s1) : s1.Live := by
  unfold _DAMediaAppearedCallback.media at h
  split at h
  · have hp := hl.of_same (__DAMediaPropertyChangedCallback_same env menv media s)
      (__DAMediaPropertyChangedCallback_unmarked env menv media s)
    dsimp only at h
    split at h
    · split at h
      · rw [← Option.some.inj h]
        exact hp.of_same (Server.Same.emit _ _) (Server.Unmarked.unmarked_emit _ _)
      · rw [← Option.some.inj h]
        exact hp
    · rw [← Option.some.inj h]
      exact hp
  · dsimp only at h
    unfold DADiskCreateFromIOMedia at h
    cases hc : env.DADiskCreateFromIOMedia s.trace media with
    | none =>
      rw [hc] at h
      dsimp only at h
      rw [← Option.some.inj h]
      exact hl
    | some disk =>
      rw [hc] at h
      dsimp only at h
      obtain ⟨hr0, _⟩ := Server.Registered.of_update s
        { disk with media := media, unitState := DAUnitGetFlags s (DADiskGetBSDUnit disk) } hr
      obtain ⟨hl0, hn0, hz0⟩ := Server.Live.live_of_update s
        { disk with media := media, unitState := DAUnitGetFlags s (DADiskGetBSDUnit disk) } hr hl
        (hcreate _ _ disk hc)
      generalize hs0 : ({ s with
        disks := Function.update s.disks s.created
          { disk with media := media, unitState := DAUnitGetFlags s (DADiskGetBSDUnit disk) }
        created := s.created + 1 } : Server) = s0 at h hr0 hl0 hn0 hz0
      split at h
      · split at h
        · exact absurd h (by simp)
        · rename_i context _ _ x hx
          have hP := _DAMediaDisappearedCallback_holds env (fun _ => none) (some context) [] s0 x
            (fun y => (y.Registered ∧ y.Live)
              ∧ s.created ∉ y.gDADiskList
              ∧ DADiskGetState (y.disks s.created) kDADiskStateZombie = false)
            (fun y disk locals hy hmem =>
              _DAMediaDisappearedCallback.remove_apart env s.created y disk locals hy hmem)
            (fun y e hy => ⟨⟨(Server.Same.emit y e).same_registered hy.1.1,
              hy.1.2.of_same (Server.Same.emit y e) (Server.Unmarked.unmarked_emit y e)⟩,
              hy.2.1, hy.2.2⟩)
            (fun _ _ _ hy => absurd hy (by simp)) ⟨⟨hr0, hl0⟩, hn0, hz0⟩ hx
          split at h
          · exact absurd h (by simp)
          · exact _DAMediaAppearedCallback.insert_live env _ x s1 hP.1.2 hP.2.2 h
      · exact _DAMediaAppearedCallback.insert_live env _ s0 s1 hl0 hz0 h

theorem _DAMediaAppearedCallback.loop_live (env : ServerEnv) (menv : Env)
    (hcreate : ∀ t m d, env.DADiskCreateFromIOMedia t m = some d →
      DADiskGetState d kDADiskStateZombie = false)
    (notification : List io_service_t) :
    ∀ s s1 : Server, s.Registered ∧ s.Live →
      _DAMediaAppearedCallback.loop env menv notification s = some s1 →
      s1.Registered ∧ s1.Live := by
  induction notification with
  | nil =>
    intro s s1 hr h
    unfold _DAMediaAppearedCallback.loop at h
    rw [← Option.some.inj h]
    exact hr
  | cons media rest ih =>
    intro s s1 hr h
    unfold _DAMediaAppearedCallback.loop at h
    split at h
    · rw [← Option.some.inj h]
      exact hr
    · split at h
      · exact absurd h (by simp)
      · rename_i x hx
        exact ih x s1 ⟨_DAMediaAppearedCallback.media_registered env menv media s x hr.1 hx,
          _DAMediaAppearedCallback.media_live env menv media s x hr.1 hr.2 hcreate hx⟩ h

theorem _DAMediaAppearedCallback.pending_live (env : ServerEnv) (menv : Env)
    (hcreate : ∀ t m d, env.DADiskCreateFromIOMedia t m = some d →
      DADiskGetState d kDADiskStateZombie = false)
    (s s1 : Server) (hr : s.Registered ∧ s.Live)
    (h : _DAMediaAppearedCallback.pending env menv s = some s1) : s1.Registered ∧ s1.Live := by
  unfold _DAMediaAppearedCallback.pending _DAMediaAppearedCallback at h
  split at h
  · exact absurd h (by simp)
  · rename_i x hx
    rw [← Option.some.inj h]
    have hp := _DAMediaAppearedCallback.loop_live env menv hcreate _
      { s with gDAMediaAppearedNotification := [] } x hr hx
    exact ⟨(Server.Same.emit _ _).same_registered hp.1,
      hp.2.of_same (Server.Same.emit _ _) (Server.Unmarked.unmarked_emit _ _)⟩

theorem _DAVolumeMountedCallback.entry_live (env : ServerEnv) (fs : statfs) (s : Server)
    (hcreate : ∀ t f d, env.DADiskCreateFromVolumePath t f = some d →
      DADiskGetState d kDADiskStateZombie = false)
    (hr : s.Registered) (hl : s.Live) : (_DAVolumeMountedCallback.entry env fs s).Live := by
  unfold _DAVolumeMountedCallback.entry
  split
  · split
    · dsimp only
      split
      · exact hl.of_same ((Server.Same.emit s _).same_trans (Server.Same.emit _ _))
          ((Server.Unmarked.unmarked_emit s _).unmarked_trans (Server.Unmarked.unmarked_emit _ _))
      · exact hl.of_same (Server.Same.emit s _) (Server.Unmarked.unmarked_emit s _)
    · exact hl
  · split
    · split
      · split
        · dsimp only
          unfold DADiskCreateFromVolumePath
          cases hc : env.DADiskCreateFromVolumePath s.trace fs with
          | none => exact hl
          | some disk =>
            dsimp only
            obtain ⟨hl0, _, hz0⟩ := Server.Live.live_of_update s
              { disk with
                id := env._DAVolumeGetID fs
                media := IO_OBJECT_NULL
                unitState := DAUnitGetFlags s (DADiskGetBSDUnit disk) } hr hl
              (hcreate _ _ disk hc)
            intro d hd
            rcases List.mem_cons.1 hd with h | h
            · rw [h]
              exact hz0
            · exact hl0 d h
        · exact hl
      · exact hl
    · exact hl

theorem _DAVolumeMountedCallback_live (env : ServerEnv)
    (hcreate : ∀ t f d, env.DADiskCreateFromVolumePath t f = some d →
      DADiskGetState d kDADiskStateZombie = false)
    (mountList : List statfs) :
    ∀ s : Server, s.Registered ∧ s.Live →
      (_DAVolumeMountedCallback env mountList s).Registered
        ∧ (_DAVolumeMountedCallback env mountList s).Live := by
  induction mountList with
  | nil => intro s hr; exact hr
  | cons fs rest ih =>
    intro s hr
    exact ih _ ⟨_DAVolumeMountedCallback.entry_registered env fs s hr.1,
      _DAVolumeMountedCallback.entry_live env fs s hcreate hr.1 hr.2⟩

theorem Server.notify_live (env : ServerEnv) (menv : Env)
    (hmedia : ∀ t m d, env.DADiskCreateFromIOMedia t m = some d →
      DADiskGetState d kDADiskStateZombie = false)
    (hvolume : ∀ t f d, env.DADiskCreateFromVolumePath t f = some d →
      DADiskGetState d kDADiskStateZombie = false)
    (s s1 : Server) (notification : Notification) (hr : s.Registered ∧ s.Live)
    (h : s.notify env menv notification = some s1) : s1.Registered ∧ s1.Live := by
  cases notification with
  | mediaAppeared media =>
    exact _DAMediaAppearedCallback.pending_live env menv hmedia
      { s with gDAMediaAppearedNotification := s.gDAMediaAppearedNotification ++ media } s1 hr h
  | mediaDisappeared pending media =>
    exact _DAMediaDisappearedCallback_holds env (_DAMediaAppearedCallback.pending env menv) none
      media { s with gDAMediaAppearedNotification := s.gDAMediaAppearedNotification ++ pending }
      s1 (fun y => y.Registered ∧ y.Live)
      (fun y disk locals hy hmem =>
        ⟨(_DAMediaDisappearedCallback.remove_shrinks env disk locals y).shrinks_registered hy.1,
          _DAMediaDisappearedCallback.remove_live env disk locals y hy.1 hy.2 hmem⟩)
      (fun y e hy => ⟨(Server.Same.emit y e).same_registered hy.1,
        hy.2.of_same (Server.Same.emit y e) (Server.Unmarked.unmarked_emit y e)⟩)
      (fun x x1 hx hx1 => _DAMediaAppearedCallback.pending_live env menv hmedia x x1 hx hx1)
      hr h
  | volumeMounted mountList =>
    rw [← Option.some.inj h]
    exact _DAVolumeMountedCallback_live env hvolume mountList s hr

/-- Over the notifications of the kernel the disk list stays registered and free
of zombies, when the disk objects are made without the Zombie flag. -/
theorem Server.run_live (env : ServerEnv) (menv : Env)
    (hmedia : ∀ t m d, env.DADiskCreateFromIOMedia t m = some d →
      DADiskGetState d kDADiskStateZombie = false)
    (hvolume : ∀ t f d, env.DADiskCreateFromVolumePath t f = some d →
      DADiskGetState d kDADiskStateZombie = false)
    (notifications : List Notification) :
    ∀ s s1 : Server, s.Registered ∧ s.Live → Server.run env menv s notifications = some s1 →
      s1.Registered ∧ s1.Live := by
  induction notifications with
  | nil =>
    intro s s1 hr h
    unfold Server.run at h
    rw [← Option.some.inj h]
    exact hr
  | cons notification rest ih =>
    intro s s1 hr h
    unfold Server.run at h
    split at h
    · exact absurd h (by simp)
    · rename_i x hx
      exact ih x s1 (Server.notify_live env menv hmedia hvolume s x notification hr hx) h

theorem permissionCalls_append (a b : List ServerEvent) :
    permissionCalls (a ++ b) = permissionCalls a ++ permissionCalls b := by
  simp [permissionCalls]

theorem permissionCalls_permissionEvents (disk : DADisk) (permissions : Nat × uid_t) :
    permissionCalls (permissionEvents disk permissions) = permissionEvents disk permissions := by
  simp [permissionCalls, permissionEvents, ServerEvent.isPermission]

theorem permissionCalls_emit (s : Server) (e : ServerEvent) (h : e.isPermission = false) :
    permissionCalls (s.emit e).trace = permissionCalls s.trace := by
  simp [permissionCalls, Server.emit, h]

/-- The mode and the owner that the login branch of `_DAConfigurationCallback`
gives the device nodes of a disk, with a list of console users that is not
empty. -/
theorem _DAConfigurationCallback.loginPermissions_trace (gDAConsoleUserList : List CFType)
    (disk : DADiskRef) (s : Server) (hne : gDAConsoleUserList ≠ []) :
    (_DAConfigurationCallback.loginPermissions gDAConsoleUserList disk s).trace
        = s.trace ++
          (if DADiskGetDescription (s.disks disk) kDADiskDescriptionMediaTypeKey ≠ none then
            permissionEvents (s.disks disk)
              (devicePermissions gDAConsoleUserList.length s.gDAConsoleUserUID
                (writableMedia (s.disks disk)))
          else [])
      ∧ (_DAConfigurationCallback.loginPermissions gDAConsoleUserList disk s).disks = s.disks
      ∧ (_DAConfigurationCallback.loginPermissions gDAConsoleUserList disk s).gDAConsoleUserUID
        = s.gDAConsoleUserUID
      ∧ (_DAConfigurationCallback.loginPermissions gDAConsoleUserList disk s).gDAPreferenceList
        = s.gDAPreferenceList := by
  have e1 : (416 : Nat) &&& 292 = 288 := by decide
  have e2 : (438 : Nat) &&& 292 = 292 := by decide
  unfold _DAConfigurationCallback.loginPermissions
  by_cases hm : DADiskGetDescription (s.disks disk) kDADiskDescriptionMediaTypeKey ≠ none
  · rw [if_pos hm, if_pos hm, _DAConfigurationCallback.setPermissions_trace]
    refine ⟨?_, rfl, rfl, rfl⟩
    congr 2
    have hlen : gDAConsoleUserList.length ≠ 0 := fun h => hne (List.length_eq_zero.1 h)
    unfold devicePermissions writableMedia
    by_cases h1 : gDAConsoleUserList.length > 1
    · have h2 : gDAConsoleUserList.length ≠ 1 := by omega
      by_cases h : DADiskGetDescription (s.disks disk) kDADiskDescriptionMediaWritableKey
          = some kCFBooleanFalse
      · simp [h, h1, h2, e2]
      · simp [h, h1, h2]
    · have h2 : gDAConsoleUserList.length = 1 := by omega
      by_cases h : DADiskGetDescription (s.disks disk) kDADiskDescriptionMediaWritableKey
          = some kCFBooleanFalse
      · simp [h, h2, e1]
      · simp [h, h2]
  · rw [if_neg hm, if_neg hm]
    exact ⟨by simp, rfl, rfl, rfl⟩

/-- The mode and the owner that the logout branch of `_DAConfigurationCallback`
gives the device nodes of a disk. -/
theorem _DAConfigurationCallback.logoutPermissions_trace (disk : DADiskRef) (s : Server)
    (consoleUser : uid_t) :
    (_DAConfigurationCallback.logoutPermissions disk s).trace
        = s.trace ++
          (if DADiskGetDescription (s.disks disk) kDADiskDescriptionMediaTypeKey ≠ none then
            permissionEvents (s.disks disk)
              (devicePermissions 0 consoleUser (writableMedia (s.disks disk)))
          else []) := by
  have e1 : (416 : Nat) &&& 292 = 288 := by decide
  unfold _DAConfigurationCallback.logoutPermissions
  by_cases hm : DADiskGetDescription (s.disks disk) kDADiskDescriptionMediaTypeKey ≠ none
  · rw [if_pos hm, if_pos hm, _DAConfigurationCallback.setPermissions_trace]
    congr 2
    unfold devicePermissions writableMedia
    by_cases h : DADiskGetDescription (s.disks disk) kDADiskDescriptionMediaWritableKey
        = some kCFBooleanFalse
    · simp [h, e1]
    · simp [h]
  · rw [if_neg hm, if_neg hm]
    simp

theorem _DAConfigurationCallback.loginMount_calls (previousUserList : Option (List CFType))
    (disk : DADiskRef) (s : Server) :
    permissionCalls (_DAConfigurationCallback.loginMount previousUserList disk s).trace
        = permissionCalls s.trace
      ∧ (_DAConfigurationCallback.loginMount previousUserList disk s).disks = s.disks
      ∧ (_DAConfigurationCallback.loginMount previousUserList disk s).gDAConsoleUserUID
        = s.gDAConsoleUserUID := by
  unfold _DAConfigurationCallback.loginMount
  repeat' split
  all_goals first
    | exact ⟨rfl, rfl, rfl⟩
    | exact ⟨permissionCalls_emit _ _ rfl, rfl, rfl⟩

/-- The login branch of `_DAConfigurationCallback` gives the device nodes of
the disks of the list, in the order of the list, the mode and the owner of the
spec, and calls `chmod` and `chown` for nothing else. -/
theorem _DAConfigurationCallback.loggedIn_calls (gDAConsoleUserList : List CFType)
    (previousUserList : Option (List CFType)) (hne : gDAConsoleUserList ≠ []) :
    ∀ (list : List DADiskRef) (s : Server),
      permissionCalls
          (_DAConfigurationCallback.loggedIn gDAConsoleUserList previousUserList list s).trace
        = permissionCalls s.trace
          ++ devicePermissionEvents s.disks gDAConsoleUserList.length s.gDAConsoleUserUID
            list := by
  intro list
  induction list with
  | nil => intro s; simp [_DAConfigurationCallback.loggedIn, devicePermissionEvents]
  | cons disk rest ih =>
    intro s
    obtain ⟨h1, h2, h3, _⟩ := _DAConfigurationCallback.loginPermissions_trace
      gDAConsoleUserList disk s hne
    obtain ⟨m1, m2, m3⟩ := _DAConfigurationCallback.loginMount_calls previousUserList disk
      (_DAConfigurationCallback.loginPermissions gDAConsoleUserList disk s)
    unfold _DAConfigurationCallback.loggedIn
    rw [ih, m1, m2, m3, h1, h2, h3, permissionCalls_append, devicePermissionEvents]
    rw [List.append_assoc]
    congr 2
    split
    · exact permissionCalls_permissionEvents _ _
    · rfl

theorem _DAConfigurationCallback.logoutUnmount_calls (env : ServerEnv) (disk : DADiskRef)
    (s : Server) :
    permissionCalls (_DAConfigurationCallback.logoutUnmount env disk s).trace
      = permissionCalls s.trace := by
  rw [(_DAConfigurationCallback.logoutUnmount_spec env disk s).1, permissionCalls_append]
  split
  · split
    · split <;> simp [permissionCalls, ServerEvent.isPermission]
    · simp [permissionCalls, ServerEvent.isPermission]
  · simp [permissionCalls]

/-- The logout branch of `_DAConfigurationCallback` gives the device nodes of
the disks of the list, in the order of the list, the mode and the owner of the
spec for no user, and calls `chmod` and `chown` for nothing else. -/
theorem _DAConfigurationCallback.loggedOut.loop_calls (env : ServerEnv) (consoleUser : uid_t) :
    ∀ (list : List DADiskRef) (s : Server),
      permissionCalls (_DAConfigurationCallback.loggedOut.loop env list s).trace
        = permissionCalls s.trace ++ devicePermissionEvents s.disks 0 consoleUser list := by
  intro list
  induction list with
  | nil => intro s; simp [_DAConfigurationCallback.loggedOut.loop, devicePermissionEvents]
  | cons disk rest ih =>
    intro s
    obtain ⟨_, _, _, hd, _⟩ := _DAConfigurationCallback.logoutPermissions_spec disk s
    have h1 := _DAConfigurationCallback.logoutPermissions_trace disk s consoleUser
    have h2 := _DAConfigurationCallback.logoutUnmount_calls env disk
      (_DAConfigurationCallback.logoutPermissions disk s)
    have h3 := (_DAConfigurationCallback.logoutUnmount_spec env disk
      (_DAConfigurationCallback.logoutPermissions disk s)).2.1
    unfold _DAConfigurationCallback.loggedOut.loop
    rw [ih, h2, h3, hd, h1, permissionCalls_append, devicePermissionEvents]
    rw [List.append_assoc]
    congr 2
    split
    · exact permissionCalls_permissionEvents _ _
    · rfl

theorem _DAConfigurationCallback.loggedOut_calls (env : ServerEnv) (consoleUser : uid_t)
    (s : Server) :
    permissionCalls (_DAConfigurationCallback.loggedOut env s).trace
      = permissionCalls s.trace ++ devicePermissionEvents s.disks 0 consoleUser s.gDADiskList := by
  unfold _DAConfigurationCallback.loggedOut
  dsimp only
  rw [_DAConfigurationCallback.loggedOut.loop_calls env consoleUser]
  congr 1
  simp [permissionCalls, Server.emit, ServerEvent.isPermission]

theorem _DAConfigurationCallback.departedUnmount_calls (previousUserUID : uid_t) :
    ∀ (list : List DADiskRef) (s : Server),
      permissionCalls (_DAConfigurationCallback.departedUnmount previousUserUID list s).trace
          = permissionCalls s.trace
        ∧ (_DAConfigurationCallback.departedUnmount previousUserUID list s).gDAConsoleUserUID
          = s.gDAConsoleUserUID := by
  intro list
  induction list with
  | nil => intro s; exact ⟨rfl, rfl⟩
  | cons disk rest ih =>
    intro s
    unfold _DAConfigurationCallback.departedUnmount
    split
    · split
      · exact ⟨(ih _).1.trans (permissionCalls_emit _ _ rfl), (ih _).2⟩
      · exact ih _
    · exact ih _

theorem _DAConfigurationCallback.departedEject_calls (previousUserUID : uid_t) :
    ∀ (list : List DADiskRef) (s : Server),
      permissionCalls (_DAConfigurationCallback.departedEject previousUserUID list s).trace
          = permissionCalls s.trace
        ∧ (_DAConfigurationCallback.departedEject previousUserUID list s).gDAConsoleUserUID
          = s.gDAConsoleUserUID := by
  intro list
  induction list with
  | nil => intro s; exact ⟨rfl, rfl⟩
  | cons disk rest ih =>
    intro s
    unfold _DAConfigurationCallback.departedEject
    split
    · split
      · exact ⟨(ih _).1.trans (permissionCalls_emit _ _ rfl), (ih _).2⟩
      · exact ih _
    · exact ih _

theorem _DAConfigurationCallback.departed_calls (env : ServerEnv) (previousUserUID : uid_t)
    (s : Server) :
    permissionCalls (_DAConfigurationCallback.departed env previousUserUID s).trace
        = permissionCalls s.trace
      ∧ (_DAConfigurationCallback.departed env previousUserUID s).gDAConsoleUserUID
        = s.gDAConsoleUserUID := by
  unfold _DAConfigurationCallback.departed
  split
  · exact ⟨rfl, rfl⟩
  · obtain ⟨h1, h2⟩ := _DAConfigurationCallback.departedEject_calls previousUserUID
      s.gDADiskList (_DAConfigurationCallback.departedUnmount previousUserUID s.gDADiskList s)
    obtain ⟨h3, h4⟩ := _DAConfigurationCallback.departedUnmount_calls previousUserUID
      s.gDADiskList s
    exact ⟨h1.trans h3, h2.trans h4⟩

/-- The calls of `chmod` and `chown` of `_DAConfigurationCallback`, when it does
not wait and the list of console users is not an empty list: for the disks of
the disk list that have a media type, in the order of the list, the mode and
the owner of the spec, for the number of users of the new list and the new
console user. -/
theorem _DAConfigurationCallback_calls (env : ServerEnv) (session : Bool) (s : Server)
    (hwait : _DAConfigurationCallback.wait env session
      (env.___SCDynamicStoreCopyConsoleUser s.trace session).1 s = some false)
    (hne : env.___SCDynamicStoreCopyConsoleInformation s.trace session ≠ some []) :
    ∃ s1, _DAConfigurationCallback env session s = some s1
      ∧ permissionCalls s1.trace
        = permissionCalls s.trace
          ++ devicePermissionEvents s.disks
            ((env.___SCDynamicStoreCopyConsoleInformation s.trace session).getD []).length
            (env.___SCDynamicStoreCopyConsoleUser s.trace session).2.1 s.gDADiskList := by
  obtain ⟨h1, h2, h3, _⟩ := _DAConfigurationCallback.departed_frame env s.gDAConsoleUserUID
    { s with
      gDAConsoleUser := (env.___SCDynamicStoreCopyConsoleUser s.trace session).1
      gDAConsoleUserGID := (env.___SCDynamicStoreCopyConsoleUser s.trace session).2.2
      gDAConsoleUserUID := (env.___SCDynamicStoreCopyConsoleUser s.trace session).2.1
      gDAConsoleUserList := env.___SCDynamicStoreCopyConsoleInformation s.trace session }
  obtain ⟨h4, h5⟩ := _DAConfigurationCallback.departed_calls env s.gDAConsoleUserUID
    { s with
      gDAConsoleUser := (env.___SCDynamicStoreCopyConsoleUser s.trace session).1
      gDAConsoleUserGID := (env.___SCDynamicStoreCopyConsoleUser s.trace session).2.2
      gDAConsoleUserUID := (env.___SCDynamicStoreCopyConsoleUser s.trace session).2.1
      gDAConsoleUserList := env.___SCDynamicStoreCopyConsoleInformation s.trace session }
  have hkey : ∀ s2 : Server, s2.disks = s.disks → s2.gDADiskList = s.gDADiskList →
      s2.gDAConsoleUserUID = (env.___SCDynamicStoreCopyConsoleUser s.trace session).2.1 →
      s2.gDAConsoleUserList = env.___SCDynamicStoreCopyConsoleInformation s.trace session →
      permissionCalls s2.trace = permissionCalls s.trace →
      permissionCalls
          ((match s2.gDAConsoleUserList with
            | some gDAConsoleUserList =>
              _DAConfigurationCallback.loggedIn gDAConsoleUserList s.gDAConsoleUserList
                s2.gDADiskList s2
            | none => _DAConfigurationCallback.loggedOut env s2).emit
            ServerEvent.DAStageSignal).trace
        = permissionCalls s.trace
          ++ devicePermissionEvents s.disks
            ((env.___SCDynamicStoreCopyConsoleInformation s.trace session).getD []).length
            (env.___SCDynamicStoreCopyConsoleUser s.trace session).2.1 s.gDADiskList := by
    intro s2 hd hl hu hlist hc
    have hsignal : ∀ x : Server,
        permissionCalls (x.emit ServerEvent.DAStageSignal).trace = permissionCalls x.trace :=
      fun x => permissionCalls_emit x _ rfl
    rw [hsignal, hlist]
    cases hinfo : env.___SCDynamicStoreCopyConsoleInformation s.trace session with
    | none =>
      dsimp only
      rw [_DAConfigurationCallback.loggedOut_calls env
        (env.___SCDynamicStoreCopyConsoleUser s.trace session).2.1, hd, hl, hc]
      rfl
    | some users =>
      dsimp only
      rw [_DAConfigurationCallback.loggedIn_calls users _ (fun h => hne (by rw [hinfo, h])),
        hd, hl, hu, hc]
      rfl
  by_cases hu : (env.___SCDynamicStoreCopyConsoleUser s.trace session).1 ≠ none
  · refine ⟨_, ?_, hkey { s with
        gDAConsoleUser := (env.___SCDynamicStoreCopyConsoleUser s.trace session).1
        gDAConsoleUserGID := (env.___SCDynamicStoreCopyConsoleUser s.trace session).2.2
        gDAConsoleUserUID := (env.___SCDynamicStoreCopyConsoleUser s.trace session).2.1
        gDAConsoleUserList := env.___SCDynamicStoreCopyConsoleInformation s.trace session }
      rfl rfl rfl rfl rfl⟩
    unfold _DAConfigurationCallback
    dsimp only
    rw [hwait]
    dsimp only
    rw [if_pos hu]
  · refine ⟨_, ?_, hkey _ h1 h2 h5 h3 h4⟩
    unfold _DAConfigurationCallback
    dsimp only
    rw [hwait]
    dsimp only
    rw [if_neg hu]

theorem _DAMediaAppearedCallback.link_calls (env : ServerEnv) (disk : DADiskRef) (s : Server) :
    permissionCalls (_DAMediaAppearedCallback.link env disk s).trace
      = permissionCalls s.trace := by
  unfold _DAMediaAppearedCallback.link
  split
  · split
    · rfl
    · dsimp only
      split
      · split
        · split
          · simp [permissionCalls, Server.emit, ServerEvent.isPermission]
          · rename_i hr
            exact absurd rfl hr
        · split
          · rename_i hr
            exact absurd hr (by simp)
          · simp [permissionCalls, Server.emit, Server.setDisk, ServerEvent.isPermission]
      · split
        · rename_i hr
          exact absurd hr (by simp)
        · simp [permissionCalls, Server.emit, Server.setDisk, ServerEvent.isPermission]
  · rfl

theorem _DAMediaAppearedCallback.stage_trace (disk : DADiskRef) (s s1 : Server)
    (h : _DAMediaAppearedCallback.stage disk s = some s1) : s1.trace = s.trace := by
  unfold _DAMediaAppearedCallback.stage at h
  split at h
  · exact absurd h (by simp)
  · rename_i content _
    dsimp only at h
    have h1 : (if content = CFType.string "41504653-0000-11AA-AA11-00306543ECAC".toList then
          DAUnitSetState s disk _kDAUnitStateHasAPFS true
        else s).trace = s.trace := by
      split <;> rfl
    generalize (if content = CFType.string "41504653-0000-11AA-AA11-00306543ECAC".toList then
        DAUnitSetState s disk _kDAUnitStateHasAPFS true
      else s) = x at h h1
    split at h
    · split at h
      · rw [← Option.some.inj h]
        exact h1
      · rw [← Option.some.inj h]
        exact h1
    · rw [← Option.some.inj h]
      exact h1

/-- The calls of `chmod` and `chown` for a disk that appears are those of the
permissions step. -/
theorem _DAMediaAppearedCallback.insert_calls (env : ServerEnv) (disk : DADiskRef)
    (s s1 : Server) (h : _DAMediaAppearedCallback.insert env disk s = some s1) :
    permissionCalls s1.trace
      = permissionCalls (_DAMediaAppearedCallback.permissions disk s).trace := by
  unfold _DAMediaAppearedCallback.insert at h
  dsimp only at h
  split at h
  · exact absurd h (by simp)
  · rename_i s3 hs3
    rw [← Option.some.inj h, ← _DAMediaAppearedCallback.link_calls env disk
      (_DAMediaAppearedCallback.permissions disk s),
      ← _DAMediaAppearedCallback.stage_trace disk _ s3 hs3]
    rfl

/-! ## Claims about the requests, the console user and the registry -/

/-- C30: `_DAServerDiskUnclaim` returns `kDAReturnSuccess` exactly when the
session handle is not 0 and is the handle of a session of the list, the id is
that of a disk of the list, that disk has a claim, and the callback of the claim
belongs to that session; it then clears the claim of that disk.  In every
other case (another known session, a disk without a claim, an unknown id, the
handle 0 or an unknown handle) it returns `kDAReturnBadArgument` and the state,
the claim of the disk included, is as it was.  In every case every disk but the
one found by the id is as it was, and a claim that differs afterwards is that of
the disk found, cleared by a successful call. -/
theorem unclaim_is_for_the_claiming_session (s : Server) (_session : mach_port_t)
    (_disk : CFString) :
    ((_DAServerDiskUnclaim _session _disk s).1 = kDAReturnSuccess ↔
        _session ≠ 0 ∧ ∃ session disk callback,
          __DASessionListGetSession s _session = some session
            ∧ __DADiskListGetDisk s _disk = some disk
            ∧ DADiskGetClaim (s.disks disk) = some callback
            ∧ DACallbackGetSession callback = some session)
      ∧ ((_DAServerDiskUnclaim _session _disk s).1 ≠ kDAReturnSuccess →
        _DAServerDiskUnclaim _session _disk s = (kDAReturnBadArgument, s))
      ∧ (∀ disk, (_DAServerDiskUnclaim _session _disk s).1 = kDAReturnSuccess →
          __DADiskListGetDisk s _disk = some disk →
          (_DAServerDiskUnclaim _session _disk s).2
            = s.setDisk disk (DADiskSetClaim (s.disks disk) none))
      ∧ (∀ other, __DADiskListGetDisk s _disk ≠ some other →
          (_DAServerDiskUnclaim _session _disk s).2.disks other = s.disks other)
      ∧ (∀ disk, DADiskGetClaim ((_DAServerDiskUnclaim _session _disk s).2.disks disk)
            ≠ DADiskGetClaim (s.disks disk) →
          (_DAServerDiskUnclaim _session _disk s).1 = kDAReturnSuccess
            ∧ __DADiskListGetDisk s _disk = some disk
            ∧ DADiskGetClaim ((_DAServerDiskUnclaim _session _disk s).2.disks disk) = none) := by
  have hne : kDAReturnBadArgument ≠ kDAReturnSuccess := by decide
  suffices h : (_DAServerDiskUnclaim _session _disk s = (kDAReturnBadArgument, s)
        ∧ ¬ (_session ≠ 0 ∧ ∃ session disk callback,
          __DASessionListGetSession s _session = some session
            ∧ __DADiskListGetDisk s _disk = some disk
            ∧ DADiskGetClaim (s.disks disk) = some callback
            ∧ DACallbackGetSession callback = some session))
      ∨ (_session ≠ 0 ∧ ∃ session disk callback,
          __DASessionListGetSession s _session = some session
            ∧ __DADiskListGetDisk s _disk = some disk
            ∧ DADiskGetClaim (s.disks disk) = some callback
            ∧ DACallbackGetSession callback = some session
            ∧ _DAServerDiskUnclaim _session _disk s
              = (kDAReturnSuccess, s.setDisk disk (DADiskSetClaim (s.disks disk) none))) by
    rcases h with ⟨hval, hnot⟩ | ⟨h0, session, disk, callback, hl, hd, hc, hs, hval⟩
    · rw [hval]
      exact ⟨⟨fun h => absurd h hne, fun h => absurd h hnot⟩, fun _ => rfl,
        fun d h => absurd h hne, fun _ _ => rfl, fun d hdiff => absurd rfl hdiff⟩
    · rw [hval]
      refine ⟨⟨fun _ => ⟨h0, session, disk, callback, hl, hd, hc, hs⟩, fun _ => rfl⟩,
        fun h => absurd rfl h, fun d _ hd1 => ?_, fun other ho => ?_, fun d hdiff => ?_⟩
      · rw [hd] at hd1
        cases Option.some.inj hd1
        rfl
      · have : other ≠ disk := fun h => ho (by rw [h, hd])
        simp [Server.setDisk, Function.update, this]
      · by_cases hdd : d = disk
        · subst hdd
          exact ⟨rfl, hd, by simp [Server.setDisk, DADiskGetClaim, DADiskSetClaim]⟩
        · exact absurd (by simp [Server.setDisk, Function.update, hdd]) hdiff
  by_cases h0 : _session ≠ 0
  · cases hl : __DASessionListGetSession s _session with
    | none =>
      refine Or.inl ⟨?_, ?_⟩
      · unfold _DAServerDiskUnclaim
        rw [if_pos h0, hl]
      · rintro ⟨_, session1, disk1, callback1, h1, _⟩
        cases h1
    | some session =>
      cases hd : __DADiskListGetDisk s _disk with
      | none =>
        refine Or.inl ⟨?_, ?_⟩
        · unfold _DAServerDiskUnclaim
          rw [if_pos h0, hl]
          dsimp only
          rw [hd]
        · rintro ⟨_, session1, disk1, callback1, _, h2, _⟩
          cases h2
      | some disk =>
        cases hc : DADiskGetClaim (s.disks disk) with
        | none =>
          refine Or.inl ⟨?_, ?_⟩
          · unfold _DAServerDiskUnclaim
            rw [if_pos h0, hl]
            dsimp only
            rw [hd]
            dsimp only
            rw [hc]
          · rintro ⟨_, session1, disk1, callback1, _, h2, h3, _⟩
            cases Option.some.inj h2
            rw [hc] at h3
            cases h3
        | some callback =>
          by_cases hs : DACallbackGetSession callback = some session
          · refine Or.inr ⟨h0, session, disk, callback, rfl, rfl, hc, hs, ?_⟩
            unfold _DAServerDiskUnclaim
            rw [if_pos h0, hl]
            dsimp only
            rw [hd]
            dsimp only
            rw [hc]
            dsimp only
            rw [if_pos hs]
          · refine Or.inl ⟨?_, ?_⟩
            · unfold _DAServerDiskUnclaim
              rw [if_pos h0, hl]
              dsimp only
              rw [hd]
              dsimp only
              rw [hc]
              dsimp only
              rw [if_neg hs]
            · rintro ⟨_, session1, disk1, callback1, h1, h2, h3, h4⟩
              cases Option.some.inj h1
              cases Option.some.inj h2
              rw [hc] at h3
              cases Option.some.inj h3
              exact hs h4
  · refine Or.inl ⟨?_, fun h => h0 h.1⟩
    unfold _DAServerDiskUnclaim
    rw [if_neg h0]

/-- C30 for the example daemon: session 2 cannot give up the claim of session 1
on `/dev/disk2`, and nothing changes. -/
theorem unclaim_is_for_the_claiming_session_witness :
    _DAServerDiskUnclaim 102 "/dev/disk2".toList Server.withClaim
        = (kDAReturnBadArgument, Server.withClaim)
      ∧ DADiskGetClaim
          ((_DAServerDiskUnclaim 102 "/dev/disk2".toList Server.withClaim).2.disks 0)
        = some claimCallback
      ∧ (_DAServerDiskUnclaim 101 "/dev/disk2".toList Server.withClaim).1 = kDAReturnSuccess :=
  ⟨(unclaim_is_for_the_claiming_session Server.withClaim 102 "/dev/disk2".toList).2.1
      (by decide),
    by decide, by decide⟩

/-- C27: `DAMountContainsArgument` returns FALSE for a NULL list and for the
empty list.  A list that is one element `X=Y`, where `X` is empty or is
`owners` or `perm` whatever the case of its letters, and `Y` is `noowners` or
`noperm`, is treated as the single argument `noowners`: the element is mapped to
`noowners`, the string handed to `getmntopts` is `noowners`, and the answer for
every argument is the answer for the list `noowners`.  So, `getmntopts` setting
`MNT_IGNORE_OWNERSHIP` for `noowners`, the list contains `noowners` and does not
contain `owners`. -/
theorem ownership_pair_is_treated_as_noowners (env : Env) (itemOne itemTwo argument : CFString)
    (h1 : itemOne.length = 0
      ∨ CFStringCompareCaseInsensitive itemOne kDAFileSystemMountArgumentOwnership = true
      ∨ CFStringCompareCaseInsensitive itemOne kDAFileSystemMountArgumentPermission = true)
    (h2 : itemTwo = kDAFileSystemMountArgumentNoOwnership
      ∨ itemTwo = kDAFileSystemMountArgumentNoPermission) :
    DAMountContainsArgument env none argument = false
      ∧ DAMountContainsArgument env (some []) argument = false
      ∧ DAMountContainsArgument.mapArgument (itemOne ++ '=' :: itemTwo)
        = kDAFileSystemMountArgumentNoOwnership
      ∧ DAMountContainsArgument.loop env argument
          (CFStringCreateArrayBySeparatingStrings (itemOne ++ '=' :: itemTwo) ',') false []
        = (false, kDAFileSystemMountArgumentNoOwnership)
      ∧ DAMountContainsArgument env (some (itemOne ++ '=' :: itemTwo)) argument
        = __DAMountCheckMntOptsForString env kDAFileSystemMountArgumentNoOwnership argument
      ∧ DAMountContainsArgument env (some (itemOne ++ '=' :: itemTwo)) argument
        = DAMountContainsArgument env (some kDAFileSystemMountArgumentNoOwnership) argument
      ∧ (∀ mntflags, env.getmntopts kDAFileSystemMountArgumentNoOwnership = some mntflags →
          mntflags.MNT_IGNORE_OWNERSHIP = true →
          DAMountContainsArgument env (some (itemOne ++ '=' :: itemTwo))
              kDAFileSystemMountArgumentNoOwnership = true
            ∧ DAMountContainsArgument env (some (itemOne ++ '=' :: itemTwo))
              kDAFileSystemMountArgumentOwnership = false) := by
  have hp := ownershipItem_plain itemOne h1
  have h2c : ',' ∉ itemTwo := by
    rcases h2 with h | h <;> subst h <;> decide
  have hcomma : ',' ∉ itemOne ++ '=' :: itemTwo := by
    simp only [List.mem_append, List.mem_cons, not_or]
    exact ⟨hp.1, by decide, h2c⟩
  have hdash : List.isPrefixOf ['-'] (itemOne ++ '=' :: itemTwo) = false := by
    cases itemOne with
    | nil => rfl
    | cons c rest =>
      have hc : c ≠ '-' := fun e => hp.2.2 (by simp [e])
      simp [List.isPrefixOf, Ne.symm hc]
  have hmap := DAMountContainsArgument.mapArgument_pair itemOne itemTwo h1 h2
  have hloop : DAMountContainsArgument.loop env argument
      (CFStringCreateArrayBySeparatingStrings (itemOne ++ '=' :: itemTwo) ',') false []
        = (false, kDAFileSystemMountArgumentNoOwnership) := by
    rw [separating_of_not_mem _ ',' hcomma]
    simp [DAMountContainsArgument.loop, hdash, hmap, CFStringAppend]
  have hall : ∀ a, DAMountContainsArgument env (some (itemOne ++ '=' :: itemTwo)) a
      = __DAMountCheckMntOptsForString env kDAFileSystemMountArgumentNoOwnership a := by
    intro a
    have hloopa : DAMountContainsArgument.loop env a
        (CFStringCreateArrayBySeparatingStrings (itemOne ++ '=' :: itemTwo) ',') false []
          = (false, kDAFileSystemMountArgumentNoOwnership) := by
      rw [separating_of_not_mem _ ',' hcomma]
      simp [DAMountContainsArgument.loop, hdash, hmap, CFStringAppend]
    unfold DAMountContainsArgument
    simp only [hloopa]
    rfl
  refine ⟨rfl, rfl, hmap, hloop, hall argument, (hall argument).trans rfl, ?_⟩
  intro mntflags hm hflag
  rw [hall, hall]
  unfold __DAMountCheckMntOptsForString
  rw [hm]
  simp [hflag, kDAFileSystemMountArgumentOwnership, kDAFileSystemMountArgumentNoOwnership,
    kDAFileSystemMountArgumentForce, kDAFileSystemMountArgumentNoDevice,
    kDAFileSystemMountArgumentNoPermission, kDAFileSystemMountArgumentNoSetUserID,
    kDAFileSystemMountArgumentNoWrite, kDAFileSystemMountArgumentUnion,
    kDAFileSystemMountArgumentUpdate, kDAFileSystemMountArgumentNoBrowse,
    kDAFileSystemMountArgumentNoFollow, kDAFileSystemMountArgumentNoExecute,
    kDAFileSystemMountArgumentDevice]

/-- C27 on the quiet machine: the list `Owners=noperm` contains `noowners` and
does not contain `owners`. -/
theorem ownership_pair_is_treated_as_noowners_witness :
    DAMountContainsArgument Env.reference (some "Owners=noperm".toList)
        kDAFileSystemMountArgumentNoOwnership = true
      ∧ DAMountContainsArgument Env.reference (some "Owners=noperm".toList)
        kDAFileSystemMountArgumentOwnership = false :=
  (ownership_pair_is_treated_as_noowners Env.reference "Owners".toList "noperm".toList []
    (Or.inr (Or.inl (by decide))) (Or.inr rfl)).2.2.2.2.2.2 _ rfl (by decide)

/-- C29: a request that passes the allocations and the target-disk-mode check
of `DAMountWithArguments` is rejected with `EINVAL`, its callback being invoked
with that status right after the call and nothing else being done, when the
options contain `update` and the caller gave a mount point or the disk has no
volume path, and when the options contain the snapshot argument and no mount
point is known (none was given and none comes from an update) or the disk has no
volume path.  When the composition succeeds: with `update`, no mount point was
given and the mount point of the request is the volume path of the disk; with
the snapshot argument, there is a mount point and the device path of the
request is the volume path of the disk, while without it the device path is the
device node; and the mount step, for a request that has a mount point, makes no
other one and invokes the mount helper with that mount point and the device path
of the request. -/
theorem inconsistent_update_and_snapshot_requests_are_rejected (env : Env) (disk : DADiskRef)
    (mountpoint : Option CFType) (callback : Option DAMountCallback) (callbackContext : Nat)
    (arguments : List CFString) (w : World)
    (hm : env.malloc (w.trace
      ++ [Event.DAMountWithArguments disk mountpoint callback callbackContext arguments]) = true)
    (hs : env.CFStringCreateMutable (w.trace
      ++ [Event.DAMountWithArguments disk mountpoint callback callbackContext arguments]) = true)
    (ht : DAMountWithArguments.tdmLocked (w.disks disk) = 0) :
    (DAMountContainsArgument env
          (some (DAMountWithArguments.requestOptions env (w.disks disk) arguments))
          kDAFileSystemMountArgumentUpdate = true →
        mountpoint ≠ none
          ∨ DADiskGetDescription (w.disks disk) kDADiskDescriptionVolumePathKey = none →
        DAMountWithArguments env disk mountpoint callback callbackContext arguments w
          = some (invokeCallback callback EINVAL none callbackContext
              (w.emit (Event.DAMountWithArguments disk mountpoint callback callbackContext
                arguments))))
      ∧ (DAMountContainsArgument env
          (some (DAMountWithArguments.requestOptions env (w.disks disk) arguments))
          kDAFileSystemMountArgumentSnapshot = true →
        (DAMountContainsArgument env
              (some (DAMountWithArguments.requestOptions env (w.disks disk) arguments))
              kDAFileSystemMountArgumentUpdate = false ∧ mountpoint = none)
          ∨ DADiskGetDescription (w.disks disk) kDADiskDescriptionVolumePathKey = none →
        DAMountWithArguments env disk mountpoint callback callbackContext arguments w
          = some (invokeCallback callback EINVAL none callbackContext
              (w.emit (Event.DAMountWithArguments disk mountpoint callback callbackContext
                arguments))))
      ∧ (∀ cb, callback = some cb →
        (invokeCallback callback EINVAL none callbackContext
            (w.emit (Event.DAMountWithArguments disk mountpoint callback callbackContext
              arguments))).trace
          = w.trace ++ [Event.DAMountWithArguments disk mountpoint callback callbackContext
              arguments, Event.callback cb EINVAL none callbackContext])
      ∧ ∀ setup w1,
        DAMountWithArguments.compose env disk mountpoint arguments
            (w.emit (Event.DAMountWithArguments disk mountpoint callback callbackContext
              arguments)) = (Except.ok setup, w1) →
        (DAMountContainsArgument env
              (some (DAMountWithArguments.requestOptions env (w.disks disk) arguments))
              kDAFileSystemMountArgumentUpdate = true →
            mountpoint = none
              ∧ setup.mountpoint
                = DADiskGetDescription (w.disks disk) kDADiskDescriptionVolumePathKey
              ∧ setup.mountpoint ≠ none)
          ∧ (DAMountContainsArgument env
              (some (DAMountWithArguments.requestOptions env (w.disks disk) arguments))
              kDAFileSystemMountArgumentSnapshot = true →
            setup.mountpoint ≠ none
              ∧ setup.devicePath
                = DADiskGetDescription (w.disks disk) kDADiskDescriptionVolumePathKey
              ∧ setup.devicePath ≠ none)
          ∧ (DAMountContainsArgument env
              (some (DAMountWithArguments.requestOptions env (w.disks disk) arguments))
              kDAFileSystemMountArgumentSnapshot = false →
            setup.devicePath = some (CFType.url (DADiskGetDevice (w.disks disk))))
          ∧ ∀ m x, setup.mountpoint = some m →
            __DAMountWithArgumentsCallbackStage1.mountpoint env
                (DAMountWithArguments.context disk callback callbackContext setup) x
              = (some m, x)
            ∧ (__DAMountWithArgumentsCallbackStage1.execute env
                (DAMountWithArguments.context disk callback callbackContext setup) m x).trace
              = x.trace ++ [Event.DAFileSystemMountWithArguments
                  (DAFileSystemGetKind (x.disks disk)) setup.devicePath
                  (DADiskGetDescription (x.disks disk) kDADiskDescriptionVolumeNameKey)
                  (some m) (DADiskGetUserUID (x.disks disk)) (DADiskGetUserGID (x.disks disk))
                  (env.gDAPreferenceList kDAPreferenceMountMethodkey) setup.options] := by
  have hreject : DAMountWithArguments.compose env disk mountpoint arguments
        (w.emit (Event.DAMountWithArguments disk mountpoint callback callbackContext
          arguments))
        = (Except.error EINVAL,
          w.emit (Event.DAMountWithArguments disk mountpoint callback callbackContext
            arguments)) →
      DAMountWithArguments env disk mountpoint callback callbackContext arguments w
        = some (invokeCallback callback EINVAL none callbackContext
            (w.emit (Event.DAMountWithArguments disk mountpoint callback callbackContext
              arguments))) := by
    intro hc
    have := DAMountWithArguments.body_of_compose_error env (DAMountWithArgumentsDepth env 1)
      disk mountpoint callback callbackContext arguments w _ EINVAL hc
    rw [DAMountWithArguments.exit, if_pos (by decide)] at this
    exact this
  refine ⟨fun hu hbad => hreject ?_, fun hsn hbad => hreject ?_, fun cb hcb => ?_,
    fun setup w1 hc => ?_⟩
  · have hupd : DAMountWithArguments.update env (w.disks disk)
        (DAMountWithArguments.requestOptions env (w.disks disk) arguments) mountpoint
          = Except.error EINVAL := by
      unfold DAMountWithArguments.update
      rw [if_pos hu]
      cases mountpoint with
      | some m => rfl
      | none =>
        rcases hbad with h | h
        · exact absurd rfl h
        · dsimp only
          rw [h]
    exact DAMountWithArguments.compose_of_check_error env disk mountpoint arguments _ EINVAL
      hm hs ht (Or.inl hupd)
  · have hcheck : DAMountWithArguments.update env (w.disks disk)
          (DAMountWithArguments.requestOptions env (w.disks disk) arguments) mountpoint
            = Except.error EINVAL
        ∨ ∃ mountpoint1, DAMountWithArguments.update env (w.disks disk)
            (DAMountWithArguments.requestOptions env (w.disks disk) arguments) mountpoint
              = Except.ok mountpoint1
          ∧ DAMountWithArguments.snapshot env (w.disks disk)
            (DAMountWithArguments.requestOptions env (w.disks disk) arguments) mountpoint1
              = Except.error EINVAL := by
      cases hupd : DAMountWithArguments.update env (w.disks disk)
          (DAMountWithArguments.requestOptions env (w.disks disk) arguments) mountpoint with
      | error status =>
        left
        unfold DAMountWithArguments.update at hupd
        split at hupd
        · split at hupd
          · exact hupd.symm
          · split at hupd
            · exact hupd.symm
            · cases hupd
        · cases hupd
      | ok mountpoint1 =>
        refine Or.inr ⟨mountpoint1, rfl, ?_⟩
        unfold DAMountWithArguments.snapshot
        rw [if_pos hsn]
        unfold DAMountWithArguments.update at hupd
        rcases hbad with ⟨hnu, hmp⟩ | hpath
        · rw [if_neg (by simp [hnu])] at hupd
          cases hupd
          rw [hmp]
        · cases mountpoint1 with
          | none => rfl
          | some m =>
            dsimp only
            rw [hpath]
    exact DAMountWithArguments.compose_of_check_error env disk mountpoint arguments _ EINVAL
      hm hs ht hcheck
  · subst hcb
    simp [invokeCallback, World.emit]
  · obtain ⟨mountpoint1, hupd, hsnap, hmp⟩ :=
      DAMountWithArguments.compose_ok_paths env disk mountpoint arguments _ w1 setup hc
    simp only [World.emit_disks] at hupd hsnap
    refine ⟨fun hu => ?_, fun hsn => ?_, fun hsn => ?_, fun m x hsm => ⟨?_, ?_⟩⟩
    · unfold DAMountWithArguments.update at hupd
      rw [if_pos hu] at hupd
      cases mountpoint with
      | some m => cases hupd
      | none =>
        dsimp only at hupd
        cases hp : DADiskGetDescription (w.disks disk) kDADiskDescriptionVolumePathKey with
        | none => rw [hp] at hupd; cases hupd
        | some path =>
          rw [hp] at hupd
          cases hupd
          have := hmp (by simp)
          exact ⟨rfl, this, by rw [this]; simp⟩
    · unfold DAMountWithArguments.snapshot at hsnap
      rw [if_pos hsn] at hsnap
      cases mountpoint1 with
      | none => cases hsnap
      | some m1 =>
        dsimp only at hsnap
        cases hp : DADiskGetDescription (w.disks disk) kDADiskDescriptionVolumePathKey with
        | none => rw [hp] at hsnap; cases hsnap
        | some path =>
          rw [hp] at hsnap
          have hdev : setup.devicePath = some path := (Except.ok.inj hsnap).symm
          exact ⟨by rw [hmp (by simp)]; simp, hdev, by rw [hdev]; simp⟩
    · unfold DAMountWithArguments.snapshot at hsnap
      rw [if_neg (by simp [hsn])] at hsnap
      exact (Except.ok.inj hsnap).symm
    · simp [__DAMountWithArgumentsCallbackStage1.mountpoint, DAMountWithArguments.context, hsm]
    · simp [__DAMountWithArgumentsCallbackStage1.execute, DAMountWithArguments.context,
        World.setState, World.setDisk, World.emit, DAFileSystemGetKind, DADiskGetDescription,
        DADiskSetState, DADiskGetUserUID, DADiskGetUserGID]

/-- C29 on the quiet machine: an update of a mounted disk for which the caller
gives a mount point is rejected with `EINVAL` right after the call, and a mount
of a snapshot with a mount point hands the volume path of the disk to the mount
helper as the device path. -/
theorem inconsistent_update_and_snapshot_requests_are_rejected_witness :
    traceOf (DAMountWithArguments Env.reference 0 (some (CFType.url "/Volumes/Other".toList))
        (some 7) 3 ["update".toList] (World.of mountedDisk))
      = some [Event.DAMountWithArguments 0 (some (CFType.url "/Volumes/Other".toList)) (some 7) 3
          ["update".toList], Event.callback 7 EINVAL none 3]
    ∧ traceOf (DAMountWithArguments Env.reference 0 (some (CFType.url "/Volumes/Other".toList))
        (some 7) 3 ["-s=snap".toList] (World.of mountedDisk))
      = some [Event.DAMountWithArguments 0 (some (CFType.url "/Volumes/Other".toList)) (some 7) 3
          ["-s=snap".toList],
        Event.DAFileSystemMountWithArguments "msdos".toList
          (some (CFType.url "/Volumes/Data".toList)) none
          (some (CFType.url "/Volumes/Other".toList)) 0 0 none
          "nodev,noowners,nosuid,-s=snap".toList,
        Event.callback 7 0 (some (CFType.url "/Volumes/Other".toList)) 3] :=
  ⟨(congrArg traceOf
      ((inconsistent_update_and_snapshot_requests_are_rejected Env.reference 0
        (some (CFType.url "/Volumes/Other".toList)) (some 7) 3 ["update".toList]
        (World.of mountedDisk) rfl rfl rfl).1 (by decide) (Or.inl (by decide)))).trans rfl,
    by decide⟩

/-- C28: every call of `DAMountWithArguments` completes, and between the call
and its completion the completion callback of the caller is invoked exactly
once, with the context of the caller, the retry of an automatic request that
ends dirty included: the events the call adds to the trace hold one invocation
of that callback and no other invocation of a callback, on every path.  The
helpers complete within the call, each once.  A call without a callback invokes
none. -/
theorem completion_callback_is_invoked_once (env : Env) (disk : DADiskRef)
    (mountpoint : Option CFType) (callback : Option DAMountCallback) (callbackContext : Nat)
    (arguments : List CFString) (w : World) :
    ∃ w1 new,
      DAMountWithArguments env disk mountpoint callback callbackContext arguments w = some w1
      ∧ w1.trace = w.trace ++ new
      ∧ (∀ cb, callback = some cb →
        (∃ status mountpoint1,
          callbacks new = [Event.callback cb status mountpoint1 callbackContext])
          ∧ countCallbacks w1.trace = countCallbacks w.trace + 1)
      ∧ (callback = none → callbacks new = []
        ∧ countCallbacks w1.trace = countCallbacks w.trace) := by
  obtain ⟨w1, new, h1, h2, h3⟩ := DAMountWithArguments.body_completesOnce env
    (DAMountWithArgumentsDepth env 1) disk mountpoint callback callbackContext arguments w
    (fun _ => DAMountWithArgumentsDepth_completesOnce env 0)
  have hcount : countCallbacks w1.trace = countCallbacks w.trace + (callbacks new).length := by
    rw [h2]
    simp [countCallbacks, callbacks, List.countP_eq_length_filter]
  refine ⟨w1, new, h1, h2, fun cb hcb => ?_, fun hcb => ?_⟩
  · subst hcb
    obtain ⟨status, mountpoint1, hc⟩ := h3
    exact ⟨⟨status, mountpoint1, hc⟩, by rw [hcount, hc]; rfl⟩
  · subst hcb
    have hc : callbacks new = [] := h3
    exact ⟨hc, by rw [hcount, hc]; rfl⟩

/-- C28 on a machine where the repair fails: the automatic mount of a dirty disk
is retried with `force` and `rdonly`, and over the request and its retry the
callback 7 is invoked once. -/
theorem completion_callback_is_invoked_once_witness :
    callbacks ((DAMountWithArguments Env.failingRepair 0 none (some 7) 3 ["automatic".toList]
        (World.of dirtyAutomaticDisk)).get (by decide)).trace
      = [Event.callback 7 0 (some (CFType.url "/Volumes/Untitled".toList)) 3]
    ∧ countCalls ((DAMountWithArguments Env.failingRepair 0 none (some 7) 3
        ["automatic".toList] (World.of dirtyAutomaticDisk)).get (by decide)).trace = 2
    ∧ countCallbacks ((DAMountWithArguments Env.failingRepair 0 none (some 7) 3
        ["automatic".toList] (World.of dirtyAutomaticDisk)).get (by decide)).trace
      = countCallbacks (World.of dirtyAutomaticDisk).trace + 1 :=
  ⟨by decide, by decide, by
    obtain ⟨w1, new, h1, _, h3, _⟩ := completion_callback_is_invoked_once Env.failingRepair 0
      none (some 7) 3 ["automatic".toList] (World.of dirtyAutomaticDisk)
    simp only [h1, Option.get_some]
    exact (h3 7 rfl).2⟩

/-- C24: `_DAServerSessionCopyCallbackQueue` with the handle 0 or a handle that
no session of the list has returns `kDAReturnBadArgument` and changes nothing.
With the handle of a session of the list that has a callback queue, the queue of
the session is empty afterwards and its timeout flag is clear, and nothing else
has changed; the status is `kDAReturnSuccess` exactly when the queue could be
serialized and the bytes copied, and the bytes returned are then the
serialization of the callbacks that were in the queue, in the order of the
queue, each with its disk, its match and its session set to NULL and the rest of
it as it was. -/
theorem callback_queue_is_copied_and_cleared (env : ServerEnv) (s : Server)
    (_session : mach_port_t) :
    (_session = 0 ∨ __DASessionListGetSession s _session = none →
      _DAServerSessionCopyCallbackQueue env _session s = (kDAReturnBadArgument, none, s))
    ∧ (∀ session callbacks, _session ≠ 0 →
      __DASessionListGetSession s _session = some session →
      DASessionGetCallbackQueue (s.sessions session) = some callbacks →
      DASessionGetCallbackQueue
          ((_DAServerSessionCopyCallbackQueue env _session s).2.2.sessions session) = some []
        ∧ DASessionGetState
          ((_DAServerSessionCopyCallbackQueue env _session s).2.2.sessions session)
          kDASessionStateTimeout = false
        ∧ ((_DAServerSessionCopyCallbackQueue env _session s).1 = kDAReturnSuccess ↔
          ∃ bytes, env._DASerialize (callbacks.map _DAServerSessionCopyCallbackQueue.strip)
              = some bytes
            ∧ env.___CFDataCopyBytes s.trace bytes = true)
        ∧ ((_DAServerSessionCopyCallbackQueue env _session s).1 = kDAReturnSuccess →
          (_DAServerSessionCopyCallbackQueue env _session s).2.1
              = env._DASerialize (callbacks.map _DAServerSessionCopyCallbackQueue.strip)
            ∧ (_DAServerSessionCopyCallbackQueue env _session s).2.1 ≠ none)
        ∧ ((_DAServerSessionCopyCallbackQueue env _session s).1 ≠ kDAReturnSuccess →
          (_DAServerSessionCopyCallbackQueue env _session s).1 = kDAReturnBadArgument
            ∧ (_DAServerSessionCopyCallbackQueue env _session s).2.1 = none)
        ∧ (∀ other, other ≠ session →
          (_DAServerSessionCopyCallbackQueue env _session s).2.2.sessions other
            = s.sessions other)
        ∧ (_DAServerSessionCopyCallbackQueue env _session s).2.2.disks = s.disks
        ∧ (_DAServerSessionCopyCallbackQueue env _session s).2.2.gDADiskList = s.gDADiskList
        ∧ (_DAServerSessionCopyCallbackQueue env _session s).2.2.gDASessionList
          = s.gDASessionList
        ∧ (_DAServerSessionCopyCallbackQueue env _session s).2.2.trace = s.trace)
    ∧ (∀ callbacks : List DACallback,
      (callbacks.map _DAServerSessionCopyCallbackQueue.strip).length = callbacks.length
        ∧ ∀ i (hi : i < callbacks.length),
          (callbacks.map _DAServerSessionCopyCallbackQueue.strip)[i]?
            = some { callbacks.get ⟨i, hi⟩ with
                disk := none, matching := none, session := none }) := by
  have hne : kDAReturnBadArgument ≠ kDAReturnSuccess := by decide
  refine ⟨fun h => ?_, fun session callbacks h0 hl hq => ?_, fun callbacks => ⟨by simp, ?_⟩⟩
  · unfold _DAServerSessionCopyCallbackQueue
    rcases h with h | h
    · simp [h]
    · split
      · rw [h]
      · rfl
  · have hval : _DAServerSessionCopyCallbackQueue env _session s
        = ((match env._DASerialize (callbacks.map _DAServerSessionCopyCallbackQueue.strip) with
            | some bytes =>
              if env.___CFDataCopyBytes s.trace bytes then (kDAReturnSuccess, some bytes)
              else (kDAReturnBadArgument, none)
            | none => (kDAReturnBadArgument, none)).1,
          (match env._DASerialize (callbacks.map _DAServerSessionCopyCallbackQueue.strip) with
            | some bytes =>
              if env.___CFDataCopyBytes s.trace bytes then (kDAReturnSuccess, some bytes)
              else (kDAReturnBadArgument, none)
            | none => (kDAReturnBadArgument, none)).2,
          (s.setSession session { s.sessions session with callbackQueue := some [] }).setSession
            session
            (DASessionSetState
              ((s.setSession session
                { s.sessions session with callbackQueue := some [] }).sessions session)
              kDASessionStateTimeout false)) := by
      unfold _DAServerSessionCopyCallbackQueue
      rw [if_pos h0, hl]
      dsimp only
      rw [hq]
    rw [hval]
    refine ⟨?_, ?_, ?_, ?_, ?_, fun other ho => ?_, rfl, rfl, rfl, rfl⟩
    · simp [Server.setSession, DASessionGetCallbackQueue, DASessionSetState]
    · simp [Server.setSession, DASessionGetState, DASessionSetState]
    · cases hser : env._DASerialize (callbacks.map _DAServerSessionCopyCallbackQueue.strip) with
      | none => simp [hne]
      | some bytes =>
        dsimp only
        by_cases hcopy : env.___CFDataCopyBytes s.trace bytes = true
        · simp [hcopy]
        · simp [hcopy, hne]
    · cases hser : env._DASerialize (callbacks.map _DAServerSessionCopyCallbackQueue.strip) with
      | none => simp [hne]
      | some bytes =>
        dsimp only
        by_cases hcopy : env.___CFDataCopyBytes s.trace bytes = true
        · simp [hcopy]
        · simp [hcopy, hne]
    · cases hser : env._DASerialize (callbacks.map _DAServerSessionCopyCallbackQueue.strip) with
      | none => simp
      | some bytes =>
        dsimp only
        by_cases hcopy : env.___CFDataCopyBytes s.trace bytes = true
        · simp [hcopy]
        · simp [hcopy]
    · simp [Server.setSession, Function.update, ho]
  · intro i hi
    simp [hi, _DAServerSessionCopyCallbackQueue.strip, DACallbackSetSession, DACallbackSetMatch,
      DACallbackSetDisk]

/-- C24 for the example daemon: the two callbacks in the queue of session 1 are
returned in the order they were queued, the queue is empty afterwards and the
timeout flag is clear. -/
theorem callback_queue_is_copied_and_cleared_witness :
    (_DAServerSessionCopyCallbackQueue ServerEnv.reference 101 Server.withQueue).1
        = kDAReturnSuccess
      ∧ (_DAServerSessionCopyCallbackQueue ServerEnv.reference 101 Server.withQueue).2.1
        = some [4096, 8192]
      ∧ DASessionGetCallbackQueue
          ((_DAServerSessionCopyCallbackQueue ServerEnv.reference 101
            Server.withQueue).2.2.sessions 1) = some []
      ∧ DASessionGetState
          ((_DAServerSessionCopyCallbackQueue ServerEnv.reference 101
            Server.withQueue).2.2.sessions 1) kDASessionStateTimeout = false :=
  ⟨by decide, by decide,
    ((callback_queue_is_copied_and_cleared ServerEnv.reference Server.withQueue 101).2.1 1 _
      (by decide) (by decide) rfl).1,
    ((callback_queue_is_copied_and_cleared ServerEnv.reference Server.withQueue 101).2.1 1 _
      (by decide) (by decide) rfl).2.1⟩

/-- C23: `_DAServerSessionQueueRequest` hands a request to `DAQueueRequest`
exactly when it returns `kDAReturnSuccess`: when it returns, either the status
is `kDAReturnSuccess` and the one thing done is the call of `DAQueueRequest`,
with the request of the kind, for the disk with the id, from the caller, or the
status is another one and nothing was done.  It returns `kDAReturnBadArgument`
for the session handle 0, a handle that no session of the list has, and an id
that no disk of the list has.  For a mount request that passes `DAAuthorize`,
from a caller that is neither root nor the user of the disk: on a disk whose
media content is that of an EFI system partition it returns
`kDAReturnNotPermitted`; on a disk with another content, with a mount point
given by the caller, it returns `kDAReturnNotPrivileged`; and whatever
`DAAuthorize` says, with a mount point given by the caller it does not return
`kDAReturnSuccess`.  Nothing is queued in any of these cases. -/
theorem argument_validation_failures_are_not_queued (env : ServerEnv) (_session : mach_port_t)
    (_kind : Nat) (_argument0 : CFString) (_argument1 : Int)
    (_argument2 _argument3 : Option CFType) (_address _context : Nat) (_token : uid_t × Nat)
    (s : Server) :
    (∀ status s1,
      _DAServerSessionQueueRequest env _session _kind _argument0 _argument1 _argument2
          _argument3 _address _context _token s = some (status, s1) →
      (status = kDAReturnSuccess
          ∧ ∃ request : DARequest, s1 = s.emit (ServerEvent.DAQueueRequest request)
            ∧ s1.trace = s.trace ++ [ServerEvent.DAQueueRequest request]
            ∧ request.kind = _kind
            ∧ __DADiskListGetDisk s _argument0 = some request.disk
            ∧ request.argument1 = _argument1 ∧ request.argument2 = _argument2
            ∧ request.argument3 = _argument3
            ∧ request.userUID = _token.1 ∧ request.userGID = _token.2)
        ∨ (status ≠ kDAReturnSuccess ∧ s1 = s))
    ∧ (_session = 0 ∨ __DASessionListGetSession s _session = none
        ∨ __DADiskListGetDisk s _argument0 = none →
      _DAServerSessionQueueRequest env _session _kind _argument0 _argument1 _argument2
          _argument3 _address _context _token s = some (kDAReturnBadArgument, s))
    ∧ (∀ session disk content, _session ≠ 0 →
      __DASessionListGetSession s _session = some session →
      __DADiskListGetDisk s _argument0 = some disk →
      env.DARequestCreate s.trace = true → _kind = _kDADiskMount →
      DADiskGetDescription (s.disks disk) kDADiskDescriptionMediaContentKey = some content →
      _token.1 ≠ 0 → _token.1 ≠ DADiskGetUserUID (s.disks disk) →
      (env.DAAuthorize s.trace session disk _token.1 _token.2 _kDAAuthorizeRightMount = 0 →
        content = kEFISystemPartitionContent →
        _DAServerSessionQueueRequest env _session _kind _argument0 _argument1 _argument2
            _argument3 _address _context _token s = some (kDAReturnNotPermitted, s))
      ∧ (∀ string mountpoint, _argument2 = some string →
        env.CFURLCreateWithString string = some mountpoint →
        (env.DAAuthorize s.trace session disk _token.1 _token.2 _kDAAuthorizeRightMount = 0 →
          content ≠ kEFISystemPartitionContent →
          _DAServerSessionQueueRequest env _session _kind _argument0 _argument1 _argument2
              _argument3 _address _context _token s = some (kDAReturnNotPrivileged, s))
        ∧ ∃ status, status ≠ kDAReturnSuccess
          ∧ _DAServerSessionQueueRequest env _session _kind _argument0 _argument1 _argument2
              _argument3 _address _context _token s = some (status, s))) := by
  have hbad : kDAReturnBadArgument ≠ kDAReturnSuccess := by decide
  refine ⟨fun status s1 h => ?_, fun h => ?_, ?_⟩
  · by_cases h0 : _session ≠ 0
    · cases hl : __DASessionListGetSession s _session with
      | none =>
        unfold _DAServerSessionQueueRequest at h
        rw [if_pos h0, hl] at h
        cases h
        exact Or.inr ⟨hbad, rfl⟩
      | some session =>
        cases hd : __DADiskListGetDisk s _argument0 with
        | none =>
          unfold _DAServerSessionQueueRequest at h
          rw [if_pos h0, hl] at h
          dsimp only at h
          rw [hd] at h
          cases h
          exact Or.inr ⟨hbad, rfl⟩
        | some disk =>
          by_cases hr : env.DARequestCreate s.trace = true
          · have hval : ∃ (st : Option kern_return_t) (request : DARequest),
                request.kind = _kind ∧ request.disk = disk
                  ∧ request.argument1 = _argument1 ∧ request.argument2 = _argument2
                  ∧ request.argument3 = _argument3
                  ∧ request.userUID = _token.1 ∧ request.userGID = _token.2
                  ∧ _DAServerSessionQueueRequest env _session _kind _argument0 _argument1
                      _argument2 _argument3 _address _context _token s
                    = (match st with
                      | none => none
                      | some status =>
                        if status = kDAReturnSuccess then
                          some (status, s.emit (ServerEvent.DAQueueRequest request))
                        else some (status, s)) := by
              unfold _DAServerSessionQueueRequest
              rw [if_pos h0, hl]
              dsimp only
              rw [hd]
              dsimp only
              rw [if_pos hr]
              exact ⟨_, _, rfl, rfl, rfl, rfl, rfl, rfl, rfl, rfl⟩
            obtain ⟨st, request, h1, h2, h3, h4, h5, h6, h7, hrun⟩ := hval
            rw [hrun] at h
            cases st with
            | none => cases h
            | some st =>
              dsimp only at h
              by_cases hsucc : st = kDAReturnSuccess
              · rw [if_pos hsucc] at h
                cases h
                exact Or.inl ⟨hsucc, request, rfl, rfl, h1, by rw [h2], h3, h4, h5, h6, h7⟩
              · rw [if_neg hsucc] at h
                cases h
                exact Or.inr ⟨hsucc, rfl⟩
          · unfold _DAServerSessionQueueRequest at h
            rw [if_pos h0, hl] at h
            dsimp only at h
            rw [hd] at h
            dsimp only at h
            rw [if_neg hr] at h
            cases h
            exact Or.inr ⟨hbad, rfl⟩
    · unfold _DAServerSessionQueueRequest at h
      rw [if_neg h0] at h
      cases h
      exact Or.inr ⟨hbad, rfl⟩
  · unfold _DAServerSessionQueueRequest
    rcases h with h | h | h
    · simp [h]
    · split
      · rw [h]
      · rfl
    · split
      · split
        · rw [h]
        · rfl
      · rfl
  · intro session disk content h0 hl hd hr hk hc he hu
    have hmount := _DAServerSessionQueueRequest.mount_of_other_user env session disk _argument2
      _token.1 _token.2 s content
    refine ⟨fun hauth hefi => ?_, fun string mountpoint ha hm => ⟨fun hauth hefi => ?_, ?_⟩⟩
    · exact _DAServerSessionQueueRequest_of_request env _session _kind _argument0 _argument1
        _argument2 _argument3 _address _context _token s session disk _ h0 hl hd hr hk
        ((hmount hauth hc he hu).1 hefi) (by decide)
    · exact _DAServerSessionQueueRequest_of_request env _session _kind _argument0 _argument1
        _argument2 _argument3 _address _context _token s session disk _ h0 hl hd hr hk
        ((hmount hauth hc he hu).2 hefi string mountpoint ha hm) (by decide)
    · by_cases hauth : env.DAAuthorize s.trace session disk _token.1 _token.2
          _kDAAuthorizeRightMount = 0
      · by_cases hefi : content = kEFISystemPartitionContent
        · exact ⟨kDAReturnNotPermitted, by decide,
            _DAServerSessionQueueRequest_of_request env _session _kind _argument0 _argument1
              _argument2 _argument3 _address _context _token s session disk _ h0 hl hd hr hk
              ((hmount hauth hc he hu).1 hefi) (by decide)⟩
        · exact ⟨kDAReturnNotPrivileged, by decide,
            _DAServerSessionQueueRequest_of_request env _session _kind _argument0 _argument1
              _argument2 _argument3 _address _context _token s session disk _ h0 hl hd hr hk
              ((hmount hauth hc he hu).2 hefi string mountpoint ha hm) (by decide)⟩
      · exact ⟨_, hauth,
          _DAServerSessionQueueRequest_of_request env _session _kind _argument0 _argument1
            _argument2 _argument3 _address _context _token s session disk _ h0 hl hd hr hk
            (_DAServerSessionQueueRequest.mount_of_refused env session disk _argument2 _token.1
              _token.2 s hauth) hauth⟩

/-- C23 for the example daemon: the mount of the EFI system partition asked for
by the user 501 is refused with `kDAReturnNotPermitted` and nothing is queued,
while the same request from root is queued. -/
theorem argument_validation_failures_are_not_queued_witness :
    (_DAServerSessionQueueRequest ServerEnv.reference 101 _kDADiskMount "/dev/disk0s1".toList 0
        none none 4096 0 (501, 20) Server.withEFI).map Prod.fst = some kDAReturnNotPermitted
      ∧ (_DAServerSessionQueueRequest ServerEnv.reference 101 _kDADiskMount
          "/dev/disk0s1".toList 0 none none 4096 0 (501, 20) Server.withEFI).map
            (fun r => r.2.trace) = some []
      ∧ (_DAServerSessionQueueRequest ServerEnv.reference 101 _kDADiskMount
          "/dev/disk0s1".toList 0 none none 4096 0 (0, 0) Server.withEFI).map
            (fun r => (r.1, r.2.trace.length)) = some (kDAReturnSuccess, 1) :=
  ⟨congrArg (Option.map Prod.fst)
      (((argument_validation_failures_are_not_queued ServerEnv.reference 101 _kDADiskMount
        "/dev/disk0s1".toList 0 none none 4096 0 (501, 20) Server.withEFI).2.2 1 0
        kEFISystemPartitionContent (by decide) (by decide) (by decide) rfl rfl rfl (by decide)
        (by decide)).1 rfl rfl),
    by decide, by decide⟩

/-- C22: the branch of `_DAConfigurationCallback` for no console user refreshes
the preferences and then, of the disks of the disk list and in the order of the
list, unmounts exactly the deferred volumes: the disks whose volume is
mountable, for which the deferral policy holds under the refreshed preferences,
and that do not carry `MountAutomaticNoDefer`.  A lock of a logical volume
family only ever comes right after an unmount, and the unmount of a deferred
volume that has a logical volume family at that time is followed at once by the
lock of that family, when the lock function is there.  For one disk, the step
adds nothing for a volume that is not deferred, and for a deferred one the
unmount and then the lock.  `_DAConfigurationCallback` runs the branch, as the
last thing before it signals the stages, when it does not wait and finds no
list of console users; the unmounts for the user that logged out come before
the branch. -/
theorem logout_unmounts_the_deferred_volumes (env : ServerEnv) (s : Server) :
    (∃ new,
      (_DAConfigurationCallback.loggedOut env s).trace
          = s.trace ++ ServerEvent.DAPreferenceListRefresh :: new
        ∧ unmounts new
          = s.gDADiskList.filter
              (deferredVolume { s with gDAPreferenceList := env.DAPreferenceListRefresh s.trace })
        ∧ LocksFollowUnmounts new
        ∧ ∀ disk ∈ s.gDADiskList,
          deferredVolume { s with gDAPreferenceList := env.DAPreferenceListRefresh s.trace }
              disk = true →
          ∃ pre post,
            new = pre ++ ServerEvent.DADiskUnmount disk kDADiskUnmountOptionDefault :: post
              ∧ ∀ family,
                _DAConfigurationCallback.family env disk
                    { s with trace := s.trace ++ ServerEvent.DAPreferenceListRefresh :: pre }
                  = some family →
                env.__CoreStorageLockFamily = true →
                ∃ post1, post = ServerEvent.__CoreStorageLockFamily family :: post1)
    ∧ (∀ disk (x : Server),
      (deferredVolume x disk = true ↔
        DADiskGetDescription (x.disks disk) kDADiskDescriptionVolumeMountableKey
            = some kCFBooleanTrue
          ∧ DAMountGetPreference x.gDAPreferenceList (x.disks disk) kDAMountPreferenceDefer
            = true
          ∧ DADiskGetState (x.disks disk) _kDADiskStateMountAutomaticNoDefer = false)
      ∧ (_DAConfigurationCallback.logoutUnmount env disk x).trace
        = x.trace ++
          (if deferredVolume x disk then
            ServerEvent.DADiskUnmount disk kDADiskUnmountOptionDefault ::
              (match _DAConfigurationCallback.family env disk x with
                | some lvfUUID =>
                  if env.__CoreStorageLockFamily then
                    [ServerEvent.__CoreStorageLockFamily lvfUUID]
                  else []
                | none => [])
          else []))
    ∧ (∀ session,
      _DAConfigurationCallback.wait env session
          (env.___SCDynamicStoreCopyConsoleUser s.trace session).1 s = some false →
      env.___SCDynamicStoreCopyConsoleInformation s.trace session = none →
      ∃ s2 : Server, s2.gDADiskList = s.gDADiskList ∧ s2.disks = s.disks
        ∧ s.trace <+: s2.trace
        ∧ _DAConfigurationCallback env session s
          = some ((_DAConfigurationCallback.loggedOut env s2).emit ServerEvent.DAStageSignal)) := by
  refine ⟨?_, fun disk x => ⟨?_, (_DAConfigurationCallback.logoutUnmount_spec env disk x).1⟩,
    fun session hwait hlist => ?_⟩
  · obtain ⟨new, h1, _, _, h4, h5, h6⟩ := _DAConfigurationCallback.loggedOut.loop_spec env
      s.gDADiskList
      { s.emit ServerEvent.DAPreferenceListRefresh with
        gDAPreferenceList := env.DAPreferenceListRefresh s.trace }
    refine ⟨new, ?_, ?_, h5, fun disk hmem hdef => ?_⟩
    · refine h1.trans ?_
      simp [Server.emit]
    · rw [h4]
      rfl
    · obtain ⟨pre, post, hnew, hfam⟩ := h6 disk hmem hdef
      refine ⟨pre, post, hnew, fun family hf hlock => hfam family ?_ hlock⟩
      rw [← hf]
      refine _DAConfigurationCallback.family_congr env disk _ _ rfl ?_
      simp [Server.emit]
  · unfold deferredVolume
    simp [Bool.and_eq_true]
    tauto
  · obtain ⟨h1, h2, h3, h4⟩ := _DAConfigurationCallback.departed_frame env s.gDAConsoleUserUID
      { s with
        gDAConsoleUser := (env.___SCDynamicStoreCopyConsoleUser s.trace session).1
        gDAConsoleUserGID := (env.___SCDynamicStoreCopyConsoleUser s.trace session).2.2
        gDAConsoleUserUID := (env.___SCDynamicStoreCopyConsoleUser s.trace session).2.1
        gDAConsoleUserList := env.___SCDynamicStoreCopyConsoleInformation s.trace session }
    by_cases hu : (env.___SCDynamicStoreCopyConsoleUser s.trace session).1 ≠ none
    · refine ⟨{ s with
          gDAConsoleUser := (env.___SCDynamicStoreCopyConsoleUser s.trace session).1
          gDAConsoleUserGID := (env.___SCDynamicStoreCopyConsoleUser s.trace session).2.2
          gDAConsoleUserUID := (env.___SCDynamicStoreCopyConsoleUser s.trace session).2.1
          gDAConsoleUserList := env.___SCDynamicStoreCopyConsoleInformation s.trace session },
        rfl, rfl, List.prefix_refl _, ?_⟩
      unfold _DAConfigurationCallback
      dsimp only
      rw [hwait]
      dsimp only
      rw [if_pos hu]
      simp only [hlist]
    · refine ⟨_, h2, h1, h4, ?_⟩
      unfold _DAConfigurationCallback
      dsimp only
      rw [hwait]
      dsimp only
      rw [if_neg hu]
      have hnone := h3.trans hlist
      simp only [hnone]

/-- C22, on a daemon with four mountable volumes and nobody logged in: the
encrypted external volume is unmounted and its family locked, the plain
external volume is unmounted, and the volume without deferral and the internal
volume are left alone. -/
theorem logout_unmounts_the_deferred_volumes_witness :
    (∃ new,
      (_DAConfigurationCallback.loggedOut ServerEnv.reference Server.withVolumes).trace
          = Server.withVolumes.trace ++ ServerEvent.DAPreferenceListRefresh :: new
        ∧ unmounts new = [0, 3]
        ∧ LocksFollowUnmounts new)
      ∧ (_DAConfigurationCallback.loggedOut ServerEnv.reference Server.withVolumes).trace
        = [ServerEvent.DAPreferenceListRefresh,
          ServerEvent.DADiskUnmount 0 kDADiskUnmountOptionDefault,
          ServerEvent.__CoreStorageLockFamily "FLV0".toList,
          ServerEvent.DADiskUnmount 3 kDADiskUnmountOptionDefault] :=
  ⟨(logout_unmounts_the_deferred_volumes ServerEnv.reference Server.withVolumes).1.imp
      fun _ h => ⟨h.1, h.2.1.trans (by decide), h.2.2.1⟩,
    by decide⟩

/-- C25: in `__DAMediaPropertyChangedCallback` the pass over the watched keys
appends to the changed keys, in the order of the source, exactly the watched keys
whose new value differs from the value the description has, and leaves the
description with the new value at every watched key and as it was at every other
key.  When the disk of the media object is in the disk list and the key list and
the properties are there, the callback adds to the trace the description-changed
dispatch, with the changed keys, exactly when there are changed keys and the
disk has `StagedAppear`, and nothing else; when the disk, the key list or the
properties are not there it does nothing.  When the kernel, the registry and the
file systems answer the same as before, the callback run a second time changes
nothing at all and dispatches nothing. -/
theorem property_change_updates_the_keys_that_differ (env : ServerEnv) (menv : Env)
    (service : io_service_t) (s : Server) :
    (∀ disk properties (r : Server × List DADiskDescriptionKey),
      (__DAMediaPropertyChangedCallback.properties env service disk properties r).2
        = r.2 ++ watchedKeys.filter (fun key =>
          decide ((r.1.disks disk).description key
            ≠ watchedValue env service disk properties r.1.trace key))
      ∧ (∀ key ∈ watchedKeys,
        (key ∈ (__DAMediaPropertyChangedCallback.properties env service disk properties r).2
          ↔ key ∈ r.2 ∨ (r.1.disks disk).description key
            ≠ watchedValue env service disk properties r.1.trace key)
        ∧ ((__DAMediaPropertyChangedCallback.properties env service disk properties
            r).1.disks disk).description key
          = watchedValue env service disk properties r.1.trace key)
      ∧ (∀ key, key ∉ watchedKeys →
        ((__DAMediaPropertyChangedCallback.properties env service disk properties
            r).1.disks disk).description key
          = (r.1.disks disk).description key)
      ∧ (__DAMediaPropertyChangedCallback.properties env service disk properties r).1.trace
        = r.1.trace)
    ∧ (∀ disk properties,
      __DADiskListGetDiskWithIOMedia s service = some disk →
      env.CFArrayCreateMutable s.trace = true →
      env.IORegistryEntryCreateCFProperties s.trace service = some properties →
      (__DAMediaPropertyChangedCallback env menv service s).trace
        = s.trace ++
          (if (__DAMediaPropertyChangedCallback.properties env service disk properties
                (__DAMediaPropertyChangedCallback.rename env menv service disk s)).2 ≠ []
              ∧ DADiskGetState (s.disks disk) kDADiskStateStagedAppear = true then
            [ServerEvent.DADiskDescriptionChangedCallback disk
              (__DAMediaPropertyChangedCallback.properties env service disk properties
                (__DAMediaPropertyChangedCallback.rename env menv service disk s)).2]
          else []))
    ∧ (__DADiskListGetDiskWithIOMedia s service = none
        ∨ env.CFArrayCreateMutable s.trace = false
        ∨ env.IORegistryEntryCreateCFProperties s.trace service = none →
      __DAMediaPropertyChangedCallback env menv service s = s)
    ∧ (env.Steady service →
      __DAMediaPropertyChangedCallback env menv service
          (__DAMediaPropertyChangedCallback env menv service s)
        = __DAMediaPropertyChangedCallback env menv service s) := by
  refine ⟨fun disk properties r => ?_, fun disk properties hl ha hp => ?_, fun h => ?_,
    fun hsteady => ?_⟩
  · rw [__DAMediaPropertyChangedCallback.properties_eq]
    refine ⟨rfl, fun key hkey => ⟨?_, ?_⟩, fun key hkey => ?_, rfl⟩
    · simp [List.mem_filter, hkey]
    · simp [Server.setDisk, hkey]
    · simp [Server.setDisk, hkey]
  · obtain ⟨q1, _, _⟩ := __DAMediaPropertyChangedCallback.rename_spec env menv service disk s
    have hst : ((__DAMediaPropertyChangedCallback.properties env service disk properties
        (__DAMediaPropertyChangedCallback.rename env menv service disk s)).1.disks disk).state
        = (s.disks disk).state := by
      rw [__DAMediaPropertyChangedCallback.properties_eq]
      simp [Server.setDisk, q1.redescribed_state.1]
    have htr : (__DAMediaPropertyChangedCallback.properties env service disk properties
        (__DAMediaPropertyChangedCallback.rename env menv service disk s)).1.trace
        = s.trace := by
      rw [__DAMediaPropertyChangedCallback.properties_eq]
      exact q1.1
    unfold __DAMediaPropertyChangedCallback
    rw [hl]
    dsimp only
    rw [if_pos ha, hp]
    dsimp only
    unfold DADiskGetState
    rw [hst]
    by_cases hk : (__DAMediaPropertyChangedCallback.properties env service disk properties
        (__DAMediaPropertyChangedCallback.rename env menv service disk s)).2 = []
    · simp [hk, htr]
    · by_cases hs : (s.disks disk).state kDADiskStateStagedAppear = true
      · simp [hk, hs, htr]
      · simp [hk, hs, htr]
  · unfold __DAMediaPropertyChangedCallback
    rcases h with h | h | h
    · rw [h]
    · split
      · rw [h]
        rfl
      · rfl
    · split
      · split
        · rw [h]
        · rfl
      · rfl
  · cases hl : __DADiskListGetDiskWithIOMedia s service with
    | none =>
      have h0 : __DAMediaPropertyChangedCallback env menv service s = s := by
        unfold __DAMediaPropertyChangedCallback
        rw [hl]
      rw [h0, h0]
    | some disk =>
      cases hp : env.IORegistryEntryCreateCFProperties s.trace service with
      | none =>
        have h0 : __DAMediaPropertyChangedCallback env menv service s = s := by
          unfold __DAMediaPropertyChangedCallback
          rw [hl]
          dsimp only
          split
          · rw [hp]
          · rfl
        rw [h0, h0]
      | some properties =>
        by_cases ha : env.CFArrayCreateMutable s.trace = true
        · have hsame := __DAMediaPropertyChangedCallback.properties_same env service disk
            properties s _ (__DAMediaPropertyChangedCallback.rename_same env menv service disk s)
          refine __DAMediaPropertyChangedCallback.settled env menv service s disk properties
            hsteady hp hl _ ?_ ?_
          · unfold __DAMediaPropertyChangedCallback
            rw [hl]
            dsimp only
            rw [if_pos ha, hp]
            dsimp only
            split
            · split <;> rfl
            · rfl
          · unfold __DAMediaPropertyChangedCallback
            rw [hl]
            dsimp only
            rw [if_pos ha, hp]
            dsimp only
            split
            · split
              · exact hsame.1
              · exact hsame.1
            · exact hsame.1
        · have h0 : __DAMediaPropertyChangedCallback env menv service s = s := by
            unfold __DAMediaPropertyChangedCallback
            rw [hl]
            dsimp only
            rw [if_neg ha]
          rw [h0, h0]

/-- C25, for a disk that has appeared and whose media object the kernel now
calls writable: the dispatch names the key of the writable flag and no other,
and a second run adds nothing. -/
theorem property_change_updates_the_keys_that_differ_witness :
    ServerEnv.Steady ServerEnv.withContent 30
      ∧ (__DAMediaPropertyChangedCallback ServerEnv.withContent Env.reference 30
          Server.withAppeared).trace
        = [ServerEvent.DADiskDescriptionChangedCallback 0 [kDADiskDescriptionMediaWritableKey]]
      ∧ (__DAMediaPropertyChangedCallback ServerEnv.withContent Env.reference 30
          (__DAMediaPropertyChangedCallback ServerEnv.withContent Env.reference 30
            Server.withAppeared)).trace
        = [ServerEvent.DADiskDescriptionChangedCallback 0 [kDADiskDescriptionMediaWritableKey]] :=
  have hsteady : ServerEnv.Steady ServerEnv.withContent 30 :=
    ⟨fun _ _ => rfl, fun _ _ => rfl, fun _ _ => rfl, fun _ _ _ _ _ => rfl, fun _ _ => rfl,
      fun _ _ _ => rfl, fun _ _ _ => rfl⟩
  ⟨hsteady, by decide,
    (congrArg Server.trace
      ((property_change_updates_the_keys_that_differ ServerEnv.withContent Env.reference 30
        Server.withAppeared).2.2.2 hsteady)).trans (by decide)⟩

/-- C26: when `_DAMediaDisappearedCallback` processes a media object whose disk
is in the disk list, of a daemon whose disk list is registered (its disks are
disk objects that were made, with different ids), the disk is given the Zombie
flag and leaves the disk list, which keeps its other disks: no lookup by id and
no lookup by media object returns the disk any more, and the lookup by the id
of the disk returns nothing.  The clients are told that the disk disappeared
exactly when the disk had `StagedAppear`.  Over the notifications of the kernel,
from a registered disk list without a zombie, and with disk objects that are
made without the Zombie flag, no disk of the disk list ever carries the Zombie
flag. -/
theorem disappeared_disk_is_a_zombie_off_the_list (env : ServerEnv) (menv : Env) :
    (∀ (appeared : Server → Option Server) (context : Option DADiskRef) (media : io_service_t)
        (locals : _DAMediaDisappearedCallback.Locals) (s : Server) (disk : DADiskRef),
      s.Registered → __DADiskListGetDiskWithIOMedia s media = some disk →
      ∃ r new,
        _DAMediaDisappearedCallback.media env appeared context media locals s = some r
          ∧ DADiskGetState (r.2.disks disk) kDADiskStateZombie = true
          ∧ disk ∉ r.2.gDADiskList
          ∧ r.2.gDADiskList = s.gDADiskList.erase disk
          ∧ (∀ diskID, __DADiskListGetDisk r.2 diskID ≠ some disk)
          ∧ __DADiskListGetDisk r.2 (DADiskGetID (s.disks disk)) = none
          ∧ (∀ object, __DADiskListGetDiskWithIOMedia r.2 object ≠ some disk)
          ∧ r.2.trace = s.trace ++ new
          ∧ (ServerEvent.DADiskDisappearedCallback disk ∈ new
            ↔ DADiskGetState (s.disks disk) kDADiskStateStagedAppear = true))
    ∧ ((∀ t m d, env.DADiskCreateFromIOMedia t m = some d →
        DADiskGetState d kDADiskStateZombie = false) →
      (∀ t f d, env.DADiskCreateFromVolumePath t f = some d →
        DADiskGetState d kDADiskStateZombie = false) →
      ∀ (notifications : List Notification) (s s1 : Server),
        s.Registered →
        (∀ disk ∈ s.gDADiskList, DADiskGetState (s.disks disk) kDADiskStateZombie = false) →
        Server.run env menv s notifications = some s1 →
        ∀ disk ∈ s1.gDADiskList,
          DADiskGetState (s1.disks disk) kDADiskStateZombie = false) := by
  refine ⟨fun appeared context media locals s disk hr hl => ?_,
    fun hmedia hvolume notifications s s1 hr hlive h =>
      (Server.run_live env menv hmedia hvolume notifications s s1 ⟨hr, hlive⟩ h).2⟩
  have hmem : disk ∈ s.gDADiskList := List.mem_of_find?_eq_some hl
  obtain ⟨h1, h2, h3, _⟩ := _DAMediaDisappearedCallback.remove_spec env disk locals s hr hmem
  obtain ⟨new, h5, h6⟩ := _DAMediaDisappearedCallback.remove_trace env disk locals s
  have hsh := _DAMediaDisappearedCallback.remove_shrinks env disk locals s
  refine ⟨_DAMediaDisappearedCallback.remove env disk locals s, new, ?_, h1, h3, h2,
    fun diskID h => h3 (List.mem_of_find?_eq_some h), ?_,
    fun object h => h3 (List.mem_of_find?_eq_some h), h5, h6⟩
  · unfold _DAMediaDisappearedCallback.media
    rw [hl]
  · unfold __DADiskListGetDisk
    rw [List.find?_eq_none]
    intro x hx
    rw [h2] at hx
    obtain ⟨hne, hx1⟩ := hr.nodup.mem_erase_iff.1 hx
    rw [hsh.2.2.1 x]
    intro hid
    exact hne (List.inj_on_of_nodup_map hr.2 hx1 hmem (by simpa using hid))

/-- C26, for the removal of the disk of the media object 30, which has appeared
to the clients, and for a daemon that sees the media objects 30 and 40 appear and
then the media object 30 disappear. -/
theorem disappeared_disk_is_a_zombie_off_the_list_witness :
    (∃ r new,
      _DAMediaDisappearedCallback.media ServerEnv.reference (fun _ => none) none 30
          { prevDeviceUnit := none, diskInfoArray := [] } Server.withAppeared = some r
        ∧ DADiskGetState (r.2.disks 0) kDADiskStateZombie = true
        ∧ r.2.gDADiskList = []
        ∧ r.2.trace = Server.withAppeared.trace ++ new
        ∧ ServerEvent.DADiskDisappearedCallback 0 ∈ new)
      ∧ (Server.run ServerEnv.reference Env.reference Server.reference
          [Notification.mediaAppeared [30, 40], Notification.mediaDisappeared [] [30]]).map
            (fun s => (s.gDADiskList, DADiskGetState (s.disks 0) kDADiskStateZombie))
          = some ([1], true)
      ∧ ∀ s1, Server.run ServerEnv.reference Env.reference Server.reference
            [Notification.mediaAppeared [30, 40], Notification.mediaDisappeared [] [30]]
          = some s1 →
        ∀ disk ∈ s1.gDADiskList, DADiskGetState (s1.disks disk) kDADiskStateZombie = false := by
  have hreg : Server.withAppeared.Registered := by
    refine ⟨?_, ?_⟩ <;> decide
  refine ⟨?_, by decide, fun s1 h =>
    (disappeared_disk_is_a_zombie_off_the_list ServerEnv.reference Env.reference).2
      (fun _ _ d h => by cases h; rfl) (fun _ _ d h => by cases h; rfl) _ Server.reference s1
      ⟨fun _ h => absurd h (List.not_mem_nil _), List.nodup_nil⟩
      (fun _ h => absurd h (List.not_mem_nil _)) h⟩
  obtain ⟨r, new, h1, h2, _, h4, _, _, _, h8, h9⟩ :=
    (disappeared_disk_is_a_zombie_off_the_list ServerEnv.reference Env.reference).1
      (fun _ => none) none 30 { prevDeviceUnit := none, diskInfoArray := [] }
      Server.withAppeared 0 hreg (by decide)
  exact ⟨r, new, h1, h2, h4.trans (by decide), h8, h9.2 (by decide)⟩

/-- C21: for a disk that has a media type, the mode and the owner that
`_DAConfigurationCallback` gives its two device nodes are those of the spec:
with a list of console users of one user, `0640` and the console user; of more
than one, `0666` and root; with no list of console users, `0640` and root; and
the mode is masked with `0444` when the media is not writable (`0440` and
`0444`).  A list of console users that is there but empty gets `0640` and the
console user id.  `_DAMediaAppearedCallback`, when there is a list of console
users, first restores the mode of the disk, if it has one, and then does what
`_DAConfigurationCallback` does for the same disk, list and console user; when
there is no list it leaves it at that.  A disk without a media type gets no
mode and no owner from `_DAConfigurationCallback`.  These are the calls the
callbacks make: the calls of `chmod` and `chown` of the login branch, of the
logout branch and of `_DAConfigurationCallback` itself, when it does not wait,
are those of the spec for the disks of the disk list that have a media type, in
the order of the list, for the number of users of the new list and the new
console user, and no others; when it waits, the callback does nothing; and the
calls of `chmod` and `chown` for a disk that appears are those of its
permissions step. -/
theorem device_node_permissions (env : ServerEnv) (disk : DADiskRef) (s : Server)
    (gDAConsoleUserList : List CFType)
    (hm : DADiskGetDescription (s.disks disk) kDADiskDescriptionMediaTypeKey ≠ none) :
    (gDAConsoleUserList ≠ [] →
      (_DAConfigurationCallback.loginPermissions gDAConsoleUserList disk s).trace
        = s.trace ++ permissionEvents (s.disks disk)
            (devicePermissions gDAConsoleUserList.length s.gDAConsoleUserUID
              (writableMedia (s.disks disk))))
    ∧ (_DAConfigurationCallback.loginPermissions [] disk s).trace
        = s.trace ++ permissionEvents (s.disks disk)
            (if writableMedia (s.disks disk) then 0o640 else 0o440, s.gDAConsoleUserUID)
    ∧ (_DAConfigurationCallback.logoutPermissions disk s).trace
        = s.trace ++ permissionEvents (s.disks disk)
            (devicePermissions 0 s.gDAConsoleUserUID (writableMedia (s.disks disk)))
    ∧ (∀ user : uid_t, devicePermissions 1 user true = (0o640, user)
        ∧ devicePermissions 1 user false = (0o440, user)
        ∧ devicePermissions 0 user true = (0o640, ___UID_ROOT)
        ∧ devicePermissions 0 user false = (0o440, ___UID_ROOT)
        ∧ ∀ users, 1 < users → devicePermissions users user true = (0o666, ___UID_ROOT)
          ∧ devicePermissions users user false = (0o444, ___UID_ROOT))
    ∧ (s.gDAConsoleUserList = some gDAConsoleUserList →
      ∃ s0 : Server, s0.disks = s.disks ∧ s0.gDAConsoleUserUID = s.gDAConsoleUserUID
        ∧ s0.trace
          = s.trace ++
            (if DADiskGetMode (s.disks disk) ≠ 0 then
              [ServerEvent.chmod (DADiskGetBSDPath (s.disks disk) true)
                  (DADiskGetMode (s.disks disk) &&& 0o666),
                ServerEvent.chmod (DADiskGetBSDPath (s.disks disk) false)
                  (DADiskGetMode (s.disks disk) &&& 0o666)]
            else [])
        ∧ _DAMediaAppearedCallback.permissions disk s
          = _DAConfigurationCallback.loginPermissions gDAConsoleUserList disk s0)
    ∧ (s.gDAConsoleUserList = none →
      (_DAMediaAppearedCallback.permissions disk s).trace
        = s.trace ++
          (if DADiskGetMode (s.disks disk) ≠ 0 then
            [ServerEvent.chmod (DADiskGetBSDPath (s.disks disk) true)
                (DADiskGetMode (s.disks disk) &&& 0o666),
              ServerEvent.chmod (DADiskGetBSDPath (s.disks disk) false)
                (DADiskGetMode (s.disks disk) &&& 0o666)]
          else []))
    ∧ (∀ x : Server,
      DADiskGetDescription (x.disks disk) kDADiskDescriptionMediaTypeKey = none →
      _DAConfigurationCallback.loginPermissions gDAConsoleUserList disk x = x
        ∧ _DAConfigurationCallback.logoutPermissions disk x = x)
    ∧ (∀ (users : List CFType) (previousUserList : Option (List CFType))
        (list : List DADiskRef), users ≠ [] →
      permissionCalls (_DAConfigurationCallback.loggedIn users previousUserList list s).trace
        = permissionCalls s.trace
          ++ devicePermissionEvents s.disks users.length s.gDAConsoleUserUID list)
    ∧ permissionCalls (_DAConfigurationCallback.loggedOut env s).trace
      = permissionCalls s.trace
        ++ devicePermissionEvents s.disks 0 s.gDAConsoleUserUID s.gDADiskList
    ∧ (∀ session,
      _DAConfigurationCallback.wait env session
          (env.___SCDynamicStoreCopyConsoleUser s.trace session).1 s = some false →
      env.___SCDynamicStoreCopyConsoleInformation s.trace session ≠ some [] →
      ∃ s1, _DAConfigurationCallback env session s = some s1
        ∧ permissionCalls s1.trace
          = permissionCalls s.trace
            ++ devicePermissionEvents s.disks
              ((env.___SCDynamicStoreCopyConsoleInformation s.trace session).getD []).length
              (env.___SCDynamicStoreCopyConsoleUser s.trace session).2.1 s.gDADiskList)
    ∧ (∀ session,
      _DAConfigurationCallback.wait env session
          (env.___SCDynamicStoreCopyConsoleUser s.trace session).1 s = some true →
      _DAConfigurationCallback env session s = some s)
    ∧ (∀ s1, _DAMediaAppearedCallback.insert env disk s = some s1 →
      permissionCalls s1.trace
        = permissionCalls (_DAMediaAppearedCallback.permissions disk s).trace) := by
  have e1 : (416 : Nat) &&& 292 = 288 := by decide
  have e2 : (438 : Nat) &&& 292 = 292 := by decide
  refine ⟨fun hne => ?_, ?_, ?_, fun user => ?_, fun hlist => ?_, fun hlist => ?_, fun x hx => ?_,
    fun users previousUserList list hne =>
      _DAConfigurationCallback.loggedIn_calls users previousUserList hne list s,
    _DAConfigurationCallback.loggedOut_calls env s.gDAConsoleUserUID s,
    fun session hwait hne => _DAConfigurationCallback_calls env session s hwait hne,
    fun session hwait => ?_,
    fun s1 h => _DAMediaAppearedCallback.insert_calls env disk s s1 h⟩
  · unfold _DAConfigurationCallback.loginPermissions
    rw [if_pos hm, _DAConfigurationCallback.setPermissions_trace]
    congr 2
    have hlen : gDAConsoleUserList.length ≠ 0 := fun h => hne (List.length_eq_zero.1 h)
    unfold devicePermissions writableMedia
    by_cases h1 : gDAConsoleUserList.length > 1
    · have h2 : gDAConsoleUserList.length ≠ 1 := by omega
      by_cases h : DADiskGetDescription (s.disks disk) kDADiskDescriptionMediaWritableKey
          = some kCFBooleanFalse
      · simp [h, h1, h2, e2]
      · simp [h, h1, h2]
    · have h2 : gDAConsoleUserList.length = 1 := by omega
      by_cases h : DADiskGetDescription (s.disks disk) kDADiskDescriptionMediaWritableKey
          = some kCFBooleanFalse
      · simp [h, h2, e1]
      · simp [h, h2]
  · unfold _DAConfigurationCallback.loginPermissions
    rw [if_pos hm, _DAConfigurationCallback.setPermissions_trace]
    congr 2
    unfold writableMedia
    by_cases h : DADiskGetDescription (s.disks disk) kDADiskDescriptionMediaWritableKey
        = some kCFBooleanFalse
    · simp [h, e1]
    · simp [h]
  · unfold _DAConfigurationCallback.logoutPermissions
    rw [if_pos hm, _DAConfigurationCallback.setPermissions_trace]
    congr 2
    unfold devicePermissions writableMedia
    by_cases h : DADiskGetDescription (s.disks disk) kDADiskDescriptionMediaWritableKey
        = some kCFBooleanFalse
    · simp [h, e1]
    · simp [h]
  · refine ⟨by simp [devicePermissions], by simp [devicePermissions, e1],
      by simp [devicePermissions], by simp [devicePermissions, e1], fun users hu => ?_⟩
    have h1 : users ≠ 1 := by omega
    simp [devicePermissions, h1, hu, e2]
  · refine ⟨if DADiskGetMode (s.disks disk) ≠ 0 then
        (s.emit (ServerEvent.chmod (DADiskGetBSDPath (s.disks disk) true)
          (DADiskGetMode (s.disks disk) &&& 0o666))).emit
          (ServerEvent.chmod (DADiskGetBSDPath (s.disks disk) false)
            (DADiskGetMode (s.disks disk) &&& 0o666))
      else s, ?_, ?_, ?_, ?_⟩
    · split <;> rfl
    · split <;> rfl
    · split <;> simp [Server.emit]
    · unfold _DAMediaAppearedCallback.permissions _DAConfigurationCallback.loginPermissions
        _DAConfigurationCallback.setPermissions
      rw [if_pos hm, hlist]
      by_cases hmode : DADiskGetMode (s.disks disk) ≠ 0
      · simp only [if_pos hmode, Server.disks_emit, if_pos hm]
        rfl
      · simp only [if_neg hmode, if_pos hm]
  · unfold _DAMediaAppearedCallback.permissions
    rw [if_pos hm, hlist]
    dsimp only
    by_cases hmode : DADiskGetMode (s.disks disk) ≠ 0
    · simp only [if_pos hmode]
      simp [Server.emit]
    · simp only [if_neg hmode]
      simp
  · unfold _DAConfigurationCallback.loginPermissions _DAConfigurationCallback.logoutPermissions
    rw [if_neg (by simp [hx]), if_neg (by simp [hx])]
    exact ⟨rfl, rfl⟩
  · unfold _DAConfigurationCallback
    dsimp only
    rw [hwait]

/-- C21, on a disk whose media is not writable: with the console user 501 as
the only user, `_DAConfigurationCallback` gives both device nodes the mode
`0440` and the owner 501; with a second user logged in, `0444` and root; and
with nobody logged in, `0440` and root. -/
theorem device_node_permissions_witness :
    DADiskGetDescription (Server.withMedia.disks 0) kDADiskDescriptionMediaTypeKey ≠ none
      ∧ (_DAConfigurationCallback.loginPermissions [CFType.dictionary 1] 0 Server.withMedia).trace
        = [ServerEvent.chmod "/dev/rdisk3".toList 0o440,
          ServerEvent.chmod "/dev/disk3".toList 0o440,
          ServerEvent.chown "/dev/rdisk3".toList (some 501) none,
          ServerEvent.chown "/dev/disk3".toList (some 501) none]
      ∧ (_DAConfigurationCallback.logoutPermissions 0 Server.withMedia).trace
        = [ServerEvent.chmod "/dev/rdisk3".toList 0o440,
          ServerEvent.chmod "/dev/disk3".toList 0o440,
          ServerEvent.chown "/dev/rdisk3".toList (some ___UID_ROOT) none,
          ServerEvent.chown "/dev/disk3".toList (some ___UID_ROOT) none]
      ∧ (∃ s1, _DAConfigurationCallback ServerEnv.oneUser false Server.withMedia = some s1
        ∧ permissionCalls s1.trace
          = [ServerEvent.chmod "/dev/rdisk3".toList 0o440,
            ServerEvent.chmod "/dev/disk3".toList 0o440,
            ServerEvent.chown "/dev/rdisk3".toList (some 501) none,
            ServerEvent.chown "/dev/disk3".toList (some 501) none])
      ∧ (_DAConfigurationCallback ServerEnv.oneUser false Server.withMedia).map Server.trace
        = some [ServerEvent.chmod "/dev/rdisk3".toList 0o440,
          ServerEvent.chmod "/dev/disk3".toList 0o440,
          ServerEvent.chown "/dev/rdisk3".toList (some 501) none,
          ServerEvent.chown "/dev/disk3".toList (some 501) none,
          ServerEvent.DAStageSignal]
      ∧ (_DAConfigurationCallback ServerEnv.twoUsers false Server.withMedia).map Server.trace
        = some [ServerEvent.chmod "/dev/rdisk3".toList 0o444,
          ServerEvent.chmod "/dev/disk3".toList 0o444,
          ServerEvent.chown "/dev/rdisk3".toList (some ___UID_ROOT) none,
          ServerEvent.chown "/dev/disk3".toList (some ___UID_ROOT) none,
          ServerEvent.DAStageSignal]
      ∧ (_DAConfigurationCallback ServerEnv.reference false Server.withMedia).map Server.trace
        = some [ServerEvent.DAPreferenceListRefresh,
          ServerEvent.chmod "/dev/rdisk3".toList 0o440,
          ServerEvent.chmod "/dev/disk3".toList 0o440,
          ServerEvent.chown "/dev/rdisk3".toList (some ___UID_ROOT) none,
          ServerEvent.chown "/dev/disk3".toList (some ___UID_ROOT) none,
          ServerEvent.DAStageSignal] :=
  ⟨by decide,
    ((device_node_permissions ServerEnv.oneUser 0 Server.withMedia [CFType.dictionary 1]
      (by decide)).1 (by decide)).trans (by decide),
    (device_node_permissions ServerEnv.oneUser 0 Server.withMedia [CFType.dictionary 1]
      (by decide)).2.2.1.trans (by decide),
    ((device_node_permissions ServerEnv.oneUser 0 Server.withMedia [CFType.dictionary 1]
      (by decide)).2.2.2.2.2.2.2.2.2.1 false (by decide) (by decide)).imp
      fun _ h => ⟨h.1, h.2.trans (by decide)⟩,
    by decide, by decide, by decide⟩

end DiskArbitration
